import Mathlib

/-!
# Calduino (EMS bus library): field codec, CRC and protocol engine

A shallow embedding of `Calduino.cpp`: the CRC of a frame
(`Calduino::crcCalculator`, `Calduino::crcCheckOK`), the field decoders of
`CalduinoData`, the switch point bytes computed by
`Calduino::setProgramSwitchPoint`, the catalog of datagrams, and the
protocol engine (`readBytes`, `sendBuffer`, `sendRequest`, `getEMSCommand`,
`setEMSCommand`) with the retry layer above it (`getEMSBuffer`,
`updateEMSDatagram`), the facade on top (`begin`, the byte, bit and switch
point getters, the validated setters), and the receive buffer of the serial
port (`store_char`, `EMSSerial::available`, `peek`, `read`, `flush`,
`frameError`).

Conventions.
* The serial transport and the clock are a state machine over an arbitrary
  state (`Platform`); what the engine writes is recorded in order (`World`).
* A loop that waits for the bus takes a bound on the number of tests of its
  condition and returns `none` when the bound is used up.
* A `byte*` buffer is a list of numbers; a read takes the element modulo 256
  (`uint8_t`), a store truncates to 8 bits.
* `uint8_t` variables are natural numbers reduced modulo 256 where the C code
  assigns them; `int` values are integers.
* `float` is binary32 (`Binary32`): a finite value is the rational number it
  stands for, and a conversion or a division rounds to nearest, ties to even.
* `boolean` is the `bool` of the Arduino core: a conversion to it gives
  `true` for every value that is not zero.
* The library is written for AVR microcontrollers (it drives the `UCSRnA`,
  `UDRn` USART registers and includes `wiring_private.h`), where `int` is
  16 bits wide and `unsigned long` 32 bits wide.
-/

namespace Calduino

/-! ## Buffers -/

/-- An EMS buffer, the memory behind a `byte*`. -/
abbrev Buffer := List Nat

/-- The value of `(uint8_t)buf[i]`. -/
def readByte (buf : Buffer) (i : Nat) : Nat :=
  buf.getD i 0 % 256

/-- The buffer after `buf[i] = v` for a `byte` store. -/
def writeByte (buf : Buffer) (i v : Nat) : Buffer :=
  buf.set i (v % 256)

/-! ## CRC (`Calduino::crcCalculator`, `Calduino::crcCheckOK`) -/

/-- One pass through the body of the `for` loop of `crcCalculator`, for the
running `crc` and the byte `b = eMSBuffer[i]`:
`d = 0; if (crc & 0x80) { crc ^= 12; d = 1; } crc = (crc << 1) & 0xfe; crc |= d; crc ^= b;`
with `crc` and `d` of type `uint8_t`. -/
def crcStep (crc b : Nat) : Nat :=
  let d : Nat := if crc &&& 0x80 ≠ 0 then 1 else 0
  let crc1 : Nat := if crc &&& 0x80 ≠ 0 then (crc ^^^ 12) % 256 else crc
  let crc2 : Nat := ((crc1 <<< 1) &&& 0xfe) % 256
  let crc3 : Nat := (crc2 ||| d) % 256
  (crc3 ^^^ b) % 256

/-- The `for (i = 0; i < len - 2; i++)` loop of `crcCalculator` from the state
`(i, crc)`. The counter `i` is a `uint8_t`, so `i++` wraps at 256, while `len`
is an `int`. The loop is run for at most `fuel` tests of its condition;
`none` means that it has not left the loop by then. -/
def crcLoop (buf : Buffer) (len : Int) : Nat → Nat → Nat → Option Nat
  | 0, _, _ => none
  | fuel + 1, i, crc =>
    if (i : Int) < len - 2 then
      crcLoop buf len fuel ((i + 1) % 256) (crcStep crc (readByte buf i))
    else
      some crc

/-- `Calduino::crcCalculator(eMSBuffer, len)`: the loop started at `i = 0`,
`crc = 0`. -/
def crcCalculator (fuel : Nat) (eMSBuffer : Buffer) (len : Int) : Option Nat :=
  crcLoop eMSBuffer len fuel 0 0

/-- `Calduino::crcCheckOK(inEMSBuffer, len)`: compares the calculated CRC with
`(uint8_t)inEMSBuffer[len - 2]`. The result is `none` when `crcCalculator`
does not return or when the index `len - 2` is negative (a read in front of
the buffer). -/
def crcCheckOK (fuel : Nat) (inEMSBuffer : Buffer) (len : Int) : Option Bool :=
  match crcCalculator fuel inEMSBuffer len with
  | none => none
  | some crc =>
    if len - 2 < 0 then none
    else some (decide (crc = readByte inEMSBuffer (len - 2).toNat))

/-- The CRC step as the specification words it: if bit 7 of the running CRC is
set, XOR it with `0x0C` and carry 1 (else carry 0); shift left one bit keeping
8 bits, bit 0 cleared; OR in the carry; XOR with the input byte. -/
def crcSpecStep (crc b : Nat) : Nat :=
  let carry : Nat := if crc.testBit 7 then 1 else 0
  let x : Nat := if crc.testBit 7 then crc ^^^ 0x0C else crc
  ((((2 * x) % 256) / 2 * 2) ||| carry) ^^^ b

/-- The bytes `buf[0], ..., buf[len-3]` (none when `len <= 2`). -/
def crcCovered (buf : Buffer) (len : Int) : List Nat :=
  (List.range (len - 2).toNat).map (readByte buf)

/-- The CRC as the specification words it: the left fold of the step, from 0,
over the bytes in front of the CRC slot and the terminator. -/
def crcSpec (buf : Buffer) (len : Int) : Nat :=
  (crcCovered buf len).foldl crcSpecStep 0

/-! ## Field descriptors (`Calduino.h`) -/

/-- `enum CalduinoUnit`. -/
inductive CalduinoUnit
  | None | Celsius | YesNo | MAmper | Bar | Minute | Times | Percentage | Seconds
  deriving DecidableEq, Repr

/-- `enum CalduinoEncodeType` (the source spells the last one `SwithPoint`). -/
inductive CalduinoEncodeType
  | Byte | Bit | Float | ULong | SwithPoint
  deriving DecidableEq, Repr

/-- `struct SwitchPoint`: five `byte` members. -/
structure SwitchPoint where
  id : Nat
  action : Nat
  day : Nat
  hour : Nat
  minute : Nat
  deriving DecidableEq, Repr

/-- `struct CalduinoData`: the descriptor of one field of a datagram. The
numeric members are of type `byte`. -/
structure CalduinoData where
  dataName : String
  encodeType : CalduinoEncodeType
  unit : CalduinoUnit
  offset : Nat
  bitOffset : Nat
  floatBytes : Nat
  floatFactor : Nat
  deriving DecidableEq, Repr

/-- `enum EMSDatagramID`. -/
inductive EMSDatagramID
  | RC_Datetime | UBA_Working_Time | UBA_Monitor_Fast | UBA_Monitor_Slow
  | UBA_Parameter_DHW | UBA_Monitor_DHW | Flags_DHW | Working_Mode_DHW
  | Program_DHW | Program_Pump_DHW
  | Working_Mode_HC_1 | Monitor_HC_1 | Program_1_HC_1 | Program_2_HC_1
  | Working_Mode_HC_2 | Monitor_HC_2 | Program_1_HC_2 | Program_2_HC_2
  | Working_Mode_HC_3 | Monitor_HC_3 | Program_1_HC_3 | Program_2_HC_3
  | Working_Mode_HC_4 | Monitor_HC_4 | Program_1_HC_4 | Program_2_HC_4
  | Monitor_MM_10
  deriving DecidableEq, Repr

/-! ## Integer conversions -/

/-- Width of `int` on the AVR target. -/
def intBits : Nat := 16

/-- The value of the integer `x` in a signed two's-complement type of `w`
bits (the conversion avr-gcc performs, e.g. for `(int8_t)`). -/
def wrapSigned (w : Nat) (x : Int) : Int :=
  let m : Int := x % 2 ^ w
  if m < 2 ^ (w - 1) then m else m - 2 ^ w

/-! ## The type `float`

On the AVR target `float` (and `double`) is the binary32 format of IEEE 754:
a significand of 24 bits, the exponent of the last place between -149 and
104. A conversion or an arithmetic operation returns the exact result
rounded to the nearest number of the format, to the one with an even
significand when two are equally near. -/

/-- A value of type `float`: a finite number, given by the rational number it
stands for, an infinity, or a NaN. The sign of a zero is not represented. -/
inductive Binary32
  | finite (value : ℚ)
  | infinity (negative : Bool)
  | nan
  deriving DecidableEq, Repr

/-- The integer nearest to `q`, the even one of the two when `q` lies half
way between two integers. -/
def roundHalfEven (q : ℚ) : Int :=
  if q - ⌊q⌋ < 1 / 2 then ⌊q⌋
  else if 1 / 2 < q - ⌊q⌋ then ⌊q⌋ + 1
  else if ⌊q⌋ % 2 = 0 then ⌊q⌋ else ⌊q⌋ + 1

/-- The rounding of a rational number to binary32: with `e` the exponent of
the last place of a 24-bit significand for the magnitude of `q`, and not
less than -149 (subnormal numbers), the result is the multiple of `2 ^ e`
nearest to `q`, or an infinity when that has magnitude `2 ^ 128` or more. -/
def Binary32.round (q : ℚ) : Binary32 :=
  let e : Int := max (Int.log 2 |q| - 23) (-149)
  let v : ℚ := (roundHalfEven (q / 2 ^ e) : ℚ) * 2 ^ e
  if 2 ^ 128 ≤ |v| then Binary32.infinity (decide (q < 0)) else Binary32.finite v

/-- The conversion `(float)n` of an integer. -/
def Binary32.ofInt (n : Int) : Binary32 :=
  Binary32.round (n : ℚ)

/-- The division `a / b` of two `float` values: the rounded quotient of two
finite numbers; a NaN for `0 / 0`, for the quotient of two infinities or
when an operand is a NaN; an infinity for a nonzero number divided by zero
and for an infinity divided by a finite number; zero for a finite number
divided by an infinity. A zero counts as positive. -/
def Binary32.div : Binary32 → Binary32 → Binary32
  | Binary32.finite a, Binary32.finite b =>
    if b = 0 then
      if a = 0 then Binary32.nan else Binary32.infinity (decide (a < 0))
    else Binary32.round (a / b)
  | Binary32.finite _, Binary32.infinity _ => Binary32.finite 0
  | Binary32.infinity s, Binary32.finite b => Binary32.infinity (s != decide (b < 0))
  | Binary32.infinity _, Binary32.infinity _ => Binary32.nan
  | Binary32.nan, _ => Binary32.nan
  | _, Binary32.nan => Binary32.nan

/-! ## Field decoders (`CalduinoData::decode...`) -/

/-- `CalduinoData::decodeULongValue`:
`(((unsigned long)b0) << 16) + (((unsigned long)b1) << 8) + b2`, in the
32-bit arithmetic of `unsigned long`. -/
def decodeULongValue (d : CalduinoData) (inEMSBuffer : Buffer) : Nat :=
  (((readByte inEMSBuffer d.offset <<< 16) % 2 ^ 32 +
      (readByte inEMSBuffer (d.offset + 1) <<< 8) % 2 ^ 32) % 2 ^ 32 +
    readByte inEMSBuffer (d.offset + 2)) % 2 ^ 32

/-- `CalduinoData::decodeFloatValue`. For `floatBytes == 2` the numerator is
`((uint8_t)b0 << 8) + (uint8_t)b1` computed in `int` (the bytes are promoted,
no wider cast is made, so the shift and the sum are 16-bit signed values);
otherwise it is `(int8_t)b0`. The numerator is converted to `float` and
divided by `floatFactor`, itself converted to `float`; the quotient is a
`float`, rounded as the division of binary32 rounds it, and an infinity or a
NaN when `floatFactor` is zero. -/
def decodeFloatValue (d : CalduinoData) (inEMSBuffer : Buffer) : Binary32 :=
  if d.floatBytes = 2 then
    Binary32.div
      (Binary32.ofInt (wrapSigned intBits
        (wrapSigned intBits (((readByte inEMSBuffer d.offset <<< 8 : Nat)) : Int) +
          ((readByte inEMSBuffer (d.offset + 1) : Nat) : Int))))
      (Binary32.ofInt ((d.floatFactor : Nat) : Int))
  else
    Binary32.div
      (Binary32.ofInt (wrapSigned 8 ((readByte inEMSBuffer d.offset : Nat) : Int)))
      (Binary32.ofInt ((d.floatFactor : Nat) : Int))

/-- `CalduinoData::decodeSwitchPoint`:
`{ (offset / 2) - 2, (uint8_t)(b0 & 7), (uint8_t)(b0 >> 5), (uint8_t)(b1 / 6),
(uint8_t)((b1 % 6) * 10) }`, each member stored in a `byte`. -/
def decodeSwitchPoint (d : CalduinoData) (inEMSBuffer : Buffer) : SwitchPoint :=
  { id := ((((d.offset / 2 : Nat) : Int) - 2) % 256).toNat
    action := (readByte inEMSBuffer d.offset &&& 7) % 256
    day := (readByte inEMSBuffer d.offset >>> 5) % 256
    hour := (readByte inEMSBuffer (d.offset + 1) / 6) % 256
    minute := ((readByte inEMSBuffer (d.offset + 1) % 6) * 10) % 256 }

/-! ## Switch point encoding (`Calduino::setProgramSwitchPoint`) -/

/-- `#define SWITCHING_POINTS 42` -/
def SWITCHING_POINTS : Nat := 42

/-- `#define MAX_DAY_WEEK 7` -/
def MAX_DAY_WEEK : Nat := 7

/-- `#define MAX_HOUR_DAY 24` -/
def MAX_HOUR_DAY : Nat := 24

/-- `#define MAX_MINUTE_HOUR 60` -/
def MAX_MINUTE_HOUR : Nat := 60

/-- The programs `setProgramSwitchPoint` accepts as `selProgram`. -/
def isSwitchProgram : EMSDatagramID → Bool
  | .Program_DHW | .Program_Pump_DHW
  | .Program_1_HC_1 | .Program_2_HC_1 | .Program_1_HC_2 | .Program_2_HC_2
  | .Program_1_HC_3 | .Program_2_HC_3 | .Program_1_HC_4 | .Program_2_HC_4 => true
  | _ => false

/-- The argument check of `setProgramSwitchPoint` (the condition of its
`if`). -/
def switchPointArgsOK (selProgram : EMSDatagramID)
    (switchPointID operationSwitchPoint daySwitchPoint hourSwitchPoint minuteSwitchPoint : Nat) :
    Bool :=
  isSwitchProgram selProgram &&
  decide (switchPointID < SWITCHING_POINTS) &&
  (decide (operationSwitchPoint = 0) || decide (operationSwitchPoint = 1) ||
    decide (operationSwitchPoint = 7)) &&
  decide (daySwitchPoint < MAX_DAY_WEEK) &&
  decide (hourSwitchPoint < MAX_HOUR_DAY) &&
  (decide (minuteSwitchPoint < MAX_MINUTE_HOUR) && decide (minuteSwitchPoint % 10 = 0))

/-- `byte byte1 = (operationSwitchPoint == 7) ? 0xE7 :
(0x00 | (daySwitchPoint << 5) | (operationSwitchPoint));` -/
def switchPointByte1 (operationSwitchPoint daySwitchPoint : Nat) : Nat :=
  if operationSwitchPoint = 7 then 0xE7
  else (0x00 ||| (daySwitchPoint <<< 5) ||| operationSwitchPoint) % 256

/-- `byte byte2 = (operationSwitchPoint == 7) ? 0x90 :
((hourSwitchPoint * 6) + (minuteSwitchPoint / 10));` -/
def switchPointByte2 (operationSwitchPoint hourSwitchPoint minuteSwitchPoint : Nat) : Nat :=
  if operationSwitchPoint = 7 then 0x90
  else (hourSwitchPoint * 6 + minuteSwitchPoint / 10) % 256

/-- The pair `(byte1, byte2)` that `setProgramSwitchPoint` computes and hands
to its two writes; `none` when the argument check fails and nothing is
computed. -/
def setProgramSwitchPointBytes (selProgram : EMSDatagramID)
    (switchPointID operationSwitchPoint daySwitchPoint hourSwitchPoint minuteSwitchPoint : Nat) :
    Option (Nat × Nat) :=
  if switchPointArgsOK selProgram switchPointID operationSwitchPoint daySwitchPoint
      hourSwitchPoint minuteSwitchPoint then
    some (switchPointByte1 operationSwitchPoint daySwitchPoint,
      switchPointByte2 operationSwitchPoint hourSwitchPoint minuteSwitchPoint)
  else none

/-! ## Reference conversions used by the specification -/

/-- The byte `b` read as a two's-complement value in -128..127. -/
def signed8 (b : Nat) : Int :=
  if b < 128 then (b : Int) else (b : Int) - 256

/-- The 16-bit pattern `n` read as a two's-complement value in
-32768..32767. -/
def signed16 (n : Nat) : Int :=
  if n < 32768 then (n : Int) else (n : Int) - 65536

/-- The finite numbers of binary32: `m * 2 ^ e` with a significand of
magnitude below `2 ^ 24` and an exponent from -149 to 104. -/
def IsBinary32 (x : ℚ) : Prop :=
  ∃ m e : Int, |m| < 2 ^ 24 ∧ -149 ≤ e ∧ e ≤ 104 ∧ x = (m : ℚ) * 2 ^ e

/-! ## Auxiliary definitions for the proofs -/

/-- The running CRC after the conditional XOR, the shift and the carry of one
loop pass, before the input byte is XORed in. -/
def crcShift (crc : Nat) : Nat :=
  let d : Nat := if crc &&& 0x80 ≠ 0 then 1 else 0
  let crc1 : Nat := if crc &&& 0x80 ≠ 0 then (crc ^^^ 12) % 256 else crc
  let crc2 : Nat := ((crc1 <<< 1) &&& 0xfe) % 256
  (crc2 ||| d) % 256

/-- Inverse of `crcShift` on bytes. -/
def crcUnshift (x : Nat) : Nat :=
  if x % 2 = 1 then ((x / 2) ||| 0x80) ^^^ 12 else x / 2

/-- The loop of `crcCalculator` folded over the indices `s, ..., s + k - 1`. -/
def crcFold (buf : Buffer) (crc s k : Nat) : Nat :=
  (List.range' s k).foldl (fun a j => crcStep a (readByte buf j)) crc


/-! ## Datagram catalog (`Calduino.h`, `Calduino.cpp`)

The tables are the initialisers of the source, member by member; members
without an initialiser are zero. -/

/-- `struct EMSDatagram`: name, message type, destination device, length of
the message data, number of fields and the field table. -/
structure EMSDatagram where
  messageName : String
  messageID : Nat
  destinationID : Nat
  messageLength : Nat
  dataSize : Nat
  data : List CalduinoData
  deriving DecidableEq, Repr

/-- `struct CalduinoDataRequest`: a field and the datagram it belongs to. -/
structure CalduinoDataRequest where
  dataType : CalduinoData
  eMSDatagram : EMSDatagram
  deriving DecidableEq, Repr

instance : Inhabited CalduinoData := ⟨⟨"", .Byte, .None, 0, 0, 0, 0⟩⟩

instance : Inhabited EMSDatagram := ⟨⟨"", 0, 0, 0, 0, []⟩⟩

instance : Inhabited CalduinoDataRequest := ⟨⟨default, default⟩⟩

/-! `enum MessageID`: message types on the bus. -/

namespace MessageID

def RC_Datetime_ID : Nat := 0x06
def UBA_Working_Time_ID : Nat := 0x14
def UBA_Monitor_Fast_ID : Nat := 0x18
def UBA_Monitor_Slow_ID : Nat := 0x19
def UBA_Parameter_DHW_ID : Nat := 0x33
def UBA_Monitor_DHW_ID : Nat := 0x34
def Flags_DHW_ID : Nat := 0x35
def Working_Mode_DHW_ID : Nat := 0x37
def Program_DHW_ID : Nat := 0x38
def Program_Pump_DHW_ID : Nat := 0x39
def Working_Mode_HC_1_ID : Nat := 0x3D
def Monitor_HC_1_ID : Nat := 0x3E
def Program_1_HC_1_ID : Nat := 0x3F
def Program_2_HC_1_ID : Nat := 0x42
def Working_Mode_HC_2_ID : Nat := 0x47
def Monitor_HC_2_ID : Nat := 0x48
def Program_1_HC_2_ID : Nat := 0x49
def Program_2_HC_2_ID : Nat := 0x4C
def Working_Mode_HC_3_ID : Nat := 0x51
def Monitor_HC_3_ID : Nat := 0x52
def Program_1_HC_3_ID : Nat := 0x53
def Program_2_HC_3_ID : Nat := 0x56
def Working_Mode_HC_4_ID : Nat := 0x5B
def Monitor_HC_4_ID : Nat := 0x5C
def Program_1_HC_4_ID : Nat := 0x5D
def Program_2_HC_4_ID : Nat := 0x60
def Monitor_MM_10_ID : Nat := 0xAB

end MessageID

/-! `enum DeviceID`: device addresses on the bus. -/

namespace DeviceID

def UBA : Nat := 0x08
def BC_10 : Nat := 0x09
def PC : Nat := 0x0B
def RC_35 : Nat := 0x10
def WM_10 : Nat := 0x11
def RC_20 : Nat := 0x17
def MM_10 : Nat := 0x21

end DeviceID

/-! `enum DatagramDataIndex`: positions in the field tables. The enumeration
is shared by all datagrams, so values repeat. -/

namespace DatagramDataIndex

def yearIdx : Nat := 0
def monthIdx : Nat := 1
def dayIdx : Nat := 2
def hourIdx : Nat := 3
def minuteIdx : Nat := 4
def secondIdx : Nat := 5
def uBAWorkingMinIdx : Nat := 0
def selImpTempIdx : Nat := 0
def curImpTempIdx : Nat := 1
def selBurnPowIdx : Nat := 2
def curBurnPowIdx : Nat := 3
def burnGasIdx : Nat := 4
def fanWorkIdx : Nat := 5
def ignWorkIdx : Nat := 6
def heatPmpIdx : Nat := 7
def threeWayValveDHWIdx : Nat := 8
def circDHWIdx : Nat := 9
def retTempIdx : Nat := 10
def flameCurrIdx : Nat := 11
def sysPressIdx : Nat := 12
def srvCode1Idx : Nat := 13
def srvCode2Idx : Nat := 14
def errCodeIdx : Nat := 15
def extTempIdx : Nat := 0
def boilTempIdx : Nat := 1
def pumpModIdx : Nat := 2
def burnStartsIdx : Nat := 3
def burnWorkMinIdx : Nat := 4
def burnWorkMinHIdx : Nat := 5
def selTempDHWIdx : Nat := 0
def tempTDDHWIdx : Nat := 1
def curTempDHWIdx : Nat := 0
def dayModeDHWIdx : Nat := 1
def oneTimeDHW1Idx : Nat := 2
def desDHWIdx : Nat := 3
def prepareDHWIdx : Nat := 4
def burnStartsDHWIdx : Nat := 5
def burnWorkMinDHWIdx : Nat := 6
def oneTimeDHW2Idx : Nat := 0
def progDHWIdx : Nat := 0
def progPumpDHWIdx : Nat := 1
def workModeDHWIdx : Nat := 2
def workModePumpDHWIdx : Nat := 3
def workModeTDDHWIdx : Nat := 4
def dayTDDHWIdx : Nat := 5
def hourTDDHWIdx : Nat := 6
def selNightTempHCIdx : Nat := 0
def selDayTempHCIdx : Nat := 1
def selHoliTempHCIdx : Nat := 2
def roomTempInfHCIdx : Nat := 3
def roomTempOffHCIdx : Nat := 4
def workModeHCIdx : Nat := 5
def sWThresTempHCIdx : Nat := 6
def nightSetbackHCIdx : Nat := 7
def nightOutTempHCIdx : Nat := 8
def holiModHCIdx : Nat := 0
def summerModHCIdx : Nat := 1
def dayModHCIdx : Nat := 2
def pauseModHCIdx : Nat := 3
def selRoomTempHCIdx : Nat := 4
def programNameIdx : Nat := 42
def pauseTimeIdx : Nat := 43
def partyTimeIdx : Nat := 44
def startHolidayDayIdx : Nat := 45
def startHolidayMonthIdx : Nat := 46
def startHolidayYearIdx : Nat := 47
def endHolidayDayIdx : Nat := 48
def endHolidayMonthIdx : Nat := 49
def endHolidayYearIdx : Nat := 50
def startHomeHolidayDayIdx : Nat := 51
def startHomeHolidayMonthIdx : Nat := 52
def startHomeHolidayYearIdx : Nat := 53
def endHomeHolidayDayIdx : Nat := 54
def endHomeHolidayMonthIdx : Nat := 55
def endHomeHolidayYearIdx : Nat := 56
def selImpTempMM10Idx : Nat := 0
def curImpTempMM10Idx : Nat := 1
def statusMM10Idx : Nat := 2

end DatagramDataIndex

/-- `enum ByteRequest`, in the order of the source. -/
inductive ByteRequest
  | year_b | month_b | day_b | hour_b | minute_b | second_b | selImpTemp_b | selBurnPow_b
  | curBurnPow_b | srvCode1_b | srvCode2_b | pumpMod_b | selTempDHW_b | tempTDDHW_b
  | oneTimeDHW2_b | progDHW_b | progPumpDHW_b | workModeDHW_b | workModePumpDHW_b | dayTDDHW_b
  | hourTDDHW_b | workModeHC1_b | sWThresTempHC1_b | nightSetbackHC1_b | workModeHC2_b
  | sWThresTempHC2_b | nightSetbackHC2_b | workModeHC3_b | sWThresTempHC3_b
  | nightSetbackHC3_b | workModeHC4_b | sWThresTempHC4_b | nightSetbackHC4_b
  | programNameHC1_b | pauseTimeHC1_b | partyTimeHC1_b | programNameHC2_b | pauseTimeHC2_b
  | partyTimeHC2_b | programNameHC3_b | pauseTimeHC3_b | partyTimeHC3_b | programNameHC4_b
  | pauseTimeHC4_b | partyTimeHC4_b
  deriving DecidableEq, Repr, Fintype

/-- `enum FloatRequest`, in the order of the source. -/
inductive FloatRequest
  | curImpTemp_f | retTemp_f | flameCurr_f | sysPress_f | errCode_f | extTemp_f | boilTemp_f
  | curTempDHW_f | selNightTempHC1_f | selDayTempHC1_f | selHoliTempHC1_f | roomTempInfHC1_f
  | roomTempOffHC1_f | nightOutTempHC1_f | selNightTempHC2_f | selDayTempHC2_f
  | selHoliTempHC2_f | roomTempInfHC2_f | roomTempOffHC2_f | nightOutTempHC2_f
  | selNightTempHC3_f | selDayTempHC3_f | selHoliTempHC3_f | roomTempInfHC3_f
  | roomTempOffHC3_f | nightOutTempHC3_f | selNightTempHC4_f | selDayTempHC4_f
  | selHoliTempHC4_f | roomTempInfHC4_f | roomTempOffHC4_f | nightOutTempHC4_f
  | selRoomTempHC1_f | selRoomTempHC2_f | selRoomTempHC3_f | selRoomTempHC4_f
  | curImpTempMM10_f
  deriving DecidableEq, Repr, Fintype

/-- `enum ULongRequest`, in the order of the source. -/
inductive ULongRequest
  | uBAWorkingMin_ul | burnStarts_ul | burnWorkMin_ul | burnWorkMinH_ul | burnStartsDHW_ul
  | burnWorkMinDHW_ul
  deriving DecidableEq, Repr, Fintype

/-- `enum BitRequest`, in the order of the source. -/
inductive BitRequest
  | burnGas_t | fanWork_t | ignWork_t | heatPmp_t | threeWayValveDHW_t | circDHW_t
  | dayModeDHW_t | oneTimeDHW_t | desDHW_t | prepareDHW_t | holiModHC1_t | summerModHC1_t
  | dayModHC1_t | pauseModHC1_t | holiModHC2_t | summerModHC2_t | dayModHC2_t | pauseModHC2_t
  | holiModHC3_t | summerModHC3_t | dayModHC3_t | pauseModHC3_t | holiModHC4_t
  | summerModHC4_t | dayModHC4_t | pauseModHC4_t
  deriving DecidableEq, Repr, Fintype

/-- `#define RC_DATETIME_VALUES_COUNT 6` -/
def RC_DATETIME_VALUES_COUNT : Nat := 6

/-- `#define RC_DATETIME_MESSAGE_SIZE 8` -/
def RC_DATETIME_MESSAGE_SIZE : Nat := 8

/-- `#define UBA_WORKING_TIME_VALUES_COUNT 1` -/
def UBA_WORKING_TIME_VALUES_COUNT : Nat := 1

/-- `#define UBA_WORKING_TIME_MESSAGE_SIZE 3` -/
def UBA_WORKING_TIME_MESSAGE_SIZE : Nat := 3

/-- `#define UBA_MONITOR_FAST_VALUES_COUNT 16` -/
def UBA_MONITOR_FAST_VALUES_COUNT : Nat := 16

/-- `#define UBA_MONITOR_FAST_MESSAGE_SIZE 27` -/
def UBA_MONITOR_FAST_MESSAGE_SIZE : Nat := 27

/-- `#define UBA_MONITOR_SLOW_VALUES_COUNT 6` -/
def UBA_MONITOR_SLOW_VALUES_COUNT : Nat := 6

/-- `#define UBA_MONITOR_SLOW_MESSAGE_SIZE 25` -/
def UBA_MONITOR_SLOW_MESSAGE_SIZE : Nat := 25

/-- `#define UBA_PARAMETER_DHW_VALUES_COUNT 2` -/
def UBA_PARAMETER_DHW_VALUES_COUNT : Nat := 2

/-- `#define UBA_PARAMETER_DHW_MESSAGE_SIZE 11` -/
def UBA_PARAMETER_DHW_MESSAGE_SIZE : Nat := 11

/-- `#define FLAGS_DHW_VALUES_COUNT 1` -/
def FLAGS_DHW_VALUES_COUNT : Nat := 1

/-- `#define FLAGS_DHW_MESSAGE_SIZE 1` -/
def FLAGS_DHW_MESSAGE_SIZE : Nat := 1

/-- `#define UBA_MONITOR_DHW_VALUES_COUNT 7` -/
def UBA_MONITOR_DHW_VALUES_COUNT : Nat := 7

/-- `#define UBA_MONITOR_DHW_MESSAGE_SIZE 16` -/
def UBA_MONITOR_DHW_MESSAGE_SIZE : Nat := 16

/-- `#define WORKING_MODE_DHW_VALUES_COUNT 7` -/
def WORKING_MODE_DHW_VALUES_COUNT : Nat := 7

/-- `#define WORKING_MODE_DHW_MESSAGE_SIZE 10` -/
def WORKING_MODE_DHW_MESSAGE_SIZE : Nat := 10

/-- `#define WORKING_MODE_HC_VALUES_COUNT 9` -/
def WORKING_MODE_HC_VALUES_COUNT : Nat := 9

/-- `#define WORKING_MODE_HC_MESSAGE_SIZE 42` -/
def WORKING_MODE_HC_MESSAGE_SIZE : Nat := 42

/-- `#define MONITOR_HC_VALUES_COUNT 5` -/
def MONITOR_HC_VALUES_COUNT : Nat := 5

/-- `#define MONITOR_HC_MESSAGE_SIZE 16` -/
def MONITOR_HC_MESSAGE_SIZE : Nat := 16

/-- `#define MONITOR_MM_10_VALUES_COUNT 3` -/
def MONITOR_MM_10_VALUES_COUNT : Nat := 3

/-- `#define MONITOR_MM_10_MESSAGE_SIZE 8` -/
def MONITOR_MM_10_MESSAGE_SIZE : Nat := 8

/-- `#define SWITCHING_PROGRAM_1_VALUES_COUNT 57` -/
def SWITCHING_PROGRAM_1_VALUES_COUNT : Nat := 57

/-- `#define SWITCHING_PROGRAM_1_MESSAGE_SIZE 99` -/
def SWITCHING_PROGRAM_1_MESSAGE_SIZE : Nat := 99

/-- `#define SWITCHING_PROGRAM_2_VALUES_COUNT 42` -/
def SWITCHING_PROGRAM_2_VALUES_COUNT : Nat := 42

/-- `#define SWITCHING_PROGRAM_2_MESSAGE_SIZE 84` -/
def SWITCHING_PROGRAM_2_MESSAGE_SIZE : Nat := 84

/-- `const PROGMEM CalduinoData rCDatetimeValues[]` -/
def rCDatetimeValues : List CalduinoData :=
  [⟨"Year", .Byte, .None, 4, 0, 0, 0⟩,
   ⟨"Month", .Byte, .None, 5, 0, 0, 0⟩,
   ⟨"Day", .Byte, .None, 7, 0, 0, 0⟩,
   ⟨"Hour", .Byte, .None, 6, 0, 0, 0⟩,
   ⟨"Minute", .Byte, .None, 8, 0, 0, 0⟩,
   ⟨"Second", .Byte, .None, 9, 0, 0, 0⟩]

/-- `const PROGMEM CalduinoData uBAWorkingTimeValues[]` -/
def uBAWorkingTimeValues : List CalduinoData :=
  [⟨"UBAWorkMin", .ULong, .Minute, 4, 0, 0, 0⟩]

/-- `const PROGMEM CalduinoData uBAMonitorFastValues[]` -/
def uBAMonitorFastValues : List CalduinoData :=
  [⟨"SelImpTemp", .Byte, .Celsius, 4, 0, 0, 0⟩,
   ⟨"CurImpTemp", .Float, .Celsius, 5, 0, 2, 10⟩,
   ⟨"SelBurnPow", .Byte, .Percentage, 7, 0, 0, 0⟩,
   ⟨"CurBurnPow", .Byte, .Percentage, 8, 0, 0, 0⟩,
   ⟨"BurnGas", .Bit, .YesNo, 11, 0, 0, 0⟩,
   ⟨"FanWork", .Bit, .YesNo, 11, 2, 0, 0⟩,
   ⟨"IgnWork", .Bit, .YesNo, 11, 3, 0, 0⟩,
   ⟨"HeatPmp", .Bit, .YesNo, 11, 5, 0, 0⟩,
   ⟨"Way3ValveDHW", .Bit, .YesNo, 11, 6, 0, 0⟩,
   ⟨"CircDHW", .Bit, .YesNo, 11, 7, 0, 0⟩,
   ⟨"RetTemp", .Float, .Celsius, 17, 0, 2, 10⟩,
   ⟨"FlameCurr", .Float, .MAmper, 19, 0, 2, 10⟩,
   ⟨"SysPress", .Float, .Bar, 21, 0, 1, 10⟩,
   ⟨"SrvCode1", .Byte, .None, 22, 0, 0, 0⟩,
   ⟨"SrvCode2", .Byte, .None, 23, 0, 0, 0⟩,
   ⟨"ErrCode", .Float, .None, 24, 0, 2, 1⟩]

/-- `const PROGMEM CalduinoData uBAMonitorSlowValues[]` -/
def uBAMonitorSlowValues : List CalduinoData :=
  [⟨"ExtTemp", .Float, .Celsius, 4, 0, 2, 10⟩,
   ⟨"BoilTemp", .Float, .Celsius, 6, 0, 2, 10⟩,
   ⟨"PumpMod", .Byte, .Percentage, 13, 0, 0, 0⟩,
   ⟨"BurnStarts", .ULong, .Times, 14, 0, 0, 0⟩,
   ⟨"BurnWorkMin", .ULong, .Minute, 17, 0, 0, 0⟩,
   ⟨"BurnWorkMinH", .ULong, .Minute, 23, 0, 0, 0⟩]

/-- `const PROGMEM CalduinoData uBAParameterDHWValues[]` -/
def uBAParameterDHWValues : List CalduinoData :=
  [⟨"SelTempDHW", .Byte, .Celsius, 6, 0, 0, 0⟩,
   ⟨"SelTempTDDHW", .Byte, .Celsius, 12, 0, 0, 0⟩]

/-- `const PROGMEM CalduinoData uBAMonitorDHWValues[]` -/
def uBAMonitorDHWValues : List CalduinoData :=
  [⟨"CurTempDHW", .Float, .Celsius, 5, 0, 2, 10⟩,
   ⟨"DayModeDHW", .Bit, .YesNo, 9, 0, 0, 0⟩,
   ⟨"OneTimeDHW", .Bit, .YesNo, 9, 1, 0, 0⟩,
   ⟨"DesDHW", .Bit, .YesNo, 9, 2, 0, 0⟩,
   ⟨"PrepareDHW", .Bit, .YesNo, 9, 3, 0, 0⟩,
   ⟨"BurnWorkMinDHW", .ULong, .Minute, 14, 0, 0, 0⟩,
   ⟨"BurnStartsDHW", .ULong, .Times, 17, 0, 0, 0⟩]

/-- `const PROGMEM CalduinoData uBAflagsDHWValues[]` -/
def uBAflagsDHWValues : List CalduinoData :=
  [⟨"OneTimeDHW", .Byte, .Celsius, 4, 0, 0, 0⟩]

/-- `const PROGMEM CalduinoData workingModeDHWValues[]` -/
def workingModeDHWValues : List CalduinoData :=
  [⟨"ProgDHW", .Byte, .None, 4, 0, 0, 0⟩,
   ⟨"ProgPumpDHW", .Byte, .None, 5, 0, 0, 0⟩,
   ⟨"WorkModeDHW", .Byte, .None, 6, 0, 0, 0⟩,
   ⟨"WorkModePumpDHW", .Byte, .None, 7, 0, 0, 0⟩,
   ⟨"WorkModeTDDHW", .Byte, .YesNo, 8, 0, 0, 0⟩,
   ⟨"DayTDDHW", .Byte, .None, 9, 0, 0, 0⟩,
   ⟨"HourTDDHW", .Byte, .None, 10, 0, 0, 0⟩]

/-- `const PROGMEM CalduinoData workingModeHCValues[]` -/
def workingModeHCValues : List CalduinoData :=
  [⟨"SelNightTempHC", .Float, .Celsius, 5, 0, 1, 2⟩,
   ⟨"SelDayTempHC", .Float, .Celsius, 6, 0, 1, 2⟩,
   ⟨"SelHoliTempHC", .Float, .Celsius, 7, 0, 1, 2⟩,
   ⟨"RoomTempInfHC", .Float, .Celsius, 8, 0, 1, 2⟩,
   ⟨"RoomTempOffHC", .Float, .Celsius, 10, 0, 1, 2⟩,
   ⟨"WorkModeHC", .Byte, .None, 11, 0, 0, 0⟩,
   ⟨"SWThresTempHC", .Byte, .Celsius, 26, 0, 0, 0⟩,
   ⟨"NightSetbackHC", .Byte, .None, 29, 0, 0, 0⟩,
   ⟨"NightOutTempHC", .Float, .Celsius, 43, 0, 1, 1⟩]

/-- `const PROGMEM CalduinoData monitorHCValues[]` -/
def monitorHCValues : List CalduinoData :=
  [⟨"HoliModHC", .Bit, .YesNo, 4, 5, 0, 0⟩,
   ⟨"SummerModHC", .Bit, .YesNo, 5, 0, 0, 0⟩,
   ⟨"DayModHC", .Bit, .YesNo, 5, 1, 0, 0⟩,
   ⟨"PauseModHC", .Bit, .YesNo, 5, 7, 0, 0⟩,
   ⟨"SelRoomTempHC", .Float, .Celsius, 6, 0, 1, 2⟩]

/-- `const PROGMEM CalduinoData switchingProgramValues[]` -/
def switchingProgramValues : List CalduinoData :=
  [⟨"SwitchPoint", .SwithPoint, .None, 4, 0, 0, 0⟩,
   ⟨"SwitchPoint", .SwithPoint, .None, 6, 0, 0, 0⟩,
   ⟨"SwitchPoint", .SwithPoint, .None, 8, 0, 0, 0⟩,
   ⟨"SwitchPoint", .SwithPoint, .None, 10, 0, 0, 0⟩,
   ⟨"SwitchPoint", .SwithPoint, .None, 12, 0, 0, 0⟩,
   ⟨"SwitchPoint", .SwithPoint, .None, 14, 0, 0, 0⟩,
   ⟨"SwitchPoint", .SwithPoint, .None, 16, 0, 0, 0⟩,
   ⟨"SwitchPoint", .SwithPoint, .None, 18, 0, 0, 0⟩,
   ⟨"SwitchPoint", .SwithPoint, .None, 20, 0, 0, 0⟩,
   ⟨"SwitchPoint", .SwithPoint, .None, 22, 0, 0, 0⟩,
   ⟨"SwitchPoint", .SwithPoint, .None, 24, 0, 0, 0⟩,
   ⟨"SwitchPoint", .SwithPoint, .None, 26, 0, 0, 0⟩,
   ⟨"SwitchPoint", .SwithPoint, .None, 28, 0, 0, 0⟩,
   ⟨"SwitchPoint", .SwithPoint, .None, 30, 0, 0, 0⟩,
   ⟨"SwitchPoint", .SwithPoint, .None, 32, 0, 0, 0⟩,
   ⟨"SwitchPoint", .SwithPoint, .None, 34, 0, 0, 0⟩,
   ⟨"SwitchPoint", .SwithPoint, .None, 36, 0, 0, 0⟩,
   ⟨"SwitchPoint", .SwithPoint, .None, 38, 0, 0, 0⟩,
   ⟨"SwitchPoint", .SwithPoint, .None, 40, 0, 0, 0⟩,
   ⟨"SwitchPoint", .SwithPoint, .None, 42, 0, 0, 0⟩,
   ⟨"SwitchPoint", .SwithPoint, .None, 44, 0, 0, 0⟩,
   ⟨"SwitchPoint", .SwithPoint, .None, 46, 0, 0, 0⟩,
   ⟨"SwitchPoint", .SwithPoint, .None, 48, 0, 0, 0⟩,
   ⟨"SwitchPoint", .SwithPoint, .None, 50, 0, 0, 0⟩,
   ⟨"SwitchPoint", .SwithPoint, .None, 52, 0, 0, 0⟩,
   ⟨"SwitchPoint", .SwithPoint, .None, 54, 0, 0, 0⟩,
   ⟨"SwitchPoint", .SwithPoint, .None, 56, 0, 0, 0⟩,
   ⟨"SwitchPoint", .SwithPoint, .None, 58, 0, 0, 0⟩,
   ⟨"SwitchPoint", .SwithPoint, .None, 60, 0, 0, 0⟩,
   ⟨"SwitchPoint", .SwithPoint, .None, 62, 0, 0, 0⟩,
   ⟨"SwitchPoint", .SwithPoint, .None, 64, 0, 0, 0⟩,
   ⟨"SwitchPoint", .SwithPoint, .None, 66, 0, 0, 0⟩,
   ⟨"SwitchPoint", .SwithPoint, .None, 68, 0, 0, 0⟩,
   ⟨"SwitchPoint", .SwithPoint, .None, 70, 0, 0, 0⟩,
   ⟨"SwitchPoint", .SwithPoint, .None, 72, 0, 0, 0⟩,
   ⟨"SwitchPoint", .SwithPoint, .None, 74, 0, 0, 0⟩,
   ⟨"SwitchPoint", .SwithPoint, .None, 76, 0, 0, 0⟩,
   ⟨"SwitchPoint", .SwithPoint, .None, 78, 0, 0, 0⟩,
   ⟨"SwitchPoint", .SwithPoint, .None, 80, 0, 0, 0⟩,
   ⟨"SwitchPoint", .SwithPoint, .None, 82, 0, 0, 0⟩,
   ⟨"SwitchPoint", .SwithPoint, .None, 84, 0, 0, 0⟩,
   ⟨"SwitchPoint", .SwithPoint, .None, 86, 0, 0, 0⟩,
   ⟨"ProgramName", .Byte, .None, 88, 0, 0, 0⟩,
   ⟨"PauseTime", .Byte, .None, 89, 0, 0, 0⟩,
   ⟨"PartyTime", .Byte, .None, 90, 0, 0, 0⟩,
   ⟨"StartHoliDay", .Byte, .None, 91, 0, 0, 0⟩,
   ⟨"StartHoliMonth", .Byte, .None, 92, 0, 0, 0⟩,
   ⟨"StartHoliYear", .Byte, .None, 93, 0, 0, 0⟩,
   ⟨"EndHoliDay", .Byte, .None, 94, 0, 0, 0⟩,
   ⟨"EndHoliMonth", .Byte, .None, 95, 0, 0, 0⟩,
   ⟨"EndHoliYear", .Byte, .None, 96, 0, 0, 0⟩,
   ⟨"StartHHolDay", .Byte, .None, 97, 0, 0, 0⟩,
   ⟨"StartHHoliMonth", .Byte, .None, 98, 0, 0, 0⟩,
   ⟨"StartHHoliYear", .Byte, .None, 99, 0, 0, 0⟩,
   ⟨"EndHHoliDay", .Byte, .None, 100, 0, 0, 0⟩,
   ⟨"EndHHoliMonth", .Byte, .None, 101, 0, 0, 0⟩,
   ⟨"EndHHoliYear", .Byte, .None, 102, 0, 0, 0⟩]

/-- `const PROGMEM CalduinoData monitorMM10Values[]` -/
def monitorMM10Values : List CalduinoData :=
  [⟨"SelImpTempMM10", .Byte, .Celsius, 4, 0, 0, 0⟩,
   ⟨"CurImpTempMM10", .Float, .Celsius, 5, 0, 2, 10⟩,
   ⟨"ModMM10", .Byte, .Percentage, 7, 0, 0, 0⟩]

/-- `const PROGMEM EMSDatagram rCDatetime` -/
def rCDatetime : EMSDatagram :=
  ⟨"RCDatetime", MessageID.RC_Datetime_ID, DeviceID.RC_35, RC_DATETIME_MESSAGE_SIZE, RC_DATETIME_VALUES_COUNT, rCDatetimeValues⟩

/-- `const PROGMEM EMSDatagram uBAWorkingTime` -/
def uBAWorkingTime : EMSDatagram :=
  ⟨"UBAWorkingTime", MessageID.UBA_Working_Time_ID, DeviceID.UBA, UBA_WORKING_TIME_MESSAGE_SIZE, UBA_WORKING_TIME_VALUES_COUNT, uBAWorkingTimeValues⟩

/-- `const PROGMEM EMSDatagram uBAMonitorFast` -/
def uBAMonitorFast : EMSDatagram :=
  ⟨"UBAMonitorFast", MessageID.UBA_Monitor_Fast_ID, DeviceID.UBA, UBA_MONITOR_FAST_MESSAGE_SIZE, UBA_MONITOR_FAST_VALUES_COUNT, uBAMonitorFastValues⟩

/-- `const PROGMEM EMSDatagram uBAMonitorSlow` -/
def uBAMonitorSlow : EMSDatagram :=
  ⟨"UBAMonitorSlow", MessageID.UBA_Monitor_Slow_ID, DeviceID.UBA, UBA_MONITOR_SLOW_MESSAGE_SIZE, UBA_MONITOR_SLOW_VALUES_COUNT, uBAMonitorSlowValues⟩

/-- `const PROGMEM EMSDatagram uBAParameterDHW` -/
def uBAParameterDHW : EMSDatagram :=
  ⟨"UBAParameterDHW", MessageID.UBA_Parameter_DHW_ID, DeviceID.UBA, UBA_PARAMETER_DHW_MESSAGE_SIZE, UBA_PARAMETER_DHW_VALUES_COUNT, uBAParameterDHWValues⟩

/-- `const PROGMEM EMSDatagram uBAMonitorDHW` -/
def uBAMonitorDHW : EMSDatagram :=
  ⟨"UBAMonitorDHW", MessageID.UBA_Monitor_DHW_ID, DeviceID.UBA, UBA_MONITOR_DHW_MESSAGE_SIZE, UBA_MONITOR_DHW_VALUES_COUNT, uBAMonitorDHWValues⟩

/-- `const PROGMEM EMSDatagram uBAFlagsDHW` -/
def uBAFlagsDHW : EMSDatagram :=
  ⟨"FlagsDHW", MessageID.Flags_DHW_ID, DeviceID.UBA, FLAGS_DHW_MESSAGE_SIZE, FLAGS_DHW_VALUES_COUNT, uBAflagsDHWValues⟩

/-- `const PROGMEM EMSDatagram workingModeDHW` -/
def workingModeDHW : EMSDatagram :=
  ⟨"WorkingModeDHW", MessageID.Working_Mode_DHW_ID, DeviceID.RC_35, WORKING_MODE_DHW_MESSAGE_SIZE, WORKING_MODE_DHW_VALUES_COUNT, workingModeDHWValues⟩

/-- `const PROGMEM EMSDatagram workingModeHC1` -/
def workingModeHC1 : EMSDatagram :=
  ⟨"WorkingModeHC1", MessageID.Working_Mode_HC_1_ID, DeviceID.RC_35, WORKING_MODE_HC_MESSAGE_SIZE, WORKING_MODE_HC_VALUES_COUNT, workingModeHCValues⟩

/-- `const PROGMEM EMSDatagram workingModeHC2` -/
def workingModeHC2 : EMSDatagram :=
  ⟨"WorkingModeHC2", MessageID.Working_Mode_HC_2_ID, DeviceID.RC_35, WORKING_MODE_HC_MESSAGE_SIZE, WORKING_MODE_HC_VALUES_COUNT, workingModeHCValues⟩

/-- `const PROGMEM EMSDatagram workingModeHC3` -/
def workingModeHC3 : EMSDatagram :=
  ⟨"WorkingModeHC3", MessageID.Working_Mode_HC_3_ID, DeviceID.RC_35, WORKING_MODE_HC_MESSAGE_SIZE, WORKING_MODE_HC_VALUES_COUNT, workingModeHCValues⟩

/-- `const PROGMEM EMSDatagram workingModeHC4` -/
def workingModeHC4 : EMSDatagram :=
  ⟨"WorkingModeHC4", MessageID.Working_Mode_HC_4_ID, DeviceID.RC_35, WORKING_MODE_HC_MESSAGE_SIZE, WORKING_MODE_HC_VALUES_COUNT, workingModeHCValues⟩

/-- `const PROGMEM EMSDatagram monitorHC1` -/
def monitorHC1 : EMSDatagram :=
  ⟨"MonitorHC1", MessageID.Monitor_HC_1_ID, DeviceID.RC_35, MONITOR_HC_MESSAGE_SIZE, MONITOR_HC_VALUES_COUNT, monitorHCValues⟩

/-- `const PROGMEM EMSDatagram monitorHC2` -/
def monitorHC2 : EMSDatagram :=
  ⟨"MonitorHC2", MessageID.Monitor_HC_2_ID, DeviceID.RC_35, MONITOR_HC_MESSAGE_SIZE, MONITOR_HC_VALUES_COUNT, monitorHCValues⟩

/-- `const PROGMEM EMSDatagram monitorHC3` -/
def monitorHC3 : EMSDatagram :=
  ⟨"MonitorHC3", MessageID.Monitor_HC_3_ID, DeviceID.RC_35, MONITOR_HC_MESSAGE_SIZE, MONITOR_HC_VALUES_COUNT, monitorHCValues⟩

/-- `const PROGMEM EMSDatagram monitorHC4` -/
def monitorHC4 : EMSDatagram :=
  ⟨"MonitorHC4", MessageID.Monitor_HC_4_ID, DeviceID.RC_35, MONITOR_HC_MESSAGE_SIZE, MONITOR_HC_VALUES_COUNT, monitorHCValues⟩

/-- `const PROGMEM EMSDatagram program1HC1` -/
def program1HC1 : EMSDatagram :=
  ⟨"Program1HC1", MessageID.Program_1_HC_1_ID, DeviceID.RC_35, SWITCHING_PROGRAM_1_MESSAGE_SIZE, SWITCHING_PROGRAM_1_VALUES_COUNT, switchingProgramValues⟩

/-- `const PROGMEM EMSDatagram program1HC2` -/
def program1HC2 : EMSDatagram :=
  ⟨"Program1HC2", MessageID.Program_1_HC_2_ID, DeviceID.RC_35, SWITCHING_PROGRAM_1_MESSAGE_SIZE, SWITCHING_PROGRAM_1_VALUES_COUNT, switchingProgramValues⟩

/-- `const PROGMEM EMSDatagram program1HC3` -/
def program1HC3 : EMSDatagram :=
  ⟨"Program1HC3", MessageID.Program_1_HC_3_ID, DeviceID.RC_35, SWITCHING_PROGRAM_1_MESSAGE_SIZE, SWITCHING_PROGRAM_1_VALUES_COUNT, switchingProgramValues⟩

/-- `const PROGMEM EMSDatagram program1HC4` -/
def program1HC4 : EMSDatagram :=
  ⟨"Program1HC4", MessageID.Program_1_HC_4_ID, DeviceID.RC_35, SWITCHING_PROGRAM_1_MESSAGE_SIZE, SWITCHING_PROGRAM_1_VALUES_COUNT, switchingProgramValues⟩

/-- `const PROGMEM EMSDatagram program2HC1` -/
def program2HC1 : EMSDatagram :=
  ⟨"Program2HC1", MessageID.Program_2_HC_1_ID, DeviceID.RC_35, SWITCHING_PROGRAM_2_MESSAGE_SIZE, SWITCHING_PROGRAM_2_VALUES_COUNT, switchingProgramValues⟩

/-- `const PROGMEM EMSDatagram program2HC2` -/
def program2HC2 : EMSDatagram :=
  ⟨"Program2HC2", MessageID.Program_2_HC_2_ID, DeviceID.RC_35, SWITCHING_PROGRAM_2_MESSAGE_SIZE, SWITCHING_PROGRAM_2_VALUES_COUNT, switchingProgramValues⟩

/-- `const PROGMEM EMSDatagram program2HC3` -/
def program2HC3 : EMSDatagram :=
  ⟨"Program2HC3", MessageID.Program_2_HC_3_ID, DeviceID.RC_35, SWITCHING_PROGRAM_2_MESSAGE_SIZE, SWITCHING_PROGRAM_2_VALUES_COUNT, switchingProgramValues⟩

/-- `const PROGMEM EMSDatagram program2HC4` -/
def program2HC4 : EMSDatagram :=
  ⟨"Program2HC4", MessageID.Program_2_HC_4_ID, DeviceID.RC_35, SWITCHING_PROGRAM_2_MESSAGE_SIZE, SWITCHING_PROGRAM_2_VALUES_COUNT, switchingProgramValues⟩

/-- `const PROGMEM EMSDatagram programDHW` -/
def programDHW : EMSDatagram :=
  ⟨"ProgramDHW", MessageID.Program_DHW_ID, DeviceID.RC_35, SWITCHING_PROGRAM_1_MESSAGE_SIZE, SWITCHING_PROGRAM_1_VALUES_COUNT, switchingProgramValues⟩

/-- `const PROGMEM EMSDatagram programPumpDHW` -/
def programPumpDHW : EMSDatagram :=
  ⟨"ProgramPumpDHW", MessageID.Program_Pump_DHW_ID, DeviceID.RC_35, SWITCHING_PROGRAM_1_MESSAGE_SIZE, SWITCHING_PROGRAM_1_VALUES_COUNT, switchingProgramValues⟩

/-- `const PROGMEM EMSDatagram monitorMM10` -/
def monitorMM10 : EMSDatagram :=
  ⟨"MonitorMM10", MessageID.Monitor_MM_10_ID, DeviceID.MM_10, MONITOR_MM_10_MESSAGE_SIZE, MONITOR_MM_10_VALUES_COUNT, monitorMM10Values⟩

/-- `EMSDatagram* eMSDatagramIDs[]`, indexed by `EMSDatagramID`. -/
def eMSDatagramIDs : List EMSDatagram :=
  [rCDatetime,
   uBAWorkingTime,
   uBAMonitorFast,
   uBAMonitorSlow,
   uBAParameterDHW,
   uBAMonitorDHW,
   uBAFlagsDHW,
   workingModeDHW,
   programDHW,
   programPumpDHW,
   workingModeHC1,
   monitorHC1,
   program1HC1,
   program2HC1,
   workingModeHC2,
   monitorHC2,
   program1HC2,
   program2HC2,
   workingModeHC3,
   monitorHC3,
   program1HC3,
   program2HC3,
   workingModeHC4,
   monitorHC4,
   program1HC4,
   program2HC4,
   monitorMM10]

/-- `const PROGMEM CalduinoDataRequest byteRequests[]` -/
def byteRequests : List CalduinoDataRequest :=
  [⟨rCDatetimeValues.getD DatagramDataIndex.yearIdx default, rCDatetime⟩,
   ⟨rCDatetimeValues.getD DatagramDataIndex.monthIdx default, rCDatetime⟩,
   ⟨rCDatetimeValues.getD DatagramDataIndex.dayIdx default, rCDatetime⟩,
   ⟨rCDatetimeValues.getD DatagramDataIndex.hourIdx default, rCDatetime⟩,
   ⟨rCDatetimeValues.getD DatagramDataIndex.minuteIdx default, rCDatetime⟩,
   ⟨rCDatetimeValues.getD DatagramDataIndex.secondIdx default, rCDatetime⟩,
   ⟨uBAMonitorFastValues.getD DatagramDataIndex.selImpTempIdx default, uBAMonitorFast⟩,
   ⟨uBAMonitorFastValues.getD DatagramDataIndex.selBurnPowIdx default, uBAMonitorFast⟩,
   ⟨uBAMonitorFastValues.getD DatagramDataIndex.curBurnPowIdx default, uBAMonitorFast⟩,
   ⟨uBAMonitorFastValues.getD DatagramDataIndex.srvCode1Idx default, uBAMonitorFast⟩,
   ⟨uBAMonitorFastValues.getD DatagramDataIndex.srvCode2Idx default, uBAMonitorFast⟩,
   ⟨uBAMonitorSlowValues.getD DatagramDataIndex.pumpModIdx default, uBAMonitorSlow⟩,
   ⟨uBAParameterDHWValues.getD DatagramDataIndex.selTempDHWIdx default, uBAParameterDHW⟩,
   ⟨uBAParameterDHWValues.getD DatagramDataIndex.tempTDDHWIdx default, uBAParameterDHW⟩,
   ⟨uBAflagsDHWValues.getD DatagramDataIndex.oneTimeDHW2Idx default, uBAFlagsDHW⟩,
   ⟨workingModeDHWValues.getD DatagramDataIndex.progDHWIdx default, workingModeDHW⟩,
   ⟨workingModeDHWValues.getD DatagramDataIndex.progPumpDHWIdx default, workingModeDHW⟩,
   ⟨workingModeDHWValues.getD DatagramDataIndex.workModeDHWIdx default, workingModeDHW⟩,
   ⟨workingModeDHWValues.getD DatagramDataIndex.workModePumpDHWIdx default, workingModeDHW⟩,
   ⟨workingModeDHWValues.getD DatagramDataIndex.dayTDDHWIdx default, workingModeDHW⟩,
   ⟨workingModeDHWValues.getD DatagramDataIndex.hourTDDHWIdx default, workingModeDHW⟩,
   ⟨workingModeHCValues.getD DatagramDataIndex.workModeHCIdx default, workingModeHC1⟩,
   ⟨workingModeHCValues.getD DatagramDataIndex.sWThresTempHCIdx default, workingModeHC1⟩,
   ⟨workingModeHCValues.getD DatagramDataIndex.nightSetbackHCIdx default, workingModeHC1⟩,
   ⟨workingModeHCValues.getD DatagramDataIndex.workModeHCIdx default, workingModeHC2⟩,
   ⟨workingModeHCValues.getD DatagramDataIndex.sWThresTempHCIdx default, workingModeHC2⟩,
   ⟨workingModeHCValues.getD DatagramDataIndex.nightSetbackHCIdx default, workingModeHC2⟩,
   ⟨workingModeHCValues.getD DatagramDataIndex.workModeHCIdx default, workingModeHC3⟩,
   ⟨workingModeHCValues.getD DatagramDataIndex.sWThresTempHCIdx default, workingModeHC3⟩,
   ⟨workingModeHCValues.getD DatagramDataIndex.nightSetbackHCIdx default, workingModeHC3⟩,
   ⟨workingModeHCValues.getD DatagramDataIndex.workModeHCIdx default, workingModeHC4⟩,
   ⟨workingModeHCValues.getD DatagramDataIndex.sWThresTempHCIdx default, workingModeHC4⟩,
   ⟨workingModeHCValues.getD DatagramDataIndex.nightSetbackHCIdx default, workingModeHC4⟩,
   ⟨switchingProgramValues.getD DatagramDataIndex.programNameIdx default, program1HC1⟩,
   ⟨switchingProgramValues.getD DatagramDataIndex.pauseTimeIdx default, program1HC1⟩,
   ⟨switchingProgramValues.getD DatagramDataIndex.partyTimeIdx default, program1HC1⟩,
   ⟨switchingProgramValues.getD DatagramDataIndex.programNameIdx default, program1HC2⟩,
   ⟨switchingProgramValues.getD DatagramDataIndex.pauseTimeIdx default, program1HC2⟩,
   ⟨switchingProgramValues.getD DatagramDataIndex.partyTimeIdx default, program1HC2⟩,
   ⟨switchingProgramValues.getD DatagramDataIndex.programNameIdx default, program1HC3⟩,
   ⟨switchingProgramValues.getD DatagramDataIndex.pauseTimeIdx default, program1HC3⟩,
   ⟨switchingProgramValues.getD DatagramDataIndex.partyTimeIdx default, program1HC3⟩,
   ⟨switchingProgramValues.getD DatagramDataIndex.programNameIdx default, program1HC4⟩,
   ⟨switchingProgramValues.getD DatagramDataIndex.pauseTimeIdx default, program1HC4⟩,
   ⟨switchingProgramValues.getD DatagramDataIndex.partyTimeIdx default, program1HC4⟩]

/-- `const PROGMEM CalduinoDataRequest floatRequests[]` -/
def floatRequests : List CalduinoDataRequest :=
  [⟨uBAMonitorFastValues.getD DatagramDataIndex.curImpTempIdx default, uBAMonitorFast⟩,
   ⟨uBAMonitorFastValues.getD DatagramDataIndex.retTempIdx default, uBAMonitorFast⟩,
   ⟨uBAMonitorFastValues.getD DatagramDataIndex.flameCurrIdx default, uBAMonitorFast⟩,
   ⟨uBAMonitorFastValues.getD DatagramDataIndex.sysPressIdx default, uBAMonitorFast⟩,
   ⟨uBAMonitorFastValues.getD DatagramDataIndex.errCodeIdx default, uBAMonitorFast⟩,
   ⟨uBAMonitorSlowValues.getD DatagramDataIndex.extTempIdx default, uBAMonitorSlow⟩,
   ⟨uBAMonitorSlowValues.getD DatagramDataIndex.boilTempIdx default, uBAMonitorSlow⟩,
   ⟨uBAMonitorDHWValues.getD DatagramDataIndex.curTempDHWIdx default, uBAMonitorDHW⟩,
   ⟨workingModeHCValues.getD DatagramDataIndex.selNightTempHCIdx default, workingModeHC1⟩,
   ⟨workingModeHCValues.getD DatagramDataIndex.selDayTempHCIdx default, workingModeHC1⟩,
   ⟨workingModeHCValues.getD DatagramDataIndex.selHoliTempHCIdx default, workingModeHC1⟩,
   ⟨workingModeHCValues.getD DatagramDataIndex.roomTempInfHCIdx default, workingModeHC1⟩,
   ⟨workingModeHCValues.getD DatagramDataIndex.roomTempOffHCIdx default, workingModeHC1⟩,
   ⟨workingModeHCValues.getD DatagramDataIndex.nightOutTempHCIdx default, workingModeHC1⟩,
   ⟨workingModeHCValues.getD DatagramDataIndex.selNightTempHCIdx default, workingModeHC2⟩,
   ⟨workingModeHCValues.getD DatagramDataIndex.selDayTempHCIdx default, workingModeHC2⟩,
   ⟨workingModeHCValues.getD DatagramDataIndex.selHoliTempHCIdx default, workingModeHC2⟩,
   ⟨workingModeHCValues.getD DatagramDataIndex.roomTempInfHCIdx default, workingModeHC2⟩,
   ⟨workingModeHCValues.getD DatagramDataIndex.roomTempOffHCIdx default, workingModeHC2⟩,
   ⟨workingModeHCValues.getD DatagramDataIndex.nightOutTempHCIdx default, workingModeHC2⟩,
   ⟨workingModeHCValues.getD DatagramDataIndex.selNightTempHCIdx default, workingModeHC3⟩,
   ⟨workingModeHCValues.getD DatagramDataIndex.selDayTempHCIdx default, workingModeHC3⟩,
   ⟨workingModeHCValues.getD DatagramDataIndex.selHoliTempHCIdx default, workingModeHC3⟩,
   ⟨workingModeHCValues.getD DatagramDataIndex.roomTempInfHCIdx default, workingModeHC3⟩,
   ⟨workingModeHCValues.getD DatagramDataIndex.roomTempOffHCIdx default, workingModeHC3⟩,
   ⟨workingModeHCValues.getD DatagramDataIndex.nightOutTempHCIdx default, workingModeHC3⟩,
   ⟨workingModeHCValues.getD DatagramDataIndex.selNightTempHCIdx default, workingModeHC4⟩,
   ⟨workingModeHCValues.getD DatagramDataIndex.selDayTempHCIdx default, workingModeHC4⟩,
   ⟨workingModeHCValues.getD DatagramDataIndex.selHoliTempHCIdx default, workingModeHC4⟩,
   ⟨workingModeHCValues.getD DatagramDataIndex.roomTempInfHCIdx default, workingModeHC4⟩,
   ⟨workingModeHCValues.getD DatagramDataIndex.roomTempOffHCIdx default, workingModeHC4⟩,
   ⟨workingModeHCValues.getD DatagramDataIndex.nightOutTempHCIdx default, workingModeHC4⟩,
   ⟨workingModeHCValues.getD DatagramDataIndex.selRoomTempHCIdx default, workingModeHC1⟩,
   ⟨workingModeHCValues.getD DatagramDataIndex.selRoomTempHCIdx default, workingModeHC2⟩,
   ⟨workingModeHCValues.getD DatagramDataIndex.selRoomTempHCIdx default, workingModeHC3⟩,
   ⟨workingModeHCValues.getD DatagramDataIndex.selRoomTempHCIdx default, workingModeHC4⟩,
   ⟨monitorMM10Values.getD DatagramDataIndex.curImpTempMM10Idx default, monitorMM10⟩]

/-- `const PROGMEM CalduinoDataRequest uLongRequests[]` -/
def uLongRequests : List CalduinoDataRequest :=
  [⟨uBAWorkingTimeValues.getD DatagramDataIndex.uBAWorkingMinIdx default, uBAWorkingTime⟩,
   ⟨uBAMonitorSlowValues.getD DatagramDataIndex.burnStartsIdx default, uBAMonitorSlow⟩,
   ⟨uBAMonitorSlowValues.getD DatagramDataIndex.burnWorkMinIdx default, uBAMonitorSlow⟩,
   ⟨uBAMonitorSlowValues.getD DatagramDataIndex.burnWorkMinHIdx default, uBAMonitorSlow⟩,
   ⟨uBAMonitorDHWValues.getD DatagramDataIndex.burnStartsDHWIdx default, uBAMonitorDHW⟩,
   ⟨uBAMonitorDHWValues.getD DatagramDataIndex.burnWorkMinDHWIdx default, uBAMonitorDHW⟩]

/-- `const PROGMEM CalduinoDataRequest bitRequests[]` -/
def bitRequests : List CalduinoDataRequest :=
  [⟨uBAMonitorFastValues.getD DatagramDataIndex.burnGasIdx default, uBAMonitorFast⟩,
   ⟨uBAMonitorFastValues.getD DatagramDataIndex.fanWorkIdx default, uBAMonitorFast⟩,
   ⟨uBAMonitorFastValues.getD DatagramDataIndex.ignWorkIdx default, uBAMonitorFast⟩,
   ⟨uBAMonitorFastValues.getD DatagramDataIndex.heatPmpIdx default, uBAMonitorFast⟩,
   ⟨uBAMonitorFastValues.getD DatagramDataIndex.threeWayValveDHWIdx default, uBAMonitorFast⟩,
   ⟨uBAMonitorFastValues.getD DatagramDataIndex.circDHWIdx default, uBAMonitorFast⟩,
   ⟨uBAMonitorDHWValues.getD DatagramDataIndex.dayModeDHWIdx default, uBAMonitorDHW⟩,
   ⟨uBAMonitorDHWValues.getD DatagramDataIndex.oneTimeDHW1Idx default, uBAMonitorDHW⟩,
   ⟨uBAMonitorDHWValues.getD DatagramDataIndex.desDHWIdx default, uBAMonitorDHW⟩,
   ⟨uBAMonitorDHWValues.getD DatagramDataIndex.prepareDHWIdx default, uBAMonitorDHW⟩,
   ⟨uBAMonitorDHWValues.getD DatagramDataIndex.holiModHCIdx default, monitorHC1⟩,
   ⟨uBAMonitorDHWValues.getD DatagramDataIndex.summerModHCIdx default, monitorHC1⟩,
   ⟨uBAMonitorDHWValues.getD DatagramDataIndex.dayModHCIdx default, monitorHC1⟩,
   ⟨uBAMonitorDHWValues.getD DatagramDataIndex.pauseModHCIdx default, monitorHC1⟩,
   ⟨uBAMonitorDHWValues.getD DatagramDataIndex.holiModHCIdx default, monitorHC2⟩,
   ⟨uBAMonitorDHWValues.getD DatagramDataIndex.summerModHCIdx default, monitorHC2⟩,
   ⟨uBAMonitorDHWValues.getD DatagramDataIndex.dayModHCIdx default, monitorHC2⟩,
   ⟨uBAMonitorDHWValues.getD DatagramDataIndex.pauseModHCIdx default, monitorHC2⟩,
   ⟨uBAMonitorDHWValues.getD DatagramDataIndex.holiModHCIdx default, monitorHC3⟩,
   ⟨uBAMonitorDHWValues.getD DatagramDataIndex.summerModHCIdx default, monitorHC3⟩,
   ⟨uBAMonitorDHWValues.getD DatagramDataIndex.dayModHCIdx default, monitorHC3⟩,
   ⟨uBAMonitorDHWValues.getD DatagramDataIndex.pauseModHCIdx default, monitorHC3⟩,
   ⟨uBAMonitorDHWValues.getD DatagramDataIndex.holiModHCIdx default, monitorHC4⟩,
   ⟨uBAMonitorDHWValues.getD DatagramDataIndex.summerModHCIdx default, monitorHC4⟩,
   ⟨uBAMonitorDHWValues.getD DatagramDataIndex.dayModHCIdx default, monitorHC4⟩,
   ⟨uBAMonitorDHWValues.getD DatagramDataIndex.pauseModHCIdx default, monitorHC4⟩]


/-! ## Target platform

The engine talks to the bus through `calduinoSerial` (`available`, `peek`,
`read`, `flush`, `frameError`, `write`, `writeEOF`) and reads the Arduino
clock (`millis`, `delay`). These are taken as a state machine over an
arbitrary state `σ`: the state holds whatever the hardware, the receive
interrupt and the passing of time do between two calls. -/

/-- What the engine hands to the transport: a byte (`write`) or the
end-of-frame break (`writeEOF`). -/
inductive TxEvent
  | byte (b : Nat)
  | eof
  deriving DecidableEq, Repr

/-- The operations of the target the engine calls. `stack s i` is the byte
found in cell `i` of a local array that the code declares without
initialising it while the target is in state `s`. -/
structure Platform (σ : Type) where
  millis : σ → Nat × σ
  delay : Nat → σ → σ
  available : σ → Int × σ
  peek : σ → Int × σ
  read : σ → Int × σ
  flush : σ → σ
  frameError : σ → Bool × σ
  write : Nat → σ → σ
  writeEOF : σ → σ
  stack : σ → Nat → Nat

/-- The target state together with the record of what the engine has
written to the transport so far, oldest first. -/
structure World (σ : Type) where
  st : σ
  tx : List TxEvent

namespace World

variable {σ : Type}

/-- `millis()`: the value of the `unsigned long` the target returns. -/
def millis (P : Platform σ) (w : World σ) : Nat × World σ :=
  ((P.millis w.st).1, { w with st := (P.millis w.st).2 })

/-- `delay(ms)`. -/
def delay (P : Platform σ) (ms : Nat) (w : World σ) : World σ :=
  { w with st := P.delay ms w.st }

/-- `calduinoSerial.available()` used as a condition. -/
def available (P : Platform σ) (w : World σ) : Bool × World σ :=
  (decide ((P.available w.st).1 ≠ 0), { w with st := (P.available w.st).2 })

/-- `(uint8_t)calduinoSerial.peek()`. -/
def peek (P : Platform σ) (w : World σ) : Nat × World σ :=
  (((P.peek w.st).1 % 256).toNat, { w with st := (P.peek w.st).2 })

/-- `calduinoSerial.read()` stored in a `byte`. -/
def read (P : Platform σ) (w : World σ) : Nat × World σ :=
  (((P.read w.st).1 % 256).toNat, { w with st := (P.read w.st).2 })

/-- `calduinoSerial.flush()`. -/
def flush (P : Platform σ) (w : World σ) : World σ :=
  { w with st := P.flush w.st }

/-- `calduinoSerial.frameError()`. -/
def frameError (P : Platform σ) (w : World σ) : Bool × World σ :=
  ((P.frameError w.st).1, { w with st := (P.frameError w.st).2 })

/-- `calduinoSerial.write(b)`. -/
def write (P : Platform σ) (b : Nat) (w : World σ) : World σ :=
  { st := P.write (b % 256) w.st, tx := w.tx ++ [TxEvent.byte (b % 256)] }

/-- `calduinoSerial.writeEOF()`. -/
def writeEOF (P : Platform σ) (w : World σ) : World σ :=
  { st := P.writeEOF w.st, tx := w.tx ++ [TxEvent.eof] }

end World

/-- A local `byte` array of `n` cells declared without initialiser, found at
the stack cells `base, ..., base + n - 1`. -/
def freshArray {σ : Type} (P : Platform σ) (s : σ) (base n : Nat) : Buffer :=
  (List.range n).map (fun i => P.stack s (base + i) % 256)

/-! ## Protocol engine (`Calduino::readBytes` ... `Calduino::getEMSBuffer`)

Every loop that waits for the bus takes a bound on the number of times its
condition is tested; `none` means the loop has not been left by then. -/

/-- `#define MAX_EMS_READ 32` -/
def MAX_EMS_READ : Nat := 32

/-- `#define INITIAL_OFFSET 4` -/
def INITIAL_OFFSET : Nat := 4

/-- `#define OUT_EMS_BUFFER_SIZE 7` -/
def OUT_EMS_BUFFER_SIZE : Nat := 7

/-- `#define EMS_DATAGRAM_OVERHEAD 6` -/
def EMS_DATAGRAM_OVERHEAD : Nat := 6

/-- `#define EMS_MAX_WAIT_TIME 1000` -/
def EMS_MAX_WAIT_TIME : Nat := 1000

/-- `#define RETRY_FACTOR 4` -/
def RETRY_FACTOR : Nat := 4

/-- `#define ERROR_VALUE 0xFF` -/
def ERROR_VALUE : Nat := 0xFF

/-- The member `EMSMaxWaitTime`, set once by the constructor
(`EMSMaxWaitTime = EMS_MAX_WAIT_TIME`). -/
def EMSMaxWaitTime : Nat := EMS_MAX_WAIT_TIME

section Engine

variable {σ : Type}

/-- First loop of `readBytes`:
`while (available() && (millis() < eMSTimeout)) { if ((uint8_t)peek() == 0) read(); else break; }` -/
def skipBreaks (P : Platform σ) (eMSTimeout : Nat) : Nat → World σ → Option (World σ)
  | 0, _ => none
  | n + 1, w =>
    let a := World.available P w
    if a.1 then
      let m := World.millis P a.2
      if m.1 < eMSTimeout then
        let p := World.peek P m.2
        if p.1 = 0 then skipBreaks P eMSTimeout n (World.read P p.2).2
        else some p.2
      else some m.2
    else some a.2

/-- Second loop of `readBytes`:
`while ((!frameError()) && (ptr < len) && (millis() < eMSTimeout))
{ if (available()) { inEMSBuffer[ptr] = read(); ptr++; } }` -/
def readLoop (P : Platform σ) (len eMSTimeout : Nat) :
    Nat → Buffer → Nat → World σ → Option ((Buffer × Nat) × World σ)
  | 0, _, _, _ => none
  | n + 1, inEMSBuffer, ptr, w =>
    let fe := World.frameError P w
    if fe.1 then some ((inEMSBuffer, ptr), fe.2)
    else if ptr < len then
      let m := World.millis P fe.2
      if m.1 < eMSTimeout then
        let a := World.available P m.2
        if a.1 then
          let r := World.read P a.2
          readLoop P len eMSTimeout n (writeByte inEMSBuffer ptr r.1) (ptr + 1) r.2
        else readLoop P len eMSTimeout n inEMSBuffer ptr a.2
      else some ((inEMSBuffer, ptr), m.2)
    else some ((inEMSBuffer, ptr), fe.2)

/-- `Calduino::readBytes(inEMSBuffer, len, eMSTimeout)` with `len` a `byte`:
returns the buffer and the number of bytes read. -/
def readBytes (P : Platform σ) (fuel : Nat) (inEMSBuffer : Buffer) (len eMSTimeout : Nat)
    (w : World σ) : Option ((Buffer × Nat) × World σ) :=
  match skipBreaks P eMSTimeout fuel w with
  | none => none
  | some w1 =>
    match readLoop P (len % 256) eMSTimeout fuel inEMSBuffer 0 w1 with
    | none => none
    | some (r, w2) => some (r, World.flush P w2)

/-- `Calduino::sendBuffer(outEMSBuffer, len)`:
`for (byte j = 0; j < len - 1; j++) { write(outEMSBuffer[j]); delay(3); }
writeEOF(); delay(2); flush();`. The counter is a `byte`, so the loop is not
left when `len - 1` exceeds 255. -/
def sendBuffer (P : Platform σ) (outEMSBuffer : Buffer) (len : Int) (w : World σ) :
    Option (World σ) :=
  if 256 ≤ len - 1 then none
  else
    let w1 := (List.range (len - 1).toNat).foldl
      (fun v j => World.delay P 3 (World.write P (readByte outEMSBuffer j) v)) w
    some (World.flush P (World.delay P 2 (World.writeEOF P w1)))

/-- The polling loop of `sendRequest`:
`while ((pollAddress & 0x7F) != DeviceID::PC) { if (millis() > eMSTimeout) return false;
if (readBytes(auxBuffer, MAX_EMS_READ, eMSTimeout) == 2) pollAddress = auxBuffer[0]; }`.
The result is `false` for the `return false`, `true` when the loop is left. -/
def pollLoop (P : Platform σ) (fuel eMSTimeout : Nat) :
    Nat → Nat → Buffer → World σ → Option (Bool × World σ)
  | 0, _, _, _ => none
  | n + 1, pollAddress, auxBuffer, w =>
    if pollAddress &&& 0x7F ≠ DeviceID.PC then
      let m := World.millis P w
      if m.1 > eMSTimeout then some (false, m.2)
      else
        match readBytes P fuel auxBuffer MAX_EMS_READ eMSTimeout m.2 with
        | none => none
        | some ((aux1, k), w1) =>
          pollLoop P fuel eMSTimeout n (if k = 2 then readByte aux1 0 else pollAddress) aux1 w1
    else some (true, w)

/-- `Calduino::sendRequest(outEMSBuffer)`: stores the CRC at index 5, flushes,
waits for the poll and sends the buffer. Returns the result and the buffer
with its CRC. -/
def sendRequest (P : Platform σ) (fuel : Nat) (outEMSBuffer : Buffer) (w : World σ) :
    Option ((Bool × Buffer) × World σ) :=
  match crcCalculator fuel outEMSBuffer OUT_EMS_BUFFER_SIZE with
  | none => none
  | some crc =>
    let out1 := writeByte outEMSBuffer 5 crc
    let m := World.millis P (World.flush P w)
    let eMSTimeout := (m.1 + EMSMaxWaitTime * RETRY_FACTOR) % 2 ^ 32
    match pollLoop P fuel eMSTimeout fuel 0 (freshArray P m.2.st 0 MAX_EMS_READ) m.2 with
    | none => none
    | some (false, w1) => some ((false, out1), w1)
    | some (true, w1) =>
      match sendBuffer P out1 OUT_EMS_BUFFER_SIZE (World.delay P 2 w1) with
      | none => none
      | some w2 => some ((true, out1), w2)

/-- `while ((millis() < timeout) && (!calduinoSerial.available())) {}` -/
def waitAvailable (P : Platform σ) (timeout : Nat) : Nat → World σ → Option (World σ)
  | 0, _ => none
  | n + 1, w =>
    let m := World.millis P w
    if m.1 < timeout then
      let a := World.available P m.2
      if a.1 then some a.2 else waitAvailable P timeout n a.2
    else some m.2

/-- The block that follows a successful `sendRequest` in `getEMSCommand` and
(twice) in `setEMSCommand`:
`timeout = millis() + EMSMaxWaitTime; while (...) {} if (available()) { ptr = readBytes(buffer, len, timeout); ... }`.
`buffer s` is the array read into, given the target state at that point.
The result is `none` when nothing is available, else the buffer and `ptr`. -/
def awaitResponse (P : Platform σ) (fuel : Nat) (buffer : σ → Buffer) (len : Nat)
    (w : World σ) : Option (Option (Buffer × Nat) × World σ) :=
  let m := World.millis P w
  let timeout := (m.1 + EMSMaxWaitTime) % 2 ^ 32
  match waitAvailable P timeout fuel m.2 with
  | none => none
  | some w1 =>
    let a := World.available P w1
    if a.1 then
      match readBytes P fuel (buffer a.2.st) len timeout a.2 with
      | none => none
      | some (r, w2) => some (some r, w2)
    else some (none, a.2)

/-- The copy loop of `getEMSCommand`:
`for (int i = 0; i < outEMSBuffer[4]; i++) inEMSBuffer[i + 4 + auxBuffer[3]] = auxBuffer[i + 4];` -/
def copyPayload (inEMSBuffer auxBuffer : Buffer) (n : Nat) : Buffer :=
  (List.range n).foldl
    (fun b i => writeByte b (i + 4 + readByte auxBuffer 3) (readByte auxBuffer (i + 4)))
    inEMSBuffer

/-- The variables of `getEMSCommand` that its loop changes. -/
structure GetState where
  inEMSBuffer : Buffer
  outEMSBuffer : Buffer
  length : Nat
  offset : Nat
  deriving DecidableEq, Repr

/-- The test a read answer has to pass, in `getEMSCommand` and in the
read-back of `setEMSCommand`:
`(ptr > 4) && crcCheckOK(buffer, ptr) && (buffer[2] == messageID)`;
`crcCheckOK` is only called when `ptr > 4`. -/
def responseOK (fuel messageID : Nat) (buffer : Buffer) (ptr : Nat) : Option Bool :=
  if ptr > 4 then
    match crcCheckOK fuel buffer ptr with
    | none => none
    | some ok => some (ok && decide (readByte buffer 2 = messageID % 256))
  else some false

/-- The transaction in the loop body of `getEMSCommand` for the request
buffer `outEMSBuffer`: `sendRequest`, the wait for an answer, `readBytes` into
a fresh `auxBuffer` of `outEMSBuffer[4] + EMS_DATAGRAM_OVERHEAD` bytes and the
test of the answer. Returns the request buffer (with its CRC) and the
answer when it passed the test. -/
def chunkTransaction (P : Platform σ) (fuel messageID : Nat) (outEMSBuffer : Buffer)
    (w : World σ) : Option ((Buffer × Option Buffer) × World σ) :=
  match sendRequest P fuel outEMSBuffer w with
  | none => none
  | some ((false, out2), w1) => some ((out2, none), w1)
  | some ((true, out2), w1) =>
    match awaitResponse P fuel
        (fun s => freshArray P s 0 (readByte out2 4 + EMS_DATAGRAM_OVERHEAD))
        (readByte out2 4 + EMS_DATAGRAM_OVERHEAD) w1 with
    | none => none
    | some (none, w2) => some ((out2, none), w2)
    | some (some (auxBuffer, ptr), w2) =>
      match responseOK fuel messageID auxBuffer ptr with
      | none => none
      | some true => some ((out2, some auxBuffer), w2)
      | some false => some ((out2, none), w2)

/-- The state after an answer has passed the test: the payload copied,
`length -= (length > 26 ? 26 : length); offset += 26;`. -/
def acceptChunk (g : GetState) (out2 auxBuffer : Buffer) : GetState :=
  { inEMSBuffer := copyPayload g.inEMSBuffer auxBuffer (readByte out2 4)
    outEMSBuffer := out2
    length := (g.length -
      (if g.length > MAX_EMS_READ - EMS_DATAGRAM_OVERHEAD
       then MAX_EMS_READ - EMS_DATAGRAM_OVERHEAD else g.length)) % 256
    offset := (g.offset + (MAX_EMS_READ - EMS_DATAGRAM_OVERHEAD)) % 256 }

/-- The request buffer at the start of a pass through the loop of
`getEMSCommand`: `outEMSBuffer[3] = offset; outEMSBuffer[4] = (length > 26 ? 26 : length);` -/
def chunkRequest (g : GetState) : Buffer :=
  writeByte (writeByte g.outEMSBuffer 3 g.offset) 4
    (if g.length > MAX_EMS_READ - EMS_DATAGRAM_OVERHEAD
     then MAX_EMS_READ - EMS_DATAGRAM_OVERHEAD else g.length)

/-- One pass through the body of the `while` loop of `getEMSCommand`. -/
def getEMSIteration (P : Platform σ) (fuel messageID : Nat) (g : GetState) (w : World σ) :
    Option (GetState × World σ) :=
  match chunkTransaction P fuel messageID (chunkRequest g) w with
  | none => none
  | some ((out2, none), w1) => some ({ g with outEMSBuffer := out2 }, w1)
  | some ((out2, some auxBuffer), w1) => some (acceptChunk g out2 auxBuffer, w1)

/-- The `while (length > 0 && (offset > (char)outEMSBuffer[3]))` loop of
`getEMSCommand` and its `return (length == 0)`; `char` is signed. -/
def getEMSLoop (P : Platform σ) (fuel messageID : Nat) :
    Nat → GetState → World σ → Option ((Bool × Buffer) × World σ)
  | 0, _, _ => none
  | n + 1, g, w =>
    if g.length > 0 ∧ (g.offset : Int) > wrapSigned 8 (readByte g.outEMSBuffer 3 : Nat) then
      match getEMSIteration P fuel messageID g w with
      | none => none
      | some (g1, w1) => getEMSLoop P fuel messageID n g1 w1
    else some ((decide (g.length = 0), g.inEMSBuffer), w)

/-- The request buffer of `getEMSCommand` before its loop:
`outEMSBuffer[0] = DeviceID::PC; outEMSBuffer[1] = destinationID | 0x80;
outEMSBuffer[2] = messageID; outEMSBuffer[3] = -1;` -/
def getEMSHeader (P : Platform σ) (s : σ) (destinationID messageID : Nat) : Buffer :=
  writeByte (writeByte (writeByte (writeByte (freshArray P s 0 OUT_EMS_BUFFER_SIZE)
    0 DeviceID.PC) 1 (destinationID ||| 0x80)) 2 messageID) 3 255

/-- `Calduino::getEMSCommand(inEMSBuffer, destinationID, messageID, length, offset)`:
returns the result and the destination buffer. -/
def getEMSCommand (P : Platform σ) (fuel : Nat) (inEMSBuffer : Buffer)
    (destinationID messageID length offset : Nat) (w : World σ) :
    Option ((Bool × Buffer) × World σ) :=
  getEMSLoop P fuel messageID fuel
    { inEMSBuffer := inEMSBuffer
      outEMSBuffer := getEMSHeader P w.st destinationID messageID
      length := length % 256
      offset := offset % 256 } w

/-- The read-back half of `setEMSCommand`: the request with
`destinationID | 0x80` and length 1, and the comparison of the answer with
`data`. -/
def setEMSVerify (P : Platform σ) (fuel : Nat) (outEMSBuffer inEMSBuffer : Buffer)
    (destinationID messageID data : Nat) (w : World σ) : Option (Bool × World σ) :=
  let out1 := writeByte (writeByte outEMSBuffer 1 (destinationID ||| 0x80)) 4 1
  match sendRequest P fuel out1 w with
  | none => none
  | some ((false, _), w1) => some (false, w1)
  | some ((true, _), w1) =>
    match awaitResponse P fuel (fun _ => inEMSBuffer) OUT_EMS_BUFFER_SIZE w1 with
    | none => none
    | some (none, w2) => some (false, w2)
    | some (some (in1, ptr), w2) =>
      match responseOK fuel messageID in1 ptr with
      | none => none
      | some true => some (decide (data % 256 = readByte in1 4), w2)
      | some false => some (false, w2)

/-- `Calduino::setEMSCommand(destinationID, messageID, offset, data)`. -/
def setEMSCommand (P : Platform σ) (fuel : Nat) (destinationID messageID offset data : Nat)
    (w : World σ) : Option (Bool × World σ) :=
  let out := writeByte (writeByte (writeByte (writeByte (writeByte
    (freshArray P w.st 0 OUT_EMS_BUFFER_SIZE) 0 DeviceID.PC) 1 destinationID) 2 messageID)
    3 offset) 4 data
  let inEMSBuffer := freshArray P w.st OUT_EMS_BUFFER_SIZE OUT_EMS_BUFFER_SIZE
  match sendRequest P fuel out w with
  | none => none
  | some ((false, _), w1) => some (false, w1)
  | some ((true, out1), w1) =>
    match awaitResponse P fuel (fun _ => inEMSBuffer) 1 w1 with
    | none => none
    | some (none, w2) => some (false, w2)
    | some (some (in1, _), w2) =>
      if readByte in1 0 ≠ 0x01 then some (false, w2)
      else setEMSVerify P fuel out1 in1 destinationID messageID data w2

end Engine


/-! ## Retry layer and public operations -/

/-- `CalduinoData::decodeByteValue`: `(uint8_t)inEMSBuffer[offset]`. -/
def decodeByteValue (d : CalduinoData) (inEMSBuffer : Buffer) : Nat :=
  readByte inEMSBuffer d.offset

/-- `#define MAX_HC_CIRCUIT 2` -/
def MAX_HC_CIRCUIT : Nat := 2

/-- `#define MAX_WORKING_MODE 2` -/
def MAX_WORKING_MODE : Nat := 2

section Operations

variable {σ : Type}

/-- The `do ... while ((millis() < timeout) && (!operationStatus))` loop of
`getEMSBuffer`; the attempt is
`getEMSCommand(inEMSBuffer, destinationID, messageID, (length == 0 ? messageLength : length),
(offset == 0 ? offset : offset - INITIAL_OFFSET))`. -/
def getEMSBufferLoop (P : Platform σ) (fuel : Nat) (eMSDatagram : EMSDatagram)
    (length offset timeout : Nat) : Nat → Buffer → World σ → Option ((Bool × Buffer) × World σ)
  | 0, _, _ => none
  | n + 1, inEMSBuffer, w =>
    match getEMSCommand P fuel inEMSBuffer eMSDatagram.destinationID eMSDatagram.messageID
        (if length = 0 then eMSDatagram.messageLength else length)
        (if offset = 0 then offset else (((offset : Int) - INITIAL_OFFSET) % 256).toNat) w with
    | none => none
    | some ((operationStatus, in1), w1) =>
      let m := World.millis P w1
      if m.1 < timeout ∧ operationStatus = false then
        getEMSBufferLoop P fuel eMSDatagram length offset timeout n in1 m.2
      else some ((operationStatus, in1), m.2)

/-- `Calduino::getEMSBuffer(inEMSBuffer, eMSDatagram, length, offset)` with
`timeout = (long)millis() + EMSMaxWaitTime * RETRY_FACTOR * 2`. -/
def getEMSBuffer (P : Platform σ) (fuel : Nat) (inEMSBuffer : Buffer) (eMSDatagram : EMSDatagram)
    (length offset : Nat) (w : World σ) : Option ((Bool × Buffer) × World σ) :=
  let m := World.millis P w
  getEMSBufferLoop P fuel eMSDatagram length offset
    ((m.1 + EMSMaxWaitTime * RETRY_FACTOR * 2) % 2 ^ 32) fuel inEMSBuffer m.2

/-- The `do ... while ((millis() < timeout) && (!operationStatus))` loop of
`updateEMSDatagram`; the attempt is `setEMSCommand(destinationID, messageID, offset, data)`. -/
def updateEMSDatagramLoop (P : Platform σ) (fuel : Nat)
    (destinationID messageID offset data timeout : Nat) :
    Nat → World σ → Option (Bool × World σ)
  | 0, _ => none
  | n + 1, w =>
    match setEMSCommand P fuel destinationID messageID offset data w with
    | none => none
    | some (operationStatus, w1) =>
      let m := World.millis P w1
      if m.1 < timeout ∧ operationStatus = false then
        updateEMSDatagramLoop P fuel destinationID messageID offset data timeout n m.2
      else some (operationStatus, m.2)

/-- `Calduino::updateEMSDatagram(eMSDatagramID, datagramDataIndex, data, extraOffset)`:
looks the datagram and the field up in the catalog and repeats
`setEMSCommand(destinationID, messageID, calduinoData.offset - INITIAL_OFFSET + extraOffset, data)`
with `timeout = millis() + EMSMaxWaitTime * RETRY_FACTOR`. The output on the
debug stream is left out. Both indices are in range for every caller. -/
def updateEMSDatagram (P : Platform σ) (fuel : Nat) (eMSDatagramID datagramDataIndex data : Nat)
    (extraOffset : Nat) (w : World σ) : Option (Bool × World σ) :=
  let eMSDatagram := eMSDatagramIDs.getD eMSDatagramID default
  let calduinoData := eMSDatagram.data.getD datagramDataIndex default
  let m := World.millis P w
  updateEMSDatagramLoop P fuel eMSDatagram.destinationID eMSDatagram.messageID
    ((((calduinoData.offset : Int) - INITIAL_OFFSET + extraOffset) % 256).toNat) data
    ((m.1 + EMSMaxWaitTime * RETRY_FACTOR) % 2 ^ 32) fuel m.2

/-- `Calduino::getCalduinoByteValue(typeIdx)`: reads the field into a local
buffer of `messageLength + EMS_DATAGRAM_OVERHEAD` bytes and decodes it, or
returns `ERROR_VALUE`. -/
def getCalduinoByteValue (P : Platform σ) (fuel : Nat) (typeIdx : ByteRequest) (w : World σ) :
    Option (Nat × World σ) :=
  let calduinoDataType := byteRequests.getD typeIdx.toCtorIdx default
  let eMSDatagram := calduinoDataType.eMSDatagram
  let calduinoData := calduinoDataType.dataType
  match getEMSBuffer P fuel
      (freshArray P w.st 0 (eMSDatagram.messageLength + EMS_DATAGRAM_OVERHEAD))
      eMSDatagram 1 calduinoData.offset w with
  | none => none
  | some ((operationStatus, in1), w1) =>
    some (if operationStatus then decodeByteValue calduinoData in1 else ERROR_VALUE, w1)

/-- `Calduino::setWorkModeHC(selHC, selMode)`. -/
def setWorkModeHC (P : Platform σ) (fuel : Nat) (selHC selMode : Nat) (w : World σ) :
    Option (Bool × World σ) :=
  if selHC > 0 ∧ selHC ≤ MAX_HC_CIRCUIT ∧ selMode ≤ MAX_WORKING_MODE then
    updateEMSDatagram P fuel (EMSDatagramID.Working_Mode_HC_1.toCtorIdx + (selHC - 1) * 4) 5
      selMode 0 w
  else some (false, w)

end Operations


/-! ## A simulated bus

A small executable target used to run the engine on concrete inputs: a clock
that advances by `tick` at every `millis()`, a receive queue, and a device
that answers the frames it is sent. After each `flush` the next thing to
arrive is the answer to the frame just sent, if there is one, and the
bytes `poll` of the bus master otherwise; nothing arrives while
`now < quietUntil`. -/

/-- State of the simulated bus. -/
structure SimState where
  now : Nat
  tick : Nat
  quietUntil : Nat
  rx : List (Nat × Bool)
  err : Bool
  frame : List Nat
  reply : Option (List (Nat × Bool))
  message : List Nat
  ack : List (Nat × Bool)
  poll : List (Nat × Bool)
  garbage : Nat
  deriving DecidableEq, Repr

/-- The answer of the simulated device to the frame it has received: the
acknowledgement `ack` for a write, the header, the requested bytes of
its message, the CRC and a break for a read; no answer to a read that
reaches beyond its message. -/
def simReply (s : SimState) : Option (List (Nat × Bool)) × List Nat :=
  match s.frame with
  | [_, dest, t, off, len, _] =>
    if dest &&& 0x80 = 0 then
      (some s.ack, s.message.set off len)
    else if s.message.length < off + len then (none, s.message)
    else
      let body := [dest &&& 0x7F, DeviceID.PC, t, off] ++
        (List.range len).map (fun i => s.message.getD (off + i) 0)
      (some ((body ++ [crcSpec body (body.length + 2)]).map (fun b => (b, false)) ++
        [(0, true)]), s.message)
  | _ => (none, s.message)

/-- The simulated target. -/
def simPlatform : Platform SimState where
  millis s := (s.now, { s with now := s.now + s.tick })
  delay ms s := { s with now := s.now + ms }
  available s := ((s.rx.length : Int), s)
  peek s := (match s.rx with | [] => -1 | (b, _) :: _ => (b : Int), s)
  read s :=
    match s.rx with
    | [] => (-1, s)
    | (b, fe) :: rest => ((b : Int), { s with rx := rest, err := fe })
  flush s :=
    if s.now < s.quietUntil then { s with rx := [], err := false }
    else
      match s.reply with
      | some r => { s with rx := r, err := false, reply := none }
      | none => { s with rx := s.poll, err := false }
  frameError s := (s.err, { s with err := false })
  write b s := { s with frame := s.frame ++ [b] }
  writeEOF s := { s with frame := [], reply := (simReply s).1, message := (simReply s).2 }
  stack s _ := s.garbage

/-- A simulated bus at time 0 with the given device message. -/
def simStart (message : List Nat) : World SimState :=
  { st := { now := 0, tick := 1, quietUntil := 0, rx := [], err := false, frame := [],
            reply := none, message := message, ack := [(1, false), (0, true)],
            poll := [(0x8B, false), (0, true)], garbage := 0 }
    tx := [] }

/-- A device message of `n` bytes, `100, 101, ...`. -/
def sampleMessage (n : Nat) : List Nat :=
  (List.range n).map (fun i => 100 + i)

/-- The simulated bus with a device message of 40 bytes. -/
def readyBus : World SimState :=
  simStart (sampleMessage 40)

/-- The simulated bus with a device message of 30 bytes only. -/
def shortMessageBus : World SimState :=
  simStart (sampleMessage 30)

/-- A simulated bus whose device answers a write with a break and no
acknowledgement byte, on a target whose uninitialised cells hold `0x01`. -/
def breakOnlyAckBus : World SimState :=
  { st := { readyBus.st with ack := [(0, true)], garbage := 1 }, tx := [] }

/-- The bus of `breakOnlyAckBus` on a target whose uninitialised cells hold
`0x00`. -/
def breakOnlyAckBusZero : World SimState :=
  { st := { readyBus.st with ack := [(0, true)], garbage := 0 }, tx := [] }

/-- A simulated bus on which the two bytes `0x0B 0x55` arrive after each
flush, neither with a frame error, and nothing else; the clock advances by
500 ms at every reading. -/
def strayBytesBus : World SimState :=
  { st := { readyBus.st with tick := 500, poll := [(0x0B, false), (0x55, false)] }, tx := [] }

/-- A simulated bus that stays silent for the first 4200 ms; the clock
advances by 50 ms at every reading. -/
def lateBus : World SimState :=
  { st := { readyBus.st with tick := 50, quietUntil := 4200 }, tx := [] }

/-- The variables of `getEMSCommand` in front of its loop for a read of 38
bytes from data offset 2 of message `0x18` of device `0x08`. -/
def sampleGetState : GetState :=
  { inEMSBuffer := List.replicate 46 0
    outEMSBuffer := [0x0B, 0x88, 0x18, 255, 0, 0, 0]
    length := 38
    offset := 2 }


/-! ## Frames as the specification describes them -/

/-- The six bytes of the request buffer `out` followed by the end-of-frame
break, as the transport sees them. -/
def frameEvents (out : Buffer) : List TxEvent :=
  [TxEvent.byte (readByte out 0), TxEvent.byte (readByte out 1), TxEvent.byte (readByte out 2),
   TxEvent.byte (readByte out 3), TxEvent.byte (readByte out 4), TxEvent.byte (readByte out 5),
   TxEvent.eof]

/-- The request frame `[0x0B, b1, t, off, n, CRC]` followed by one
end-of-frame break, with the CRC of the five bytes in front of it. -/
def requestFrame (b1 t off n : Nat) : List TxEvent :=
  [TxEvent.byte 0x0B, TxEvent.byte (b1 % 256), TxEvent.byte (t % 256), TxEvent.byte (off % 256),
   TxEvent.byte (n % 256),
   TxEvent.byte (crcSpec [0x0B, b1 % 256, t % 256, off % 256, n % 256] 7),
   TxEvent.eof]

/-- The chunks of a segmented read of `L` bytes from data offset `o`: the
`k`-th request asks for `min 26 (L - 26 k)` bytes at offset `o + 26 k`, for
`k < ceil (L / 26)`. -/
def chunkList (o L : Nat) : List (Nat × Nat) :=
  (List.range ((L + 25) / 26)).map (fun k => (o + 26 * k, min 26 (L - 26 * k)))

/-- The request buffer of `getEMSCommand` for one chunk, the cells behind
the length being of no account. -/
def chunkBuffer (destinationID messageID off n : Nat) : Buffer :=
  [0x0B, (destinationID ||| 0x80) % 256, messageID % 256, off % 256, n % 256, 0, 0]

section SpecRun

variable {σ : Type}

/-- The chunk transactions for the requests `chunks`, one after the other,
as long as each answer passes the test; the answers in order. -/
def runChunks (P : Platform σ) (fuel destinationID messageID : Nat) :
    List (Nat × Nat) → World σ → Option (List Buffer × World σ)
  | [], w => some ([], w)
  | c :: rest, w =>
    match chunkTransaction P fuel messageID (chunkBuffer destinationID messageID c.1 c.2) w with
    | some ((_, some aux), w1) =>
      match runChunks P fuel destinationID messageID rest w1 with
      | some (auxs, w2) => some (aux :: auxs, w2)
      | none => none
    | _ => none

/-- The destination buffer after the payloads of the answers `auxs` to the
requests `chunks` have been copied in, in order. -/
def applyChunks : Buffer → List (Nat × Nat) → List Buffer → Buffer
  | b, c :: chunks, aux :: auxs => applyChunks (copyPayload b aux c.2) chunks auxs
  | b, _, _ => b

/-- The retry policy in the words of the specification: make an attempt
and stop at the first success; after a failed attempt read the clock, give
up when the reading has reached the deadline and repeat otherwise. The clock
is read after a successful attempt as well, as the code does. `a` is what
one attempt hands to the next. -/
def retryPolicy {α : Type} (P : Platform σ)
    (attempt : α → World σ → Option ((Bool × α) × World σ)) (deadline : Nat) :
    Nat → α → World σ → Option ((Bool × α) × World σ)
  | 0, _, _ => none
  | n + 1, a, w =>
    match attempt a w with
    | none => none
    | some ((true, a1), w1) => some ((true, a1), (World.millis P w1).2)
    | some ((false, a1), w1) =>
      if deadline ≤ (World.millis P w1).1 then some ((false, a1), (World.millis P w1).2)
      else retryPolicy P attempt deadline n a1 (World.millis P w1).2

/-- A target whose transport never has a byte available; `clock` is the
time its states stand for, read by `millis()` and moved on by every reading. -/
structure SilentBus (P : Platform σ) (clock : σ → Nat) : Prop where
  available_none : ∀ s, (P.available s).1 = 0
  millis_value : ∀ s, (P.millis s).1 = clock s
  millis_advance : ∀ s, clock s < clock (P.millis s).2
  available_clock : ∀ s, clock s ≤ clock (P.available s).2
  frameError_clock : ∀ s, clock s ≤ clock (P.frameError s).2
  flush_clock : ∀ s, clock s ≤ clock (P.flush s)

end SpecRun

/-- A target with a silent transport: the state is the clock, which every
reading moves on by one millisecond. -/
def silentPlatform : Platform Nat where
  millis t := (t, t + 1)
  delay ms t := t + ms
  available t := (0, t)
  peek t := (-1, t)
  read t := (-1, t)
  flush t := t
  frameError t := (false, t)
  write _ t := t
  writeEOF t := t
  stack _ _ := 0

/-- A target with a silent transport and a slower clock: every reading of
`millis()` moves the time on by 50 ms. -/
def slowSilentPlatform : Platform Nat where
  millis t := (t, t + 50)
  delay ms t := t + ms
  available t := (0, t)
  peek t := (-1, t)
  read t := (-1, t)
  flush t := t
  frameError t := (false, t)
  write _ t := t
  writeEOF t := t
  stack _ _ := 0

/-- The header of the request buffer of `getEMSCommand`: seven cells, the
address of the engine, the destination with the read flag and the message
type. -/
def HeaderOK (out : Buffer) (b1 t : Nat) : Prop :=
  out.length = 7 ∧ readByte out 0 = 0x0B ∧ readByte out 1 = b1 ∧ readByte out 2 = t

/-- The number of bytes a pass through the loop of `getEMSCommand` asks for:
`(length > 26 ? 26 : length)`. -/
def chunkSize (length : Nat) : Nat :=
  if length > MAX_EMS_READ - EMS_DATAGRAM_OVERHEAD then MAX_EMS_READ - EMS_DATAGRAM_OVERHEAD
  else length

/-- The state of the loop of `getEMSCommand` in front of a chunk: `L` bytes
remain, to be read from data offset `o`, the data offset of every chunk
still to be requested lies below 128, and the offset of the request sent
before lies below `o`. -/
def LoopInv (b1 t1 : Nat) (g : GetState) (o L : Nat) : Prop :=
  HeaderOK g.outEMSBuffer b1 t1 ∧ g.length = L ∧ g.offset = o ∧ L < 256 ∧ o < 256 ∧
    (0 < L → o + 26 * ((L + 25) / 26 - 1) < 128) ∧
    wrapSigned 8 (readByte g.outEMSBuffer 3 : Nat) < (o : Int)

/-- The three ways the chunk transaction for the request buffer `out` fails,
leaving the target in `w2`: `sendRequest` returns `false`, no answer arrives,
or the answer does not pass the test. -/
def ChunkFails {σ : Type} (P : Platform σ) (fuel messageID : Nat) (out : Buffer)
    (w w2 : World σ) : Prop :=
  (∃ out2, sendRequest P fuel out w = some ((false, out2), w2)) ∨
  (∃ out2 wS, sendRequest P fuel out w = some ((true, out2), wS) ∧
    awaitResponse P fuel (fun s => freshArray P s 0 (readByte out2 4 + EMS_DATAGRAM_OVERHEAD))
      (readByte out2 4 + EMS_DATAGRAM_OVERHEAD) wS = some (none, w2)) ∨
  (∃ out2 wS aux ptr, sendRequest P fuel out w = some ((true, out2), wS) ∧
    awaitResponse P fuel (fun s => freshArray P s 0 (readByte out2 4 + EMS_DATAGRAM_OVERHEAD))
      (readByte out2 4 + EMS_DATAGRAM_OVERHEAD) wS = some (some (aux, ptr), w2) ∧
    responseOK fuel messageID aux ptr = some false)


/-! ## The second chunk on the bus with the short message

The states of a read of 38 bytes from data offset 2 on `shortMessageBus`:
after the first chunk, after the second request has been sent, and after
what arrived then has been read. -/

/-- The first chunk transaction on `shortMessageBus`. -/
def shortFirstChunk : List Buffer × World SimState :=
  (runChunks simPlatform 64 0x08 0x18 ((chunkList 2 38).take 1) shortMessageBus).getD
    ([], shortMessageBus)

/-- The `sendRequest` of the second chunk. -/
def shortSecondSent : (Bool × Buffer) × World SimState :=
  (sendRequest simPlatform 64 (chunkBuffer 0x08 0x18 (2 + 26 * 1) (min 26 (38 - 26 * 1)))
    shortFirstChunk.2).getD ((false, []), shortMessageBus)

/-- The wait for an answer to the second chunk and the `readBytes` that
follows. -/
def shortSecondRead : Option (Buffer × Nat) × World SimState :=
  (awaitResponse simPlatform 64
    (fun s => freshArray simPlatform s 0 (readByte shortSecondSent.1.2 4 + EMS_DATAGRAM_OVERHEAD))
    (readByte shortSecondSent.1.2 4 + EMS_DATAGRAM_OVERHEAD) shortSecondSent.2).getD
    (none, shortMessageBus)

/-! ## Facade: `begin`, the bit getter and the setters

`boolean` is `bool` (Arduino core for AVR), so a conversion to it gives
`true` for every value other than zero, NaN included. Parameters of type
`byte` are natural numbers, parameters of type `int8_t` integers. -/

/-- `#define MAX_SETBACK_MODE 3` -/
def MAX_SETBACK_MODE : Nat := 3

/-- `#define MAX_PROGRAM 10` -/
def MAX_PROGRAM : Nat := 10

/-- `#define MAX_DHW_TEMPERATURE 80` -/
def MAX_DHW_TEMPERATURE : Nat := 80

/-- `#define MIN_DHW_TEMPERATURE 40` -/
def MIN_DHW_TEMPERATURE : Nat := 40

/-- `#define MAX_TEMPERATURE 29` -/
def MAX_TEMPERATURE : Nat := 29

/-- `#define MIN_TEMPERATURE 6` -/
def MIN_TEMPERATURE : Nat := 6

/-- `#define MAX_ROOM_TEMPERATURE_OFFSET 5` -/
def MAX_ROOM_TEMPERATURE_OFFSET : Int := 5

/-- `#define MIN_ROOM_TEMPERATURE_OFFSET -5` -/
def MIN_ROOM_TEMPERATURE_OFFSET : Int := -5

/-- `#define MAX_SUMMER_WINTER_THRESHOLD 30` -/
def MAX_SUMMER_WINTER_THRESHOLD : Nat := 30

/-- `#define MIN_SUMMER_WINTER_THRESHOLD 10` -/
def MIN_SUMMER_WINTER_THRESHOLD : Nat := 10

/-- `#define MAX_OUT_NIGHT_THRESHOLD 10` -/
def MAX_OUT_NIGHT_THRESHOLD : Int := 10

/-- `#define MIN_OUT_NIGHT_THRESHOLD -20` -/
def MIN_OUT_NIGHT_THRESHOLD : Int := -20

/-- `#define DHW_ONETIME_ON  39` -/
def DHW_ONETIME_ON : Nat := 39

/-- `#define DHW_ONETIME_OFF 7` -/
def DHW_ONETIME_OFF : Nat := 7

/-- `#define MAX_DAY 31` -/
def MAX_DAY : Nat := 31

/-- `#define MAX_MONTH 12` -/
def MAX_MONTH : Nat := 12

/-- `CalduinoData::decodeBitValue`:
`(bool)bitRead((uint8_t)inEMSBuffer[offset], bitOffset)`, where
`bitRead(value, bit)` is `(((value) >> (bit)) & 0x01)`. -/
def decodeBitValue (d : CalduinoData) (inEMSBuffer : Buffer) : Bool :=
  decide ((readByte inEMSBuffer d.offset >>> d.bitOffset) &&& 0x01 ≠ 0)

section Facade

variable {σ : Type}

/-- `Calduino::getCalduinoBitValue(typeIdx)`: reads the field into a local
buffer of `messageLength + EMS_DATAGRAM_OVERHEAD` bytes and decodes the bit.
The result is initialised with `boolean result = NAN;`, which is `true`. -/
def getCalduinoBitValue (P : Platform σ) (fuel : Nat) (typeIdx : BitRequest) (w : World σ) :
    Option (Bool × World σ) :=
  let calduinoDataType := bitRequests.getD typeIdx.toCtorIdx default
  let eMSDatagram := calduinoDataType.eMSDatagram
  let calduinoData := calduinoDataType.dataType
  match getEMSBuffer P fuel
      (freshArray P w.st 0 (eMSDatagram.messageLength + EMS_DATAGRAM_OVERHEAD))
      eMSDatagram 1 calduinoData.offset w with
  | none => none
  | some ((operationStatus, in1), w1) =>
    some (if operationStatus then decodeBitValue calduinoData in1 else true, w1)

/-- `Calduino::begin(_calduinoSerial, _debugSerial)`:
`return getCalduinoByteValue(ByteRequest::second_b);`, the byte converted to
`boolean`. The assignment of the two streams is left out. -/
def begin (P : Platform σ) (fuel : Nat) (w : World σ) : Option (Bool × World σ) :=
  match getCalduinoByteValue P fuel ByteRequest.second_b w with
  | none => none
  | some (v, w1) => some (decide (v ≠ 0), w1)

/-- `Calduino::setTemperatureHC(selHC, selMode, selTmp)`. -/
def setTemperatureHC (P : Platform σ) (fuel : Nat) (selHC selMode selTmp : Nat) (w : World σ) :
    Option (Bool × World σ) :=
  if selHC > 0 ∧ selHC ≤ MAX_HC_CIRCUIT ∧ selMode ≤ MAX_WORKING_MODE ∧
      selTmp ≤ MAX_TEMPERATURE * 2 ∧ selTmp ≥ MIN_TEMPERATURE * 2 then
    updateEMSDatagram P fuel (EMSDatagramID.Working_Mode_HC_1.toCtorIdx + (selHC - 1) * 4)
      selMode selTmp 0 w
  else some (false, w)

/-- `Calduino::setProgramHC(selHC, selProgram)`. -/
def setProgramHC (P : Platform σ) (fuel : Nat) (selHC selProgram : Nat) (w : World σ) :
    Option (Bool × World σ) :=
  if selHC > 0 ∧ selHC ≤ MAX_HC_CIRCUIT ∧ selProgram ≤ MAX_PROGRAM then
    updateEMSDatagram P fuel (EMSDatagramID.Program_1_HC_1.toCtorIdx + (selHC - 1) * 4)
      DatagramDataIndex.programNameIdx selProgram 0 w
  else some (false, w)

/-- `Calduino::setSWThresholdTempHC(selHC, selTmp)`. -/
def setSWThresholdTempHC (P : Platform σ) (fuel : Nat) (selHC selTmp : Nat) (w : World σ) :
    Option (Bool × World σ) :=
  if selHC > 0 ∧ selHC ≤ MAX_HC_CIRCUIT ∧ selTmp ≤ MAX_SUMMER_WINTER_THRESHOLD ∧
      selTmp ≥ MIN_SUMMER_WINTER_THRESHOLD then
    updateEMSDatagram P fuel (EMSDatagramID.Working_Mode_HC_1.toCtorIdx + (selHC - 1) * 4)
      DatagramDataIndex.sWThresTempHCIdx selTmp 0 w
  else some (false, w)

/-- `Calduino::setNightSetbackModeHC(selHC, selMode)`. -/
def setNightSetbackModeHC (P : Platform σ) (fuel : Nat) (selHC selMode : Nat) (w : World σ) :
    Option (Bool × World σ) :=
  if selHC > 0 ∧ selHC ≤ MAX_HC_CIRCUIT ∧ selMode ≤ MAX_SETBACK_MODE then
    updateEMSDatagram P fuel (EMSDatagramID.Working_Mode_HC_1.toCtorIdx + (selHC - 1) * 4)
      DatagramDataIndex.nightSetbackHCIdx selMode 0 w
  else some (false, w)

/-- `Calduino::setNightThresholdOutTempHC(selHC, selTmp)` with `selTmp` an
`int8_t`, handed to `updateEMSDatagram` as a `byte`. -/
def setNightThresholdOutTempHC (P : Platform σ) (fuel : Nat) (selHC : Nat) (selTmp : Int)
    (w : World σ) : Option (Bool × World σ) :=
  if selHC > 0 ∧ selHC ≤ MAX_HC_CIRCUIT ∧ selTmp ≤ MAX_OUT_NIGHT_THRESHOLD ∧
      selTmp ≥ MIN_OUT_NIGHT_THRESHOLD then
    updateEMSDatagram P fuel (EMSDatagramID.Working_Mode_HC_1.toCtorIdx + (selHC - 1) * 4)
      DatagramDataIndex.nightOutTempHCIdx (selTmp % 256).toNat 0 w
  else some (false, w)

/-- `Calduino::setRoomTempOffsetHC(selHC, selTmp)` with `selTmp` an `int8_t`,
handed to `updateEMSDatagram` as a `byte`. -/
def setRoomTempOffsetHC (P : Platform σ) (fuel : Nat) (selHC : Nat) (selTmp : Int)
    (w : World σ) : Option (Bool × World σ) :=
  if selHC > 0 ∧ selHC ≤ MAX_HC_CIRCUIT ∧ selTmp ≤ MAX_ROOM_TEMPERATURE_OFFSET * 2 ∧
      selTmp ≥ MIN_ROOM_TEMPERATURE_OFFSET * 2 then
    updateEMSDatagram P fuel (EMSDatagramID.Working_Mode_HC_1.toCtorIdx + (selHC - 1) * 4)
      DatagramDataIndex.roomTempOffHCIdx (selTmp % 256).toNat 0 w
  else some (false, w)

/-- `Calduino::setPauseModeHC(selHC, duration)`. -/
def setPauseModeHC (P : Platform σ) (fuel : Nat) (selHC duration : Nat) (w : World σ) :
    Option (Bool × World σ) :=
  if selHC > 0 ∧ selHC ≤ MAX_HC_CIRCUIT then
    updateEMSDatagram P fuel (EMSDatagramID.Program_1_HC_1.toCtorIdx + (selHC - 1) * 4)
      DatagramDataIndex.pauseTimeIdx duration 0 w
  else some (false, w)

/-- `Calduino::setPartyModeHC(selHC, duration)`. -/
def setPartyModeHC (P : Platform σ) (fuel : Nat) (selHC duration : Nat) (w : World σ) :
    Option (Bool × World σ) :=
  if selHC > 0 ∧ selHC ≤ MAX_HC_CIRCUIT then
    updateEMSDatagram P fuel (EMSDatagramID.Program_1_HC_1.toCtorIdx + (selHC - 1) * 4)
      DatagramDataIndex.partyTimeIdx duration 0 w
  else some (false, w)

/-- `Calduino::setHolidayModeHC`: six calls of `updateEMSDatagram`, the first
assigned to `operationStatus`, the others combined with `&=`. -/
def setHolidayModeHC (P : Platform σ) (fuel : Nat)
    (selHC startHolidayDay startHoldidayMonth startHolidayYear endHolidayDay endHoldidayMonth
      endHolidayYear : Nat) (w : World σ) : Option (Bool × World σ) :=
  if selHC > 0 ∧ selHC ≤ MAX_HC_CIRCUIT ∧ startHolidayDay ≤ MAX_DAY ∧ endHolidayDay ≤ MAX_DAY ∧
      startHoldidayMonth ≤ MAX_MONTH ∧ endHoldidayMonth ≤ MAX_MONTH then
    match updateEMSDatagram P fuel (EMSDatagramID.Program_1_HC_1.toCtorIdx + (selHC - 1) * 4)
        DatagramDataIndex.startHolidayDayIdx startHolidayDay 0 w with
    | none => none
    | some (s1, w1) =>
    match updateEMSDatagram P fuel (EMSDatagramID.Program_1_HC_1.toCtorIdx + (selHC - 1) * 4)
        DatagramDataIndex.startHolidayMonthIdx startHoldidayMonth 0 w1 with
    | none => none
    | some (s2, w2) =>
    match updateEMSDatagram P fuel (EMSDatagramID.Program_1_HC_1.toCtorIdx + (selHC - 1) * 4)
        DatagramDataIndex.startHolidayYearIdx startHolidayYear 0 w2 with
    | none => none
    | some (s3, w3) =>
    match updateEMSDatagram P fuel (EMSDatagramID.Program_1_HC_1.toCtorIdx + (selHC - 1) * 4)
        DatagramDataIndex.endHolidayDayIdx endHolidayDay 0 w3 with
    | none => none
    | some (s4, w4) =>
    match updateEMSDatagram P fuel (EMSDatagramID.Program_1_HC_1.toCtorIdx + (selHC - 1) * 4)
        DatagramDataIndex.endHolidayMonthIdx endHoldidayMonth 0 w4 with
    | none => none
    | some (s5, w5) =>
    match updateEMSDatagram P fuel (EMSDatagramID.Program_1_HC_1.toCtorIdx + (selHC - 1) * 4)
        DatagramDataIndex.endHolidayYearIdx endHolidayYear 0 w5 with
    | none => none
    | some (s6, w6) => some (((((s1 && s2) && s3) && s4) && s5) && s6, w6)
  else some (false, w)

/-- `Calduino::setHomeHolidayModeHC`: as `setHolidayModeHC`, for the six
fields of the home holiday. -/
def setHomeHolidayModeHC (P : Platform σ) (fuel : Nat)
    (selHC startHomeHolidayDay startHomeHoldidayMonth startHomeHolidayYear endHomeHolidayDay
      endHomeHoldidayMonth endHomeHolidayYear : Nat) (w : World σ) : Option (Bool × World σ) :=
  if selHC > 0 ∧ selHC ≤ MAX_HC_CIRCUIT ∧ startHomeHolidayDay ≤ MAX_DAY ∧
      endHomeHolidayDay ≤ MAX_DAY ∧ startHomeHoldidayMonth ≤ MAX_MONTH ∧
      endHomeHoldidayMonth ≤ MAX_MONTH then
    match updateEMSDatagram P fuel (EMSDatagramID.Program_1_HC_1.toCtorIdx + (selHC - 1) * 4)
        DatagramDataIndex.startHomeHolidayDayIdx startHomeHolidayDay 0 w with
    | none => none
    | some (s1, w1) =>
    match updateEMSDatagram P fuel (EMSDatagramID.Program_1_HC_1.toCtorIdx + (selHC - 1) * 4)
        DatagramDataIndex.startHomeHolidayMonthIdx startHomeHoldidayMonth 0 w1 with
    | none => none
    | some (s2, w2) =>
    match updateEMSDatagram P fuel (EMSDatagramID.Program_1_HC_1.toCtorIdx + (selHC - 1) * 4)
        DatagramDataIndex.startHomeHolidayYearIdx startHomeHolidayYear 0 w2 with
    | none => none
    | some (s3, w3) =>
    match updateEMSDatagram P fuel (EMSDatagramID.Program_1_HC_1.toCtorIdx + (selHC - 1) * 4)
        DatagramDataIndex.endHomeHolidayDayIdx endHomeHolidayDay 0 w3 with
    | none => none
    | some (s4, w4) =>
    match updateEMSDatagram P fuel (EMSDatagramID.Program_1_HC_1.toCtorIdx + (selHC - 1) * 4)
        DatagramDataIndex.endHomeHolidayMonthIdx endHomeHoldidayMonth 0 w4 with
    | none => none
    | some (s5, w5) =>
    match updateEMSDatagram P fuel (EMSDatagramID.Program_1_HC_1.toCtorIdx + (selHC - 1) * 4)
        DatagramDataIndex.endHomeHolidayYearIdx endHomeHolidayYear 0 w5 with
    | none => none
    | some (s6, w6) => some (((((s1 && s2) && s3) && s4) && s5) && s6, w6)
  else some (false, w)

/-- `Calduino::setWorkModeDHW(selMode)`. -/
def setWorkModeDHW (P : Platform σ) (fuel : Nat) (selMode : Nat) (w : World σ) :
    Option (Bool × World σ) :=
  if selMode ≤ MAX_WORKING_MODE then
    updateEMSDatagram P fuel EMSDatagramID.Working_Mode_DHW.toCtorIdx 2 selMode 0 w
  else some (false, w)

/-- `Calduino::setWorkModePumpDHW(selMode)`. -/
def setWorkModePumpDHW (P : Platform σ) (fuel : Nat) (selMode : Nat) (w : World σ) :
    Option (Bool × World σ) :=
  if selMode ≤ MAX_WORKING_MODE then
    updateEMSDatagram P fuel EMSDatagramID.Working_Mode_DHW.toCtorIdx
      DatagramDataIndex.workModePumpDHWIdx selMode 0 w
  else some (false, w)

/-- `Calduino::setTemperatureDHW(selTmp)`. -/
def setTemperatureDHW (P : Platform σ) (fuel : Nat) (selTmp : Nat) (w : World σ) :
    Option (Bool × World σ) :=
  if selTmp ≤ MAX_DHW_TEMPERATURE ∧ selTmp ≥ MIN_DHW_TEMPERATURE then
    updateEMSDatagram P fuel EMSDatagramID.UBA_Parameter_DHW.toCtorIdx
      DatagramDataIndex.selTempDHWIdx selTmp 0 w
  else some (false, w)

/-- `Calduino::setTemperatureTDDHW(selTmp)`. -/
def setTemperatureTDDHW (P : Platform σ) (fuel : Nat) (selTmp : Nat) (w : World σ) :
    Option (Bool × World σ) :=
  if selTmp ≤ MAX_DHW_TEMPERATURE ∧ selTmp ≥ MIN_DHW_TEMPERATURE then
    updateEMSDatagram P fuel EMSDatagramID.UBA_Parameter_DHW.toCtorIdx
      DatagramDataIndex.tempTDDHWIdx selTmp 0 w
  else some (false, w)

/-- `Calduino::setProgramDHW(selProgram)`. -/
def setProgramDHW (P : Platform σ) (fuel : Nat) (selProgram : Nat) (w : World σ) :
    Option (Bool × World σ) :=
  if selProgram = 0 ∨ selProgram = ERROR_VALUE then
    updateEMSDatagram P fuel EMSDatagramID.Working_Mode_DHW.toCtorIdx
      DatagramDataIndex.progDHWIdx selProgram 0 w
  else some (false, w)

/-- `Calduino::setProgramPumpDHW(selProgram)`. -/
def setProgramPumpDHW (P : Platform σ) (fuel : Nat) (selProgram : Nat) (w : World σ) :
    Option (Bool × World σ) :=
  if selProgram = 0 ∨ selProgram = ERROR_VALUE then
    updateEMSDatagram P fuel EMSDatagramID.Working_Mode_DHW.toCtorIdx
      DatagramDataIndex.progPumpDHWIdx selProgram 0 w
  else some (false, w)

/-- `Calduino::setWorkModeTDDHW(selMode)`. -/
def setWorkModeTDDHW (P : Platform σ) (fuel : Nat) (selMode : Nat) (w : World σ) :
    Option (Bool × World σ) :=
  if selMode = 0 ∨ selMode = ERROR_VALUE then
    updateEMSDatagram P fuel EMSDatagramID.Working_Mode_DHW.toCtorIdx
      DatagramDataIndex.workModeTDDHWIdx selMode 0 w
  else some (false, w)

/-- `Calduino::setDayTDDHW(dayTDDHW)`. -/
def setDayTDDHW (P : Platform σ) (fuel : Nat) (dayTDDHW : Nat) (w : World σ) :
    Option (Bool × World σ) :=
  if dayTDDHW ≤ MAX_DAY_WEEK then
    updateEMSDatagram P fuel EMSDatagramID.Working_Mode_DHW.toCtorIdx
      DatagramDataIndex.dayTDDHWIdx dayTDDHW 0 w
  else some (false, w)

/-- `Calduino::setHourTDDHW(hourTDDHW)`: `boolean operationStatus = false;`
and, when the argument is in range,
`operationStatus &= updateEMSDatagram(Working_Mode_DHW, hourTDDHWIdx, hourTDDHW);`. -/
def setHourTDDHW (P : Platform σ) (fuel : Nat) (hourTDDHW : Nat) (w : World σ) :
    Option (Bool × World σ) :=
  if hourTDDHW < MAX_HOUR_DAY then
    match updateEMSDatagram P fuel EMSDatagramID.Working_Mode_DHW.toCtorIdx
        DatagramDataIndex.hourTDDHWIdx hourTDDHW 0 w with
    | none => none
    | some (s, w1) => some (false && s, w1)
  else some (false, w)

/-- `Calduino::setProgramSwitchPoint`: after the argument check
`operationStatus = updateEMSDatagram(selProgram, switchPointID, byte1);`
`operationStatus = updateEMSDatagram(selProgram, switchPointID, byte2, 1);`. -/
def setProgramSwitchPoint (P : Platform σ) (fuel : Nat) (selProgram : EMSDatagramID)
    (switchPointID operationSwitchPoint daySwitchPoint hourSwitchPoint minuteSwitchPoint : Nat)
    (w : World σ) : Option (Bool × World σ) :=
  match setProgramSwitchPointBytes selProgram switchPointID operationSwitchPoint daySwitchPoint
      hourSwitchPoint minuteSwitchPoint with
  | none => some (false, w)
  | some (byte1, byte2) =>
    match updateEMSDatagram P fuel selProgram.toCtorIdx switchPointID byte1 0 w with
    | none => none
    | some (_, w1) => updateEMSDatagram P fuel selProgram.toCtorIdx switchPointID byte2 1 w1

/-- `Calduino::setOneTimeDHW(selMode)`:
`operationStatus = updateEMSDatagram(Flags_DHW, oneTimeDHW2Idx, selMode ? DHW_ONETIME_ON : DHW_ONETIME_OFF);`
`operationStatus |= getCalduinoBitValue(BitRequest::oneTimeDHW_t);`. -/
def setOneTimeDHW (P : Platform σ) (fuel : Nat) (selMode : Bool) (w : World σ) :
    Option (Bool × World σ) :=
  match updateEMSDatagram P fuel EMSDatagramID.Flags_DHW.toCtorIdx
      DatagramDataIndex.oneTimeDHW2Idx (if selMode then DHW_ONETIME_ON else DHW_ONETIME_OFF)
      0 w with
  | none => none
  | some (s1, w1) =>
    match getCalduinoBitValue P fuel BitRequest.oneTimeDHW_t w1 with
    | none => none
    | some (s2, w2) => some (s1 || s2, w2)

end Facade

/-! ## Further simulated buses -/

/-- A simulated bus that stays silent; the clock advances by 50 ms at every
reading. -/
def quietBus : World SimState :=
  { st := { readyBus.st with tick := 50, quietUntil := 100000 }, tx := [] }

/-- The simulated bus with a device message of 40 zero bytes. -/
def zeroMessageBus : World SimState :=
  simStart (List.replicate 40 0)

/-- The bus of `lateBus`, silent for the first 4200 ms, with a device
message whose 40 bytes are all `0x02`. -/
def lateBusTwos : World SimState :=
  { st := { lateBus.st with message := List.replicate 40 2 }, tx := [] }

/-! ## Sequences of writes as the specification describes them -/

section SpecWrites

variable {σ : Type}

/-- The field writes `(position, value)` of the datagram `eMSDatagramID`
one after the other, each attempted whatever the result of the one before;
the results in order. -/
def writeSequence (P : Platform σ) (fuel eMSDatagramID : Nat) :
    List (Nat × Nat) → World σ → Option (List Bool × World σ)
  | [], w => some ([], w)
  | c :: rest, w =>
    match updateEMSDatagram P fuel eMSDatagramID c.1 c.2 0 w with
    | none => none
    | some (s, w1) =>
      match writeSequence P fuel eMSDatagramID rest w1 with
      | none => none
      | some (ss, w2) => some (s :: ss, w2)

end SpecWrites

/-! ## Facade: the switch point getter -/

section SwitchPointGetter

variable {σ : Type}

/-- `Calduino::getCalduinoSwitchPoint(selProgram, switchPointID)`. `result`
is declared without initialiser and returned as it is found when the check
or the read fails; the read asks for 2 bytes at the offset of the field. -/
def getCalduinoSwitchPoint (P : Platform σ) (fuel : Nat) (selProgram : EMSDatagramID)
    (switchPointID : Nat) (w : World σ) : Option (SwitchPoint × World σ) :=
  let result : SwitchPoint :=
    { id := P.stack w.st 0 % 256
      action := P.stack w.st 1 % 256
      day := P.stack w.st 2 % 256
      hour := P.stack w.st 3 % 256
      minute := P.stack w.st 4 % 256 }
  if isSwitchProgram selProgram = true ∧ switchPointID < SWITCHING_POINTS then
    let eMSDatagram := eMSDatagramIDs.getD selProgram.toCtorIdx default
    let calduinoData := eMSDatagram.data.getD switchPointID default
    match getEMSBuffer P fuel
        (freshArray P w.st 5 (eMSDatagram.messageLength + EMS_DATAGRAM_OVERHEAD))
        eMSDatagram 2 calduinoData.offset w with
    | none => none
    | some ((operationStatus, in1), w1) =>
      some (if operationStatus then decodeSwitchPoint calduinoData in1 else result, w1)
  else some (result, w)

end SwitchPointGetter

/-! ## Receive buffer of the serial port (`EMSSerial`)

The members of `EMSSerial` that the receive path uses: the ring buffer of
the bytes received with the frame-error flag of each, filled by the receive
interrupt through `store_char` and emptied by `read`. The USART registers,
and with them `write`, `writeEOF` and the switching of the receiver in
`flush`, are not part of this model. -/

/-- `#define SERIAL_BUFFER_SIZE 48` -/
def SERIAL_BUFFER_SIZE : Nat := 48

/-- `class EMSSerial`: `_error`, `_rx_buffer_head`, `_rx_buffer_tail`
(`uint8_t`), `_rx_buffer[SERIAL_BUFFER_SIZE]` and
`_error_flag[SERIAL_BUFFER_SIZE]`. -/
structure EMSSerial where
  _error : Bool
  _rx_buffer_head : Nat
  _rx_buffer_tail : Nat
  _rx_buffer : List Nat
  _error_flag : List Bool
  deriving DecidableEq, Repr

/-- `store_char(c, fe, s)`:
`int i = (unsigned int)(s->_rx_buffer_head + 1) % SERIAL_BUFFER_SIZE;` and,
when `i != s->_rx_buffer_tail`, the byte and its flag stored at the head and
the head advanced to `i`. -/
def store_char (c : Nat) (fe : Bool) (s : EMSSerial) : EMSSerial :=
  let i := (s._rx_buffer_head + 1) % 2 ^ intBits % SERIAL_BUFFER_SIZE
  if i ≠ s._rx_buffer_tail then
    { s with
      _rx_buffer := s._rx_buffer.set s._rx_buffer_head (c % 256)
      _error_flag := s._error_flag.set s._rx_buffer_head fe
      _rx_buffer_head := i }
  else s

namespace EMSSerial

/-- `EMSSerial::available()`:
`(unsigned int)(SERIAL_BUFFER_SIZE + _rx_buffer_head - _rx_buffer_tail) % SERIAL_BUFFER_SIZE`. -/
def available (s : EMSSerial) : Int :=
  (((SERIAL_BUFFER_SIZE : Int) + s._rx_buffer_head - s._rx_buffer_tail) % 2 ^ intBits) %
    SERIAL_BUFFER_SIZE

/-- `EMSSerial::peek()`: `-1` when head and tail are equal, otherwise
`_rx_buffer[_rx_buffer_tail]`. No member is changed. -/
def peek (s : EMSSerial) : Int :=
  if s._rx_buffer_head = s._rx_buffer_tail then -1
  else (s._rx_buffer.getD s._rx_buffer_tail 0 : Nat)

/-- `EMSSerial::read()`: `-1` when head and tail are equal; otherwise the byte
at the tail, with `_error = _error_flag[_rx_buffer_tail]` and the tail
advanced. -/
def read (s : EMSSerial) : Int × EMSSerial :=
  if s._rx_buffer_head = s._rx_buffer_tail then (-1, s)
  else
    ((s._rx_buffer.getD s._rx_buffer_tail 0 : Nat),
      { s with
        _error := s._error_flag.getD s._rx_buffer_tail false
        _rx_buffer_tail := (s._rx_buffer_tail + 1) % 2 ^ intBits % SERIAL_BUFFER_SIZE })

/-- `EMSSerial::flush()`: `_rx_buffer_head = _rx_buffer_tail; _error = false;`. -/
def flush (s : EMSSerial) : EMSSerial :=
  { s with _rx_buffer_head := s._rx_buffer_tail, _error := false }

/-- `EMSSerial::frameError()`: `bool ret = _error; _error = false; return ret;`. -/
def frameError (s : EMSSerial) : Bool × EMSSerial :=
  (s._error, { s with _error := false })

end EMSSerial

/-- The receive buffer with head and tail at position `t` and nothing
stored, as the constructor (`t = 0`), `flush` or a run of reads leaves it. -/
def emptySerial (t : Nat) : EMSSerial :=
  { _error := false
    _rx_buffer_head := t
    _rx_buffer_tail := t
    _rx_buffer := List.replicate SERIAL_BUFFER_SIZE 0
    _error_flag := List.replicate SERIAL_BUFFER_SIZE false }

/-! ## The catalog and the receive buffer as the specification describes them -/

/-- The number of bytes a field takes on the wire: 1 for `Byte` and `Bit`,
`floatBytes` for `Float`, 3 for `ULong`, 2 for a switch point. -/
def fieldWidth (d : CalduinoData) : Nat :=
  match d.encodeType with
  | .Byte => 1
  | .Bit => 1
  | .Float => d.floatBytes
  | .ULong => 3
  | .SwithPoint => 2

/-- The buffer indices the decoder of the field's encode type reads
(`decodeByteValue`, `decodeBitValue`, `decodeFloatValue`, `decodeULongValue`,
`decodeSwitchPoint`). -/
def decodeReads (d : CalduinoData) : List Nat :=
  match d.encodeType with
  | .Byte => [d.offset]
  | .Bit => [d.offset]
  | .Float => if d.floatBytes = 2 then [d.offset, d.offset + 1] else [d.offset]
  | .ULong => [d.offset, d.offset + 1, d.offset + 2]
  | .SwithPoint => [d.offset, d.offset + 1]

/-- The field descriptors of a message: the first `dataSize` entries of its
table. -/
def EMSDatagram.fields (dg : EMSDatagram) : List CalduinoData :=
  dg.data.take dg.dataSize

/-- The `(offset, bitOffset)` pairs of the `Bit` fields of a message. -/
def EMSDatagram.bitPositions (dg : EMSDatagram) : List (Nat × Nat) :=
  (dg.fields.filter (fun d => decide (d.encodeType = CalduinoEncodeType.Bit))).map
    (fun d => (d.offset, d.bitOffset))

/-- An entry of a request table is well formed for the encode type `t`: its
field is one of the fields of its message and has encode type `t`. -/
def requestWellFormed (t : CalduinoEncodeType) (r : CalduinoDataRequest) : Prop :=
  r.dataType ∈ r.eMSDatagram.fields ∧ r.dataType.encodeType = t

instance (t : CalduinoEncodeType) (r : CalduinoDataRequest) :
    Decidable (requestWellFormed t r) := by
  unfold requestWellFormed
  infer_instance

/-- The bytes stored and not yet read, oldest first, each with its
frame-error flag: the cells from the tail up to the head. -/
def EMSSerial.contents (s : EMSSerial) : List (Nat × Bool) :=
  (List.range s.available.toNat).map
    (fun i => (s._rx_buffer.getD ((s._rx_buffer_tail + i) % SERIAL_BUFFER_SIZE) 0,
      s._error_flag.getD ((s._rx_buffer_tail + i) % SERIAL_BUFFER_SIZE) false))

/-- The receive interrupt storing the bytes `bs`, each with its flag, one
after the other. -/
def storeAll (bs : List (Nat × Bool)) (s : EMSSerial) : EMSSerial :=
  bs.foldl (fun s b => store_char b.1 b.2 s) s

/-- A run of `n` calls of `read()`, each followed by `frameError()`: the
values returned, in order, and the state at the end. -/
def readAll : Nat → EMSSerial → List (Int × Bool) × EMSSerial
  | 0, s => ([], s)
  | n + 1, s =>
    let r := s.read
    let f := r.2.frameError
    let rest := readAll n f.2
    ((r.1, f.1) :: rest.1, rest.2)

/-- The transport of a returning `updateEMSDatagram` on field `(dest, t,
off)` with value `data`: a sequence of attempts, each of which hands nothing,
the write request, or the write request and the verification request to the
transport. -/
def writeAttempt (dest t off data : Nat) (f : List TxEvent) : Prop :=
  f = [] ∨ f = requestFrame dest t off data ∨
    f = requestFrame dest t off data ++ requestFrame (dest ||| 0x80) t off 1

/-- The state of the receive buffer is well formed: head and tail are
positions of the buffer, and the two arrays have `SERIAL_BUFFER_SIZE` cells.
The constructor establishes it and every operation keeps it. -/
def EMSSerial.WellFormed (s : EMSSerial) : Prop :=
  s._rx_buffer_head < SERIAL_BUFFER_SIZE ∧ s._rx_buffer_tail < SERIAL_BUFFER_SIZE ∧
  s._rx_buffer.length = SERIAL_BUFFER_SIZE ∧ s._error_flag.length = SERIAL_BUFFER_SIZE

/-! # Theorems -/

/-! ## CRC -/

theorem readByte_lt (buf : Buffer) (i : Nat) : readByte buf i < 256 :=
  Nat.mod_lt _ (by decide)

theorem crcStep_eq_shift (crc b : Nat) : crcStep crc b = (crcShift crc ^^^ b) % 256 := rfl

theorem crcStep_lt (crc b : Nat) : crcStep crc b < 256 :=
  Nat.mod_lt _ (by decide)

set_option maxRecDepth 100000 in
theorem crcShift_table :
    ∀ c, c < 256 → crcShift c < 256 ∧ crcUnshift (crcShift c) = c ∧
      crcShift c = ((((2 * (if c.testBit 7 then c ^^^ 0x0C else c)) % 256) / 2 * 2) |||
        (if c.testBit 7 then 1 else 0)) := by
  decide

theorem xor_byte_lt {x b : Nat} (hx : x < 256) (hb : b < 256) : x ^^^ b < 256 :=
  Nat.xor_lt_two_pow (n := 8) hx hb

theorem crcStep_eq_xor {c b : Nat} (hc : c < 256) (hb : b < 256) :
    crcStep c b = crcShift c ^^^ b := by
  rw [crcStep_eq_shift]
  exact Nat.mod_eq_of_lt (xor_byte_lt (crcShift_table c hc).1 hb)

theorem crcStep_eq_spec {c b : Nat} (hc : c < 256) (hb : b < 256) :
    crcStep c b = crcSpecStep c b := by
  rw [crcStep_eq_xor hc hb, (crcShift_table c hc).2.2]
  rfl

theorem crcStep_inj_crc {c c' b : Nat} (hc : c < 256) (hc' : c' < 256) (hb : b < 256)
    (h : crcStep c b = crcStep c' b) : c = c' := by
  rw [crcStep_eq_xor hc hb, crcStep_eq_xor hc' hb] at h
  have h2 : crcShift c = crcShift c' := Nat.xor_left_injective h
  have := congrArg crcUnshift h2
  rwa [(crcShift_table c hc).2.1, (crcShift_table c' hc').2.1] at this

theorem crcStep_inj_byte {c b b' : Nat} (hc : c < 256) (hb : b < 256) (hb' : b' < 256)
    (h : crcStep c b = crcStep c b') : b = b' := by
  rw [crcStep_eq_xor hc hb, crcStep_eq_xor hc hb'] at h
  exact Nat.xor_right_injective h

theorem crcFold_zero (buf : Buffer) (crc s : Nat) : crcFold buf crc s 0 = crc := rfl

theorem crcFold_succ (buf : Buffer) (crc s k : Nat) :
    crcFold buf crc s (k + 1) = crcFold buf (crcStep crc (readByte buf s)) (s + 1) k := by
  simp [crcFold, List.range'_succ]

theorem crcFold_lt (buf : Buffer) {crc : Nat} (hc : crc < 256) (s k : Nat) :
    crcFold buf crc s k < 256 := by
  induction k generalizing crc s with
  | zero => simpa [crcFold_zero] using hc
  | succ k ih => rw [crcFold_succ]; exact ih (crcStep_lt _ _) _

/-- While fewer than 256 indices remain the loop leaves with the folded CRC. -/
theorem crcLoop_terminates (buf : Buffer) (len : Int) (n : Nat) (hn : n = (len - 2).toNat)
    (h255 : n ≤ 255) :
    ∀ (k i crc fuel : Nat), i + k = n → k < fuel →
      crcLoop buf len fuel i crc = some (crcFold buf crc i k) := by
  intro k
  induction k with
  | zero =>
    intro i crc fuel hik hf
    obtain ⟨f, rfl⟩ : ∃ f, fuel = f + 1 := ⟨fuel - 1, by omega⟩
    have hcond : ¬ ((i : Int) < len - 2) := by omega
    simp [crcLoop, hcond, crcFold_zero]
  | succ k ih =>
    intro i crc fuel hik hf
    obtain ⟨f, rfl⟩ : ∃ f, fuel = f + 1 := ⟨fuel - 1, by omega⟩
    have hcond : (i : Int) < len - 2 := by omega
    have hwrap : (i + 1) % 256 = i + 1 := Nat.mod_eq_of_lt (by omega)
    simp only [crcLoop, hcond, if_true, hwrap]
    rw [ih (i + 1) _ f (by omega) (by omega), crcFold_succ]

/-- With 256 or more indices to cover the 8-bit counter never reaches the
bound: the loop is not left, whatever the fuel. -/
theorem crcLoop_diverges (buf : Buffer) (len : Int) (hlen : 258 ≤ len) :
    ∀ (fuel i crc : Nat), i < 256 → crcLoop buf len fuel i crc = none := by
  intro fuel
  induction fuel with
  | zero => intro i crc _; rfl
  | succ f ih =>
    intro i crc hi
    have hcond : (i : Int) < len - 2 := by omega
    simp only [crcLoop, hcond, if_true]
    exact ih _ _ (Nat.mod_lt _ (by decide))

theorem crcCalculator_eq_fold (fuel : Nat) (buf : Buffer) (len : Int) (h257 : len ≤ 257)
    (hfuel : 256 ≤ fuel) :
    crcCalculator fuel buf len = some (crcFold buf 0 0 (len - 2).toNat) := by
  unfold crcCalculator
  exact crcLoop_terminates buf len _ rfl (by omega) _ 0 0 fuel (by omega) (by omega)

theorem crcFold_eq_spec (buf : Buffer) (len : Int) :
    crcFold buf 0 0 (len - 2).toNat = crcSpec buf len := by
  have key : ∀ (l : List Nat) (a : Nat), a < 256 →
      l.foldl (fun a j => crcStep a (readByte buf j)) a =
        (l.map (readByte buf)).foldl crcSpecStep a := by
    intro l
    induction l with
    | nil => intro a _; rfl
    | cons x xs ih =>
      intro a ha
      simp only [List.foldl_cons, List.map_cons]
      rw [ih _ (crcStep_lt _ _), crcStep_eq_spec ha (readByte_lt _ _)]
  unfold crcFold crcSpec crcCovered
  rw [← List.range_eq_range']
  exact key _ 0 (by decide)

theorem readByte_writeByte_ne (buf : Buffer) {i j : Nat} (v : Nat) (h : j ≠ i) :
    readByte (writeByte buf i v) j = readByte buf j := by
  simp [readByte, writeByte, List.getD_eq_getElem?_getD, List.getElem?_set, Ne.symm h]

theorem readByte_writeByte_same (buf : Buffer) {i : Nat} (v : Nat) (h : i < buf.length) :
    readByte (writeByte buf i v) i = v % 256 := by
  simp [readByte, writeByte, List.getD_eq_getElem?_getD, List.getElem?_set, h]

/-- The fold only looks at the bytes it covers. -/
theorem crcFold_congr (buf buf' : Buffer) :
    ∀ (k s crc : Nat), (∀ j, s ≤ j → j < s + k → readByte buf' j = readByte buf j) →
      crcFold buf' crc s k = crcFold buf crc s k := by
  intro k
  induction k with
  | zero => intro s crc _; rfl
  | succ k ih =>
    intro s crc h
    rw [crcFold_succ, crcFold_succ, h s (le_refl _) (by omega)]
    exact ih _ _ (fun j h1 h2 => h j (by omega) (by omega))

/-- Different running CRCs stay different over the same bytes. -/
theorem crcFold_ne_of_ne (buf : Buffer) :
    ∀ (k s c c' : Nat), c < 256 → c' < 256 → c ≠ c' →
      crcFold buf c s k ≠ crcFold buf c' s k := by
  intro k
  induction k with
  | zero => intro s c c' _ _ h; simpa [crcFold_zero] using h
  | succ k ih =>
    intro s c c' hc hc' h
    rw [crcFold_succ, crcFold_succ]
    exact ih _ _ _ (crcStep_lt _ _) (crcStep_lt _ _)
      (fun e => h (crcStep_inj_crc hc hc' (readByte_lt _ _) e))

/-- Two buffers that differ at one covered index, and nowhere else in the
covered range, fold to different CRCs. -/
theorem crcFold_ne_of_byte_ne (buf buf' : Buffer) (i : Nat) :
    ∀ (k s crc : Nat), crc < 256 → s ≤ i → i < s + k →
      (∀ j, j ≠ i → readByte buf' j = readByte buf j) →
      readByte buf' i ≠ readByte buf i →
      crcFold buf' crc s k ≠ crcFold buf crc s k := by
  intro k
  induction k with
  | zero => intro s crc _ h1 h2; omega
  | succ k ih =>
    intro s crc hc h1 h2 hsame hdiff
    rw [crcFold_succ, crcFold_succ]
    by_cases hs : s = i
    · subst hs
      rw [crcFold_congr buf buf' k (s + 1) _ (fun j hj _ => hsame j (by omega))]
      exact crcFold_ne_of_ne buf k _ _ _ (crcStep_lt _ _) (crcStep_lt _ _)
        (fun e => hdiff (crcStep_inj_byte hc (readByte_lt _ _) (readByte_lt _ _) e))
    · rw [hsame s hs]
      exact ih _ _ (crcStep_lt _ _) (by omega) (by omega) hsame hdiff

/-- For a frame length the loop can cover, `crcCheckOK` returns the
comparison of the folded CRC with the byte in front of the terminator. -/
theorem crcCheckOK_eq (fuel : Nat) (buf : Buffer) (len : Int) (h2 : 2 ≤ len) (h257 : len ≤ 257)
    (hfuel : 256 ≤ fuel) :
    crcCheckOK fuel buf len =
      some (decide (crcFold buf 0 0 (len - 2).toNat = readByte buf (len - 2).toNat)) := by
  have hneg : ¬ (len - 2 < 0) := by omega
  simp only [crcCheckOK, crcCalculator_eq_fold fuel buf len h257 hfuel, hneg, if_false]

/-- C1: for 2 <= len <= 257, storing the calculated CRC at `buf[len-2]` makes
`crcCheckOK` return true, and the CRC is a function of the covered bytes alone
(it is the same for any buffer with the same bytes in front of the CRC slot,
and for any sufficient fuel). -/
theorem crc_store_then_check (fuel : Nat) (buf : Buffer) (len : Int)
    (h2 : 2 ≤ len) (h257 : len ≤ 257) (hbuf : len ≤ (buf.length : Int)) (hfuel : 256 ≤ fuel) :
    (∃ crc, crcCalculator fuel buf len = some crc ∧
        crcCheckOK fuel (writeByte buf (len - 2).toNat crc) len = some true) ∧
      (∀ (fuel' : Nat) (buf' : Buffer), 256 ≤ fuel' →
        (∀ j : Nat, (j : Int) < len - 2 → readByte buf' j = readByte buf j) →
        crcCalculator fuel' buf' len = crcCalculator fuel buf len) := by
  refine ⟨⟨crcFold buf 0 0 (len - 2).toNat, crcCalculator_eq_fold fuel buf len h257 hfuel, ?_⟩, ?_⟩
  · rw [crcCheckOK_eq fuel _ len h2 h257 hfuel]
    have hsame : crcFold (writeByte buf (len - 2).toNat (crcFold buf 0 0 (len - 2).toNat)) 0 0
        (len - 2).toNat = crcFold buf 0 0 (len - 2).toNat :=
      crcFold_congr buf _ _ 0 0 (fun j _ hj => readByte_writeByte_ne buf _ (by omega))
    rw [hsame, readByte_writeByte_same buf _ (by omega),
      Nat.mod_eq_of_lt (crcFold_lt buf (by decide) 0 _)]
    simp
  · intro fuel' buf' hfuel' hagree
    rw [crcCalculator_eq_fold fuel' buf' len h257 hfuel',
      crcCalculator_eq_fold fuel buf len h257 hfuel,
      crcFold_congr buf buf' _ 0 0 (fun j _ hj => hagree j (by omega))]

theorem crc_store_then_check_witness :
    ∃ crc, crcCalculator 256 [0x0B, 0x88, 0x06, 0x00, 0x08, 0x00, 0x00] 7 = some crc ∧
      crcCheckOK 256
        (writeByte [0x0B, 0x88, 0x06, 0x00, 0x08, 0x00, 0x00] ((7 : Int) - 2).toNat crc) 7 =
        some true :=
  (crc_store_then_check 256 [0x0B, 0x88, 0x06, 0x00, 0x08, 0x00, 0x00] 7
    (by decide) (by decide) (by decide) (by decide)).1

/-- C2: in a frame of length 3 <= len <= 257 that passes `crcCheckOK`,
replacing one byte in front of the CRC slot by a different value gives a frame
that fails `crcCheckOK`. -/
theorem crc_detects_byte_change (fuel : Nat) (buf : Buffer) (len : Int) (i v : Nat)
    (h3 : 3 ≤ len) (h257 : len ≤ 257) (hbuf : len ≤ (buf.length : Int)) (hfuel : 256 ≤ fuel)
    (hok : crcCheckOK fuel buf len = some true)
    (hi : (i : Int) < len - 2) (hv : v % 256 ≠ readByte buf i) :
    crcCheckOK fuel (writeByte buf i v) len = some false := by
  rw [crcCheckOK_eq fuel _ len (by omega) h257 hfuel] at hok ⊢
  have hcrc : crcFold buf 0 0 (len - 2).toNat = readByte buf (len - 2).toNat := by
    simpa using hok
  have hslot : readByte (writeByte buf i v) (len - 2).toNat = readByte buf (len - 2).toNat :=
    readByte_writeByte_ne buf v (by omega)
  have hne : crcFold (writeByte buf i v) 0 0 (len - 2).toNat ≠ crcFold buf 0 0 (len - 2).toNat :=
    crcFold_ne_of_byte_ne buf _ i _ 0 0 (by decide) (Nat.zero_le _) (by omega)
      (fun j hj => readByte_writeByte_ne buf v hj)
      (by rw [readByte_writeByte_same buf v (by omega)]; exact hv)
  rw [hslot, ← hcrc]
  simpa using hne

theorem crc_detects_byte_change_witness :
    crcCheckOK 256 (writeByte [0x0B, 0x88, 0x06, 0x00, 0x08, 0x84, 0x00] 1 0x89) 7 =
      some false :=
  crc_detects_byte_change 256 [0x0B, 0x88, 0x06, 0x00, 0x08, 0x84, 0x00] 7 1 0x89
    (by decide) (by decide) (by decide) (by decide) (by decide) (by decide) (by decide)

/-- C3 (as stated, for every `len`) fails at `len = 258`: the 8-bit loop
counter wraps before reaching `len - 2 = 256`, so no amount of fuel makes
`crcCalculator` return the fold. -/
theorem crcCalculator_258_no_result :
    ¬ ∃ fuel, crcCalculator fuel (List.replicate 258 0) 258 =
      some (crcSpec (List.replicate 258 0) 258) := by
  rintro ⟨fuel, h⟩
  rw [crcCalculator, crcLoop_diverges _ 258 (by decide) fuel 0 0 (by decide)] at h
  cases h

/-- C3 (amended): for `len <= 257`, `crcCalculator` returns the left fold from
0 of the specification step over `buf[0..len-3]`; the result is the same for
every buffer that differs only at `buf[len-2]` and `buf[len-1]`, and it is 0
when `len <= 2`. -/
theorem crcCalculator_refines_spec (fuel : Nat) (buf : Buffer) (len : Int)
    (h257 : len ≤ 257) (hfuel : 256 ≤ fuel) :
    crcCalculator fuel buf len = some (crcSpec buf len) ∧
      (∀ buf' : Buffer,
        (∀ j : Nat, (j : Int) ≠ len - 2 → (j : Int) ≠ len - 1 →
          readByte buf' j = readByte buf j) →
        crcCalculator fuel buf' len = crcCalculator fuel buf len) ∧
      (len ≤ 2 → crcCalculator fuel buf len = some 0) := by
  refine ⟨?_, ?_, ?_⟩
  · rw [crcCalculator_eq_fold fuel buf len h257 hfuel, crcFold_eq_spec]
  · intro buf' hagree
    rw [crcCalculator_eq_fold fuel buf' len h257 hfuel,
      crcCalculator_eq_fold fuel buf len h257 hfuel,
      crcFold_congr buf buf' _ 0 0 (fun j _ hj => hagree j (by omega) (by omega))]
  · intro hle
    rw [crcCalculator_eq_fold fuel buf len h257 hfuel]
    have h0 : (len - 2).toNat = 0 := by omega
    rw [h0, crcFold_zero]

theorem crcCalculator_refines_spec_witness :
    crcCalculator 256 [0x0B, 0x88, 0x06, 0x00, 0x08, 0x84, 0x00] 7 =
      some (crcSpec [0x0B, 0x88, 0x06, 0x00, 0x08, 0x84, 0x00] 7) :=
  (crcCalculator_refines_spec 256 [0x0B, 0x88, 0x06, 0x00, 0x08, 0x84, 0x00] 7
    (by decide) (by decide)).1

/-! ## Field codec -/

theorem shift8_add_eq_or (a : Nat) {b : Nat} (hb : b < 256) :
    (a <<< 8) + b = (a <<< 8) ||| b := by
  rw [Nat.shiftLeft_eq, Nat.mul_comm]
  exact Nat.mul_add_lt_is_or (i := 8) hb a

theorem shift16_add_eq_or (a : Nat) {b : Nat} (hb : b < 65536) :
    (a <<< 16) + b = (a <<< 16) ||| b := by
  rw [Nat.shiftLeft_eq, Nat.mul_comm]
  exact Nat.mul_add_lt_is_or (i := 16) hb a

theorem wrapSigned16 (x : Int) :
    wrapSigned intBits x = if x % 65536 < 32768 then x % 65536 else x % 65536 - 65536 := by
  simp [wrapSigned, intBits]

theorem wrapSigned8_byte {b : Nat} (hb : b < 256) : wrapSigned 8 (b : Int) = signed8 b := by
  simp only [wrapSigned, signed8]
  norm_num
  split_ifs <;> omega

/-- The 16-bit `int` numerator of the two-byte branch of `decodeFloatValue`. -/
theorem int_numerator_eq_signed16 {a b : Nat} (ha : a < 256) (hb : b < 256) :
    wrapSigned intBits (wrapSigned intBits ((a <<< 8 : Nat) : Int) + (b : Int)) =
      signed16 ((a <<< 8) ||| b) := by
  rw [← shift8_add_eq_or a hb, wrapSigned16, wrapSigned16, Nat.shiftLeft_eq]
  simp only [signed16]
  norm_num
  split_ifs <;> omega

/-- With an `int` of 32 bits the same expression would be the unsigned 16-bit
value: the sign of the numerator comes from the width of `int` alone. -/
theorem int32_numerator_eq_unsigned {a b : Nat} (ha : a < 256) (hb : b < 256) :
    wrapSigned 32 (wrapSigned 32 ((a <<< 8 : Nat) : Int) + (b : Int)) =
      (((a <<< 8) ||| b : Nat) : Int) := by
  rw [← shift8_add_eq_or a hb, Nat.shiftLeft_eq]
  simp only [wrapSigned]
  norm_num
  split_ifs <;> omega

/-- C8: `decodeULongValue` is the big-endian 24-bit number
`b0 * 65536 + b1 * 256 + b2`, below 2^24, equal to the bitwise OR of the
three shifted bytes. -/
theorem decodeULongValue_big_endian (d : CalduinoData) (buf : Buffer) :
    decodeULongValue d buf =
        readByte buf d.offset * 65536 + readByte buf (d.offset + 1) * 256 +
          readByte buf (d.offset + 2) ∧
      decodeULongValue d buf < 2 ^ 24 ∧
      decodeULongValue d buf =
        (readByte buf d.offset <<< 16) ||| (readByte buf (d.offset + 1) <<< 8) |||
          readByte buf (d.offset + 2) := by
  have h0 := readByte_lt buf d.offset
  have h1 := readByte_lt buf (d.offset + 1)
  have h2 := readByte_lt buf (d.offset + 2)
  have hsum : decodeULongValue d buf =
      readByte buf d.offset * 65536 + readByte buf (d.offset + 1) * 256 +
        readByte buf (d.offset + 2) := by
    simp only [decodeULongValue, Nat.shiftLeft_eq]
    norm_num
    omega
  refine ⟨hsum, by rw [hsum]; norm_num; omega, ?_⟩
  have hlow : (readByte buf (d.offset + 1) <<< 8) + readByte buf (d.offset + 2) < 65536 := by
    rw [Nat.shiftLeft_eq]; norm_num; omega
  rw [Nat.or_assoc, ← shift8_add_eq_or _ h2, ← shift16_add_eq_or _ hlow, hsum,
    Nat.shiftLeft_eq, Nat.shiftLeft_eq]
  norm_num
  omega

/-- C9: for a field offset `4 <= off` (a `byte`), `decodeSwitchPoint` returns
`id = off/2 - 2`, `action = buf[off] & 7`, `day = buf[off] >> 5`,
`hour = buf[off+1] / 6`, `minute = (buf[off+1] % 6) * 10`. -/
theorem decodeSwitchPoint_fields (d : CalduinoData) (buf : Buffer)
    (h4 : 4 ≤ d.offset) (hbyte : d.offset < 256) :
    decodeSwitchPoint d buf =
      { id := d.offset / 2 - 2
        action := readByte buf d.offset &&& 0x07
        day := readByte buf d.offset >>> 5
        hour := readByte buf (d.offset + 1) / 6
        minute := (readByte buf (d.offset + 1) % 6) * 10 } := by
  have h0 := readByte_lt buf d.offset
  have h1 := readByte_lt buf (d.offset + 1)
  have hand : readByte buf d.offset &&& 7 ≤ 7 := Nat.and_le_right
  have hshr : readByte buf d.offset >>> 5 < 256 := by
    rw [Nat.shiftRight_eq_div_pow]; norm_num; omega
  simp only [decodeSwitchPoint, SwitchPoint.mk.injEq]
  refine ⟨by omega, Nat.mod_eq_of_lt (by omega), Nat.mod_eq_of_lt hshr, by omega, by omega⟩

theorem decodeSwitchPoint_fields_witness :
    decodeSwitchPoint ⟨"switchPoint", .SwithPoint, .None, 6, 0, 0, 0⟩
        [0x10, 0x0B, 0x3F, 0x00, 0x01, 0x24, 0x21, 0x8F] =
      { id := 6 / 2 - 2
        action := readByte [0x10, 0x0B, 0x3F, 0x00, 0x01, 0x24, 0x21, 0x8F] 6 &&& 0x07
        day := readByte [0x10, 0x0B, 0x3F, 0x00, 0x01, 0x24, 0x21, 0x8F] 6 >>> 5
        hour := readByte [0x10, 0x0B, 0x3F, 0x00, 0x01, 0x24, 0x21, 0x8F] (6 + 1) / 6
        minute := (readByte [0x10, 0x0B, 0x3F, 0x00, 0x01, 0x24, 0x21, 0x8F] (6 + 1) % 6) * 10 } :=
  decodeSwitchPoint_fields ⟨"switchPoint", .SwithPoint, .None, 6, 0, 0, 0⟩
    [0x10, 0x0B, 0x3F, 0x00, 0x01, 0x24, 0x21, 0x8F] (by decide) (by decide)

/-- C10 (as stated) fails: the sentinel pair `(0xE7, 0x90)`, which
`setProgramSwitchPoint` itself writes for an undefined switch point, decodes
to day 7 and hour 24, and the bytes `(0x02, 0xFF)` decode to action 2 and
hour 42. -/
theorem decodeSwitchPoint_sentinel_out_of_range :
    decodeSwitchPoint ⟨"switchPoint", .SwithPoint, .None, 4, 0, 0, 0⟩
        [0x10, 0x0B, 0x3F, 0x00, 0xE7, 0x90] =
      { id := 0, action := 7, day := 7, hour := 24, minute := 0 } ∧
    ¬ ((decodeSwitchPoint ⟨"switchPoint", .SwithPoint, .None, 4, 0, 0, 0⟩
          [0x10, 0x0B, 0x3F, 0x00, 0xE7, 0x90]).day ≤ 6 ∧
       (decodeSwitchPoint ⟨"switchPoint", .SwithPoint, .None, 4, 0, 0, 0⟩
          [0x10, 0x0B, 0x3F, 0x00, 0xE7, 0x90]).hour ≤ 23) ∧
    (decodeSwitchPoint ⟨"switchPoint", .SwithPoint, .None, 4, 0, 0, 0⟩
        [0x10, 0x0B, 0x3F, 0x00, 0x02, 0xFF]).action = 2 ∧
    (decodeSwitchPoint ⟨"switchPoint", .SwithPoint, .None, 4, 0, 0, 0⟩
        [0x10, 0x0B, 0x3F, 0x00, 0x02, 0xFF]).hour = 42 := by
  decide

/-- C10 (amended): for any two input bytes `decodeSwitchPoint` returns
`action <= 7`, `day <= 7`, `hour <= 42` and a minute among
0, 10, 20, 30, 40, 50. -/
theorem decodeSwitchPoint_ranges (d : CalduinoData) (buf : Buffer) :
    (decodeSwitchPoint d buf).action ≤ 7 ∧ (decodeSwitchPoint d buf).day ≤ 7 ∧
      (decodeSwitchPoint d buf).hour ≤ 42 ∧
      (decodeSwitchPoint d buf).minute ∈ [0, 10, 20, 30, 40, 50] := by
  have h0 := readByte_lt buf d.offset
  have h1 := readByte_lt buf (d.offset + 1)
  have hand : readByte buf d.offset &&& 7 ≤ 7 := Nat.and_le_right
  have hshr : readByte buf d.offset >>> 5 = readByte buf d.offset / 32 := by
    rw [Nat.shiftRight_eq_div_pow]
  simp only [decodeSwitchPoint, hshr, List.mem_cons, List.mem_singleton, List.not_mem_nil,
    or_false]
  refine ⟨by omega, by omega, by omega, ?_⟩
  have hm : readByte buf (d.offset + 1) % 6 < 6 := Nat.mod_lt _ (by decide)
  generalize readByte buf (d.offset + 1) % 6 = m at hm
  interval_cases m <;> decide

/-- C5: for action 7 the encoding is the pair `(0xE7, 0x90)` whatever the day,
hour and minute; for any other action it is `byte1 = (day << 5) | action` and
`byte2 = hour * 6 + minute / 10` as 8-bit values, and for the arguments
`setProgramSwitchPoint` accepts these fit a byte without truncation. On
accepted arguments these are the bytes the function computes. -/
theorem switchPoint_encoding (action day hour minute : Nat) :
    (action = 7 →
        switchPointByte1 action day = 0xE7 ∧ switchPointByte2 action hour minute = 0x90) ∧
      (action ≠ 7 →
        switchPointByte1 action day = ((day <<< 5) ||| action) % 256 ∧
          switchPointByte2 action hour minute = (hour * 6 + minute / 10) % 256) ∧
      (action ≠ 7 → ∀ (selProgram : EMSDatagramID) (switchPointID : Nat),
        switchPointArgsOK selProgram switchPointID action day hour minute = true →
        setProgramSwitchPointBytes selProgram switchPointID action day hour minute =
          some ((day <<< 5) ||| action, hour * 6 + minute / 10)) ∧
      (action = 7 → ∀ (selProgram : EMSDatagramID) (switchPointID : Nat),
        switchPointArgsOK selProgram switchPointID action day hour minute = true →
        setProgramSwitchPointBytes selProgram switchPointID action day hour minute =
          some (0xE7, 0x90)) := by
  refine ⟨?_, ?_, ?_, ?_⟩
  · intro h
    simp [switchPointByte1, switchPointByte2, h]
  · intro h
    simp [switchPointByte1, switchPointByte2, h]
  rotate_left
  · intro h selProgram switchPointID hok
    subst h
    simp only [setProgramSwitchPointBytes, hok, if_true, switchPointByte1, switchPointByte2]
  · intro h selProgram switchPointID hok
    have hargs := hok
    simp only [switchPointArgsOK, Bool.and_eq_true, Bool.or_eq_true, decide_eq_true_eq,
      MAX_DAY_WEEK, MAX_HOUR_DAY, MAX_MINUTE_HOUR] at hargs
    obtain ⟨⟨⟨⟨_, hact⟩, hday⟩, hhour⟩, hmin, _⟩ := hargs
    have hb2 : (hour * 6 + minute / 10) % 256 = hour * 6 + minute / 10 :=
      Nat.mod_eq_of_lt (by omega)
    have hb1 : ((day <<< 5) ||| action) % 256 = (day <<< 5) ||| action := by
      apply Nat.mod_eq_of_lt
      have hd : day <<< 5 < 2 ^ 8 := by rw [Nat.shiftLeft_eq]; norm_num; omega
      have ha : action < 2 ^ 8 := by norm_num; omega
      exact Nat.or_lt_two_pow hd ha
    simp [setProgramSwitchPointBytes, hok, switchPointByte1, switchPointByte2, h, hb1, hb2]

/-- C4: for action 0 or 1, day 0..6, hour 0..23 and minute 0, 10, ..., 50
(any accepted program and switch point index), `setProgramSwitchPoint`
computes two bytes, and `decodeSwitchPoint` on a buffer holding them at the
field offset returns the same action, day, hour and minute. -/
theorem switchPoint_roundtrip (selProgram : EMSDatagramID)
    (switchPointID action day hour minute : Nat)
    (hprog : isSwitchProgram selProgram = true) (hid : switchPointID < 42)
    (hact : action = 0 ∨ action = 1) (hday : day ≤ 6) (hhour : hour ≤ 23)
    (hmin : minute ∈ [0, 10, 20, 30, 40, 50]) :
    ∃ byte1 byte2,
      setProgramSwitchPointBytes selProgram switchPointID action day hour minute =
        some (byte1, byte2) ∧
      ∀ (d : CalduinoData) (buf : Buffer),
        readByte buf d.offset = byte1 → readByte buf (d.offset + 1) = byte2 →
        (decodeSwitchPoint d buf).action = action ∧ (decodeSwitchPoint d buf).day = day ∧
          (decodeSwitchPoint d buf).hour = hour ∧ (decodeSwitchPoint d buf).minute = minute := by
  have hne : action ≠ 7 := by omega
  have hm60 : minute < 60 ∧ minute % 10 = 0 := by
    simp only [List.mem_cons, List.mem_singleton, List.not_mem_nil, or_false] at hmin
    omega
  have hok : switchPointArgsOK selProgram switchPointID action day hour minute = true := by
    simp only [switchPointArgsOK, Bool.and_eq_true, Bool.or_eq_true, decide_eq_true_eq,
      SWITCHING_POINTS, MAX_DAY_WEEK, MAX_HOUR_DAY, MAX_MINUTE_HOUR]
    refine ⟨⟨⟨⟨⟨hprog, hid⟩, ?_⟩, by omega⟩, by omega⟩, hm60⟩
    omega
  have hb1 : switchPointByte1 action day = day * 32 + action := by
    have h5 : day <<< 5 = day * 32 := by rw [Nat.shiftLeft_eq]
    have hor : (day <<< 5) ||| action = day * 32 + action := by
      rw [h5, Nat.mul_comm]
      exact (Nat.mul_add_lt_is_or (i := 5) (by norm_num; omega) day).symm
    simp only [switchPointByte1, hne, if_false, Nat.zero_or, hor]
    exact Nat.mod_eq_of_lt (by omega)
  have hb2 : switchPointByte2 action hour minute = hour * 6 + minute / 10 := by
    simp only [switchPointByte2, hne, if_false]
    exact Nat.mod_eq_of_lt (by omega)
  have hbytes : setProgramSwitchPointBytes selProgram switchPointID action day hour minute =
      some (day * 32 + action, hour * 6 + minute / 10) := by
    simp only [setProgramSwitchPointBytes, hok, if_true, hb1, hb2]
  refine ⟨day * 32 + action, hour * 6 + minute / 10, hbytes, ?_⟩
  intro d buf h1 h2
  have hand : (day * 32 + action) &&& 7 = action := by
    have : (day * 32 + action) &&& 7 = (day * 32 + action) % 8 :=
      Nat.and_pow_two_sub_one_eq_mod _ 3
    omega
  have hshr : (day * 32 + action) >>> 5 = day := by
    rw [Nat.shiftRight_eq_div_pow]; norm_num; omega
  have hdiv : (hour * 6 + minute / 10) / 6 = hour := by omega
  have hmod : (hour * 6 + minute / 10) % 6 * 10 = minute := by omega
  simp only [decodeSwitchPoint, h1, h2, hand, hshr, hdiv, hmod]
  refine ⟨Nat.mod_eq_of_lt (by omega), Nat.mod_eq_of_lt (by omega),
    Nat.mod_eq_of_lt (by omega), Nat.mod_eq_of_lt (by omega)⟩

theorem switchPoint_roundtrip_witness :
    ∃ byte1 byte2,
      setProgramSwitchPointBytes .Program_1_HC_1 3 1 6 23 50 = some (byte1, byte2) ∧
      ∀ (d : CalduinoData) (buf : Buffer),
        readByte buf d.offset = byte1 → readByte buf (d.offset + 1) = byte2 →
        (decodeSwitchPoint d buf).action = 1 ∧ (decodeSwitchPoint d buf).day = 6 ∧
          (decodeSwitchPoint d buf).hour = 23 ∧ (decodeSwitchPoint d buf).minute = 50 :=
  switchPoint_roundtrip .Program_1_HC_1 3 1 6 23 50 (by decide) (by decide) (by decide)
    (by decide) (by decide) (by decide)

theorem signed8_range (b : Nat) (hb : b < 256) : -128 ≤ signed8 b ∧ signed8 b ≤ 127 := by
  unfold signed8
  split_ifs <;> omega

/-! ## Rounding to binary32 -/

/-- The value `roundHalfEven` returns is the floor or the floor plus one. -/
theorem roundHalfEven_nearest (t : ℚ) (k : Int) :
    |((roundHalfEven t : Int) : ℚ) - t| ≤ |(k : ℚ) - t| := by
  have hf := Int.floor_le t
  have hlt := Int.lt_floor_add_one t
  have hk1 := le_abs_self ((k : ℚ) - t)
  have hk2 := neg_le_abs ((k : ℚ) - t)
  have hcase : (k : ℚ) ≤ (⌊t⌋ : ℚ) ∨ ((⌊t⌋ : ℚ) + 1 ≤ (k : ℚ)) := by
    rcases le_or_lt k ⌊t⌋ with h | h
    · exact Or.inl (by exact_mod_cast h)
    · exact Or.inr (by exact_mod_cast h)
  unfold roundHalfEven
  split_ifs with h1 h2 h3
  · rw [abs_le]
    constructor <;> rcases hcase with h | h <;> linarith
  · push_cast
    rw [abs_le]
    constructor <;> rcases hcase with h | h <;> linarith
  · rw [abs_le]
    constructor <;> rcases hcase with h | h <;> linarith
  · push_cast
    rw [abs_le]
    constructor <;> rcases hcase with h | h <;> linarith

theorem roundHalfEven_error (t : ℚ) : |((roundHalfEven t : Int) : ℚ) - t| ≤ 1 / 2 := by
  have hf := Int.floor_le t
  have hlt := Int.lt_floor_add_one t
  have h0 := roundHalfEven_nearest t ⌊t⌋
  have h1 := roundHalfEven_nearest t (⌊t⌋ + 1)
  rw [abs_of_nonpos (by linarith : ((⌊t⌋ : Int) : ℚ) - t ≤ 0)] at h0
  push_cast at h1
  rw [abs_of_nonneg (by linarith : ((⌊t⌋ : Int) : ℚ) + 1 - t ≥ 0)] at h1
  by_cases h : t - ⌊t⌋ ≤ 1 / 2
  · linarith
  · push_neg at h
    linarith

theorem roundHalfEven_eq_of_near (t : ℚ) (m : Int) (h : |t - (m : ℚ)| < 1 / 2) :
    roundHalfEven t = m := by
  have h0 := roundHalfEven_nearest t m
  rw [abs_sub_comm] at h
  have h1 : |((roundHalfEven t : Int) : ℚ) - (m : ℚ)| < 1 := by
    have := abs_sub_le ((roundHalfEven t : Int) : ℚ) t (m : ℚ)
    rw [abs_sub_comm t (m : ℚ)] at this
    linarith
  have h2 : |roundHalfEven t - m| < 1 := by
    have : ((|roundHalfEven t - m| : Int) : ℚ) < ((1 : Int) : ℚ) := by
      push_cast
      exact h1
    exact_mod_cast this
  have := Int.abs_lt_one_iff.mp h2
  omega

theorem roundHalfEven_between (t : ℚ) (A B : Int) (hA : (A : ℚ) ≤ t) (hB : t ≤ (B : ℚ)) :
    A ≤ roundHalfEven t ∧ roundHalfEven t ≤ B := by
  constructor
  · by_contra hlt
    push_neg at hlt
    have h : ((roundHalfEven t : Int) : ℚ) < (A : ℚ) := by exact_mod_cast hlt
    have hn := roundHalfEven_nearest t A
    rw [abs_of_nonpos (by linarith), abs_of_nonpos (by linarith)] at hn
    linarith
  · by_contra hlt
    push_neg at hlt
    have h : (B : ℚ) < ((roundHalfEven t : Int) : ℚ) := by exact_mod_cast hlt
    have hn := roundHalfEven_nearest t B
    rw [abs_of_nonneg (by linarith), abs_of_nonneg (by linarith)] at hn
    linarith

theorem log2_bounds (q : ℚ) (hq : q ≠ 0) :
    (2 : ℚ) ^ Int.log 2 |q| ≤ |q| ∧ |q| < (2 : ℚ) ^ (Int.log 2 |q| + 1) := by
  have hpos : 0 < |q| := abs_pos.mpr hq
  have h1 := Int.zpow_log_le_self (R := ℚ) (b := 2) (by norm_num) hpos
  have h2 := Int.lt_zpow_succ_log_self (R := ℚ) (b := 2) (by norm_num) |q|
  simp only [Nat.cast_ofNat] at h1 h2
  exact ⟨h1, h2⟩

theorem log2_eq (q : ℚ) (L : Int) (h1 : (2 : ℚ) ^ L ≤ |q|) (h2 : |q| < (2 : ℚ) ^ (L + 1)) :
    Int.log 2 |q| = L := by
  have hpos : 0 < |q| := lt_of_lt_of_le (zpow_pos (by norm_num) L) h1
  have a := (Int.zpow_le_iff_le_log (R := ℚ) (b := 2) (by norm_num) hpos).mp (by simpa using h1)
  have b := (Int.lt_zpow_iff_log_lt (R := ℚ) (b := 2) (by norm_num) hpos).mp (by simpa using h2)
  omega

/-- The value `Binary32.round` computes for a number with exponent `L`. -/
theorem Binary32.round_of_exponent (q : ℚ) (L : Int) (h1 : (2 : ℚ) ^ L ≤ |q|)
    (h2 : |q| < (2 : ℚ) ^ (L + 1)) (hL : -126 ≤ L)
    (hfin : |((roundHalfEven (q / 2 ^ (L - 23)) : Int) : ℚ) * 2 ^ (L - 23)| < 2 ^ 128) :
    Binary32.round q =
      Binary32.finite (((roundHalfEven (q / 2 ^ (L - 23)) : Int) : ℚ) * 2 ^ (L - 23)) := by
  unfold Binary32.round
  simp only [log2_eq q L h1 h2]
  rw [max_eq_left (by omega)]
  rw [if_neg (not_le.mpr hfin)]

theorem Binary32.round_normal (q : ℚ) (hlo : (2 : ℚ) ^ (-126 : Int) ≤ |q|)
    (hhi : |q| < (2 : ℚ) ^ (127 : Int)) :
    ∃ v : ℚ, Binary32.round q = Binary32.finite v ∧ IsBinary32 v ∧
      (∀ x, IsBinary32 x → |v - q| ≤ |x - q|) ∧ |v - q| ≤ |q| / 2 ^ 24 ∧
      (0 < q → 0 < v) ∧ (q < 0 → v < 0) := by
  have hpos : 0 < |q| := lt_of_lt_of_le (zpow_pos (by norm_num) _) hlo
  have hq : q ≠ 0 := abs_pos.mp hpos
  obtain ⟨hL1, hL2⟩ := log2_bounds q hq
  have hLlo : -126 ≤ Int.log 2 |q| :=
    (Int.zpow_le_iff_le_log (R := ℚ) (b := 2) (by norm_num) hpos).mp (by simpa using hlo)
  have hLhi : Int.log 2 |q| < 127 :=
    (Int.lt_zpow_iff_log_lt (R := ℚ) (b := 2) (by norm_num) hpos).mp (by simpa using hhi)
  generalize hLdef : Int.log 2 |q| = L at hL1 hL2 hLlo hLhi
  have hs : (0 : ℚ) < 2 ^ (L - 23) := zpow_pos (by norm_num) _
  have hsplit : (2 : ℚ) ^ L = 8388608 * 2 ^ (L - 23) := by
    have : (2 : ℚ) ^ L = 2 ^ (23 : Int) * 2 ^ (L - 23) := by
      rw [← zpow_add₀ (by norm_num)]
      congr 1
      ring
    rw [this]
    norm_num
  have hsplit1 : (2 : ℚ) ^ (L + 1) = 16777216 * 2 ^ (L - 23) := by
    have : (2 : ℚ) ^ (L + 1) = 2 ^ (24 : Int) * 2 ^ (L - 23) := by
      rw [← zpow_add₀ (by norm_num)]
      congr 1
      ring
    rw [this]
    norm_num
  rw [hsplit] at hL1
  rw [hsplit1] at hL2
  generalize hsdef : (2 : ℚ) ^ (L - 23) = s at hs hL1 hL2
  have hqt : q = q / s * s := by field_simp
  generalize htdef : q / s = t at hqt
  have habs : |q| = |t| * s := by rw [hqt, abs_mul, abs_of_pos hs]
  have ht1 : 8388608 ≤ |t| := by
    rw [habs] at hL1
    exact le_of_mul_le_mul_right hL1 hs
  have ht2 : |t| < 16777216 := by
    rw [habs] at hL2
    exact lt_of_mul_lt_mul_right hL2 hs.le
  have hnear := roundHalfEven_nearest t
  have herr := roundHalfEven_error t
  generalize hmdef : roundHalfEven t = m at hnear herr
  have hdist : ∀ y : ℚ, |y * s - q| = |y - t| * s := by
    intro y
    rw [hqt, ← sub_mul, abs_mul, abs_of_pos hs]
  -- the bounds of the significand
  have hm : (8388608 ≤ m ∧ m ≤ 16777216 ∧ 0 < t) ∨ (-16777216 ≤ m ∧ m ≤ -8388608 ∧ t < 0) := by
    rcases le_or_lt 0 t with h0 | h0
    · rw [abs_of_nonneg h0] at ht1 ht2
      have := roundHalfEven_between t 8388608 16777216 (by push_cast; linarith)
        (by push_cast; linarith)
      rw [hmdef] at this
      exact Or.inl ⟨this.1, this.2, by linarith⟩
    · rw [abs_of_neg h0] at ht1 ht2
      have := roundHalfEven_between t (-16777216) (-8388608) (by push_cast; linarith)
        (by push_cast; linarith)
      rw [hmdef] at this
      exact Or.inr ⟨this.1, this.2, h0⟩
  have hmabs : |m| ≤ 16777216 ∧ 8388608 ≤ |m| := by
    rcases hm with ⟨a, b, _⟩ | ⟨a, b, _⟩
    · rw [abs_of_nonneg (by omega)]
      omega
    · rw [abs_of_nonpos (by omega)]
      omega
  have hs128 : s * 16777216 < 2 ^ 128 := by
    have h103 : s ≤ 2 ^ (103 : Int) := by
      rw [← hsdef]
      exact zpow_le_zpow_right₀ (by norm_num) (by omega)
    have : (2 : ℚ) ^ (103 : Int) * 16777216 < 2 ^ 128 := by norm_num
    nlinarith
  have hvabs : |(m : ℚ) * s| < 2 ^ 128 := by
    rw [abs_mul, abs_of_pos hs]
    have : |(m : ℚ)| ≤ 16777216 := by
      have : ((|m| : Int) : ℚ) ≤ ((16777216 : Int) : ℚ) := by exact_mod_cast hmabs.1
      simpa using this
    nlinarith
  have hmq : |(m : ℚ)| ≤ 16777216 := by
    have : ((|m| : Int) : ℚ) ≤ ((16777216 : Int) : ℚ) := by exact_mod_cast hmabs.1
    simpa using this
  have htpos : 0 < q ↔ 0 < t := by
    constructor
    · intro h
      by_contra hn
      push_neg at hn
      have : t * s ≤ 0 := mul_nonpos_of_nonpos_of_nonneg hn hs.le
      linarith
    · intro h
      rw [hqt]
      exact mul_pos h hs
  refine ⟨(m : ℚ) * s, ?_, ?_, ?_, ?_, ?_, ?_⟩
  · unfold Binary32.round
    simp only [hLdef]
    rw [max_eq_left (by omega), hsdef, htdef, hmdef, if_neg (not_le.mpr hvabs)]
  · by_cases h24 : |m| < 2 ^ 24
    · exact ⟨m, L - 23, h24, by omega, by omega, by rw [hsdef]⟩
    · have h2s : (2 : ℚ) ^ (L - 22) = 2 * s := by
        have : (2 : ℚ) ^ (L - 22) = 2 ^ (1 : Int) * 2 ^ (L - 23) := by
          rw [← zpow_add₀ (by norm_num)]
          congr 1
          ring
        rw [this, hsdef]
        norm_num
      have hm2 : m = 16777216 ∨ m = -16777216 := by
        have : |m| = 16777216 := by
          have := hmabs.1
          norm_num at h24
          omega
        rcases abs_eq (by norm_num : (0 : Int) ≤ 16777216) |>.mp this with h | h
        · exact Or.inl h
        · exact Or.inr h
      rcases hm2 with h | h
      · refine ⟨8388608, L - 22, by norm_num, by omega, by omega, ?_⟩
        rw [h2s, h]
        push_cast
        ring
      · refine ⟨-8388608, L - 22, by norm_num, by omega, by omega, ?_⟩
        rw [h2s, h]
        push_cast
        ring
  · rintro x ⟨m0, e0, hm0, he0, he0', rfl⟩
    rw [hdist]
    by_cases hcase : L - 23 ≤ e0
    · have hk : (m0 : ℚ) * 2 ^ e0 = ((m0 * 2 ^ (e0 - (L - 23)).toNat : Int) : ℚ) * s := by
        have h2 : (2 : ℚ) ^ e0 = 2 ^ (e0 - (L - 23)) * 2 ^ (L - 23) := by
          rw [← zpow_add₀ (by norm_num)]
          congr 1
          ring
        have h3 : (2 : ℚ) ^ (e0 - (L - 23)) = ((2 ^ (e0 - (L - 23)).toNat : Int) : ℚ) := by
          have hnn : e0 - (L - 23) = ((e0 - (L - 23)).toNat : Int) :=
            (Int.toNat_of_nonneg (by omega)).symm
          conv_lhs => rw [hnn]
          rw [zpow_natCast]
          push_cast
          rfl
        rw [h2, h3, hsdef]
        push_cast
        ring
      rw [hk, hdist]
      exact mul_le_mul_of_nonneg_right (hnear _) hs.le
    · push_neg at hcase
      have hx : |(m0 : ℚ) * 2 ^ e0| < 8388608 * s := by
        have he : (2 : ℚ) ^ e0 ≤ 2 ^ (L - 24) :=
          zpow_le_zpow_right₀ (by norm_num) (by omega)
        have hs2 : (2 : ℚ) ^ (L - 24) * 2 = s := by
          have : (2 : ℚ) ^ (L - 23) = 2 ^ (L - 24) * 2 ^ (1 : Int) := by
            rw [← zpow_add₀ (by norm_num)]
            congr 1
            ring
          rw [← hsdef, this]
          norm_num
        have hm0q : |(m0 : ℚ)| < 16777216 := by
          have : ((|m0| : Int) : ℚ) < ((2 ^ 24 : Int) : ℚ) := by exact_mod_cast hm0
          simpa using this
        have hp : (0 : ℚ) < 2 ^ e0 := zpow_pos (by norm_num) _
        rw [abs_mul, abs_of_pos hp]
        have hnn : 0 ≤ |(m0 : ℚ)| := abs_nonneg _
        nlinarith
      have hk0 : |(m : ℚ) - t| ≤ |t| - 8388608 := by
        rcases le_or_lt 0 t with h0 | h0
        · rw [abs_of_nonneg h0] at ht1 ⊢
          have h8 : |((8388608 : Int) : ℚ) - t| = t - 8388608 := by
            rw [abs_of_nonpos (by push_cast; linarith)]
            push_cast
            ring
          have := hnear 8388608
          rw [h8] at this
          exact this
        · rw [abs_of_neg h0] at ht1 ⊢
          have h8 : |((-8388608 : Int) : ℚ) - t| = -t - 8388608 := by
            rw [abs_of_nonneg (by push_cast; linarith)]
            push_cast
            ring
          have := hnear (-8388608)
          rw [h8] at this
          exact this
      have h1 : |(m : ℚ) - t| * s ≤ |q| - 8388608 * s := by
        rw [habs]
        nlinarith
      have h2 := abs_sub_abs_le_abs_sub q ((m0 : ℚ) * 2 ^ e0)
      rw [abs_sub_comm q] at h2
      linarith
  · rw [hdist]
    have : |(m : ℚ) - t| * s ≤ 1 / 2 * s := mul_le_mul_of_nonneg_right herr hs.le
    rw [habs] at hL1 ⊢
    rw [le_div_iff₀ (by norm_num)]
    nlinarith
  · intro h
    rcases hm with ⟨a, _, _⟩ | ⟨_, _, c⟩
    · have : (0 : ℚ) < (m : ℚ) := by
        have : ((0 : Int) : ℚ) < ((m : Int) : ℚ) := by exact_mod_cast (by omega : (0 : Int) < m)
        simpa using this
      exact mul_pos this hs
    · exact absurd (htpos.mp h) (not_lt.mpr c.le)
  · intro h
    rcases hm with ⟨_, _, c⟩ | ⟨_, b, _⟩
    · exact absurd (htpos.mpr c) (not_lt.mpr h.le)
    · have : (m : ℚ) < 0 := by
        have : ((m : Int) : ℚ) < ((0 : Int) : ℚ) := by exact_mod_cast (by omega : m < (0 : Int))
        simpa using this
      exact mul_neg_of_neg_of_pos this hs


theorem Binary32.round_zero : Binary32.round 0 = Binary32.finite 0 := by
  have h : roundHalfEven 0 = 0 := by
    have := roundHalfEven_eq_of_near 0 0 (by norm_num)
    simpa using this
  simp [Binary32.round, h]

theorem isBinary32_zero : IsBinary32 0 :=
  ⟨0, 0, by norm_num, by norm_num, by norm_num, by norm_num⟩

theorem isBinary32_intCast (n : Int) (h : |n| < 2 ^ 24) : IsBinary32 (n : ℚ) :=
  ⟨n, 0, h, by norm_num, by norm_num, by simp⟩

/-- A number of binary32 in the normal range is its own rounding. -/
theorem Binary32.round_exact (q : ℚ) (hlo : (2 : ℚ) ^ (-126 : Int) ≤ |q|)
    (hhi : |q| < (2 : ℚ) ^ (127 : Int)) (hq : IsBinary32 q) :
    Binary32.round q = Binary32.finite q := by
  obtain ⟨v, hv, _, hnear, _⟩ := Binary32.round_normal q hlo hhi
  have h0 := hnear q hq
  rw [sub_self, abs_zero] at h0
  have h1 : v - q = 0 := abs_eq_zero.mp (le_antisymm h0 (abs_nonneg _))
  rw [hv, sub_eq_zero.mp h1]

theorem abs_intCast_normal (n : Int) (h0 : n ≠ 0) (h : |n| < 2 ^ 24) :
    (2 : ℚ) ^ (-126 : Int) ≤ |(n : ℚ)| ∧ |(n : ℚ)| < (2 : ℚ) ^ (127 : Int) := by
  have h1 : (1 : Int) ≤ |n| := Int.one_le_abs h0
  have h1q : (1 : ℚ) ≤ |(n : ℚ)| := by
    have : ((1 : Int) : ℚ) ≤ ((|n| : Int) : ℚ) := Int.cast_le.mpr h1
    simpa using this
  have h2q : |(n : ℚ)| < 2 ^ 24 := by
    have : ((|n| : Int) : ℚ) < (((2 : Int) ^ 24 : Int) : ℚ) := Int.cast_lt.mpr h
    simpa using this
  constructor
  · refine le_trans ?_ h1q
    norm_num
  · refine lt_trans h2q ?_
    norm_num

/-- The conversion of an integer of magnitude below `2 ^ 24` is exact. -/
theorem Binary32.ofInt_exact (n : Int) (h : |n| < 2 ^ 24) :
    Binary32.ofInt n = Binary32.finite (n : ℚ) := by
  unfold Binary32.ofInt
  by_cases h0 : n = 0
  · subst h0
    simpa using Binary32.round_zero
  · obtain ⟨hlo, hhi⟩ := abs_intCast_normal n h0 h
    exact Binary32.round_exact _ hlo hhi (isBinary32_intCast n h)

/-- The quotient of two converted integers, the divisor a nonzero byte, is
the rounding of the exact quotient. -/
theorem Binary32.div_ofInt (n : Int) (f : Nat) (hn : |n| < 2 ^ 24) (hf0 : f ≠ 0)
    (hf : f < 256) :
    Binary32.div (Binary32.ofInt n) (Binary32.ofInt ((f : Nat) : Int)) =
      Binary32.round ((n : ℚ) / ((f : Nat) : ℚ)) := by
  have hfa : |((f : Nat) : Int)| < 2 ^ 24 := by
    rw [abs_of_nonneg (Int.natCast_nonneg f)]
    omega
  rw [Binary32.ofInt_exact n hn, Binary32.ofInt_exact _ hfa]
  have hne : ((((f : Nat) : Int)) : ℚ) ≠ 0 := by
    simpa using hf0
  show (if ((((f : Nat) : Int)) : ℚ) = 0 then _ else _) = _
  rw [if_neg hne]
  simp

/-- The rounding of the quotient of a 16-bit integer by a nonzero byte: a
finite number of binary32, as near to the quotient as any, within the
relative error `2 ^ (-24)`, the quotient itself when that is a number of
binary32, and of the sign of the quotient. -/
theorem Binary32.round_quotient (n : Int) (f : Nat) (hn : |n| ≤ 32768) (hf0 : f ≠ 0)
    (hf : f < 256) :
    ∃ v : ℚ, Binary32.round ((n : ℚ) / ((f : Nat) : ℚ)) = Binary32.finite v ∧ IsBinary32 v ∧
      (∀ x, IsBinary32 x → |v - (n : ℚ) / ((f : Nat) : ℚ)| ≤ |x - (n : ℚ) / ((f : Nat) : ℚ)|) ∧
      |v - (n : ℚ) / ((f : Nat) : ℚ)| ≤ |(n : ℚ) / ((f : Nat) : ℚ)| / 2 ^ 24 ∧
      (IsBinary32 ((n : ℚ) / ((f : Nat) : ℚ)) → v = (n : ℚ) / ((f : Nat) : ℚ)) ∧
      (0 < n → 0 < v) ∧ (n < 0 → v < 0) := by
  have hfpos : (0 : ℚ) < ((f : Nat) : ℚ) := Nat.cast_pos.mpr (Nat.pos_of_ne_zero hf0)
  have hf255 : ((f : Nat) : ℚ) ≤ 255 := by
    have : f ≤ 255 := by omega
    exact_mod_cast this
  have hf1 : (1 : ℚ) ≤ ((f : Nat) : ℚ) := by
    have : 1 ≤ f := Nat.pos_of_ne_zero hf0
    exact_mod_cast this
  by_cases h0 : n = 0
  · subst h0
    refine ⟨0, by simpa using Binary32.round_zero, isBinary32_zero, ?_, by simp, ?_, ?_, ?_⟩
    · intro x _
      simp
    · intro _
      simp
    · intro h
      exact absurd h (lt_irrefl _)
    · intro h
      exact absurd h (lt_irrefl _)
  · have hn24 : |n| < 2 ^ 24 := lt_of_le_of_lt hn (by norm_num)
    obtain ⟨hlo, hhi⟩ := abs_intCast_normal n h0 hn24
    have h1q : (1 : ℚ) ≤ |(n : ℚ)| := by
      have : ((1 : Int) : ℚ) ≤ ((|n| : Int) : ℚ) := Int.cast_le.mpr (Int.one_le_abs h0)
      simpa using this
    have hnq : |(n : ℚ)| ≤ 32768 := by
      have : ((|n| : Int) : ℚ) ≤ ((32768 : Int) : ℚ) := Int.cast_le.mpr hn
      simpa using this
    have habs : |(n : ℚ) / ((f : Nat) : ℚ)| = |(n : ℚ)| / ((f : Nat) : ℚ) := by
      rw [abs_div, abs_of_pos hfpos]
    have hqlo : (2 : ℚ) ^ (-126 : Int) ≤ |(n : ℚ) / ((f : Nat) : ℚ)| := by
      rw [habs, le_div_iff₀ hfpos]
      have h255 : (2 : ℚ) ^ (-126 : Int) * 255 ≤ 1 := by norm_num
      calc (2 : ℚ) ^ (-126 : Int) * ((f : Nat) : ℚ)
          ≤ (2 : ℚ) ^ (-126 : Int) * 255 :=
            mul_le_mul_of_nonneg_left hf255 (by positivity)
        _ ≤ 1 := h255
        _ ≤ |(n : ℚ)| := h1q
    have hqhi : |(n : ℚ) / ((f : Nat) : ℚ)| < (2 : ℚ) ^ (127 : Int) := by
      rw [habs, div_lt_iff₀ hfpos]
      have h2 : (32768 : ℚ) < (2 : ℚ) ^ (127 : Int) := by norm_num
      calc |(n : ℚ)| ≤ 32768 := hnq
        _ < (2 : ℚ) ^ (127 : Int) := h2
        _ = (2 : ℚ) ^ (127 : Int) * 1 := (mul_one _).symm
        _ ≤ (2 : ℚ) ^ (127 : Int) * ((f : Nat) : ℚ) :=
            mul_le_mul_of_nonneg_left hf1 (by positivity)
    obtain ⟨v, hv, hbin, hnear, herr, hpos, hneg⟩ :=
      Binary32.round_normal ((n : ℚ) / ((f : Nat) : ℚ)) hqlo hqhi
    refine ⟨v, hv, hbin, hnear, herr, ?_, ?_, ?_⟩
    · intro hq
      have h0 := hnear _ hq
      rw [sub_self, abs_zero] at h0
      exact sub_eq_zero.mp (abs_eq_zero.mp (le_antisymm h0 (abs_nonneg _)))
    · intro h
      exact hpos (div_pos (Int.cast_pos.mpr h) hfpos)
    · intro h
      exact hneg (div_neg_of_neg_of_pos (Int.cast_lt_zero.mpr h) hfpos)

/-- The rounding of a number whose exponent and rounded significand are
known. -/
theorem Binary32.round_value (q : ℚ) (L m : Int) (h1 : (2 : ℚ) ^ L ≤ |q|)
    (h2 : |q| < (2 : ℚ) ^ (L + 1)) (hL : -126 ≤ L)
    (hm : |q / 2 ^ (L - 23) - (m : ℚ)| < 1 / 2)
    (hfin : |(m : ℚ) * 2 ^ (L - 23)| < 2 ^ 128) :
    Binary32.round q = Binary32.finite ((m : ℚ) * 2 ^ (L - 23)) := by
  have hr := roundHalfEven_eq_of_near _ m hm
  have := Binary32.round_of_exponent q L h1 h2 hL (by rw [hr]; exact hfin)
  rw [this, hr]

theorem Binary32.round_one_tenth :
    Binary32.round (1 / 10) = Binary32.finite (13421773 / 134217728) := by
  have := Binary32.round_value (1 / 10) (-4) 13421773 (by norm_num [abs_of_pos])
    (by norm_num [abs_of_pos]) (by norm_num) (by norm_num [abs_lt]) (by norm_num [abs_lt])
  rw [this]
  norm_num

theorem Binary32.round_thirteen_tenths :
    Binary32.round (13 / 10) = Binary32.finite (5452595 / 4194304) := by
  have := Binary32.round_value (13 / 10) 0 10905190 (by norm_num [abs_of_pos])
    (by norm_num [abs_of_pos]) (by norm_num) (by norm_num [abs_lt]) (by norm_num [abs_lt])
  rw [this]
  norm_num

theorem signed16_range {n : Nat} (h : n < 65536) : -32768 ≤ signed16 n ∧ signed16 n ≤ 32767 := by
  unfold signed16
  split_ifs <;> omega

/-- With two bytes the result is the rounded quotient of the 16-bit pattern
read as a signed value. -/
theorem decodeFloatValue_two (d : CalduinoData) (buf : Buffer) (h2 : d.floatBytes = 2)
    (hscale : d.floatFactor ≠ 0) (hbyte : d.floatFactor < 256) :
    decodeFloatValue d buf =
      Binary32.round
        (((signed16 ((readByte buf d.offset <<< 8) ||| readByte buf (d.offset + 1)) : Int) : ℚ) /
          ((d.floatFactor : Nat) : ℚ)) := by
  have h0 := readByte_lt buf d.offset
  have h1 := readByte_lt buf (d.offset + 1)
  have hor := shift8_add_eq_or (readByte buf d.offset) h1
  have hmul : readByte buf d.offset <<< 8 = readByte buf d.offset * 256 := by
    rw [Nat.shiftLeft_eq]
  have hr := signed16_range
    (show (readByte buf d.offset <<< 8) ||| readByte buf (d.offset + 1) < 65536 by
      rw [← hor, hmul]; omega)
  simp only [decodeFloatValue, h2, if_true]
  rw [int_numerator_eq_signed16 h0 h1]
  exact Binary32.div_ofInt _ _ (by rw [abs_lt]; constructor <;> omega) hscale hbyte

/-- With one byte the result is the rounded quotient of the byte read as a
signed value. -/
theorem decodeFloatValue_one (d : CalduinoData) (buf : Buffer) (h1 : d.floatBytes = 1)
    (hscale : d.floatFactor ≠ 0) (hbyte : d.floatFactor < 256) :
    decodeFloatValue d buf =
      Binary32.round
        (((signed8 (readByte buf d.offset) : Int) : ℚ) / ((d.floatFactor : Nat) : ℚ)) := by
  have hnot : ¬ d.floatBytes = 2 := by omega
  have hr := signed8_range _ (readByte_lt buf d.offset)
  simp only [decodeFloatValue, hnot, if_false]
  rw [wrapSigned8_byte (readByte_lt _ _)]
  exact Binary32.div_ofInt _ _ (by rw [abs_lt]; constructor <;> omega) hscale hbyte

/-- C6 (as stated) fails: with the bytes `0xFF, 0xCE` and scale 10 (the
outside temperature field `extTemp`) the result is -5.0, not 65486 / 10; and
with the bytes `0x00, 0x01` and scale 10 the result is the `float` nearest
to one tenth, 13421773 / 134217728, not the exact quotient 1 / 10. -/
theorem decodeFloatValue_high_byte_negative :
    decodeFloatValue ⟨"extTemp", .Float, .Celsius, 4, 0, 2, 10⟩
        [0x08, 0x0B, 0x19, 0x00, 0xFF, 0xCE] = Binary32.finite (-5) ∧
      decodeFloatValue ⟨"extTemp", .Float, .Celsius, 4, 0, 2, 10⟩
        [0x08, 0x0B, 0x19, 0x00, 0xFF, 0xCE] ≠
        Binary32.finite (((((0xFF <<< 8) ||| 0xCE : Nat) : Int) : ℚ) / ((10 : Nat) : ℚ)) ∧
      decodeFloatValue ⟨"extTemp", .Float, .Celsius, 4, 0, 2, 10⟩
        [0x08, 0x0B, 0x19, 0x00, 0x00, 0x01] = Binary32.finite (13421773 / 134217728) ∧
      decodeFloatValue ⟨"extTemp", .Float, .Celsius, 4, 0, 2, 10⟩
        [0x08, 0x0B, 0x19, 0x00, 0x00, 0x01] ≠
        Binary32.finite (((((0x00 <<< 8) ||| 0x01 : Nat) : Int) : ℚ) / ((10 : Nat) : ℚ)) := by
  have h : decodeFloatValue ⟨"extTemp", .Float, .Celsius, 4, 0, 2, 10⟩
      [0x08, 0x0B, 0x19, 0x00, 0xFF, 0xCE] = Binary32.finite (-5) := by
    rw [decodeFloatValue_two _ _ rfl (by decide) (by decide)]
    have hn : signed16 ((readByte [0x08, 0x0B, 0x19, 0x00, 0xFF, 0xCE] 4 <<< 8) |||
        readByte [0x08, 0x0B, 0x19, 0x00, 0xFF, 0xCE] (4 + 1)) = -50 := by decide
    simp only [hn]
    have hq : (((-50 : Int) : ℚ)) / ((10 : Nat) : ℚ) = -5 := by norm_num
    rw [hq]
    exact Binary32.round_exact _ (by norm_num [abs_of_pos]) (by norm_num [abs_of_pos])
      ⟨-5, 0, by norm_num, by norm_num, by norm_num, by norm_num⟩
  have h' : decodeFloatValue ⟨"extTemp", .Float, .Celsius, 4, 0, 2, 10⟩
      [0x08, 0x0B, 0x19, 0x00, 0x00, 0x01] = Binary32.finite (13421773 / 134217728) := by
    rw [decodeFloatValue_two _ _ rfl (by decide) (by decide)]
    have hn : signed16 ((readByte [0x08, 0x0B, 0x19, 0x00, 0x00, 0x01] 4 <<< 8) |||
        readByte [0x08, 0x0B, 0x19, 0x00, 0x00, 0x01] (4 + 1)) = 1 := by decide
    simp only [hn]
    have hq : (((1 : Int) : ℚ)) / ((10 : Nat) : ℚ) = 1 / 10 := by norm_num
    rw [hq]
    exact Binary32.round_one_tenth
  refine ⟨h, ?_, h', ?_⟩
  · rw [h]
    have hn : ((0xFF <<< 8) ||| 0xCE : Nat) = 65486 := by decide
    rw [hn]
    intro he
    have := Binary32.finite.inj he
    norm_num at this
  · rw [h']
    have hn : ((0x00 <<< 8) ||| 0x01 : Nat) = 1 := by decide
    rw [hn]
    intro he
    have := Binary32.finite.inj he
    norm_num at this

/-- C6 (amended): with `floatBytes = 2` and a scale that is a non-zero byte
the result is a finite `float`: the rounding to binary32 of `n / scale`,
where `n` is the 16-bit pattern `(buf[off] << 8) | buf[off+1]` read as a
signed two's-complement value. It is a number of binary32, as near to
`n / scale` as any number of binary32, within the relative error
`2 ^ (-24)`, and `n / scale` itself when that is a number of binary32. For
a high byte below `0x80` `n` is the unsigned value, for a high byte from
`0x80` on the result is negative; the bytes `0x01, 0xF4` with scale 10 give
50. -/
theorem decodeFloatValue_two_bytes (d : CalduinoData) (buf : Buffer)
    (h2 : d.floatBytes = 2) (hscale : d.floatFactor ≠ 0) (hbyte : d.floatFactor < 256) :
    (∃ (n : Int) (q v : ℚ),
      n = signed16 ((readByte buf d.offset <<< 8) ||| readByte buf (d.offset + 1)) ∧
      q = (n : ℚ) / ((d.floatFactor : Nat) : ℚ) ∧
      decodeFloatValue d buf = Binary32.finite v ∧
      Binary32.round q = Binary32.finite v ∧
      IsBinary32 v ∧
      (∀ x, IsBinary32 x → |v - q| ≤ |x - q|) ∧
      |v - q| ≤ |q| / 2 ^ 24 ∧
      (IsBinary32 q → v = q) ∧
      (readByte buf d.offset < 0x80 →
        n = (((readByte buf d.offset <<< 8) ||| readByte buf (d.offset + 1) : Nat) : Int)) ∧
      (0x80 ≤ readByte buf d.offset → n < 0 ∧ v < 0)) ∧
    decodeFloatValue ⟨"example", .Float, .None, 0, 0, 2, 10⟩ [0x01, 0xF4] =
      Binary32.finite 50 := by
  have h0 := readByte_lt buf d.offset
  have h1 := readByte_lt buf (d.offset + 1)
  have hor := shift8_add_eq_or (readByte buf d.offset) h1
  have hmul : readByte buf d.offset <<< 8 = readByte buf d.offset * 256 := by
    rw [Nat.shiftLeft_eq]
  have hr := signed16_range
    (show (readByte buf d.offset <<< 8) ||| readByte buf (d.offset + 1) < 65536 by
      rw [← hor, hmul]; omega)
  have hval := decodeFloatValue_two d buf h2 hscale hbyte
  obtain ⟨v, hv, hbin, hnear, herr, hexact, _, hneg⟩ := Binary32.round_quotient
    (signed16 ((readByte buf d.offset <<< 8) ||| readByte buf (d.offset + 1))) d.floatFactor
    (by rw [abs_le]; constructor <;> omega) hscale hbyte
  refine ⟨⟨_, _, v, rfl, rfl, by rw [hval, hv], hv, hbin, hnear, herr, hexact, ?_, ?_⟩, ?_⟩
  · intro hlow
    rw [← hor, hmul]
    unfold signed16
    rw [if_pos (by omega)]
  · intro hhigh
    have hn : signed16 ((readByte buf d.offset <<< 8) ||| readByte buf (d.offset + 1)) < 0 := by
      rw [← hor, hmul]
      unfold signed16
      rw [if_neg (by omega)]
      omega
    exact ⟨hn, hneg hn⟩
  · rw [decodeFloatValue_two _ _ rfl (by decide) (by decide)]
    have hn : signed16 ((readByte [0x01, 0xF4] 0 <<< 8) ||| readByte [0x01, 0xF4] (0 + 1)) =
        500 := by decide
    simp only [hn]
    have hq : (((500 : Int) : ℚ)) / ((10 : Nat) : ℚ) = 50 := by norm_num
    rw [hq]
    exact Binary32.round_exact _ (by norm_num [abs_of_pos]) (by norm_num [abs_of_pos])
      ⟨50, 0, by norm_num, by norm_num, by norm_num, by norm_num⟩

/-- C6, instance: the flow temperature field `curImpTemp` (two bytes, scale
10) on a message with the bytes `0x01, 0xF4` at its offset. -/
theorem decodeFloatValue_two_bytes_witness :
    (2 : Nat) = 2 ∧ (10 : Nat) ≠ 0 ∧ (10 : Nat) < 256 ∧
    ∃ (n : Int) (q v : ℚ),
      n = signed16 ((readByte [0x08, 0x0B, 0x18, 0x00, 0x32, 0x01, 0xF4] 5 <<< 8) |||
        readByte [0x08, 0x0B, 0x18, 0x00, 0x32, 0x01, 0xF4] (5 + 1)) ∧
      q = (n : ℚ) / ((10 : Nat) : ℚ) ∧
      decodeFloatValue ⟨"curImpTemp", .Float, .Celsius, 5, 0, 2, 10⟩
        [0x08, 0x0B, 0x18, 0x00, 0x32, 0x01, 0xF4] = Binary32.finite v ∧
      Binary32.round q = Binary32.finite v ∧
      IsBinary32 v ∧
      (∀ x, IsBinary32 x → |v - q| ≤ |x - q|) ∧
      |v - q| ≤ |q| / 2 ^ 24 ∧
      (IsBinary32 q → v = q) ∧
      (readByte [0x08, 0x0B, 0x18, 0x00, 0x32, 0x01, 0xF4] 5 < 0x80 →
        n = (((readByte [0x08, 0x0B, 0x18, 0x00, 0x32, 0x01, 0xF4] 5 <<< 8) |||
          readByte [0x08, 0x0B, 0x18, 0x00, 0x32, 0x01, 0xF4] (5 + 1) : Nat) : Int)) ∧
      (0x80 ≤ readByte [0x08, 0x0B, 0x18, 0x00, 0x32, 0x01, 0xF4] 5 → n < 0 ∧ v < 0) :=
  ⟨rfl, by decide, by decide,
    (decodeFloatValue_two_bytes ⟨"curImpTemp", .Float, .Celsius, 5, 0, 2, 10⟩
      [0x08, 0x0B, 0x18, 0x00, 0x32, 0x01, 0xF4] rfl (by decide) (by decide)).1⟩

/-- C7 (as stated) fails: the system pressure field `SysPress` (one byte,
scale 10) with the byte 13 at its offset decodes to the `float` nearest to
1.3, which is 5452595 / 4194304 and not 13 / 10; multiplied by the scale it
is not the signed byte. -/
theorem decodeFloatValue_one_byte_rounded :
    decodeFloatValue ⟨"SysPress", .Float, .Bar, 21, 0, 1, 10⟩ (List.replicate 21 0 ++ [13]) =
        Binary32.finite (5452595 / 4194304) ∧
      decodeFloatValue ⟨"SysPress", .Float, .Bar, 21, 0, 1, 10⟩ (List.replicate 21 0 ++ [13]) ≠
        Binary32.finite
          (((signed8 (readByte (List.replicate 21 0 ++ [13]) 21) : Int) : ℚ) /
            ((10 : Nat) : ℚ)) ∧
      (5452595 / 4194304 : ℚ) * ((10 : Nat) : ℚ) ≠
        ((signed8 (readByte (List.replicate 21 0 ++ [13]) 21) : Int) : ℚ) := by
  have hn : signed8 (readByte (List.replicate 21 0 ++ [13]) 21) = 13 := by decide
  have h : decodeFloatValue ⟨"SysPress", .Float, .Bar, 21, 0, 1, 10⟩
      (List.replicate 21 0 ++ [13]) = Binary32.finite (5452595 / 4194304) := by
    rw [decodeFloatValue_one _ _ rfl (by decide) (by decide)]
    simp only [hn]
    have hq : (((13 : Int) : ℚ)) / ((10 : Nat) : ℚ) = 13 / 10 := by norm_num
    rw [hq]
    exact Binary32.round_thirteen_tenths
  refine ⟨h, ?_, ?_⟩
  · rw [h, hn]
    intro he
    have := Binary32.finite.inj he
    norm_num at this
  · rw [hn]
    norm_num

/-- C7 (amended): with `floatBytes = 1` and a scale that is a non-zero byte
the result is a finite `float`: the rounding to binary32 of
`signed8(buf[off]) / scale`, with `signed8` in -128..127. It is a number of
binary32, as near to the quotient as any number of binary32, within the
relative error `2 ^ (-24)`, the quotient itself when that is a number of
binary32, and of the sign of the byte; the byte `0xF4` with scale 2 gives
-6. -/
theorem decodeFloatValue_one_byte (d : CalduinoData) (buf : Buffer)
    (h1 : d.floatBytes = 1) (hscale : d.floatFactor ≠ 0) (hbyte : d.floatFactor < 256) :
    (∃ (n : Int) (q v : ℚ),
      n = signed8 (readByte buf d.offset) ∧
      (-128 ≤ n ∧ n ≤ 127) ∧
      q = (n : ℚ) / ((d.floatFactor : Nat) : ℚ) ∧
      decodeFloatValue d buf = Binary32.finite v ∧
      Binary32.round q = Binary32.finite v ∧
      IsBinary32 v ∧
      (∀ x, IsBinary32 x → |v - q| ≤ |x - q|) ∧
      |v - q| ≤ |q| / 2 ^ 24 ∧
      (IsBinary32 q → v = q) ∧
      (0 < n → 0 < v) ∧ (n < 0 → v < 0)) ∧
    decodeFloatValue ⟨"example", .Float, .None, 0, 0, 1, 2⟩ [0xF4] = Binary32.finite (-6) := by
  have hr := signed8_range _ (readByte_lt buf d.offset)
  have hval := decodeFloatValue_one d buf h1 hscale hbyte
  obtain ⟨v, hv, hbin, hnear, herr, hexact, hpos, hneg⟩ := Binary32.round_quotient
    (signed8 (readByte buf d.offset)) d.floatFactor
    (by rw [abs_le]; constructor <;> omega) hscale hbyte
  refine ⟨⟨_, _, v, rfl, hr, rfl, by rw [hval, hv], hv, hbin, hnear, herr, hexact, hpos, hneg⟩,
    ?_⟩
  rw [decodeFloatValue_one _ _ rfl (by decide) (by decide)]
  have hn : signed8 (readByte [0xF4] 0) = -12 := by decide
  simp only [hn]
  have hq : (((-12 : Int) : ℚ)) / ((2 : Nat) : ℚ) = -6 := by norm_num
  rw [hq]
  exact Binary32.round_exact _ (by norm_num [abs_of_pos]) (by norm_num [abs_of_pos])
    ⟨-6, 0, by norm_num, by norm_num, by norm_num, by norm_num⟩

/-- C7, instance: the night temperature field `selNightTempHC` (one byte,
scale 2) on a message with the byte `0xF4` at its offset. -/
theorem decodeFloatValue_one_byte_witness :
    (1 : Nat) = 1 ∧ (2 : Nat) ≠ 0 ∧ (2 : Nat) < 256 ∧
    ∃ (n : Int) (q v : ℚ),
      n = signed8 (readByte [0x10, 0x0B, 0x3D, 0x00, 0x00, 0xF4] 5) ∧
      (-128 ≤ n ∧ n ≤ 127) ∧
      q = (n : ℚ) / ((2 : Nat) : ℚ) ∧
      decodeFloatValue ⟨"selNightTempHC", .Float, .Celsius, 5, 0, 1, 2⟩
        [0x10, 0x0B, 0x3D, 0x00, 0x00, 0xF4] = Binary32.finite v ∧
      Binary32.round q = Binary32.finite v ∧
      IsBinary32 v ∧
      (∀ x, IsBinary32 x → |v - q| ≤ |x - q|) ∧
      |v - q| ≤ |q| / 2 ^ 24 ∧
      (IsBinary32 q → v = q) ∧
      (0 < n → 0 < v) ∧ (n < 0 → v < 0) :=
  ⟨rfl, by decide, by decide,
    (decodeFloatValue_one_byte ⟨"selNightTempHC", .Float, .Celsius, 5, 0, 1, 2⟩
      [0x10, 0x0B, 0x3D, 0x00, 0x00, 0xF4] rfl (by decide) (by decide)).1⟩

/-! ## Protocol engine: what reaches the transport -/

section EngineFacts

variable {σ : Type}

@[simp]
theorem World.millis_tx (P : Platform σ) (w : World σ) : (World.millis P w).2.tx = w.tx := rfl

@[simp]
theorem World.delay_tx (P : Platform σ) (ms : Nat) (w : World σ) :
    (World.delay P ms w).tx = w.tx := rfl

@[simp]
theorem World.available_tx (P : Platform σ) (w : World σ) :
    (World.available P w).2.tx = w.tx := rfl

@[simp]
theorem World.peek_tx (P : Platform σ) (w : World σ) : (World.peek P w).2.tx = w.tx := rfl

@[simp]
theorem World.read_tx (P : Platform σ) (w : World σ) : (World.read P w).2.tx = w.tx := rfl

@[simp]
theorem World.flush_tx (P : Platform σ) (w : World σ) : (World.flush P w).tx = w.tx := rfl

@[simp]
theorem World.frameError_tx (P : Platform σ) (w : World σ) :
    (World.frameError P w).2.tx = w.tx := rfl

@[simp]
theorem World.write_tx (P : Platform σ) (b : Nat) (w : World σ) :
    (World.write P b w).tx = w.tx ++ [TxEvent.byte (b % 256)] := rfl

@[simp]
theorem World.writeEOF_tx (P : Platform σ) (w : World σ) :
    (World.writeEOF P w).tx = w.tx ++ [TxEvent.eof] := rfl

theorem skipBreaks_tx (P : Platform σ) (T : Nat) :
    ∀ (n : Nat) (w w' : World σ), skipBreaks P T n w = some w' → w'.tx = w.tx := by
  intro n
  induction n with
  | zero => intro w w' h; simp [skipBreaks] at h
  | succ n ih =>
    intro w w' h
    unfold skipBreaks at h
    simp only at h
    split at h
    · split at h
      · split at h
        · simpa using ih _ _ h
        · cases h; simp
      · cases h; simp
    · cases h; simp

theorem readLoop_tx (P : Platform σ) (len T : Nat) :
    ∀ (n : Nat) (buf : Buffer) (ptr : Nat) (w : World σ) (r : Buffer × Nat) (w' : World σ),
      readLoop P len T n buf ptr w = some (r, w') → w'.tx = w.tx := by
  intro n
  induction n with
  | zero => intro buf ptr w r w' h; simp [readLoop] at h
  | succ n ih =>
    intro buf ptr w r w' h
    unfold readLoop at h
    simp only at h
    split at h
    · cases h; simp
    · split at h
      · split at h
        · split at h
          · simpa using ih _ _ _ _ _ h
          · simpa using ih _ _ _ _ _ h
        · cases h; simp
      · cases h; simp

/-- `readBytes` never stores more than `len` bytes. -/
theorem readLoop_ptr_le (P : Platform σ) (len T : Nat) :
    ∀ (n : Nat) (buf : Buffer) (ptr : Nat) (w : World σ) (r : Buffer × Nat) (w' : World σ),
      readLoop P len T n buf ptr w = some (r, w') → ptr ≤ len → r.2 ≤ len := by
  intro n
  induction n with
  | zero => intro buf ptr w r w' h; simp [readLoop] at h
  | succ n ih =>
    intro buf ptr w r w' h hp
    unfold readLoop at h
    simp only at h
    split at h
    · cases h; exact hp
    · split at h
      · split at h
        · split at h
          · exact ih _ _ _ _ _ h (by omega)
          · exact ih _ _ _ _ _ h hp
        · cases h; exact hp
      · cases h; exact hp

theorem readBytes_tx (P : Platform σ) (fuel : Nat) (buf : Buffer) (len T : Nat) (w : World σ)
    (r : Buffer × Nat) (w' : World σ) (h : readBytes P fuel buf len T w = some (r, w')) :
    w'.tx = w.tx := by
  unfold readBytes at h
  split at h
  · cases h
  · rename_i w1 h1
    split at h
    · cases h
    · rename_i r2 w2 h2
      cases h
      rw [World.flush_tx, readLoop_tx P _ _ _ _ _ _ _ _ h2, skipBreaks_tx P _ _ _ _ h1]

theorem readBytes_ptr_le (P : Platform σ) (fuel : Nat) (buf : Buffer) (len T : Nat) (w : World σ)
    (r : Buffer × Nat) (w' : World σ) (h : readBytes P fuel buf len T w = some (r, w')) :
    r.2 ≤ 255 := by
  unfold readBytes at h
  split at h
  · cases h
  · split at h
    · cases h
    · rename_i r2 w2 h2
      cases h
      have := readLoop_ptr_le P _ _ _ _ _ _ _ _ h2 (Nat.zero_le _)
      have hlt : len % 256 < 256 := Nat.mod_lt _ (by decide)
      omega

end EngineFacts

section EngineFacts2

variable {σ : Type}

theorem sendBuffer_frame (P : Platform σ) (out : Buffer) (w w' : World σ)
    (h : sendBuffer P out OUT_EMS_BUFFER_SIZE w = some w') :
    w'.tx = w.tx ++ frameEvents out := by
  have hr : List.range 6 = [0, 1, 2, 3, 4, 5] := by decide
  have hb : ∀ j, readByte out j % 256 = readByte out j :=
    fun j => Nat.mod_eq_of_lt (readByte_lt out j)
  simp only [sendBuffer, OUT_EMS_BUFFER_SIZE] at h
  norm_num at h
  subst h
  simp [hr, frameEvents, hb]

theorem pollLoop_tx (P : Platform σ) (fuel T : Nat) :
    ∀ (n pa : Nat) (aux : Buffer) (w : World σ) (b : Bool) (w' : World σ),
      pollLoop P fuel T n pa aux w = some (b, w') → w'.tx = w.tx := by
  intro n
  induction n with
  | zero => intro pa aux w b w' h; simp [pollLoop] at h
  | succ n ih =>
    intro pa aux w b w' h
    unfold pollLoop at h
    simp only at h
    split at h
    · split at h
      · cases h; simp
      · split at h
        · cases h
        · rename_i aux1 k w1 h1
          rw [ih _ _ _ _ _ h, readBytes_tx P _ _ _ _ _ _ _ h1, World.millis_tx]
    · cases h; rfl

end EngineFacts2

section EngineFacts3

variable {σ : Type}

/-- The polling loop is only left with `true` right after a `readBytes` that
returned two bytes, the first of which is the address of the engine. -/
theorem pollLoop_true (P : Platform σ) (fuel T : Nat) :
    ∀ (n pa : Nat) (aux : Buffer) (w w' : World σ), pa &&& 0x7F ≠ DeviceID.PC →
      pollLoop P fuel T n pa aux w = some (true, w') →
      ∃ (aux0 aux1 : Buffer) (v : World σ), v.tx = w.tx ∧
        readBytes P fuel aux0 MAX_EMS_READ T v = some ((aux1, 2), w') ∧
        readByte aux1 0 &&& 0x7F = DeviceID.PC := by
  intro n
  induction n with
  | zero => intro pa aux w w' _ h; simp [pollLoop] at h
  | succ n ih =>
    intro pa aux w w' hpa h
    unfold pollLoop at h
    simp only [hpa, ne_eq, not_false_eq_true, if_true] at h
    split at h
    · cases h
    · split at h
      · cases h
      · rename_i aux1 k w1 h1
        by_cases hk : k = 2
        · subst hk
          simp only [if_true] at h
          by_cases hm : readByte aux1 0 &&& 0x7F = DeviceID.PC
          · cases n with
            | zero => simp [pollLoop] at h
            | succ n =>
              unfold pollLoop at h
              simp only [hm, ne_eq, not_true_eq_false, if_false] at h
              cases h
              exact ⟨aux, aux1, _, World.millis_tx P w, h1, hm⟩
          · obtain ⟨a0, a1, v, hv, hr, hmm⟩ := ih _ _ _ _ hm h
            exact ⟨a0, a1, v, by rw [hv, readBytes_tx P _ _ _ _ _ _ _ h1, World.millis_tx],
              hr, hmm⟩
        · simp only [hk, if_false] at h
          obtain ⟨a0, a1, v, hv, hr, hmm⟩ := ih _ _ _ _ hpa h
          exact ⟨a0, a1, v, by rw [hv, readBytes_tx P _ _ _ _ _ _ _ h1, World.millis_tx],
            hr, hmm⟩

/-- The polling loop only returns `false` on a clock reading beyond the
deadline. -/
theorem pollLoop_false (P : Platform σ) (fuel T : Nat) :
    ∀ (n pa : Nat) (aux : Buffer) (w w' : World σ),
      pollLoop P fuel T n pa aux w = some (false, w') →
      ∃ v : World σ, v.tx = w.tx ∧ T < (World.millis P v).1 ∧ w' = (World.millis P v).2 := by
  intro n
  induction n with
  | zero => intro pa aux w w' h; simp [pollLoop] at h
  | succ n ih =>
    intro pa aux w w' h
    unfold pollLoop at h
    simp only at h
    split at h
    · split at h
      · rename_i hT
        cases h
        exact ⟨w, rfl, hT, rfl⟩
      · split at h
        · cases h
        · rename_i aux1 k w1 h1
          obtain ⟨v, hv, hT, hw⟩ := ih _ _ _ _ h
          exact ⟨v, by rw [hv, readBytes_tx P _ _ _ _ _ _ _ h1, World.millis_tx], hT, hw⟩
    · cases h

/-- The shape of a returning `sendRequest`. -/
theorem sendRequest_cases (P : Platform σ) (fuel : Nat) (out : Buffer) (w : World σ) (b : Bool)
    (out1 : Buffer) (w' : World σ) (h : sendRequest P fuel out w = some ((b, out1), w')) :
    ∃ crc, crcCalculator fuel out OUT_EMS_BUFFER_SIZE = some crc ∧ out1 = writeByte out 5 crc ∧
      (b = false → w'.tx = w.tx) ∧ (b = true → w'.tx = w.tx ++ frameEvents out1) := by
  unfold sendRequest at h
  split at h
  · cases h
  · rename_i crc hcrc
    simp only at h
    split at h
    · cases h
    · rename_i w1 hp
      cases h
      refine ⟨crc, hcrc, rfl, fun _ => ?_, fun hb => by cases hb⟩
      rw [pollLoop_tx P _ _ _ _ _ _ _ _ hp]; rfl
    · rename_i w1 hp
      split at h
      · cases h
      · rename_i w2 hs
        cases h
        refine ⟨crc, hcrc, rfl, (fun hb => by cases hb), fun _ => ?_⟩
        rw [sendBuffer_frame P _ _ _ hs, World.delay_tx, pollLoop_tx P _ _ _ _ _ _ _ _ hp]; rfl

theorem waitAvailable_tx (P : Platform σ) (T : Nat) :
    ∀ (n : Nat) (w w' : World σ), waitAvailable P T n w = some w' → w'.tx = w.tx := by
  intro n
  induction n with
  | zero => intro w w' h; simp [waitAvailable] at h
  | succ n ih =>
    intro w w' h
    unfold waitAvailable at h
    simp only at h
    split at h
    · split at h
      · cases h; simp
      · simpa using ih _ _ h
    · cases h; simp

theorem awaitResponse_tx (P : Platform σ) (fuel : Nat) (buffer : σ → Buffer) (len : Nat)
    (w : World σ) (r : Option (Buffer × Nat)) (w' : World σ)
    (h : awaitResponse P fuel buffer len w = some (r, w')) :
    w'.tx = w.tx ∧ ∀ buf ptr, r = some (buf, ptr) → ptr ≤ 255 := by
  unfold awaitResponse at h
  simp only at h
  split at h
  · cases h
  · rename_i w1 h1
    have hw1 : w1.tx = w.tx := by rw [waitAvailable_tx P _ _ _ _ h1]; rfl
    split at h
    · split at h
      · cases h
      · rename_i r2 w2 h2
        cases h
        refine ⟨by rw [readBytes_tx P _ _ _ _ _ _ _ h2]; simpa using hw1, ?_⟩
        intro buf ptr hr
        cases hr
        exact readBytes_ptr_le P _ _ _ _ _ _ _ h2
    · cases h
      exact ⟨by simpa using hw1, fun _ _ hr => by cases hr⟩

/-- The shape of a returning chunk transaction: at most one frame is sent,
and an answer is only accepted after the frame has been sent. -/
theorem chunkTransaction_cases (P : Platform σ) (fuel t : Nat) (out : Buffer) (w : World σ)
    (out2 : Buffer) (r : Option Buffer) (w' : World σ)
    (h : chunkTransaction P fuel t out w = some ((out2, r), w')) :
    ∃ crc, crcCalculator fuel out OUT_EMS_BUFFER_SIZE = some crc ∧ out2 = writeByte out 5 crc ∧
      (w'.tx = w.tx ∨ w'.tx = w.tx ++ frameEvents out2) ∧
      (r ≠ none → w'.tx = w.tx ++ frameEvents out2) := by
  unfold chunkTransaction at h
  split at h
  · cases h
  · rename_i o2 w1 hs
    cases h
    obtain ⟨crc, hc, ho, hf, _⟩ := sendRequest_cases P _ _ _ _ _ _ hs
    exact ⟨crc, hc, ho, Or.inl (hf rfl), fun hr => absurd rfl hr⟩
  · rename_i o2 w1 hs
    obtain ⟨crc, hc, ho, _, ht⟩ := sendRequest_cases P _ _ _ _ _ _ hs
    split at h
    · cases h
    · rename_i w2 ha
      cases h
      have := (awaitResponse_tx P _ _ _ _ _ _ ha).1
      exact ⟨crc, hc, ho, Or.inr (by rw [this, ht rfl]), fun hr => absurd rfl hr⟩
    · rename_i aux ptr w2 ha
      have htx := (awaitResponse_tx P _ _ _ _ _ _ ha).1
      split at h
      · cases h
      · cases h
        exact ⟨crc, hc, ho, Or.inr (by rw [htx, ht rfl]), fun _ => by rw [htx, ht rfl]⟩
      · cases h
        exact ⟨crc, hc, ho, Or.inr (by rw [htx, ht rfl]), fun hr => absurd rfl hr⟩

end EngineFacts3

section Arbitration

variable {σ : Type}

/-- The arbitration of `sendRequest` in every run: a returning call has
written to the transport only when its last `readBytes` returned exactly two
bytes whose first, masked with `0x7F`, is the address `0x0B`, and then it has
sent the six bytes of the buffer and one break; when it returns `false`
nothing has been written and a clock reading beyond the deadline has been
seen. In the polling loop a clock reading beyond the deadline ends the call
with `false`, and a `readBytes` that returns another count or another
address leaves the loop waiting. -/
theorem sendRequest_arbitration (P : Platform σ) (fuel : Nat) (out : Buffer) (w : World σ)
    (b : Bool) (out1 : Buffer) (w' : World σ)
    (h : sendRequest P fuel out w = some ((b, out1), w')) :
    (b = true →
      ∃ (aux0 aux1 : Buffer) (v v' : World σ), v.tx = w.tx ∧
        readBytes P fuel aux0 MAX_EMS_READ
          (((World.millis P (World.flush P w)).1 + EMSMaxWaitTime * RETRY_FACTOR) % 2 ^ 32) v =
          some ((aux1, 2), v') ∧
        readByte aux1 0 &&& 0x7F = 0x0B ∧
        sendBuffer P out1 OUT_EMS_BUFFER_SIZE (World.delay P 2 v') = some w' ∧
        w'.tx = w.tx ++ frameEvents out1) ∧
    (b = false →
      w'.tx = w.tx ∧
      ∃ v : World σ, v.tx = w.tx ∧ w' = (World.millis P v).2 ∧
        ((World.millis P (World.flush P w)).1 + EMSMaxWaitTime * RETRY_FACTOR) % 2 ^ 32 <
          (World.millis P v).1) ∧
    (∀ (T n pa : Nat) (aux : Buffer) (v : World σ), pa &&& 0x7F ≠ 0x0B →
      T < (World.millis P v).1 →
      pollLoop P fuel T (n + 1) pa aux v = some (false, (World.millis P v).2)) ∧
    (∀ (T n pa k : Nat) (aux aux1 : Buffer) (v v1 : World σ), pa &&& 0x7F ≠ 0x0B →
      ¬ T < (World.millis P v).1 →
      readBytes P fuel aux MAX_EMS_READ T (World.millis P v).2 = some ((aux1, k), v1) →
      ¬ (k = 2 ∧ readByte aux1 0 &&& 0x7F = 0x0B) →
      (if k = 2 then readByte aux1 0 else pa) &&& 0x7F ≠ 0x0B ∧ v1.tx = v.tx ∧
      pollLoop P fuel T (n + 1) pa aux v =
        pollLoop P fuel T n (if k = 2 then readByte aux1 0 else pa) aux1 v1) := by
  refine ⟨?_, ?_, ?_, ?_⟩
  · intro hb
    subst hb
    have hframe := (sendRequest_cases P _ _ _ _ _ _ h).choose_spec.2.2.2 rfl
    unfold sendRequest at h
    split at h
    · cases h
    · rename_i crc hcrc
      simp only at h
      split at h
      · cases h
      · cases h
      · rename_i w1 hp
        split at h
        · cases h
        · rename_i w2 hs
          cases h
          obtain ⟨a0, a1, v, hv, hr, hm⟩ :=
            pollLoop_true P _ _ _ _ _ _ _ (by decide) hp
          exact ⟨a0, a1, v, w1, by rw [hv]; rfl, hr, hm, hs, hframe⟩
  · intro hb
    subst hb
    have hsame := (sendRequest_cases P _ _ _ _ _ _ h).choose_spec.2.2.1 rfl
    refine ⟨hsame, ?_⟩
    unfold sendRequest at h
    split at h
    · cases h
    · simp only at h
      split at h
      · cases h
      · rename_i w1 hp
        cases h
        obtain ⟨v, hv, hT, hw⟩ := pollLoop_false P _ _ _ _ _ _ _ hp
        exact ⟨v, by rw [hv]; rfl, hw, hT⟩
      · split at h
        · cases h
        · cases h
  · intro T n pa aux v hpa hT
    have hpa' : pa &&& 0x7F ≠ DeviceID.PC := hpa
    unfold pollLoop
    simp only [hpa', ne_eq, not_false_eq_true, if_true, hT]
  · intro T n pa k aux aux1 v v1 hpa hT hr hk
    have hpa' : pa &&& 0x7F ≠ DeviceID.PC := hpa
    refine ⟨?_, ?_, ?_⟩
    · by_cases h2 : k = 2
      · simp only [h2, if_true]
        exact fun hm => hk ⟨h2, hm⟩
      · simpa only [h2, if_false] using hpa
    · rw [readBytes_tx P _ _ _ _ _ _ _ hr, World.millis_tx]
    · conv_lhs => unfold pollLoop
      simp only [hpa', ne_eq, not_false_eq_true, if_true, hT, if_false, hr]

end Arbitration

section Framing

variable {σ : Type}

theorem writeByte_length (buf : Buffer) (i v : Nat) : (writeByte buf i v).length = buf.length := by
  simp [writeByte]

theorem freshArray_length (P : Platform σ) (s : σ) (base n : Nat) :
    (freshArray P s base n).length = n := by
  simp [freshArray]

/-- A value returned by the CRC loop is the folded CRC, whatever the fuel. -/
theorem crcLoop_some (buf : Buffer) (len : Int) (h255 : (len - 2).toNat ≤ 255) :
    ∀ (fuel i crc c : Nat), i ≤ (len - 2).toNat → crcLoop buf len fuel i crc = some c →
      c = crcFold buf crc i ((len - 2).toNat - i) := by
  intro fuel
  induction fuel with
  | zero => intro i crc c _ h; simp [crcLoop] at h
  | succ f ih =>
    intro i crc c hi h
    unfold crcLoop at h
    split at h
    · rename_i hlt
      have hw : (i + 1) % 256 = i + 1 := Nat.mod_eq_of_lt (by omega)
      rw [hw] at h
      have := ih _ _ _ (by omega) h
      rw [this]
      have hk : (len - 2).toNat - i = ((len - 2).toNat - (i + 1)) + 1 := by omega
      rw [hk, crcFold_succ]
    · rename_i hge
      cases h
      have hk : (len - 2).toNat - i = 0 := by omega
      rw [hk, crcFold_zero]

/-- The CRC that `sendRequest` stores in a request buffer of seven bytes. -/
theorem crcCalculator_request (fuel : Nat) (out : Buffer) (crc : Nat)
    (h : crcCalculator fuel out OUT_EMS_BUFFER_SIZE = some crc) :
    crc = crcSpec [readByte out 0, readByte out 1, readByte out 2, readByte out 3, readByte out 4]
      7 := by
  have h5 : (((OUT_EMS_BUFFER_SIZE : Nat) : Int) - 2).toNat = 5 := by decide
  have := crcLoop_some out _ (by rw [h5]; decide) fuel 0 0 crc (Nat.zero_le _) h
  rw [this, h5, ← crcFold_eq_spec]
  have h7 : ((7 : Int) - 2).toNat = 5 := by decide
  rw [h7]
  refine (crcFold_congr _ _ 5 0 0 ?_).symm
  intro j _ hj
  have hb : ∀ k, readByte out k % 256 = readByte out k :=
    fun k => Nat.mod_eq_of_lt (readByte_lt out k)
  have hj5 : j = 0 ∨ j = 1 ∨ j = 2 ∨ j = 3 ∨ j = 4 := by omega
  rcases hj5 with rfl | rfl | rfl | rfl | rfl <;> simp [readByte, hb]

/-- The frame that goes out for a request buffer whose first byte is the
address of the engine. -/
theorem frameEvents_request (fuel : Nat) (out : Buffer) (crc : Nat) (hlen : out.length = 7)
    (h0 : readByte out 0 = 0x0B)
    (h : crcCalculator fuel out OUT_EMS_BUFFER_SIZE = some crc) :
    frameEvents (writeByte out 5 crc) =
      requestFrame (readByte out 1) (readByte out 2) (readByte out 3) (readByte out 4) := by
  have hc := crcCalculator_request fuel out crc h
  have hb : ∀ k, readByte out k % 256 = readByte out k :=
    fun k => Nat.mod_eq_of_lt (readByte_lt out k)
  have hclt : crc < 256 := by
    rw [hc, ← crcFold_eq_spec]
    exact crcFold_lt _ (by decide) _ _
  simp only [frameEvents, requestFrame, hb]
  rw [readByte_writeByte_ne out crc (by decide : (0 : Nat) ≠ 5),
    readByte_writeByte_ne out crc (by decide : (1 : Nat) ≠ 5),
    readByte_writeByte_ne out crc (by decide : (2 : Nat) ≠ 5),
    readByte_writeByte_ne out crc (by decide : (3 : Nat) ≠ 5),
    readByte_writeByte_ne out crc (by decide : (4 : Nat) ≠ 5),
    readByte_writeByte_same out crc (by omega), Nat.mod_eq_of_lt hclt]
  rw [h0] at hc
  rw [h0, ← hc]

end Framing

section ReadFraming

variable {σ : Type}

theorem requestFrame_mod (b1 t off n : Nat) :
    requestFrame (b1 % 256) (t % 256) (off % 256) (n % 256) = requestFrame b1 t off n := by
  simp [requestFrame, Nat.mod_mod]

theorem readByte_mod (buf : Buffer) (i : Nat) : readByte buf i % 256 = readByte buf i :=
  Nat.mod_eq_of_lt (readByte_lt buf i)

theorem chunkRequest_header (g : GetState) (b1 t : Nat) (h : HeaderOK g.outEMSBuffer b1 t) :
    HeaderOK (chunkRequest g) b1 t ∧ readByte (chunkRequest g) 3 = g.offset % 256 ∧
      readByte (chunkRequest g) 4 = chunkSize g.length % 256 := by
  obtain ⟨hl, h0, h1, h2⟩ := h
  have hl3 : (writeByte g.outEMSBuffer 3 g.offset).length = 7 := by rw [writeByte_length, hl]
  refine ⟨⟨by simp [chunkRequest, writeByte_length, hl], ?_, ?_, ?_⟩, ?_, ?_⟩
  · rw [chunkRequest, readByte_writeByte_ne _ _ (by decide), readByte_writeByte_ne _ _ (by decide), h0]
  · rw [chunkRequest, readByte_writeByte_ne _ _ (by decide), readByte_writeByte_ne _ _ (by decide), h1]
  · rw [chunkRequest, readByte_writeByte_ne _ _ (by decide), readByte_writeByte_ne _ _ (by decide), h2]
  · rw [chunkRequest, readByte_writeByte_ne _ _ (by decide),
      readByte_writeByte_same _ _ (by omega)]
  · rw [chunkRequest, readByte_writeByte_same _ _ (by omega)]
    rfl

theorem writeCRC_header (out : Buffer) (crc b1 t : Nat) (h : HeaderOK out b1 t) :
    HeaderOK (writeByte out 5 crc) b1 t ∧
      readByte (writeByte out 5 crc) 3 = readByte out 3 ∧
      readByte (writeByte out 5 crc) 4 = readByte out 4 := by
  obtain ⟨hl, h0, h1, h2⟩ := h
  refine ⟨⟨by rw [writeByte_length, hl], ?_, ?_, ?_⟩, ?_, ?_⟩ <;>
    rw [readByte_writeByte_ne _ _ (by decide)] <;> assumption

/-- The shape of one returning pass through the loop of `getEMSCommand`. -/
theorem getEMSIteration_cases (P : Platform σ) (fuel t b1 t1 : Nat) (g g1 : GetState)
    (w w1 : World σ) (hh : HeaderOK g.outEMSBuffer b1 t1)
    (h : getEMSIteration P fuel t g w = some (g1, w1)) :
    ∃ (out2 : Buffer) (r : Option Buffer),
      chunkTransaction P fuel t (chunkRequest g) w = some ((out2, r), w1) ∧
      HeaderOK out2 b1 t1 ∧ readByte out2 3 = g.offset % 256 ∧
      readByte out2 4 = chunkSize g.length % 256 ∧
      (w1.tx = w.tx ∨ w1.tx = w.tx ++ requestFrame b1 t1 g.offset (chunkSize g.length)) ∧
      (r = none → g1 = { g with outEMSBuffer := out2 }) ∧
      (∀ aux, r = some aux → g1 = acceptChunk g out2 aux ∧
        w1.tx = w.tx ++ requestFrame b1 t1 g.offset (chunkSize g.length)) := by
  obtain ⟨hc, h3, h4⟩ := chunkRequest_header g b1 t1 hh
  have key : ∀ out2 r, chunkTransaction P fuel t (chunkRequest g) w = some ((out2, r), w1) →
      HeaderOK out2 b1 t1 ∧ readByte out2 3 = g.offset % 256 ∧
      readByte out2 4 = chunkSize g.length % 256 ∧
      (w1.tx = w.tx ∨ w1.tx = w.tx ++ requestFrame b1 t1 g.offset (chunkSize g.length)) ∧
      (r ≠ none → w1.tx = w.tx ++ requestFrame b1 t1 g.offset (chunkSize g.length)) := by
    intro out2 r hct
    obtain ⟨crc, hcrc, ho, htx, hacc⟩ := chunkTransaction_cases P _ _ _ _ _ _ _ hct
    obtain ⟨hh2, h3', h4'⟩ := writeCRC_header (chunkRequest g) crc b1 t1 hc
    have hfr : frameEvents out2 = requestFrame b1 t1 g.offset (chunkSize g.length) := by
      rw [ho, frameEvents_request fuel _ crc hc.1 hc.2.1 hcrc, hc.2.2.1, hc.2.2.2, h3, h4,
        ← requestFrame_mod b1 t1 (g.offset % 256) (chunkSize g.length % 256),
        Nat.mod_mod, Nat.mod_mod, requestFrame_mod]
    rw [hfr] at htx hacc
    rw [ho]
    exact ⟨hh2, by rw [h3', h3], by rw [h4', h4], htx, hacc⟩
  unfold getEMSIteration at h
  split at h
  · cases h
  · rename_i out2 w2 hct
    cases h
    obtain ⟨a, b, c, d, _⟩ := key _ _ hct
    exact ⟨out2, none, hct, a, b, c, d, fun _ => rfl, fun aux ha => by cases ha⟩
  · rename_i out2 aux w2 hct
    cases h
    obtain ⟨a, b, c, d, e⟩ := key _ _ hct
    refine ⟨out2, some aux, hct, a, b, c, d, (fun hn => by cases hn), ?_⟩
    intro aux' ha
    cases ha
    exact ⟨rfl, e (by simp)⟩

/-- Every frame a returning `getEMSLoop` sends is a read request with the
header of its buffer. -/
theorem getEMSLoop_frames (P : Platform σ) (fuel t b1 t1 : Nat) :
    ∀ (n : Nat) (g : GetState) (w : World σ) (r : Bool × Buffer) (w' : World σ),
      HeaderOK g.outEMSBuffer b1 t1 → getEMSLoop P fuel t n g w = some (r, w') →
      ∃ chunks : List (Nat × Nat),
        w'.tx = w.tx ++ chunks.flatMap (fun c => requestFrame b1 t1 c.1 c.2) := by
  intro n
  induction n with
  | zero => intro g w r w' _ h; simp [getEMSLoop] at h
  | succ n ih =>
    intro g w r w' hh h
    unfold getEMSLoop at h
    split at h
    · split at h
      · cases h
      · rename_i g1 w1 hit
        obtain ⟨out2, r2, _, hh2, _, _, htx, hnone, hsome⟩ :=
          getEMSIteration_cases P fuel t b1 t1 g g1 w w1 hh hit
        have hg1 : HeaderOK g1.outEMSBuffer b1 t1 := by
          cases r2 with
          | none => rw [hnone rfl]; exact hh2
          | some aux => rw [(hsome aux rfl).1]; exact hh2
        obtain ⟨chunks, hch⟩ := ih g1 w1 r w' hg1 h
        rcases htx with htx | htx
        · exact ⟨chunks, by rw [hch, htx]⟩
        · exact ⟨(g.offset, chunkSize g.length) :: chunks, by
            rw [hch, htx, List.flatMap_cons, List.append_assoc]⟩
    · cases h
      exact ⟨[], by simp⟩

theorem getEMSHeader_ok (P : Platform σ) (s : σ) (destinationID messageID : Nat) :
    HeaderOK (getEMSHeader P s destinationID messageID) ((destinationID ||| 0x80) % 256)
        (messageID % 256) ∧
      readByte (getEMSHeader P s destinationID messageID) 3 = 255 := by
  have hl : (freshArray P s 0 OUT_EMS_BUFFER_SIZE).length = 7 := freshArray_length P s 0 7
  unfold getEMSHeader
  refine ⟨⟨by simp [writeByte_length, hl], ?_, ?_, ?_⟩, ?_⟩
  · rw [readByte_writeByte_ne _ _ (by decide), readByte_writeByte_ne _ _ (by decide),
      readByte_writeByte_ne _ _ (by decide), readByte_writeByte_same _ _ (by omega)]
    rfl
  · rw [readByte_writeByte_ne _ _ (by decide), readByte_writeByte_ne _ _ (by decide),
      readByte_writeByte_same _ _ (by simp [writeByte_length, hl])]
  · rw [readByte_writeByte_ne _ _ (by decide),
      readByte_writeByte_same _ _ (by simp [writeByte_length, hl])]
  · rw [readByte_writeByte_same _ _ (by simp [writeByte_length, hl])]

/-- C16: whatever a returning `getEMSCommand` for device `dest` and message
type `t` has handed to the transport is a sequence of read requests, each the
six bytes `[0x0B, dest | 0x80, t, chunkOffset, chunkLength, CRC]` in that
order, the CRC being that of the five bytes in front of it, followed by
exactly one end-of-frame break. -/
theorem getEMSCommand_request_frames (P : Platform σ) (fuel : Nat) (inEMSBuffer : Buffer)
    (dest t length offset : Nat) (w : World σ) (r : Bool × Buffer) (w' : World σ)
    (h : getEMSCommand P fuel inEMSBuffer dest t length offset w = some (r, w')) :
    ∃ chunks : List (Nat × Nat),
      w'.tx = w.tx ++ chunks.flatMap (fun c =>
        [TxEvent.byte 0x0B, TxEvent.byte ((dest ||| 0x80) % 256), TxEvent.byte (t % 256),
         TxEvent.byte (c.1 % 256), TxEvent.byte (c.2 % 256),
         TxEvent.byte (crcSpec [0x0B, (dest ||| 0x80) % 256, t % 256, c.1 % 256, c.2 % 256] 7),
         TxEvent.eof]) ∧
      ∀ c ∈ chunks, ∀ x y : Nat,
        crcCalculator 256 [0x0B, (dest ||| 0x80) % 256, t % 256, c.1 % 256, c.2 % 256, x, y] 7 =
          some (crcSpec [0x0B, (dest ||| 0x80) % 256, t % 256, c.1 % 256, c.2 % 256] 7) := by
  unfold getEMSCommand at h
  obtain ⟨chunks, hch⟩ := getEMSLoop_frames P fuel t _ _ _ _ _ _ _
    (getEMSHeader_ok P w.st dest t).1 h
  refine ⟨chunks, ?_, ?_⟩
  · rw [hch]
    congr 1
    simp [requestFrame, Nat.mod_mod]
  · intro c _ x y
    rw [crcCalculator_eq_fold 256 _ 7 (by decide) (le_refl _), crcFold_eq_spec]
    congr 1

end ReadFraming

section WriteFraming

variable {σ : Type}

/-- What a returning `sendRequest` sends for a request buffer of seven bytes
that starts with the address of the engine. -/
theorem sendRequest_frame (P : Platform σ) (fuel : Nat) (out : Buffer) (w : World σ) (b : Bool)
    (out1 : Buffer) (w' : World σ) (hlen : out.length = 7) (h0 : readByte out 0 = 0x0B)
    (h : sendRequest P fuel out w = some ((b, out1), w')) :
    (∃ crc, out1 = writeByte out 5 crc) ∧ (b = false → w'.tx = w.tx) ∧
      (b = true → w'.tx = w.tx ++
        requestFrame (readByte out 1) (readByte out 2) (readByte out 3) (readByte out 4)) := by
  obtain ⟨crc, hcrc, ho, hf, ht⟩ := sendRequest_cases P _ _ _ _ _ _ h
  refine ⟨⟨crc, ho⟩, hf, fun hb => ?_⟩
  rw [ht hb, ho, frameEvents_request fuel out crc hlen h0 hcrc]

theorem setEMSVerify_tx (P : Platform σ) (fuel : Nat) (out inb : Buffer) (dest t data : Nat)
    (w : World σ) (b : Bool) (w' : World σ) (hlen : out.length = 7)
    (h0 : readByte out 0 = 0x0B)
    (h : setEMSVerify P fuel out inb dest t data w = some (b, w')) :
    (w'.tx = w.tx ∨
      w'.tx = w.tx ++ requestFrame (dest ||| 0x80) (readByte out 2) (readByte out 3) 1) ∧
    (b = true →
      w'.tx = w.tx ++ requestFrame (dest ||| 0x80) (readByte out 2) (readByte out 3) 1) := by
  have hl1 : (writeByte out 1 (dest ||| 0x80)).length = 7 := by rw [writeByte_length, hlen]
  have hl : (writeByte (writeByte out 1 (dest ||| 0x80)) 4 1).length = 7 := by
    rw [writeByte_length, hl1]
  have hb0 : readByte (writeByte (writeByte out 1 (dest ||| 0x80)) 4 1) 0 = 0x0B := by
    rw [readByte_writeByte_ne _ _ (by decide), readByte_writeByte_ne _ _ (by decide), h0]
  have hfr : requestFrame (readByte (writeByte (writeByte out 1 (dest ||| 0x80)) 4 1) 1)
      (readByte (writeByte (writeByte out 1 (dest ||| 0x80)) 4 1) 2)
      (readByte (writeByte (writeByte out 1 (dest ||| 0x80)) 4 1) 3)
      (readByte (writeByte (writeByte out 1 (dest ||| 0x80)) 4 1) 4) =
      requestFrame (dest ||| 0x80) (readByte out 2) (readByte out 3) 1 := by
    rw [readByte_writeByte_ne _ _ (by decide), readByte_writeByte_same _ _ (by omega),
      readByte_writeByte_ne _ _ (by decide), readByte_writeByte_ne _ _ (by decide),
      readByte_writeByte_ne _ _ (by decide), readByte_writeByte_ne _ _ (by decide),
      readByte_writeByte_same _ _ (by omega)]
    simp [requestFrame, Nat.mod_mod]
  unfold setEMSVerify at h
  simp only at h
  split at h
  · cases h
  · rename_i o2 w1 hs
    cases h
    have := (sendRequest_frame P _ _ _ _ _ _ hl hb0 hs).2.1 rfl
    exact ⟨Or.inl this, fun hb => by cases hb⟩
  · rename_i o2 w1 hs
    have hsent := (sendRequest_frame P _ _ _ _ _ _ hl hb0 hs).2.2 rfl
    rw [hfr] at hsent
    split at h
    · cases h
    · rename_i w2 ha
      cases h
      have := (awaitResponse_tx P _ _ _ _ _ _ ha).1
      exact ⟨Or.inr (by rw [this, hsent]), fun hb => by cases hb⟩
    · rename_i in1 ptr w2 ha
      have htx := (awaitResponse_tx P _ _ _ _ _ _ ha).1
      split at h
      · cases h
      · cases h
        exact ⟨Or.inr (by rw [htx, hsent]), fun _ => by rw [htx, hsent]⟩
      · cases h
        exact ⟨Or.inr (by rw [htx, hsent]), fun hb => by cases hb⟩

/-- What a returning `setEMSCommand(dest, t, off, data)` has handed to the
transport, in terms of request frames: nothing, the write request, or the
write request followed by the verification request; the latter when the call
returns `true`. -/
theorem setEMSCommand_frames (P : Platform σ) (fuel dest t off data : Nat)
    (w : World σ) (b : Bool) (w' : World σ)
    (h : setEMSCommand P fuel dest t off data w = some (b, w')) :
    (w'.tx = w.tx ∨
      w'.tx = w.tx ++ requestFrame dest t off data ∨
      w'.tx = w.tx ++ requestFrame dest t off data ++ requestFrame (dest ||| 0x80) t off 1) ∧
    (b = true →
      w'.tx = w.tx ++ requestFrame dest t off data ++
        requestFrame (dest ||| 0x80) t off 1) := by
  have hl0 : (freshArray P w.st 0 OUT_EMS_BUFFER_SIZE).length = 7 := freshArray_length P _ 0 7
  have e1 := writeByte_length (freshArray P w.st 0 OUT_EMS_BUFFER_SIZE) 0 DeviceID.PC
  have e2 := writeByte_length
    (writeByte (freshArray P w.st 0 OUT_EMS_BUFFER_SIZE) 0 DeviceID.PC) 1 dest
  have e3 := writeByte_length (writeByte
    (writeByte (freshArray P w.st 0 OUT_EMS_BUFFER_SIZE) 0 DeviceID.PC) 1 dest) 2 t
  have e4 := writeByte_length (writeByte (writeByte
    (writeByte (freshArray P w.st 0 OUT_EMS_BUFFER_SIZE) 0 DeviceID.PC) 1 dest) 2 t) 3 off
  have e5 := writeByte_length (writeByte (writeByte (writeByte
    (writeByte (freshArray P w.st 0 OUT_EMS_BUFFER_SIZE) 0 DeviceID.PC) 1 dest) 2 t) 3 off)
    4 data
  generalize hout : writeByte (writeByte (writeByte (writeByte (writeByte
    (freshArray P w.st 0 OUT_EMS_BUFFER_SIZE) 0 DeviceID.PC) 1 dest) 2 t) 3 off) 4 data = out
    at e5
  have hlen : out.length = 7 := by rw [e5, e4, e3, e2, e1, hl0]
  have hb0 : readByte out 0 = 0x0B := by
    rw [← hout, readByte_writeByte_ne _ _ (by decide), readByte_writeByte_ne _ _ (by decide),
      readByte_writeByte_ne _ _ (by decide), readByte_writeByte_ne _ _ (by decide),
      readByte_writeByte_same _ _ (by omega)]
    rfl
  have hb1 : readByte out 1 = dest % 256 := by
    rw [← hout, readByte_writeByte_ne _ _ (by decide), readByte_writeByte_ne _ _ (by decide),
      readByte_writeByte_ne _ _ (by decide), readByte_writeByte_same _ _ (by omega)]
  have hb2 : readByte out 2 = t % 256 := by
    rw [← hout, readByte_writeByte_ne _ _ (by decide), readByte_writeByte_ne _ _ (by decide),
      readByte_writeByte_same _ _ (by omega)]
  have hb3 : readByte out 3 = off % 256 := by
    rw [← hout, readByte_writeByte_ne _ _ (by decide), readByte_writeByte_same _ _ (by omega)]
  have hb4 : readByte out 4 = data % 256 := by
    rw [← hout, readByte_writeByte_same _ _ (by omega)]
  have hfr : requestFrame (readByte out 1) (readByte out 2) (readByte out 3) (readByte out 4) =
      requestFrame dest t off data := by
    rw [hb1, hb2, hb3, hb4, requestFrame_mod]
  unfold setEMSCommand at h
  simp only [hout] at h
  split at h
  · cases h
  · rename_i o2 w1 hs
    cases h
    exact ⟨Or.inl ((sendRequest_frame P _ _ _ _ _ _ hlen hb0 hs).2.1 rfl),
      fun hb => by cases hb⟩
  · rename_i o2 w1 hs
    obtain ⟨⟨crc, ho⟩, _, hsent⟩ := sendRequest_frame P _ _ _ _ _ _ hlen hb0 hs
    have hsent := hsent rfl
    rw [hfr] at hsent
    split at h
    · cases h
    · rename_i w2 ha
      cases h
      have := (awaitResponse_tx P _ _ _ _ _ _ ha).1
      exact ⟨Or.inr (Or.inl (by rw [this, hsent])), fun hb => by cases hb⟩
    · rename_i in1 ptr w2 ha
      have htx := (awaitResponse_tx P _ _ _ _ _ _ ha).1
      split at h
      · cases h
        exact ⟨Or.inr (Or.inl (by rw [htx, hsent])), fun hb => by cases hb⟩
      · have ho2 : o2.length = 7 := by rw [ho, writeByte_length, hlen]
        have ho0 : readByte o2 0 = 0x0B := by
          rw [ho, readByte_writeByte_ne _ _ (by decide), hb0]
        obtain ⟨hv, hvt⟩ := setEMSVerify_tx P _ _ _ _ _ _ _ _ _ ho2 ho0 h
        have hr2 : readByte o2 2 = t % 256 := by
          rw [ho, readByte_writeByte_ne _ _ (by decide), hb2]
        have hr3 : readByte o2 3 = off % 256 := by
          rw [ho, readByte_writeByte_ne _ _ (by decide), hb3]
        have hvf' : requestFrame (dest ||| 0x80) (readByte o2 2) (readByte o2 3) 1 =
            requestFrame (dest ||| 0x80) t off 1 := by
          rw [hr2, hr3]
          simp [requestFrame, Nat.mod_mod]
        rw [hvf', htx, hsent] at hv hvt
        exact ⟨hv.elim (fun e => Or.inr (Or.inl e)) (fun e => Or.inr (Or.inr e)), hvt⟩

/-- C17: what a returning `setEMSCommand(dest, t, off, data)` has handed to
the transport is nothing, or the write request `[0x0B, dest, t, off, data, CRC]`
and one break, or that followed by the verification request
`[0x0B, dest | 0x80, t, off, 1, CRC]` and one break; it is the latter when the
call returns `true`. The second byte of the write request is `dest` as
given, and each CRC is that of the five bytes in front of it. -/
theorem setEMSCommand_request_frames (P : Platform σ) (fuel dest t off data : Nat)
    (w : World σ) (b : Bool) (w' : World σ)
    (h : setEMSCommand P fuel dest t off data w = some (b, w')) :
    (w'.tx = w.tx ∨
      w'.tx = w.tx ++
        [TxEvent.byte 0x0B, TxEvent.byte (dest % 256), TxEvent.byte (t % 256),
         TxEvent.byte (off % 256), TxEvent.byte (data % 256),
         TxEvent.byte (crcSpec [0x0B, dest % 256, t % 256, off % 256, data % 256] 7),
         TxEvent.eof] ∨
      w'.tx = w.tx ++
        [TxEvent.byte 0x0B, TxEvent.byte (dest % 256), TxEvent.byte (t % 256),
         TxEvent.byte (off % 256), TxEvent.byte (data % 256),
         TxEvent.byte (crcSpec [0x0B, dest % 256, t % 256, off % 256, data % 256] 7),
         TxEvent.eof] ++
        [TxEvent.byte 0x0B, TxEvent.byte ((dest ||| 0x80) % 256), TxEvent.byte (t % 256),
         TxEvent.byte (off % 256), TxEvent.byte 1,
         TxEvent.byte (crcSpec [0x0B, (dest ||| 0x80) % 256, t % 256, off % 256, 1] 7),
         TxEvent.eof]) ∧
    (b = true →
      w'.tx = w.tx ++
        [TxEvent.byte 0x0B, TxEvent.byte (dest % 256), TxEvent.byte (t % 256),
         TxEvent.byte (off % 256), TxEvent.byte (data % 256),
         TxEvent.byte (crcSpec [0x0B, dest % 256, t % 256, off % 256, data % 256] 7),
         TxEvent.eof] ++
        [TxEvent.byte 0x0B, TxEvent.byte ((dest ||| 0x80) % 256), TxEvent.byte (t % 256),
         TxEvent.byte (off % 256), TxEvent.byte 1,
         TxEvent.byte (crcSpec [0x0B, (dest ||| 0x80) % 256, t % 256, off % 256, 1] 7),
         TxEvent.eof]) := by
  have hwf : requestFrame dest t off data =
      [TxEvent.byte 0x0B, TxEvent.byte (dest % 256), TxEvent.byte (t % 256),
       TxEvent.byte (off % 256), TxEvent.byte (data % 256),
       TxEvent.byte (crcSpec [0x0B, dest % 256, t % 256, off % 256, data % 256] 7),
       TxEvent.eof] := rfl
  have hvf : requestFrame (dest ||| 0x80) t off 1 =
      [TxEvent.byte 0x0B, TxEvent.byte ((dest ||| 0x80) % 256), TxEvent.byte (t % 256),
       TxEvent.byte (off % 256), TxEvent.byte 1,
       TxEvent.byte (crcSpec [0x0B, (dest ||| 0x80) % 256, t % 256, off % 256, 1] 7),
       TxEvent.eof] := rfl
  rw [← hwf, ← hvf]
  exact setEMSCommand_frames P fuel dest t off data w b w' h

end WriteFraming

section Acceptance

variable {σ : Type}

/-- The test of a read answer, for a count `readBytes` can return: at least
five bytes, the CRC of the bytes in front of position `ptr - 2` equal to the
byte at that position, and the message type at index 2. -/
theorem responseOK_eq (fuel t : Nat) (aux : Buffer) (ptr : Nat) (hfuel : 256 ≤ fuel)
    (hptr : ptr ≤ 255) :
    responseOK fuel t aux ptr =
      some (decide (5 ≤ ptr ∧ crcCheckOK fuel aux ptr = some true ∧
        readByte aux 2 = t % 256)) ∧
    (5 ≤ ptr → crcCheckOK fuel aux ptr =
      some (decide (crcSpec aux ptr = readByte aux (ptr - 2)))) := by
  have hcrc : 5 ≤ ptr → crcCheckOK fuel aux ptr =
      some (decide (crcSpec aux ptr = readByte aux (ptr - 2))) := by
    intro h5
    rw [crcCheckOK_eq fuel aux ptr (by omega) (by omega) hfuel, crcFold_eq_spec]
    have : ((ptr : Int) - 2).toNat = ptr - 2 := by omega
    rw [this]
  refine ⟨?_, hcrc⟩
  unfold responseOK
  by_cases h5 : 5 ≤ ptr
  · have h4 : ptr > 4 := by omega
    simp only [h4, if_true, hcrc h5, h5, true_and]
    by_cases hc : crcSpec aux ptr = readByte aux (ptr - 2) <;>
      by_cases ht : readByte aux 2 = t % 256 <;> simp [hc, ht]
  · have h4 : ¬ ptr > 4 := by omega
    simp [h4, h5]

/-- The three ways a chunk transaction returns. -/
theorem chunkTransaction_answer (P : Platform σ) (fuel t : Nat) (out : Buffer) (w : World σ)
    (out2 : Buffer) (r : Option Buffer) (w' : World σ)
    (h : chunkTransaction P fuel t out w = some ((out2, r), w')) :
    (sendRequest P fuel out w = some ((false, out2), w') ∧ r = none) ∨
    (∃ wS, sendRequest P fuel out w = some ((true, out2), wS) ∧
      awaitResponse P fuel (fun s => freshArray P s 0 (readByte out2 4 + EMS_DATAGRAM_OVERHEAD))
        (readByte out2 4 + EMS_DATAGRAM_OVERHEAD) wS = some (none, w') ∧ r = none) ∨
    (∃ wS aux ptr ok, sendRequest P fuel out w = some ((true, out2), wS) ∧
      awaitResponse P fuel (fun s => freshArray P s 0 (readByte out2 4 + EMS_DATAGRAM_OVERHEAD))
        (readByte out2 4 + EMS_DATAGRAM_OVERHEAD) wS = some (some (aux, ptr), w') ∧
      ptr ≤ 255 ∧ responseOK fuel t aux ptr = some ok ∧
      r = if ok then some aux else none) := by
  unfold chunkTransaction at h
  split at h
  · cases h
  · rename_i o2 w1 hs
    cases h
    exact Or.inl ⟨hs, rfl⟩
  · rename_i o2 w1 hs
    split at h
    · cases h
    · rename_i w2 ha
      cases h
      exact Or.inr (Or.inl ⟨w1, hs, ha, rfl⟩)
    · rename_i aux ptr w2 ha
      have hp := (awaitResponse_tx P _ _ _ _ _ _ ha).2 aux ptr rfl
      split at h
      · cases h
      · rename_i hok
        cases h
        exact Or.inr (Or.inr ⟨w1, aux, ptr, true, hs, ha, hp, hok, rfl⟩)
      · rename_i hok
        cases h
        exact Or.inr (Or.inr ⟨w1, aux, ptr, false, hs, ha, hp, hok, rfl⟩)

end Acceptance

section Segments

variable {σ : Type}

/-- The CRC loop only looks at the bytes in front of position `len - 2`. -/
theorem crcLoop_congr (a b : Buffer) (len : Int)
    (hab : ∀ j : Nat, (j : Int) < len - 2 → readByte a j = readByte b j) :
    ∀ (fuel i crc : Nat), crcLoop a len fuel i crc = crcLoop b len fuel i crc := by
  intro fuel
  induction fuel with
  | zero => intro i crc; rfl
  | succ f ih =>
    intro i crc
    unfold crcLoop
    by_cases h : (i : Int) < len - 2
    · simp only [h, if_true]
      rw [hab i h]
      exact ih _ _
    · simp only [h, if_false]

theorem sendBuffer_congr (P : Platform σ) (a b : Buffer)
    (hab : ∀ j, j < 6 → readByte a j = readByte b j) (w : World σ) :
    sendBuffer P a OUT_EMS_BUFFER_SIZE w = sendBuffer P b OUT_EMS_BUFFER_SIZE w := by
  have hr : List.range 6 = [0, 1, 2, 3, 4, 5] := by decide
  simp only [sendBuffer, OUT_EMS_BUFFER_SIZE]
  norm_num
  simp [hr, hab 0, hab 1, hab 2, hab 3, hab 4, hab 5]

/-- The outcome of `sendRequest` depends on the first five bytes of the
request buffer only. -/
theorem sendRequest_congr (P : Platform σ) (fuel : Nat) (a b : Buffer) (w : World σ)
    (hla : a.length = 7) (hlb : b.length = 7)
    (hab : ∀ j, j < 5 → readByte a j = readByte b j) (ok : Bool) (a1 : Buffer) (w' : World σ)
    (h : sendRequest P fuel a w = some ((ok, a1), w')) :
    ∃ b1, sendRequest P fuel b w = some ((ok, b1), w') ∧
      readByte b1 4 = readByte a1 4 := by
  have hc : crcCalculator fuel b OUT_EMS_BUFFER_SIZE =
      crcCalculator fuel a OUT_EMS_BUFFER_SIZE := by
    unfold crcCalculator
    refine (crcLoop_congr a b _ ?_ fuel 0 0).symm
    intro j hj
    exact hab j (by simp only [OUT_EMS_BUFFER_SIZE] at hj; omega)
  unfold sendRequest at h ⊢
  rw [hc]
  cases hcrc : crcCalculator fuel a OUT_EMS_BUFFER_SIZE with
  | none => simp [hcrc] at h
  | some crc =>
    simp only [hcrc] at h ⊢
    have h4 : readByte (writeByte b 5 crc) 4 = readByte (writeByte a 5 crc) 4 := by
      rw [readByte_writeByte_ne _ _ (by decide), readByte_writeByte_ne _ _ (by decide),
        hab 4 (by decide)]
    have hsb : ∀ v : World σ, sendBuffer P (writeByte b 5 crc) OUT_EMS_BUFFER_SIZE v =
        sendBuffer P (writeByte a 5 crc) OUT_EMS_BUFFER_SIZE v := by
      intro v
      refine sendBuffer_congr P _ _ ?_ v
      intro j hj
      by_cases h5 : j = 5
      · subst h5
        rw [readByte_writeByte_same _ _ (by omega), readByte_writeByte_same _ _ (by omega)]
      · rw [readByte_writeByte_ne _ _ h5, readByte_writeByte_ne _ _ h5]
        exact (hab j (by omega)).symm
    split at h
    · cases h
    · rename_i w1 hp
      cases h
      exact ⟨_, rfl, h4⟩
    · rename_i w1 hp
      rw [hsb]
      split at h
      · cases h
      · rename_i w2 hs
        cases h
        exact ⟨_, rfl, h4⟩

/-- The outcome of a chunk transaction depends on the first five bytes of
the request buffer only. -/
theorem chunkTransaction_congr (P : Platform σ) (fuel t : Nat) (a b : Buffer) (w : World σ)
    (hla : a.length = 7) (hlb : b.length = 7)
    (hab : ∀ j, j < 5 → readByte a j = readByte b j) (a2 : Buffer) (r : Option Buffer)
    (w' : World σ) (h : chunkTransaction P fuel t a w = some ((a2, r), w')) :
    ∃ b2, chunkTransaction P fuel t b w = some ((b2, r), w') := by
  unfold chunkTransaction at h ⊢
  cases hs : sendRequest P fuel a w with
  | none => simp [hs] at h
  | some res =>
    obtain ⟨⟨ok, a1⟩, w1⟩ := res
    obtain ⟨b1, hb, h4⟩ := sendRequest_congr P fuel a b w hla hlb hab ok a1 w1 hs
    rw [hs] at h
    rw [hb]
    cases ok with
    | false =>
      simp only at h ⊢
      cases h
      exact ⟨_, rfl⟩
    | true =>
      simp only [h4] at h ⊢
      split at h
      · cases h
      · rename_i w2 ha
        cases h
        exact ⟨_, rfl⟩
      · rename_i aux ptr w2 ha
        split at h
        · cases h
        · cases h
          exact ⟨_, rfl⟩
        · cases h
          exact ⟨_, rfl⟩

theorem chunkList_zero (o : Nat) : chunkList o 0 = [] := by
  simp [chunkList]

theorem chunkList_cons (o L : Nat) (h : 0 < L) :
    chunkList o L = (o, min 26 L) :: chunkList (o + 26) (L - 26) := by
  unfold chunkList
  have hc : (L + 25) / 26 = (L - 26 + 25) / 26 + 1 := by omega
  rw [hc, List.range_succ_eq_map, List.map_cons, List.map_map]
  congr 1
  apply List.map_congr_left
  intro k _
  simp only [Function.comp, Prod.mk.injEq]
  constructor
  · omega
  · congr 1
    omega

theorem chunkList_length (o L : Nat) : (chunkList o L).length = (L + 25) / 26 := by
  simp [chunkList]

end Segments

section SegmentedRead

variable {σ : Type}

theorem chunkBuffer_bytes (dest t off n : Nat) :
    (chunkBuffer dest t off n).length = 7 ∧ readByte (chunkBuffer dest t off n) 0 = 0x0B ∧
      readByte (chunkBuffer dest t off n) 1 = (dest ||| 0x80) % 256 ∧
      readByte (chunkBuffer dest t off n) 2 = t % 256 ∧
      readByte (chunkBuffer dest t off n) 3 = off % 256 ∧
      readByte (chunkBuffer dest t off n) 4 = n % 256 := by
  simp [chunkBuffer, readByte, Nat.mod_mod]

theorem wrapSigned8_small (o : Nat) (h : o < 128) : wrapSigned 8 (o : Int) = o := by
  unfold wrapSigned
  have h1 : ((o : Int) % 2 ^ 8) = o := by
    have : (2 : Int) ^ 8 = 256 := by norm_num
    rw [this]
    omega
  simp only [h1]
  have h2 : (o : Int) < 2 ^ (8 - 1) := by
    have : (2 : Int) ^ (8 - 1) = 128 := by norm_num
    rw [this]
    omega
  rw [if_pos h2]

theorem chunkSize_eq_min (L : Nat) : chunkSize L = min 26 L := by
  unfold chunkSize MAX_EMS_READ EMS_DATAGRAM_OVERHEAD
  split_ifs <;> omega

/-- A pass through the loop of `getEMSCommand` in front of a chunk is the
chunk transaction for that chunk. -/
theorem getEMSIteration_of_chunk (P : Platform σ) (fuel dest t : Nat) (g : GetState)
    (o L : Nat) (w : World σ)
    (hinv : LoopInv ((dest ||| 0x80) % 256) (t % 256) g o L) (hL : 0 < L)
    (cb : Buffer) (r : Option Buffer) (w1 : World σ)
    (h : chunkTransaction P fuel t (chunkBuffer dest t o (min 26 L)) w = some ((cb, r), w1)) :
    ∃ out2, HeaderOK out2 ((dest ||| 0x80) % 256) (t % 256) ∧ readByte out2 3 = o ∧
      readByte out2 4 = min 26 L ∧
      getEMSIteration P fuel t g w =
        some (match r with
          | none => { g with outEMSBuffer := out2 }
          | some aux => acceptChunk g out2 aux, w1) := by
  obtain ⟨hh, hlen, hoff, hL256, ho256, hsum, _⟩ := hinv
  obtain ⟨hc, h3, h4⟩ := chunkRequest_header g _ _ hh
  obtain ⟨cl, c0, c1, c2, c3, c4⟩ := chunkBuffer_bytes dest t o (min 26 L)
  have hab : ∀ j, j < 5 → readByte (chunkBuffer dest t o (min 26 L)) j =
      readByte (chunkRequest g) j := by
    intro j hj
    have : j = 0 ∨ j = 1 ∨ j = 2 ∨ j = 3 ∨ j = 4 := by omega
    rcases this with rfl | rfl | rfl | rfl | rfl
    · rw [c0, hc.2.1]
    · rw [c1, hc.2.2.1]
    · rw [c2, hc.2.2.2]
    · rw [c3, h3, hoff]
    · rw [c4, h4, hlen, chunkSize_eq_min]
  obtain ⟨out2, hct⟩ := chunkTransaction_congr P fuel t _ _ w cl hc.1 hab cb r w1 h
  obtain ⟨crc, _, ho, _, _⟩ := chunkTransaction_cases P _ _ _ _ _ _ _ hct
  obtain ⟨hh2, h3', h4'⟩ := writeCRC_header (chunkRequest g) crc _ _ hc
  refine ⟨out2, by rw [ho]; exact hh2, ?_, ?_, ?_⟩
  · rw [ho, h3', h3, hoff]
    exact Nat.mod_eq_of_lt (by omega)
  · rw [ho, h4', h4, hlen, chunkSize_eq_min]
    exact Nat.mod_eq_of_lt (by omega)
  · unfold getEMSIteration
    rw [hct]
    cases r <;> rfl

/-- The frames and the number of answers of a run of chunk transactions. -/
theorem runChunks_tx (P : Platform σ) (fuel dest t : Nat) :
    ∀ (cs : List (Nat × Nat)) (w : World σ) (auxs : List Buffer) (w' : World σ),
      runChunks P fuel dest t cs w = some (auxs, w') →
      w'.tx = w.tx ++ cs.flatMap (fun c => requestFrame (dest ||| 0x80) t c.1 c.2) ∧
        auxs.length = cs.length := by
  intro cs
  induction cs with
  | nil =>
    intro w auxs w' h
    simp only [runChunks, Option.some.injEq, Prod.mk.injEq] at h
    obtain ⟨rfl, rfl⟩ := h
    simp
  | cons c rest ih =>
    intro w auxs w' h
    unfold runChunks at h
    split at h
    · rename_i cb aux w1 hct
      split at h
      · rename_i auxs' w2 hrest
        cases h
        obtain ⟨htx, hlen⟩ := ih _ _ _ hrest
        obtain ⟨crc, hcrc, ho, _, hacc⟩ := chunkTransaction_cases P _ _ _ _ _ _ _ hct
        obtain ⟨cl, c0, c1, c2, c3, c4⟩ := chunkBuffer_bytes dest t c.1 c.2
        have hfr := frameEvents_request fuel _ crc cl c0 hcrc
        rw [c1, c2, c3, c4, requestFrame_mod] at hfr
        refine ⟨?_, by simp [hlen]⟩
        rw [htx, hacc (by simp), ho, hfr, List.flatMap_cons, List.append_assoc]
      · cases h
    · cases h

/-- After the first `k` chunk transactions have been accepted the loop of
`getEMSCommand` stands in front of chunk `k`. -/
theorem getEMSLoop_after_chunks (P : Platform σ) (fuel dest t : Nat) :
    ∀ (k o L : Nat) (g : GetState) (w : World σ) (auxs : List Buffer) (w1 : World σ),
      LoopInv ((dest ||| 0x80) % 256) (t % 256) g o L → k ≤ (L + 25) / 26 →
      runChunks P fuel dest t ((chunkList o L).take k) w = some (auxs, w1) →
      ∃ gk, LoopInv ((dest ||| 0x80) % 256) (t % 256) gk (o + 26 * k) (L - 26 * k) ∧
        gk.inEMSBuffer = applyChunks g.inEMSBuffer ((chunkList o L).take k) auxs ∧
        ∀ n, getEMSLoop P fuel t (n + k) g w = getEMSLoop P fuel t n gk w1 := by
  intro k
  induction k with
  | zero =>
    intro o L g w auxs w1 hinv _ h
    simp only [List.take_zero, runChunks, Option.some.injEq, Prod.mk.injEq] at h
    obtain ⟨rfl, rfl⟩ := h
    exact ⟨g, by simpa using hinv, by simp [applyChunks], fun n => rfl⟩
  | succ k ih =>
    intro o L g w auxs w1 hinv hk h
    have hL : 0 < L := by omega
    rw [chunkList_cons o L hL, List.take_succ_cons] at h ⊢
    unfold runChunks at h
    split at h
    · rename_i cb aux w0 hct
      split at h
      · rename_i auxs' w2 hrest
        cases h
        obtain ⟨out2, hh2, h3, h4, hit⟩ :=
          getEMSIteration_of_chunk P fuel dest t g o L w hinv hL cb (some aux) w0 hct
        simp only at hit
        obtain ⟨hh, hlen, hoff, hL256, ho256, hsum, hsig⟩ := hinv
        have hsum' := hsum hL
        have hinv' : LoopInv ((dest ||| 0x80) % 256) (t % 256) (acceptChunk g out2 aux)
            (o + 26) (L - 26) := by
          refine ⟨hh2, ?_, ?_, by omega, by omega, fun _ => by omega, ?_⟩
          · show (g.length - chunkSize g.length) % 256 = _
            rw [hlen, chunkSize_eq_min]
            omega
          · show (g.offset + (MAX_EMS_READ - EMS_DATAGRAM_OVERHEAD)) % 256 = _
            rw [hoff]
            simp only [MAX_EMS_READ, EMS_DATAGRAM_OVERHEAD]
            omega
          · show wrapSigned 8 (readByte out2 3 : Nat) < _
            rw [h3, wrapSigned8_small o (by omega)]
            omega
        obtain ⟨gk, hgk, hin, hloop⟩ := ih (o + 26) (L - 26) _ w0 auxs' w1 hinv' (by omega) hrest
        have e1 : o + 26 + 26 * k = o + 26 * (k + 1) := by omega
        have e2 : L - 26 - 26 * k = L - 26 * (k + 1) := by omega
        rw [e1, e2] at hgk
        refine ⟨gk, hgk, ?_, ?_⟩
        · rw [hin]
          show _ = applyChunks (copyPayload g.inEMSBuffer aux (min 26 L)) _ _
          rw [← h4]
          rfl
        · intro n
          rw [← hloop n]
          show getEMSLoop P fuel t ((n + k) + 1) g w = _
          have hcond : g.length > 0 ∧
              (g.offset : Int) > wrapSigned 8 (readByte g.outEMSBuffer 3 : Nat) := by
            rw [hlen, hoff]
            exact ⟨hL, hsig⟩
          rw [getEMSLoop]
          simp only [hcond, and_self, if_true, hit]
      · cases h
    · cases h

/-- The state of `getEMSCommand` in front of its loop. -/
theorem getEMSCommand_start (P : Platform σ) (inEMSBuffer : Buffer) (dest t L o : Nat)
    (w : World σ) (hL256 : L < 256) (hoff : o + 26 * ((L + 25) / 26 - 1) < 128) :
    LoopInv ((dest ||| 0x80) % 256) (t % 256)
      { inEMSBuffer := inEMSBuffer
        outEMSBuffer := getEMSHeader P w.st dest t
        length := L % 256
        offset := o % 256 } o L := by
  obtain ⟨hh, h3⟩ := getEMSHeader_ok P w.st dest t
  refine ⟨hh, Nat.mod_eq_of_lt hL256, Nat.mod_eq_of_lt (by omega), hL256, by omega,
    fun _ => hoff, ?_⟩
  show wrapSigned 8 (readByte (getEMSHeader P w.st dest t) 3 : Nat) < _
  rw [h3]
  have : wrapSigned 8 ((255 : Nat) : Int) = -1 := by decide
  rw [this]
  omega

/-- When every chunk transaction is accepted, `getEMSCommand` returns `true`
with the payloads of the answers copied in. -/
theorem getEMSCommand_all_chunks (P : Platform σ) (fuel : Nat) (inEMSBuffer : Buffer)
    (dest t L o : Nat) (w : World σ) (auxs : List Buffer) (w' : World σ)
    (hL256 : L < 256) (hoff : o + 26 * ((L + 25) / 26 - 1) < 128)
    (hfuel : (L + 25) / 26 + 1 ≤ fuel)
    (hrun : runChunks P fuel dest t (chunkList o L) w = some (auxs, w')) :
    getEMSCommand P fuel inEMSBuffer dest t L o w =
      some ((true, applyChunks inEMSBuffer (chunkList o L) auxs), w') := by
  have htake : (chunkList o L).take ((L + 25) / 26) = chunkList o L := by
    rw [← chunkList_length o L, List.take_length]
  rw [← htake] at hrun
  obtain ⟨gk, hgk, hin, hloop⟩ := getEMSLoop_after_chunks P fuel dest t ((L + 25) / 26) o L _ w auxs w'
    (getEMSCommand_start P inEMSBuffer dest t L o w hL256 hoff) (le_refl _) hrun
  rw [htake] at hin
  unfold getEMSCommand
  have hlen : gk.length = 0 := by
    rw [hgk.2.1]
    omega
  have key : ∀ m, m = (fuel - (L + 25) / 26 - 1 + 1) + (L + 25) / 26 →
      getEMSLoop P fuel t m
        { inEMSBuffer := inEMSBuffer
          outEMSBuffer := getEMSHeader P w.st dest t
          length := L % 256
          offset := o % 256 } w =
      some ((true, applyChunks inEMSBuffer (chunkList o L) auxs), w') := by
    intro m hm
    rw [hm, hloop, getEMSLoop]
    simp [hlen, hin]
  exact key fuel (by omega)

end SegmentedRead

section SegmentedResults

variable {σ : Type}

theorem chunkTransaction_of_failure (P : Platform σ) (fuel t : Nat) (out : Buffer)
    (w w2 : World σ) (h : ChunkFails P fuel t out w w2) :
    ∃ out2, chunkTransaction P fuel t out w = some ((out2, none), w2) := by
  unfold chunkTransaction
  rcases h with ⟨out2, hs⟩ | ⟨out2, wS, hs, ha⟩ | ⟨out2, wS, aux, ptr, hs, ha, hok⟩
  · exact ⟨out2, by rw [hs]⟩
  · exact ⟨out2, by simp only [hs, ha]⟩
  · exact ⟨out2, by simp only [hs, ha, hok]⟩

theorem chunkList_getElem? (o L k : Nat) (hk : k < (L + 25) / 26) :
    (chunkList o L)[k]? = some (o + 26 * k, min 26 (L - 26 * k)) := by
  simp [chunkList, List.getElem?_map, List.getElem?_range hk]

theorem chunkList_offsets_increase (o L : Nat) :
    (chunkList o L).Pairwise (fun c d => c.1 < d.1) := by
  unfold chunkList
  rw [List.pairwise_map]
  refine List.Pairwise.imp ?_ (List.pairwise_lt_range _)
  intro a b hab
  show o + 26 * a < o + 26 * b
  omega

/-- C11: when every chunk transaction succeeds, `getEMSCommand` for a length
`L > 0` from data offset `o` with `o + L <= 103` returns `true`, and what it
has handed to the transport is exactly `ceil (L / 26)` request frames, where
`26 = MAX_EMS_READ - EMS_DATAGRAM_OVERHEAD`; the `k`-th frame carries the
data offset `o + 26 k` and the length `min 26 (L - 26 k)`. -/
theorem getEMSCommand_segmented_requests (P : Platform σ) (fuel : Nat) (inEMSBuffer : Buffer)
    (dest t L o : Nat) (w : World σ) (auxs : List Buffer) (w' : World σ)
    (hL : 0 < L) (hoL : o + L ≤ 103) (hfuel : 6 ≤ fuel)
    (hrun : runChunks P fuel dest t (chunkList o L) w = some (auxs, w')) :
    (∃ buf, getEMSCommand P fuel inEMSBuffer dest t L o w = some ((true, buf), w')) ∧
    MAX_EMS_READ - EMS_DATAGRAM_OVERHEAD = 26 ∧
    ∃ chunks : List (Nat × Nat),
      chunks.length = (L + 25) / 26 ∧
      26 * ((L + 25) / 26 - 1) < L ∧ L ≤ 26 * ((L + 25) / 26) ∧
      (∀ k, k < (L + 25) / 26 → chunks[k]? = some (o + 26 * k, min 26 (L - 26 * k))) ∧
      w'.tx = w.tx ++ chunks.flatMap (fun c => requestFrame (dest ||| 0x80) t c.1 c.2) := by
  refine ⟨⟨_, getEMSCommand_all_chunks P fuel inEMSBuffer dest t L o w auxs w' (by omega)
      (by omega) (by omega) hrun⟩,
    rfl, chunkList o L, chunkList_length o L, by omega, by omega,
    fun k hk => chunkList_getElem? o L k hk, (runChunks_tx P fuel dest t _ _ _ _ hrun).1⟩

/-- C13: for a length `L < 256` whose chunks all have a data offset below
128 and a chunk `k` of it, if the first `k` chunk transactions of `getEMSCommand` are
accepted and the transaction for chunk `k` fails (`sendRequest` returns
`false`, no answer arrives, or the answer is rejected), then `getEMSCommand`
returns `false` in the state the failed transaction left: it has sent the
frames of the chunks `0 .. k - 1` and at most the frame of chunk `k`,
nothing after it; the data offsets of the chunks increase, so no chunk is
requested twice. -/
theorem getEMSCommand_chunk_failure (P : Platform σ) (fuel : Nat) (inEMSBuffer : Buffer)
    (dest t L o k : Nat) (w : World σ) (auxs : List Buffer) (w1 w2 : World σ)
    (hL256 : L < 256) (hoff : o + 26 * ((L + 25) / 26 - 1) < 128)
    (hfuel : (L + 25) / 26 + 2 ≤ fuel) (hk : k < (L + 25) / 26)
    (hrun : runChunks P fuel dest t ((chunkList o L).take k) w = some (auxs, w1))
    (hfail : ChunkFails P fuel t
      (chunkBuffer dest t (o + 26 * k) (min 26 (L - 26 * k))) w1 w2) :
    getEMSCommand P fuel inEMSBuffer dest t L o w =
      some ((false, applyChunks inEMSBuffer ((chunkList o L).take k) auxs), w2) ∧
    (w2.tx = w.tx ++ ((chunkList o L).take k).flatMap
        (fun c => requestFrame (dest ||| 0x80) t c.1 c.2) ∨
      w2.tx = w.tx ++ ((chunkList o L).take (k + 1)).flatMap
        (fun c => requestFrame (dest ||| 0x80) t c.1 c.2)) ∧
    (chunkList o L).Pairwise (fun c d => c.1 < d.1) := by
  obtain ⟨cb2, hct⟩ := chunkTransaction_of_failure P fuel t _ w1 w2 hfail
  obtain ⟨gk, hgk, hin, hloop⟩ := getEMSLoop_after_chunks P fuel dest t k o L _ w auxs w1
    (getEMSCommand_start P inEMSBuffer dest t L o w hL256 hoff) (by omega) hrun
  have hLk : 0 < L - 26 * k := by omega
  obtain ⟨out2, hh2, h3, h4, hit⟩ :=
    getEMSIteration_of_chunk P fuel dest t gk (o + 26 * k) (L - 26 * k) w1 hgk hLk cb2 none w2 hct
  simp only at hit
  obtain ⟨hh, hlen, hoff', hL256', ho256, hsum, hsig⟩ := hgk
  have hsum' := hsum hLk
  refine ⟨?_, ?_, chunkList_offsets_increase o L⟩
  · unfold getEMSCommand
    have key : ∀ m, m = (fuel - k - 2 + 2) + k →
        getEMSLoop P fuel t m
          { inEMSBuffer := inEMSBuffer
            outEMSBuffer := getEMSHeader P w.st dest t
            length := L % 256
            offset := o % 256 } w =
        some ((false, applyChunks inEMSBuffer ((chunkList o L).take k) auxs), w2) := by
      intro m hm
      have hcond : gk.length > 0 ∧
          (gk.offset : Int) > wrapSigned 8 (readByte gk.outEMSBuffer 3 : Nat) := by
        rw [hlen, hoff']
        exact ⟨hLk, hsig⟩
      have hstop : ¬ (gk.length > 0 ∧ (gk.offset : Int) > wrapSigned 8 (readByte out2 3 : Nat)) := by
        rw [h3, wrapSigned8_small _ (by omega), hoff']
        omega
      have hne : gk.length ≠ 0 := by omega
      rw [hm, hloop, getEMSLoop]
      simp only [hcond, and_self, if_true, hit]
      rw [getEMSLoop]
      simp only [hstop, if_false, hne, decide_False, hin]
    exact key fuel (by omega)
  · obtain ⟨htx, _⟩ := runChunks_tx P fuel dest t _ _ _ _ hrun
    obtain ⟨crc, hcrc, ho, hcase, _⟩ := chunkTransaction_cases P _ _ _ _ _ _ _ hct
    rcases hcase with hsame | hsent
    · exact Or.inl (by rw [hsame, htx])
    · right
      obtain ⟨cl, c0, c1, c2, c3, c4⟩ :=
        chunkBuffer_bytes dest t (o + 26 * k) (min 26 (L - 26 * k))
      have hfr := frameEvents_request fuel _ crc cl c0 hcrc
      rw [c1, c2, c3, c4, requestFrame_mod] at hfr
      have hlen' : k < (chunkList o L).length := by rw [chunkList_length]; exact hk
      have hget : (chunkList o L)[k]? = some (o + 26 * k, min 26 (L - 26 * k)) :=
        chunkList_getElem? o L k hk
      have htk : (chunkList o L).take (k + 1) =
          (chunkList o L).take k ++ [(o + 26 * k, min 26 (L - 26 * k))] := by
        rw [List.take_succ, hget]
        rfl
      rw [hsent, htx, ho, hfr, htk, List.flatMap_append, List.append_assoc]
      simp

end SegmentedResults

section Reassembly

variable {σ : Type}

theorem writeByte_getD (b : Buffer) (j v i : Nat) :
    (writeByte b j v).getD i 0 = if i = j ∧ i < b.length then v % 256 else b.getD i 0 := by
  simp only [writeByte, List.getD_eq_getElem?_getD, List.getElem?_set]
  by_cases hij : j = i
  · subst hij
    by_cases hl : j < b.length
    · simp [hl]
    · simp [hl, List.getElem?_eq_none (Nat.le_of_not_lt hl)]
  · have hji : ¬ i = j := fun h => hij h.symm
    simp [hij, hji]

theorem copyPayload_succ (b aux : Buffer) (n : Nat) :
    copyPayload b aux (n + 1) =
      writeByte (copyPayload b aux n) (n + 4 + readByte aux 3) (readByte aux (n + 4)) := by
  simp [copyPayload, List.range_succ, List.foldl_append]

theorem copyPayload_length (b aux : Buffer) (n : Nat) :
    (copyPayload b aux n).length = b.length := by
  induction n with
  | zero => simp [copyPayload]
  | succ n ih => rw [copyPayload_succ, writeByte_length, ih]

/-- The cells of the destination buffer after the copy loop. -/
theorem copyPayload_getD (b aux : Buffer) (n i : Nat) :
    (copyPayload b aux n).getD i 0 =
      if 4 + readByte aux 3 ≤ i ∧ i < 4 + readByte aux 3 + n ∧ i < b.length
      then readByte aux (i - readByte aux 3) else b.getD i 0 := by
  induction n with
  | zero =>
    have : ¬ (4 + readByte aux 3 ≤ i ∧ i < 4 + readByte aux 3 + 0 ∧ i < b.length) := by omega
    rw [if_neg this]
    simp [copyPayload]
  | succ n ih =>
    rw [copyPayload_succ, writeByte_getD, copyPayload_length, ih, readByte_mod]
    by_cases h1 : i = n + 4 + readByte aux 3 ∧ i < b.length
    · have h2 : 4 + readByte aux 3 ≤ i ∧ i < 4 + readByte aux 3 + (n + 1) ∧ i < b.length := by
        omega
      have h3 : i - readByte aux 3 = n + 4 := by omega
      rw [if_pos h1, if_pos h2, h3]
    · rw [if_neg h1]
      by_cases h2 : 4 + readByte aux 3 ≤ i ∧ i < 4 + readByte aux 3 + n ∧ i < b.length
      · have h3 : 4 + readByte aux 3 ≤ i ∧ i < 4 + readByte aux 3 + (n + 1) ∧ i < b.length := by
          omega
        rw [if_pos h2, if_pos h3]
      · have h3 : ¬ (4 + readByte aux 3 ≤ i ∧ i < 4 + readByte aux 3 + (n + 1) ∧
            i < b.length) := by omega
        rw [if_neg h2, if_neg h3]

theorem applyChunks_nil (b : Buffer) (auxs : List Buffer) : applyChunks b [] auxs = b := by
  cases auxs <;> rfl

/-- The cells of the destination buffer after the payloads of answers that
echo their data offset and carry the bytes `msg` have been copied in. -/
theorem applyChunks_getD (msg : Nat → Nat) :
    ∀ (c o L : Nat) (b : Buffer) (auxs : List Buffer), L ≤ 26 * c →
      auxs.length = (chunkList o L).length →
      (∀ k, k < (L + 25) / 26 → readByte (auxs.getD k []) 3 = o + 26 * k ∧
        ∀ i, i < min 26 (L - 26 * k) →
          readByte (auxs.getD k []) (4 + i) = msg (o + 26 * k + i)) →
      (applyChunks b (chunkList o L) auxs).length = b.length ∧
      ∀ i, ((4 + o ≤ i ∧ i < 4 + o + L ∧ i < b.length) → msg (i - 4) < 256) ∧
        (applyChunks b (chunkList o L) auxs).getD i 0 =
          if 4 + o ≤ i ∧ i < 4 + o + L ∧ i < b.length then msg (i - 4) else b.getD i 0 := by
  intro c
  induction c with
  | zero =>
    intro o L b auxs hL _ _
    have h0 : L = 0 := by omega
    subst h0
    rw [chunkList_zero, applyChunks_nil]
    refine ⟨rfl, fun i => ⟨fun h => by omega, ?_⟩⟩
    have : ¬ (4 + o ≤ i ∧ i < 4 + o + 0 ∧ i < b.length) := by omega
    rw [if_neg this]
  | succ c ih =>
    intro o L b auxs hL hlen hecho
    by_cases h0 : L = 0
    · subst h0
      rw [chunkList_zero, applyChunks_nil]
      refine ⟨rfl, fun i => ⟨fun h => by omega, ?_⟩⟩
      have : ¬ (4 + o ≤ i ∧ i < 4 + o + 0 ∧ i < b.length) := by omega
      rw [if_neg this]
    · have hpos : 0 < L := Nat.pos_of_ne_zero h0
      rw [chunkList_cons o L hpos] at hlen ⊢
      cases auxs with
      | nil => simp at hlen
      | cons aux auxs' =>
        have hlen' : auxs'.length = (chunkList (o + 26) (L - 26)).length := by
          simpa using hlen
        obtain ⟨he3, hebytes⟩ := hecho 0 (by omega)
        simp only [List.getD_cons_zero, Nat.mul_zero, Nat.add_zero, Nat.sub_zero] at he3 hebytes
        have hecho' : ∀ k, k < (L - 26 + 25) / 26 →
            readByte (auxs'.getD k []) 3 = o + 26 + 26 * k ∧
            ∀ i, i < min 26 (L - 26 - 26 * k) →
              readByte (auxs'.getD k []) (4 + i) = msg (o + 26 + 26 * k + i) := by
          intro k hk
          obtain ⟨a, b'⟩ := hecho (k + 1) (by omega)
          simp only [List.getD_cons_succ] at a b'
          refine ⟨by rw [a]; omega, fun i hi => ?_⟩
          rw [b' i (by omega)]
          congr 1
          omega
        obtain ⟨hl2, hget⟩ := ih (o + 26) (L - 26) (copyPayload b aux (min 26 L)) auxs'
          (by omega) hlen' hecho'
        rw [copyPayload_length] at hl2
        show (applyChunks (copyPayload b aux (min 26 L)) _ auxs').length = _ ∧ _
        refine ⟨hl2, fun i => ?_⟩
        obtain ⟨hlt, hval⟩ := hget i
        rw [copyPayload_length] at hlt hval
        rw [copyPayload_getD, he3] at hval
        have hfirst : 4 + o ≤ i ∧ i < 4 + o + min 26 L ∧ i < b.length →
            readByte aux (i - o) = msg (i - 4) := by
          intro h
          have e : i - o = 4 + (i - o - 4) := by omega
          rw [e, hebytes (i - o - 4) (by omega)]
          congr 1
          omega
        show _ ∧ (applyChunks (copyPayload b aux (min 26 L)) _ auxs').getD i 0 = _
        rw [hval]
        by_cases hA : 4 + (o + 26) ≤ i ∧ i < 4 + (o + 26) + (L - 26) ∧ i < b.length
        · have hB : 4 + o ≤ i ∧ i < 4 + o + L ∧ i < b.length := by omega
          rw [if_pos hA, if_pos hB]
          exact ⟨fun _ => hlt hA, rfl⟩
        · rw [if_neg hA]
          by_cases hC : 4 + o ≤ i ∧ i < 4 + o + min 26 L ∧ i < b.length
          · have hB : 4 + o ≤ i ∧ i < 4 + o + L ∧ i < b.length := by omega
            rw [if_pos hC, if_pos hB, hfirst hC]
            refine ⟨fun _ => ?_, rfl⟩
            rw [← hfirst hC]
            exact readByte_lt _ _
          · have hB : ¬ (4 + o ≤ i ∧ i < 4 + o + L ∧ i < b.length) := by omega
            rw [if_neg hC, if_neg hB]
            exact ⟨fun h => absurd h hB, rfl⟩

theorem buffer_ext (a b : Buffer) (hl : a.length = b.length)
    (h : ∀ i, a.getD i 0 = b.getD i 0) : a = b := by
  refine List.ext_getElem hl ?_
  intro i h1 h2
  have := h i
  rwa [List.getD_eq_getElem _ _ h1, List.getD_eq_getElem _ _ h2] at this

/-- C12: if every chunk answer of a successful `getEMSCommand` of `L` bytes
from data offset `o` echoes the requested data offset and carries the
requested bytes of the message `msg` of the device, then the destination
buffer holds `msg (o + j)` at index `4 + o + j` for every `j < L`, no cell
outside `4 + o .. 4 + o + L - 1` has changed, and the buffer is the one a
single answer `whole` covering the same range would leave. -/
theorem getEMSCommand_reassembly (P : Platform σ) (fuel : Nat) (inEMSBuffer : Buffer)
    (dest t L o : Nat) (w : World σ) (auxs : List Buffer) (w' : World σ) (msg : Nat → Nat)
    (hL : 0 < L) (hoL : o + L ≤ 103) (hfuel : 6 ≤ fuel)
    (hbuf : 4 + o + L ≤ inEMSBuffer.length)
    (hrun : runChunks P fuel dest t (chunkList o L) w = some (auxs, w'))
    (hecho : ∀ k, k < (L + 25) / 26 → readByte (auxs.getD k []) 3 = o + 26 * k ∧
      ∀ i, i < min 26 (L - 26 * k) →
        readByte (auxs.getD k []) (4 + i) = msg (o + 26 * k + i)) :
    ∃ buf, getEMSCommand P fuel inEMSBuffer dest t L o w = some ((true, buf), w') ∧
      (∀ j, j < L → readByte buf (4 + o + j) = msg (o + j)) ∧
      buf.length = inEMSBuffer.length ∧
      (∀ i, i < 4 + o ∨ 4 + o + L ≤ i → buf.getD i 0 = inEMSBuffer.getD i 0) ∧
      ∀ whole : Buffer, readByte whole 3 = o →
        (∀ j, j < L → readByte whole (4 + j) = msg (o + j)) →
        buf = copyPayload inEMSBuffer whole L := by
  have hlen := (runChunks_tx P fuel dest t _ _ _ _ hrun).2
  obtain ⟨hl, hget⟩ := applyChunks_getD msg ((L + 25) / 26) o L inEMSBuffer auxs (by omega)
    hlen hecho
  refine ⟨_, getEMSCommand_all_chunks P fuel inEMSBuffer dest t L o w auxs w' (by omega)
    (by omega) (by omega) hrun,
    ?_, hl, ?_, ?_⟩
  · intro j hj
    obtain ⟨hlt, hval⟩ := hget (4 + o + j)
    have hc : 4 + o ≤ 4 + o + j ∧ 4 + o + j < 4 + o + L ∧ 4 + o + j < inEMSBuffer.length := by
      omega
    rw [if_pos hc] at hval
    have e : 4 + o + j - 4 = o + j := by omega
    rw [e] at hval
    have hlt' := hlt hc
    rw [e] at hlt'
    unfold readByte
    rw [hval, Nat.mod_eq_of_lt hlt']
  · intro i hi
    have hc : ¬ (4 + o ≤ i ∧ i < 4 + o + L ∧ i < inEMSBuffer.length) := by omega
    rw [(hget i).2, if_neg hc]
  · intro whole h3 hbytes
    refine buffer_ext _ _ (by rw [hl, copyPayload_length]) ?_
    intro i
    rw [(hget i).2, copyPayload_getD, h3]
    by_cases hc : 4 + o ≤ i ∧ i < 4 + o + L ∧ i < inEMSBuffer.length
    · rw [if_pos hc, if_pos hc]
      have e : i - o = 4 + (i - o - 4) := by omega
      rw [e, hbytes _ (by omega)]
      congr 1
      omega
    · rw [if_neg hc, if_neg hc]

end Reassembly

section AcceptedAnswers

variable {σ : Type}

/-- The length cell of the request buffer after `sendRequest` has stored the
CRC: the chunk size the pass asked for. -/
theorem chunkRequest_length_cell (g : GetState) (crc : Nat)
    (hout : g.outEMSBuffer.length = OUT_EMS_BUFFER_SIZE) :
    readByte (writeByte (chunkRequest g) 5 crc) 4 = chunkSize g.length := by
  rw [readByte_writeByte_ne _ _ (by decide)]
  unfold chunkRequest
  rw [readByte_writeByte_same _ _ (by rw [writeByte_length, hout]; decide)]
  show chunkSize g.length % 256 = chunkSize g.length
  apply Nat.mod_eq_of_lt
  unfold chunkSize MAX_EMS_READ EMS_DATAGRAM_OVERHEAD
  split_ifs <;> omega

/-- C14: a pass through the loop of `getEMSCommand` that returns ends in
one of three ways. `sendRequest` returned `false`, or no answer arrived: the
destination buffer, the remaining length and the offset are unchanged. Or
`readBytes` returned an answer of `ptr` bytes for the chunk size in cell 4
of the request. That answer is accepted if `ptr >= 5`, `crcCheckOK` holds
on the `ptr` bytes read (the CRC of the bytes in front of position
`ptr - 2` is the byte at that position) and byte 2 is the requested message
type: then the payload is copied (the destination buffer keeps its size,
cell `i + 4 + aux[3]` holds `aux[i + 4]` for every `i` below the chunk
size, every cell outside that range is as before), the remaining length is
reduced by the chunk size and the offset raised by 26. Otherwise buffer,
length and offset are unchanged. -/
theorem getEMSCommand_accepts_iff (P : Platform σ) (fuel t : Nat) (g g1 : GetState)
    (w w1 : World σ) (hfuel : 256 ≤ fuel) (hpos : 0 < g.length) (hbyte : g.length < 256)
    (hout : g.outEMSBuffer.length = OUT_EMS_BUFFER_SIZE)
    (h : getEMSIteration P fuel t g w = some (g1, w1)) :
    (∃ out2, sendRequest P fuel (chunkRequest g) w = some ((false, out2), w1) ∧
      g1.inEMSBuffer = g.inEMSBuffer ∧ g1.length = g.length ∧ g1.offset = g.offset) ∨
    (∃ (out2 : Buffer) (wS : World σ),
      sendRequest P fuel (chunkRequest g) w = some ((true, out2), wS) ∧
      awaitResponse P fuel (fun s => freshArray P s 0 (readByte out2 4 + EMS_DATAGRAM_OVERHEAD))
        (readByte out2 4 + EMS_DATAGRAM_OVERHEAD) wS = some (none, w1) ∧
      g1.inEMSBuffer = g.inEMSBuffer ∧ g1.length = g.length ∧ g1.offset = g.offset) ∨
    (∃ (out2 : Buffer) (wS : World σ) (aux : Buffer) (ptr : Nat),
      sendRequest P fuel (chunkRequest g) w = some ((true, out2), wS) ∧
      awaitResponse P fuel (fun s => freshArray P s 0 (readByte out2 4 + EMS_DATAGRAM_OVERHEAD))
        (readByte out2 4 + EMS_DATAGRAM_OVERHEAD) wS = some (some (aux, ptr), w1) ∧
      readByte out2 4 = chunkSize g.length ∧
      ((5 ≤ ptr ∧ crcCheckOK fuel aux ptr = some true ∧ readByte aux 2 = t % 256) →
        g1.inEMSBuffer.length = g.inEMSBuffer.length ∧
        (∀ i, i < chunkSize g.length → i + 4 + readByte aux 3 < g.inEMSBuffer.length →
          g1.inEMSBuffer.getD (i + 4 + readByte aux 3) 0 = readByte aux (i + 4)) ∧
        (∀ j, j < 4 + readByte aux 3 ∨ chunkSize g.length + 4 + readByte aux 3 ≤ j →
          g1.inEMSBuffer.getD j 0 = g.inEMSBuffer.getD j 0) ∧
        g1.length = g.length - chunkSize g.length ∧ g1.length < g.length ∧
        g1.offset = (g.offset + 26) % 256 ∧
        crcSpec aux ptr = readByte aux (ptr - 2)) ∧
      (¬ (5 ≤ ptr ∧ crcCheckOK fuel aux ptr = some true ∧ readByte aux 2 = t % 256) →
        g1.inEMSBuffer = g.inEMSBuffer ∧ g1.length = g.length ∧ g1.offset = g.offset)) := by
  unfold getEMSIteration at h
  split at h
  · cases h
  · rename_i out2 w2 hct
    cases h
    obtain ⟨crc, _, hout2, _⟩ := chunkTransaction_cases P _ _ _ _ _ _ _ hct
    have hcell : readByte out2 4 = chunkSize g.length := by
      rw [hout2]
      exact chunkRequest_length_cell g crc hout
    rcases chunkTransaction_answer P _ _ _ _ _ _ _ hct with ⟨hs, _⟩ | ⟨wS, hs, ha, _⟩ |
      ⟨wS, aux, ptr, ok, hs, ha, hp, hok, hr⟩
    · exact Or.inl ⟨out2, hs, rfl, rfl, rfl⟩
    · exact Or.inr (Or.inl ⟨out2, wS, hs, ha, rfl, rfl, rfl⟩)
    · have hdec := (responseOK_eq fuel t aux ptr hfuel hp).1
      rw [hok] at hdec
      cases ok with
      | true => cases hr
      | false =>
        have hcond : ¬ (5 ≤ ptr ∧ crcCheckOK fuel aux ptr = some true ∧
            readByte aux 2 = t % 256) := by
          simpa using hdec.symm
        exact Or.inr (Or.inr ⟨out2, wS, aux, ptr, hs, ha, hcell, fun hc => absurd hc hcond,
          fun _ => ⟨rfl, rfl, rfl⟩⟩)
  · rename_i out2 aux w2 hct
    cases h
    obtain ⟨crc, _, hout2, _⟩ := chunkTransaction_cases P _ _ _ _ _ _ _ hct
    have hcell : readByte out2 4 = chunkSize g.length := by
      rw [hout2]
      exact chunkRequest_length_cell g crc hout
    rcases chunkTransaction_answer P _ _ _ _ _ _ _ hct with ⟨_, hr⟩ | ⟨_, _, _, hr⟩ |
      ⟨wS, aux', ptr, ok, hs, ha, hp, hok, hr⟩
    · cases hr
    · cases hr
    · have hdec := (responseOK_eq fuel t aux' ptr hfuel hp).1
      rw [hok] at hdec
      cases ok with
      | false => cases hr
      | true =>
        simp only [if_true, Option.some.injEq] at hr
        subst hr
        have hcond : 5 ≤ ptr ∧ crcCheckOK fuel aux ptr = some true ∧
            readByte aux 2 = t % 256 := by
          simpa using hdec.symm
        refine Or.inr (Or.inr ⟨out2, wS, aux, ptr, hs, ha, hcell, fun _ => ?_,
          fun hn => absurd hcond hn⟩)
        have hspec := (responseOK_eq fuel t aux ptr hfuel hp).2 hcond.1
        rw [hcond.2.1] at hspec
        have hcs : chunkSize g.length ≤ g.length ∧ 0 < chunkSize g.length := by
          unfold chunkSize MAX_EMS_READ EMS_DATAGRAM_OVERHEAD
          split_ifs <;> omega
        have hin : (acceptChunk g out2 aux).inEMSBuffer =
            copyPayload g.inEMSBuffer aux (chunkSize g.length) := by
          show copyPayload g.inEMSBuffer aux (readByte out2 4) = _
          rw [hcell]
        refine ⟨?_, ?_, ?_, ?_, ?_, rfl, by simpa using hspec.symm⟩
        · rw [hin, copyPayload_length]
        · intro i hi hlen
          rw [hin, copyPayload_getD, if_pos (by omega)]
          congr 1
          omega
        · intro j hj
          rw [hin, copyPayload_getD, if_neg (by omega)]
        · show (g.length - chunkSize g.length) % 256 = _
          exact Nat.mod_eq_of_lt (by omega)
        · show (g.length - chunkSize g.length) % 256 < _
          have : (g.length - chunkSize g.length) % 256 ≤ g.length - chunkSize g.length :=
            Nat.mod_le _ _
          omega

end AcceptedAnswers

section Silent

variable {σ : Type}

theorem silent_millis (P : Platform σ) (clock : σ → Nat) (hS : SilentBus P clock)
    (w : World σ) :
    (World.millis P w).1 = clock w.st ∧ clock w.st < clock (World.millis P w).2.st :=
  ⟨hS.millis_value w.st, hS.millis_advance w.st⟩

theorem silent_available (P : Platform σ) (clock : σ → Nat) (hS : SilentBus P clock)
    (w : World σ) :
    (World.available P w).1 = false ∧ clock w.st ≤ clock (World.available P w).2.st := by
  refine ⟨?_, hS.available_clock w.st⟩
  simp [World.available, hS.available_none]

theorem skipBreaks_silent (P : Platform σ) (clock : σ → Nat) (hS : SilentBus P clock)
    (T n : Nat) (w : World σ) :
    skipBreaks P T (n + 1) w = some (World.available P w).2 := by
  unfold skipBreaks
  simp only [(silent_available P clock hS w).1, Bool.false_eq_true, if_false]

/-- On a silent transport the reading loop of `readBytes` ends with no
byte read. -/
theorem readLoop_silent (P : Platform σ) (clock : σ → Nat) (hS : SilentBus P clock)
    (len T : Nat) :
    ∀ (n : Nat) (buf : Buffer) (w : World σ), T ≤ clock w.st + n →
      ∃ w', readLoop P len T (n + 1) buf 0 w = some ((buf, 0), w') ∧ w'.tx = w.tx ∧
        clock w.st ≤ clock w'.st := by
  intro n
  induction n with
  | zero =>
    intro buf w hT
    have hfc : clock w.st ≤ clock (World.frameError P w).2.st := hS.frameError_clock w.st
    have hm := silent_millis P clock hS (World.frameError P w).2
    have hnot : ¬ (World.millis P (World.frameError P w).2).1 < T := by
      rw [hm.1]
      omega
    cases hfe : (World.frameError P w).1 with
    | true =>
      refine ⟨(World.frameError P w).2, ?_, rfl, hfc⟩
      unfold readLoop
      simp only [hfe, if_true]
    | false =>
      by_cases hlen : 0 < len
      · refine ⟨(World.millis P (World.frameError P w).2).2, ?_, rfl, by omega⟩
        unfold readLoop
        simp only [hfe, hlen, hnot, if_true, if_false, Bool.false_eq_true]
      · refine ⟨(World.frameError P w).2, ?_, rfl, hfc⟩
        unfold readLoop
        simp only [hfe, hlen, if_false, Bool.false_eq_true]
  | succ n ih =>
    intro buf w hT
    have hfc : clock w.st ≤ clock (World.frameError P w).2.st := hS.frameError_clock w.st
    have hm := silent_millis P clock hS (World.frameError P w).2
    have ha := silent_available P clock hS (World.millis P (World.frameError P w).2).2
    cases hfe : (World.frameError P w).1 with
    | true =>
      refine ⟨(World.frameError P w).2, ?_, rfl, hfc⟩
      unfold readLoop
      simp only [hfe, if_true]
    | false =>
      by_cases hlen : 0 < len
      · by_cases hlt : (World.millis P (World.frameError P w).2).1 < T
        · obtain ⟨w', hw', htx, hck⟩ := ih buf
            (World.available P (World.millis P (World.frameError P w).2).2).2 (by omega)
          refine ⟨w', ?_, by rw [htx]; rfl, by omega⟩
          conv_lhs => unfold readLoop
          simp only [hfe, hlen, hlt, ha.1, if_true, if_false, Bool.false_eq_true]
          exact hw'
        · refine ⟨(World.millis P (World.frameError P w).2).2, ?_, rfl, by omega⟩
          unfold readLoop
          simp only [hfe, hlen, hlt, if_true, if_false, Bool.false_eq_true]
      · refine ⟨(World.frameError P w).2, ?_, rfl, hfc⟩
        unfold readLoop
        simp only [hfe, hlen, if_false, Bool.false_eq_true]

theorem readBytes_silent (P : Platform σ) (clock : σ → Nat) (hS : SilentBus P clock)
    (len T f : Nat) (buf : Buffer) (w : World σ) (hT : T ≤ clock w.st + f) :
    ∃ w', readBytes P (f + 1) buf len T w = some ((buf, 0), w') ∧ w'.tx = w.tx ∧
      clock w.st ≤ clock w'.st := by
  have ha := silent_available P clock hS w
  obtain ⟨w2, h2, htx, hck⟩ := readLoop_silent P clock hS (len % 256) T f buf
    (World.available P w).2 (by omega)
  refine ⟨World.flush P w2, ?_, by rw [World.flush_tx, htx]; rfl, ?_⟩
  · unfold readBytes
    rw [skipBreaks_silent P clock hS]
    simp only [h2]
  · have := hS.flush_clock w2.st
    show clock w.st ≤ clock (P.flush w2.st)
    omega

/-- On a silent transport the polling loop of `sendRequest` ends with
`false` on a clock reading beyond the deadline. -/
theorem pollLoop_silent (P : Platform σ) (clock : σ → Nat) (hS : SilentBus P clock)
    (T f : Nat) :
    ∀ (n pa : Nat) (aux : Buffer) (w : World σ), pa &&& 0x7F ≠ DeviceID.PC →
      T < clock w.st + n → T ≤ clock w.st + f →
      ∃ w', pollLoop P (f + 1) T (n + 1) pa aux w = some (false, w') ∧ w'.tx = w.tx ∧
        clock w.st ≤ clock w'.st := by
  intro n
  induction n with
  | zero =>
    intro pa aux w hpa hT _
    have hm := silent_millis P clock hS w
    have hgt : (World.millis P w).1 > T := by rw [hm.1]; omega
    refine ⟨(World.millis P w).2, ?_, rfl, Nat.le_of_lt hm.2⟩
    unfold pollLoop
    simp only [hpa, ne_eq, not_false_eq_true, if_true, hgt]
  | succ n ih =>
    intro pa aux w hpa hT hf
    have hm := silent_millis P clock hS w
    by_cases hgt : (World.millis P w).1 > T
    · refine ⟨(World.millis P w).2, ?_, rfl, Nat.le_of_lt hm.2⟩
      unfold pollLoop
      simp only [hpa, ne_eq, not_false_eq_true, if_true, hgt]
    · obtain ⟨w1, h1, htx1, hck1⟩ := readBytes_silent P clock hS MAX_EMS_READ T f aux
        (World.millis P w).2 (by omega)
      obtain ⟨w', hw', htx, hck⟩ := ih pa aux w1 hpa (by omega) (by omega)
      refine ⟨w', ?_, by rw [htx, htx1]; rfl, by omega⟩
      conv_lhs => unfold pollLoop
      simp only [hpa, ne_eq, not_false_eq_true, if_true, hgt, if_false, h1]
      exact hw'

/-- On a silent transport `sendRequest` returns `false`, having written
nothing. -/
theorem sendRequest_silent (P : Platform σ) (clock : σ → Nat) (hS : SilentBus P clock)
    (fuel : Nat) (hfuel : 4001 ≤ fuel) (out : Buffer) (w : World σ) :
    ∃ out1 w', sendRequest P fuel out w = some ((false, out1), w') ∧ w'.tx = w.tx ∧
      clock w.st ≤ clock w'.st := by
  obtain ⟨f, rfl⟩ : ∃ f, fuel = f + 1 := ⟨fuel - 1, by omega⟩
  have hfl : clock w.st ≤ clock (World.flush P w).st := hS.flush_clock w.st
  have hm := silent_millis P clock hS (World.flush P w)
  have h4000 : EMSMaxWaitTime * RETRY_FACTOR = 4000 := by decide
  have hT : ((World.millis P (World.flush P w)).1 + EMSMaxWaitTime * RETRY_FACTOR) % 2 ^ 32 ≤
      clock (World.flush P w).st + 4000 := by
    rw [hm.1, h4000]
    exact Nat.mod_le _ _
  have hpa : (0 : Nat) &&& 0x7F ≠ DeviceID.PC := by decide
  obtain ⟨w1, h1, htx, hck⟩ := pollLoop_silent P clock hS
    (((World.millis P (World.flush P w)).1 + EMSMaxWaitTime * RETRY_FACTOR) % 2 ^ 32) f f 0
    (freshArray P (World.millis P (World.flush P w)).2.st 0 MAX_EMS_READ)
    (World.millis P (World.flush P w)).2 hpa (by omega) (by omega)
  obtain ⟨crc, hcrc⟩ : ∃ crc, crcCalculator (f + 1) out OUT_EMS_BUFFER_SIZE = some crc :=
    ⟨_, crcCalculator_eq_fold (f + 1) out _ (by decide) (by omega)⟩
  refine ⟨writeByte out 5 crc, w1, ?_, by rw [htx]; rfl, by omega⟩
  unfold sendRequest
  rw [hcrc]
  simp only [h1]

/-- On a silent transport `getEMSCommand` for a length in `1 .. 255` and a
data offset below 128 returns `false` after one request that is never
sent. -/
theorem getEMSCommand_silent (P : Platform σ) (clock : σ → Nat) (hS : SilentBus P clock)
    (fuel : Nat) (hfuel : 4001 ≤ fuel) (inEMSBuffer : Buffer) (dest t L o : Nat)
    (hL : 0 < L % 256) (ho : o % 256 < 128) (w : World σ) :
    ∃ w', getEMSCommand P fuel inEMSBuffer dest t L o w = some ((false, inEMSBuffer), w') ∧
      w'.tx = w.tx ∧ clock w.st ≤ clock w'.st := by
  obtain ⟨hh, h3⟩ := getEMSHeader_ok P w.st dest t
  let g : GetState :=
    { inEMSBuffer := inEMSBuffer
      outEMSBuffer := getEMSHeader P w.st dest t
      length := L % 256
      offset := o % 256 }
  obtain ⟨out1, w1, hs, htx, hck⟩ := sendRequest_silent P clock hS fuel hfuel (chunkRequest g) w
  have hct : chunkTransaction P fuel t (chunkRequest g) w = some ((out1, none), w1) := by
    unfold chunkTransaction
    rw [hs]
  have hit : getEMSIteration P fuel t g w = some ({ g with outEMSBuffer := out1 }, w1) := by
    unfold getEMSIteration
    rw [hct]
  obtain ⟨out2, r, hct', _, hb3, _, _, _, _⟩ :=
    getEMSIteration_cases P fuel t _ _ g _ w w1 hh hit
  rw [hct] at hct'
  simp only [Option.some.injEq, Prod.mk.injEq] at hct'
  obtain ⟨⟨rfl, _⟩, _⟩ := hct'
  refine ⟨w1, ?_, htx, hck⟩
  obtain ⟨n, hn⟩ : ∃ n, fuel = n + 2 := ⟨fuel - 2, by omega⟩
  have key : ∀ m, m = n + 2 → getEMSLoop P fuel t m g w = some ((false, inEMSBuffer), w1) := by
    intro m hm
    have hcond : g.length > 0 ∧ (g.offset : Int) > wrapSigned 8 (readByte g.outEMSBuffer 3 : Nat) := by
      refine ⟨hL, ?_⟩
      show ((o % 256 : Nat) : Int) > wrapSigned 8 (readByte (getEMSHeader P w.st dest t) 3 : Nat)
      rw [h3]
      have : wrapSigned 8 ((255 : Nat) : Int) = -1 := by decide
      rw [this]
      omega
    have hstop : ¬ (g.length > 0 ∧ (g.offset : Int) > wrapSigned 8 (readByte out1 3 : Nat)) := by
      rw [hb3]
      show ¬ (_ ∧ ((o % 256 : Nat) : Int) > wrapSigned 8 (((o % 256) % 256 : Nat) : Int))
      rw [Nat.mod_mod, wrapSigned8_small _ ho]
      omega
    have hne : g.length ≠ 0 := by
      show L % 256 ≠ 0
      omega
    rw [hm, getEMSLoop]
    simp only [hcond, and_self, if_true, hit]
    rw [getEMSLoop]
    simp only [hstop, if_false, hne, decide_False]
  exact key fuel hn

end Silent

section SilentCalls

variable {σ : Type}

theorem setEMSCommand_silent (P : Platform σ) (clock : σ → Nat) (hS : SilentBus P clock)
    (fuel : Nat) (hfuel : 4001 ≤ fuel) (dest t off data : Nat) (w : World σ) :
    ∃ w', setEMSCommand P fuel dest t off data w = some (false, w') ∧ w'.tx = w.tx ∧
      clock w.st ≤ clock w'.st := by
  obtain ⟨out1, w1, hs, htx, hck⟩ := sendRequest_silent P clock hS fuel hfuel
    (writeByte (writeByte (writeByte (writeByte (writeByte
      (freshArray P w.st 0 OUT_EMS_BUFFER_SIZE) 0 DeviceID.PC) 1 dest) 2 t) 3 off) 4 data) w
  refine ⟨w1, ?_, htx, hck⟩
  unfold setEMSCommand
  simp only [hs]

/-- On a silent transport the loop of `getEMSBuffer` repeats failed attempts
until a clock reading has reached the deadline. -/
theorem getEMSBufferLoop_silent (P : Platform σ) (clock : σ → Nat) (hS : SilentBus P clock)
    (fuel : Nat) (hfuel : 4001 ≤ fuel) (eMSDatagram : EMSDatagram) (length offset timeout : Nat)
    (hL : 0 < (if length = 0 then eMSDatagram.messageLength else length) % 256)
    (ho : (if offset = 0 then offset
      else (((offset : Int) - INITIAL_OFFSET) % 256).toNat) % 256 < 128) :
    ∀ (n : Nat) (inEMSBuffer : Buffer) (w : World σ), timeout ≤ clock w.st + n →
      ∃ w', getEMSBufferLoop P fuel eMSDatagram length offset timeout (n + 1) inEMSBuffer w =
          some ((false, inEMSBuffer), w') ∧ w'.tx = w.tx ∧ timeout < clock w'.st := by
  intro n
  induction n with
  | zero =>
    intro inEMSBuffer w hT
    obtain ⟨w1, h1, htx1, hck1⟩ := getEMSCommand_silent P clock hS fuel hfuel inEMSBuffer
      eMSDatagram.destinationID eMSDatagram.messageID _ _ hL ho w
    have hm := silent_millis P clock hS w1
    have hnot : ¬ (World.millis P w1).1 < timeout := by rw [hm.1]; omega
    refine ⟨(World.millis P w1).2, ?_, by rw [World.millis_tx, htx1], by omega⟩
    unfold getEMSBufferLoop
    simp only [h1, hnot, false_and, if_false]
  | succ n ih =>
    intro inEMSBuffer w hT
    obtain ⟨w1, h1, htx1, hck1⟩ := getEMSCommand_silent P clock hS fuel hfuel inEMSBuffer
      eMSDatagram.destinationID eMSDatagram.messageID _ _ hL ho w
    have hm := silent_millis P clock hS w1
    by_cases hlt : (World.millis P w1).1 < timeout
    · obtain ⟨w', hw', htx, hck⟩ := ih inEMSBuffer (World.millis P w1).2 (by omega)
      refine ⟨w', ?_, by rw [htx, World.millis_tx, htx1], hck⟩
      conv_lhs => unfold getEMSBufferLoop
      simp only [h1, hlt, true_and, if_true]
      exact hw'
    · refine ⟨(World.millis P w1).2, ?_, by rw [World.millis_tx, htx1], by omega⟩
      unfold getEMSBufferLoop
      simp only [h1, hlt, false_and, if_false]

theorem getEMSBuffer_silent (P : Platform σ) (clock : σ → Nat) (hS : SilentBus P clock)
    (fuel : Nat) (hfuel : 8001 ≤ fuel) (inEMSBuffer : Buffer) (eMSDatagram : EMSDatagram)
    (length offset : Nat) (w : World σ) (hclk : clock w.st + 8000 < 2 ^ 32)
    (hL : 0 < (if length = 0 then eMSDatagram.messageLength else length) % 256)
    (ho : (if offset = 0 then offset
      else (((offset : Int) - INITIAL_OFFSET) % 256).toNat) % 256 < 128) :
    ∃ w', getEMSBuffer P fuel inEMSBuffer eMSDatagram length offset w =
        some ((false, inEMSBuffer), w') ∧ w'.tx = w.tx ∧ clock w.st + 8000 ≤ clock w'.st := by
  obtain ⟨f, rfl⟩ : ∃ f, fuel = f + 1 := ⟨fuel - 1, by omega⟩
  have hm := silent_millis P clock hS w
  have h8000 : EMSMaxWaitTime * RETRY_FACTOR * 2 = 8000 := by decide
  have hT : ((World.millis P w).1 + EMSMaxWaitTime * RETRY_FACTOR * 2) % 2 ^ 32 =
      clock w.st + 8000 := by
    rw [hm.1, h8000]
    exact Nat.mod_eq_of_lt hclk
  obtain ⟨w', hw', htx, hck⟩ := getEMSBufferLoop_silent P clock hS (f + 1) (by omega)
    eMSDatagram length offset (clock w.st + 8000) hL ho f inEMSBuffer (World.millis P w).2
    (by omega)
  refine ⟨w', ?_, by rw [htx]; rfl, by omega⟩
  unfold getEMSBuffer
  simp only [hT]
  exact hw'

/-- On a silent transport the loop of `updateEMSDatagram` repeats failed
attempts until a clock reading has reached the deadline. -/
theorem updateEMSDatagramLoop_silent (P : Platform σ) (clock : σ → Nat)
    (hS : SilentBus P clock) (fuel : Nat) (hfuel : 4001 ≤ fuel)
    (dest t off data timeout : Nat) :
    ∀ (n : Nat) (w : World σ), timeout ≤ clock w.st + n →
      ∃ w', updateEMSDatagramLoop P fuel dest t off data timeout (n + 1) w = some (false, w') ∧
        w'.tx = w.tx ∧ timeout < clock w'.st := by
  intro n
  induction n with
  | zero =>
    intro w hT
    obtain ⟨w1, h1, htx1, hck1⟩ := setEMSCommand_silent P clock hS fuel hfuel dest t off data w
    have hm := silent_millis P clock hS w1
    have hnot : ¬ (World.millis P w1).1 < timeout := by rw [hm.1]; omega
    refine ⟨(World.millis P w1).2, ?_, by rw [World.millis_tx, htx1], by omega⟩
    unfold updateEMSDatagramLoop
    simp only [h1, hnot, false_and, if_false]
  | succ n ih =>
    intro w hT
    obtain ⟨w1, h1, htx1, hck1⟩ := setEMSCommand_silent P clock hS fuel hfuel dest t off data w
    have hm := silent_millis P clock hS w1
    by_cases hlt : (World.millis P w1).1 < timeout
    · obtain ⟨w', hw', htx, hck⟩ := ih (World.millis P w1).2 (by omega)
      refine ⟨w', ?_, by rw [htx, World.millis_tx, htx1], hck⟩
      conv_lhs => unfold updateEMSDatagramLoop
      simp only [h1, hlt, true_and, if_true]
      exact hw'
    · refine ⟨(World.millis P w1).2, ?_, by rw [World.millis_tx, htx1], by omega⟩
      unfold updateEMSDatagramLoop
      simp only [h1, hlt, false_and, if_false]

theorem updateEMSDatagram_silent (P : Platform σ) (clock : σ → Nat) (hS : SilentBus P clock)
    (fuel : Nat) (hfuel : 8001 ≤ fuel) (eMSDatagramID datagramDataIndex data extraOffset : Nat)
    (w : World σ) (hclk : clock w.st + 8000 < 2 ^ 32) :
    ∃ w', updateEMSDatagram P fuel eMSDatagramID datagramDataIndex data extraOffset w =
        some (false, w') ∧ w'.tx = w.tx ∧ clock w.st + 4000 ≤ clock w'.st := by
  obtain ⟨f, rfl⟩ : ∃ f, fuel = f + 1 := ⟨fuel - 1, by omega⟩
  have hm := silent_millis P clock hS w
  have h4000 : EMSMaxWaitTime * RETRY_FACTOR = 4000 := by decide
  have hT : ((World.millis P w).1 + EMSMaxWaitTime * RETRY_FACTOR) % 2 ^ 32 =
      clock w.st + 4000 := by
    rw [hm.1, h4000]
    exact Nat.mod_eq_of_lt (by omega)
  obtain ⟨w', hw', htx, hck⟩ := updateEMSDatagramLoop_silent P clock hS (f + 1) (by omega)
    (eMSDatagramIDs.getD eMSDatagramID default).destinationID
    (eMSDatagramIDs.getD eMSDatagramID default).messageID
    ((((((eMSDatagramIDs.getD eMSDatagramID default).data.getD datagramDataIndex default).offset
      : Int) - INITIAL_OFFSET + extraOffset) % 256).toNat) data
    (clock w.st + 4000) f (World.millis P w).2 (by omega)
  refine ⟨w', ?_, by rw [htx]; rfl, by omega⟩
  unfold updateEMSDatagram
  simp only [hT]
  exact hw'

/-- The data offset of every byte request of the catalog, lowered by
`INITIAL_OFFSET`, lies below 128. -/
theorem byteRequests_offsets (typeIdx : ByteRequest) :
    (if (byteRequests.getD typeIdx.toCtorIdx default).dataType.offset = 0
      then (byteRequests.getD typeIdx.toCtorIdx default).dataType.offset
      else ((((byteRequests.getD typeIdx.toCtorIdx default).dataType.offset : Int) -
        INITIAL_OFFSET) % 256).toNat) % 256 < 128 := by
  cases typeIdx <;> decide

theorem silentPlatform_silent : SilentBus silentPlatform (fun t => t) where
  available_none := fun _ => rfl
  millis_value := fun _ => rfl
  millis_advance := fun s => Nat.lt_succ_self s
  available_clock := fun s => Nat.le_refl s
  frameError_clock := fun s => Nat.le_refl s
  flush_clock := fun s => Nat.le_refl s

/-- On a transport whose `available()` is always 0, with a clock that
does not wrap during the call, every call of `getEMSBuffer` for a length in
`1 .. 255` and a data offset below 128, every `getCalduinoByteValue`, every
`updateEMSDatagram` and every `setWorkModeHC` with arguments in range
returns failure (`0xFF` for the byte value), writes nothing to the
transport, and returns only after the clock has advanced by 4000 ms (8000 ms
for the two gets); `setWorkModeHC` with an argument out of range returns
`false` at once. -/
theorem silent_transport_calls_fail (P : Platform σ) (clock : σ → Nat)
    (hS : SilentBus P clock) (fuel : Nat) (hfuel : 8001 ≤ fuel) (w : World σ)
    (hclk : clock w.st + 8000 < 2 ^ 32) :
    (∀ (inEMSBuffer : Buffer) (eMSDatagram : EMSDatagram) (length offset : Nat),
      0 < (if length = 0 then eMSDatagram.messageLength else length) % 256 →
      (if offset = 0 then offset
        else (((offset : Int) - INITIAL_OFFSET) % 256).toNat) % 256 < 128 →
      ∃ w', getEMSBuffer P fuel inEMSBuffer eMSDatagram length offset w =
          some ((false, inEMSBuffer), w') ∧ w'.tx = w.tx ∧ clock w.st + 8000 ≤ clock w'.st) ∧
    (∀ typeIdx : ByteRequest,
      ∃ w', getCalduinoByteValue P fuel typeIdx w = some (0xFF, w') ∧ w'.tx = w.tx ∧
        clock w.st + 8000 ≤ clock w'.st) ∧
    (∀ eMSDatagramID datagramDataIndex data extraOffset : Nat,
      ∃ w', updateEMSDatagram P fuel eMSDatagramID datagramDataIndex data extraOffset w =
          some (false, w') ∧ w'.tx = w.tx ∧ clock w.st + 4000 ≤ clock w'.st) ∧
    (∀ selHC selMode : Nat, 0 < selHC → selHC ≤ MAX_HC_CIRCUIT → selMode ≤ MAX_WORKING_MODE →
      ∃ w', setWorkModeHC P fuel selHC selMode w = some (false, w') ∧ w'.tx = w.tx ∧
        clock w.st + 4000 ≤ clock w'.st) ∧
    (∀ selHC selMode : Nat,
      ¬ (0 < selHC ∧ selHC ≤ MAX_HC_CIRCUIT ∧ selMode ≤ MAX_WORKING_MODE) →
      setWorkModeHC P fuel selHC selMode w = some (false, w)) := by
  refine ⟨?_, ?_, ?_, ?_, ?_⟩
  · intro inEMSBuffer eMSDatagram length offset hL ho
    exact getEMSBuffer_silent P clock hS fuel hfuel inEMSBuffer eMSDatagram length offset w
      hclk hL ho
  · intro typeIdx
    obtain ⟨w', hw', htx, hck⟩ := getEMSBuffer_silent P clock hS fuel hfuel
      (freshArray P w.st 0
        ((byteRequests.getD typeIdx.toCtorIdx default).eMSDatagram.messageLength +
          EMS_DATAGRAM_OVERHEAD))
      (byteRequests.getD typeIdx.toCtorIdx default).eMSDatagram 1
      (byteRequests.getD typeIdx.toCtorIdx default).dataType.offset w hclk
      (by rw [if_neg (by decide)]; decide) (byteRequests_offsets typeIdx)
    refine ⟨w', ?_, htx, hck⟩
    unfold getCalduinoByteValue
    simp only [hw']
    rfl
  · intro eMSDatagramID datagramDataIndex data extraOffset
    exact updateEMSDatagram_silent P clock hS fuel hfuel _ _ _ _ w hclk
  · intro selHC selMode h1 h2 h3
    obtain ⟨w', hw', htx, hck⟩ := updateEMSDatagram_silent P clock hS fuel hfuel
      (EMSDatagramID.Working_Mode_HC_1.toCtorIdx + (selHC - 1) * 4) 5 selMode 0 w hclk
    refine ⟨w', ?_, htx, hck⟩
    unfold setWorkModeHC
    have hv : selHC > 0 ∧ selHC ≤ MAX_HC_CIRCUIT ∧ selMode ≤ MAX_WORKING_MODE := ⟨h1, h2, h3⟩
    rw [if_pos hv]
    exact hw'
  · intro selHC selMode hn
    unfold setWorkModeHC
    rw [if_neg hn]

end SilentCalls

section Retry

variable {σ : Type}

theorem getEMSBufferLoop_retry (P : Platform σ) (fuel : Nat) (eMSDatagram : EMSDatagram)
    (length offset timeout : Nat) :
    ∀ (n : Nat) (inEMSBuffer : Buffer) (w : World σ),
      getEMSBufferLoop P fuel eMSDatagram length offset timeout n inEMSBuffer w =
        retryPolicy P
          (fun b v => getEMSCommand P fuel b eMSDatagram.destinationID eMSDatagram.messageID
            (if length = 0 then eMSDatagram.messageLength else length)
            (if offset = 0 then offset else (((offset : Int) - INITIAL_OFFSET) % 256).toNat) v)
          timeout n inEMSBuffer w := by
  intro n
  induction n with
  | zero => intro inEMSBuffer w; rfl
  | succ n ih =>
    intro inEMSBuffer w
    unfold getEMSBufferLoop retryPolicy
    cases h : getEMSCommand P fuel inEMSBuffer eMSDatagram.destinationID eMSDatagram.messageID
        (if length = 0 then eMSDatagram.messageLength else length)
        (if offset = 0 then offset else (((offset : Int) - INITIAL_OFFSET) % 256).toNat) w with
    | none => rfl
    | some r =>
      obtain ⟨⟨ok, in1⟩, w1⟩ := r
      cases ok with
      | true => simp
      | false =>
        by_cases hlt : (World.millis P w1).1 < timeout
        · have hge : ¬ timeout ≤ (World.millis P w1).1 := by omega
          simp only [hlt, hge, true_and, if_true, if_false]
          exact ih _ _
        · have hge : timeout ≤ (World.millis P w1).1 := by omega
          simp only [hlt, hge, false_and, if_true, if_false]

theorem updateEMSDatagramLoop_retry (P : Platform σ) (fuel : Nat)
    (dest t off data timeout : Nat) :
    ∀ (n : Nat) (w : World σ),
      updateEMSDatagramLoop P fuel dest t off data timeout n w =
        (retryPolicy P
          (fun (_ : Unit) v =>
            (setEMSCommand P fuel dest t off data v).map (fun r => ((r.1, ()), r.2)))
          timeout n () w).map (fun r => (r.1.1, r.2)) := by
  intro n
  induction n with
  | zero => intro w; rfl
  | succ n ih =>
    intro w
    unfold updateEMSDatagramLoop retryPolicy
    cases h : setEMSCommand P fuel dest t off data w with
    | none => rfl
    | some r =>
      obtain ⟨ok, w1⟩ := r
      cases ok with
      | true => simp
      | false =>
        by_cases hlt : (World.millis P w1).1 < timeout
        · have hge : ¬ timeout ≤ (World.millis P w1).1 := by omega
          simp only [Option.map_some', hlt, hge, true_and, if_true, if_false]
          exact ih _
        · have hge : timeout ≤ (World.millis P w1).1 := by omega
          simp only [Option.map_some', hlt, hge, false_and, if_true, if_false]

/-- C20: `getEMSBuffer` and `updateEMSDatagram` each follow the retry
policy (at least one attempt, stop at the first success, repeat a failed
attempt until a clock reading has reached the deadline); the deadline of
`getEMSBuffer` is the start time plus `EMSMaxWaitTime x RETRY_FACTOR x 2`
(`1000 x 4 x 2 = 8000` ms), that of `updateEMSDatagram` the start time plus
`EMSMaxWaitTime x RETRY_FACTOR` (`1000 x 4 = 4000` ms), both taken modulo
`2 ^ 32`. -/
theorem retry_policy_deadlines (P : Platform σ) (fuel : Nat) (inEMSBuffer : Buffer)
    (eMSDatagram : EMSDatagram) (length offset : Nat)
    (eMSDatagramID datagramDataIndex data extraOffset : Nat) (w : World σ) :
    getEMSBuffer P fuel inEMSBuffer eMSDatagram length offset w =
      retryPolicy P
        (fun b v => getEMSCommand P fuel b eMSDatagram.destinationID eMSDatagram.messageID
          (if length = 0 then eMSDatagram.messageLength else length)
          (if offset = 0 then offset else (((offset : Int) - INITIAL_OFFSET) % 256).toNat) v)
        (((World.millis P w).1 + 8000) % 2 ^ 32) fuel inEMSBuffer (World.millis P w).2 ∧
    updateEMSDatagram P fuel eMSDatagramID datagramDataIndex data extraOffset w =
      (retryPolicy P
        (fun (_ : Unit) v =>
          (setEMSCommand P fuel (eMSDatagramIDs.getD eMSDatagramID default).destinationID
            (eMSDatagramIDs.getD eMSDatagramID default).messageID
            ((((((eMSDatagramIDs.getD eMSDatagramID default).data.getD datagramDataIndex
              default).offset : Int) - INITIAL_OFFSET + extraOffset) % 256).toNat) data v).map
            (fun r => ((r.1, ()), r.2)))
        (((World.millis P w).1 + 4000) % 2 ^ 32) fuel () (World.millis P w).2).map
        (fun r => (r.1.1, r.2)) ∧
    EMSMaxWaitTime * RETRY_FACTOR * 2 = 8000 ∧ EMSMaxWaitTime * RETRY_FACTOR = 4000 ∧
    EMSMaxWaitTime = 1000 ∧ RETRY_FACTOR = 4 := by
  refine ⟨?_, ?_, rfl, rfl, rfl, rfl⟩
  · unfold getEMSBuffer
    exact getEMSBufferLoop_retry P fuel eMSDatagram length offset _ fuel inEMSBuffer _
  · unfold updateEMSDatagram
    exact updateEMSDatagramLoop_retry P fuel _ _ _ data _ fuel _

end Retry

/-! ## Runs on the simulated bus -/

set_option maxRecDepth 1000000 in
/-- C11, instance: a read of 38 bytes from data offset 2 on the simulated
bus. -/
theorem getEMSCommand_segmented_requests_witness :
    ∃ (auxs : List Buffer) (w' : World SimState),
      runChunks simPlatform 64 0x08 0x18 (chunkList 2 38) readyBus = some (auxs, w') ∧
      (∃ buf, getEMSCommand simPlatform 64 (List.replicate 46 0) 0x08 0x18 38 2 readyBus =
        some ((true, buf), w')) ∧
      MAX_EMS_READ - EMS_DATAGRAM_OVERHEAD = 26 ∧
      ∃ chunks : List (Nat × Nat),
        chunks.length = (38 + 25) / 26 ∧
        26 * ((38 + 25) / 26 - 1) < 38 ∧ 38 ≤ 26 * ((38 + 25) / 26) ∧
        (∀ k, k < (38 + 25) / 26 → chunks[k]? = some (2 + 26 * k, min 26 (38 - 26 * k))) ∧
        w'.tx = readyBus.tx ++
          chunks.flatMap (fun c => requestFrame (0x08 ||| 0x80) 0x18 c.1 c.2) := by
  have hsome : (runChunks simPlatform 64 0x08 0x18 (chunkList 2 38) readyBus).isSome = true := by
    decide
  obtain ⟨⟨auxs, w'⟩, h⟩ := Option.isSome_iff_exists.mp hsome
  exact ⟨auxs, w', h, getEMSCommand_segmented_requests simPlatform 64 (List.replicate 46 0)
    0x08 0x18 38 2 readyBus auxs w' (by decide) (by decide) (by decide) h⟩

set_option maxRecDepth 1000000 in
/-- C12, instance: the two answers to a read of 38 bytes from data offset 2
on the simulated bus, whose device message holds `100 + a` at position
`a`. -/
theorem getEMSCommand_reassembly_witness :
    ∃ (auxs : List Buffer) (w' : World SimState),
      runChunks simPlatform 64 0x08 0x18 (chunkList 2 38) readyBus = some (auxs, w') ∧
      (∀ k, k < (38 + 25) / 26 → readByte (auxs.getD k []) 3 = 2 + 26 * k ∧
        ∀ i, i < min 26 (38 - 26 * k) →
          readByte (auxs.getD k []) (4 + i) = 100 + (2 + 26 * k + i)) ∧
      ∃ buf, getEMSCommand simPlatform 64 (List.replicate 46 0) 0x08 0x18 38 2 readyBus =
          some ((true, buf), w') ∧
        (∀ j, j < 38 → readByte buf (4 + 2 + j) = 100 + (2 + j)) ∧
        buf.length = (List.replicate 46 0).length ∧
        (∀ i, i < 4 + 2 ∨ 4 + 2 + 38 ≤ i → buf.getD i 0 = (List.replicate 46 0).getD i 0) ∧
        ∀ whole : Buffer, readByte whole 3 = 2 →
          (∀ j, j < 38 → readByte whole (4 + j) = 100 + (2 + j)) →
          buf = copyPayload (List.replicate 46 0) whole 38 := by
  have hsome : (runChunks simPlatform 64 0x08 0x18 (chunkList 2 38) readyBus).isSome = true := by
    decide
  obtain ⟨⟨auxs, w'⟩, h⟩ := Option.isSome_iff_exists.mp hsome
  have hval : (runChunks simPlatform 64 0x08 0x18 (chunkList 2 38) readyBus).map (fun r => r.1) =
      some [[8, 11, 24, 2, 102, 103, 104, 105, 106, 107, 108, 109, 110, 111, 112, 113, 114, 115,
        116, 117, 118, 119, 120, 121, 122, 123, 124, 125, 126, 127, 154, 0],
       [8, 11, 24, 28, 128, 129, 130, 131, 132, 133, 134, 135, 136, 137, 138, 139, 220, 0]] := by
    decide
  rw [h] at hval
  simp only [Option.map_some', Option.some.injEq] at hval
  subst hval
  have hecho : ∀ k, k < (38 + 25) / 26 →
      readByte (([[8, 11, 24, 2, 102, 103, 104, 105, 106, 107, 108, 109, 110, 111, 112, 113,
          114, 115, 116, 117, 118, 119, 120, 121, 122, 123, 124, 125, 126, 127, 154, 0],
        [8, 11, 24, 28, 128, 129, 130, 131, 132, 133, 134, 135, 136, 137, 138, 139, 220, 0]] :
          List Buffer).getD k []) 3 = 2 + 26 * k ∧
      ∀ i, i < min 26 (38 - 26 * k) →
        readByte (([[8, 11, 24, 2, 102, 103, 104, 105, 106, 107, 108, 109, 110, 111, 112, 113,
            114, 115, 116, 117, 118, 119, 120, 121, 122, 123, 124, 125, 126, 127, 154, 0],
          [8, 11, 24, 28, 128, 129, 130, 131, 132, 133, 134, 135, 136, 137, 138, 139, 220, 0]] :
            List Buffer).getD k []) (4 + i) = 100 + (2 + 26 * k + i) := by
    decide
  exact ⟨_, w', h, hecho, getEMSCommand_reassembly simPlatform 64 (List.replicate 46 0)
    0x08 0x18 38 2 readyBus _ w' (fun a => 100 + a) (by decide) (by decide) (by decide)
    (by decide) h hecho⟩

theorem option_eq_some_getD {α : Type} (x : Option α) (d : α) (h : x.isSome = true) :
    x = some (x.getD d) := by
  cases x with
  | none => simp at h
  | some a => rfl

set_option maxRecDepth 1000000 in
/-- C13, instance: a read of 38 bytes from data offset 2 on the simulated
bus whose device message has 30 bytes only: the first chunk is accepted, the
second request gets no answer from the device, and what is read instead is
rejected. -/
theorem getEMSCommand_chunk_failure_witness :
    runChunks simPlatform 64 0x08 0x18 ((chunkList 2 38).take 1) shortMessageBus =
      some (shortFirstChunk.1, shortFirstChunk.2) ∧
    ChunkFails simPlatform 64 0x18
      (chunkBuffer 0x08 0x18 (2 + 26 * 1) (min 26 (38 - 26 * 1))) shortFirstChunk.2
      shortSecondRead.2 ∧
    getEMSCommand simPlatform 64 (List.replicate 46 0) 0x08 0x18 38 2 shortMessageBus =
      some ((false, applyChunks (List.replicate 46 0) ((chunkList 2 38).take 1)
        shortFirstChunk.1), shortSecondRead.2) ∧
    (shortSecondRead.2.tx = shortMessageBus.tx ++ ((chunkList 2 38).take 1).flatMap
        (fun c => requestFrame (0x08 ||| 0x80) 0x18 c.1 c.2) ∨
      shortSecondRead.2.tx = shortMessageBus.tx ++ ((chunkList 2 38).take (1 + 1)).flatMap
        (fun c => requestFrame (0x08 ||| 0x80) 0x18 c.1 c.2)) ∧
    (chunkList 2 38).Pairwise (fun c d => c.1 < d.1) := by
  have hrun : runChunks simPlatform 64 0x08 0x18 ((chunkList 2 38).take 1) shortMessageBus =
      some (shortFirstChunk.1, shortFirstChunk.2) :=
    option_eq_some_getD _ ([], shortMessageBus) (by decide)
  have hS1 : shortSecondSent.1.1 = true := by decide
  have hsend : sendRequest simPlatform 64
      (chunkBuffer 0x08 0x18 (2 + 26 * 1) (min 26 (38 - 26 * 1))) shortFirstChunk.2 =
      some ((true, shortSecondSent.1.2), shortSecondSent.2) := by
    rw [← hS1]
    exact option_eq_some_getD _ ((false, []), shortMessageBus) (by decide)
  have hA1 : shortSecondRead.1 = some (0x8B :: List.replicate 17 0, 2) := by decide
  have hawait : awaitResponse simPlatform 64
      (fun s => freshArray simPlatform s 0
        (readByte shortSecondSent.1.2 4 + EMS_DATAGRAM_OVERHEAD))
      (readByte shortSecondSent.1.2 4 + EMS_DATAGRAM_OVERHEAD) shortSecondSent.2 =
      some (some (0x8B :: List.replicate 17 0, 2), shortSecondRead.2) := by
    rw [← hA1]
    exact option_eq_some_getD _ (none, shortMessageBus) (by decide)
  have hfail : ChunkFails simPlatform 64 0x18
      (chunkBuffer 0x08 0x18 (2 + 26 * 1) (min 26 (38 - 26 * 1))) shortFirstChunk.2
      shortSecondRead.2 :=
    Or.inr (Or.inr ⟨_, _, _, _, hsend, hawait, by decide⟩)
  exact ⟨hrun, hfail, getEMSCommand_chunk_failure simPlatform 64
    (List.replicate 46 0) 0x08 0x18 38 2 1 shortMessageBus _ _ _ (by decide) (by decide)
    (by decide) (by decide) hrun hfail⟩

set_option maxRecDepth 1000000 in
/-- C14, instance: the first pass through the loop of `getEMSCommand` for a
read of 38 bytes from data offset 2 on the simulated bus, whose device holds
the bytes 100, 101, ... : the 26 bytes from data offset 2 arrive in cells 6
to 31 of the destination buffer, 12 bytes remain and the offset is 28. -/
theorem getEMSCommand_accepts_iff_witness :
    ∃ (g1 : GetState) (w1 : World SimState),
      getEMSIteration simPlatform 256 0x18 sampleGetState readyBus = some (g1, w1) ∧
      g1.inEMSBuffer =
        [0, 0, 0, 0, 0, 0, 102, 103, 104, 105, 106, 107, 108, 109, 110, 111, 112, 113, 114,
         115, 116, 117, 118, 119, 120, 121, 122, 123, 124, 125, 126, 127, 0, 0, 0, 0, 0, 0,
         0, 0, 0, 0, 0, 0, 0, 0] ∧
      g1.length = 12 ∧ g1.offset = 28 ∧
      ((∃ out2, sendRequest simPlatform 256 (chunkRequest sampleGetState) readyBus =
            some ((false, out2), w1) ∧
          g1.inEMSBuffer = sampleGetState.inEMSBuffer ∧ g1.length = sampleGetState.length ∧
          g1.offset = sampleGetState.offset) ∨
        (∃ (out2 : Buffer) (wS : World SimState),
          sendRequest simPlatform 256 (chunkRequest sampleGetState) readyBus =
            some ((true, out2), wS) ∧
          awaitResponse simPlatform 256
            (fun s => freshArray simPlatform s 0 (readByte out2 4 + EMS_DATAGRAM_OVERHEAD))
            (readByte out2 4 + EMS_DATAGRAM_OVERHEAD) wS = some (none, w1) ∧
          g1.inEMSBuffer = sampleGetState.inEMSBuffer ∧ g1.length = sampleGetState.length ∧
          g1.offset = sampleGetState.offset) ∨
        (∃ (out2 : Buffer) (wS : World SimState) (aux : Buffer) (ptr : Nat),
          sendRequest simPlatform 256 (chunkRequest sampleGetState) readyBus =
            some ((true, out2), wS) ∧
          awaitResponse simPlatform 256
            (fun s => freshArray simPlatform s 0 (readByte out2 4 + EMS_DATAGRAM_OVERHEAD))
            (readByte out2 4 + EMS_DATAGRAM_OVERHEAD) wS = some (some (aux, ptr), w1) ∧
          readByte out2 4 = chunkSize sampleGetState.length ∧
          ((5 ≤ ptr ∧ crcCheckOK 256 aux ptr = some true ∧ readByte aux 2 = 0x18 % 256) →
            g1.inEMSBuffer.length = sampleGetState.inEMSBuffer.length ∧
            (∀ i, i < chunkSize sampleGetState.length →
              i + 4 + readByte aux 3 < sampleGetState.inEMSBuffer.length →
              g1.inEMSBuffer.getD (i + 4 + readByte aux 3) 0 = readByte aux (i + 4)) ∧
            (∀ j, j < 4 + readByte aux 3 ∨
                chunkSize sampleGetState.length + 4 + readByte aux 3 ≤ j →
              g1.inEMSBuffer.getD j 0 = sampleGetState.inEMSBuffer.getD j 0) ∧
            g1.length = sampleGetState.length - chunkSize sampleGetState.length ∧
            g1.length < sampleGetState.length ∧
            g1.offset = (sampleGetState.offset + 26) % 256 ∧
            crcSpec aux ptr = readByte aux (ptr - 2)) ∧
          (¬ (5 ≤ ptr ∧ crcCheckOK 256 aux ptr = some true ∧ readByte aux 2 = 0x18 % 256) →
            g1.inEMSBuffer = sampleGetState.inEMSBuffer ∧ g1.length = sampleGetState.length ∧
              g1.offset = sampleGetState.offset))) := by
  have hrun : (getEMSIteration simPlatform 256 0x18 sampleGetState readyBus).map
      (fun r => (r.1.inEMSBuffer, r.1.length, r.1.offset)) =
      some ([0, 0, 0, 0, 0, 0, 102, 103, 104, 105, 106, 107, 108, 109, 110, 111, 112, 113, 114,
         115, 116, 117, 118, 119, 120, 121, 122, 123, 124, 125, 126, 127, 0, 0, 0, 0, 0, 0,
         0, 0, 0, 0, 0, 0, 0, 0], 12, 28) := by
    decide
  have hsome : (getEMSIteration simPlatform 256 0x18 sampleGetState readyBus).isSome = true := by
    decide
  obtain ⟨⟨g1, w1⟩, h⟩ := Option.isSome_iff_exists.mp hsome
  rw [h] at hrun
  simp only [Option.map_some', Option.some.injEq, Prod.mk.injEq] at hrun
  exact ⟨g1, w1, h, hrun.1, hrun.2.1, hrun.2.2,
    getEMSCommand_accepts_iff simPlatform 256 0x18 sampleGetState g1 readyBus w1
      (by decide) (by decide) (by decide) (by decide) h⟩

set_option maxRecDepth 1000000 in
/-- C16, instance: a read of 38 bytes from data offset 2 of message `0x18`
of device `0x08` on the simulated bus. -/
theorem getEMSCommand_request_frames_witness :
    ∃ (r : Bool × Buffer) (w' : World SimState),
      getEMSCommand simPlatform 64 (List.replicate 46 0) 0x08 0x18 38 2 readyBus =
        some (r, w') ∧
      ∃ chunks : List (Nat × Nat),
        w'.tx = readyBus.tx ++ chunks.flatMap (fun c =>
          [TxEvent.byte 0x0B, TxEvent.byte ((0x08 ||| 0x80) % 256), TxEvent.byte (0x18 % 256),
           TxEvent.byte (c.1 % 256), TxEvent.byte (c.2 % 256),
           TxEvent.byte
             (crcSpec [0x0B, (0x08 ||| 0x80) % 256, 0x18 % 256, c.1 % 256, c.2 % 256] 7),
           TxEvent.eof]) ∧
        ∀ c ∈ chunks, ∀ x y : Nat,
          crcCalculator 256
            [0x0B, (0x08 ||| 0x80) % 256, 0x18 % 256, c.1 % 256, c.2 % 256, x, y] 7 =
            some (crcSpec [0x0B, (0x08 ||| 0x80) % 256, 0x18 % 256, c.1 % 256, c.2 % 256] 7) := by
  have hsome : (getEMSCommand simPlatform 64 (List.replicate 46 0) 0x08 0x18 38 2
      readyBus).isSome = true := by decide
  obtain ⟨⟨r, w'⟩, h⟩ := Option.isSome_iff_exists.mp hsome
  exact ⟨r, w', h, getEMSCommand_request_frames simPlatform 64 (List.replicate 46 0)
    0x08 0x18 38 2 readyBus r w' h⟩

set_option maxRecDepth 1000000 in
/-- C17, instance: the value 33 written to data offset 7 of message `0x3D`
of device `0x10` on the simulated bus. -/
theorem setEMSCommand_request_frames_witness :
    ∃ (b : Bool) (w' : World SimState),
      setEMSCommand simPlatform 64 0x10 0x3D 7 33 readyBus = some (b, w') ∧
      (w'.tx = readyBus.tx ∨
        w'.tx = readyBus.tx ++
          [TxEvent.byte 0x0B, TxEvent.byte (0x10 % 256), TxEvent.byte (0x3D % 256),
           TxEvent.byte (7 % 256), TxEvent.byte (33 % 256),
           TxEvent.byte (crcSpec [0x0B, 0x10 % 256, 0x3D % 256, 7 % 256, 33 % 256] 7),
           TxEvent.eof] ∨
        w'.tx = readyBus.tx ++
          [TxEvent.byte 0x0B, TxEvent.byte (0x10 % 256), TxEvent.byte (0x3D % 256),
           TxEvent.byte (7 % 256), TxEvent.byte (33 % 256),
           TxEvent.byte (crcSpec [0x0B, 0x10 % 256, 0x3D % 256, 7 % 256, 33 % 256] 7),
           TxEvent.eof] ++
          [TxEvent.byte 0x0B, TxEvent.byte ((0x10 ||| 0x80) % 256), TxEvent.byte (0x3D % 256),
           TxEvent.byte (7 % 256), TxEvent.byte 1,
           TxEvent.byte (crcSpec [0x0B, (0x10 ||| 0x80) % 256, 0x3D % 256, 7 % 256, 1] 7),
           TxEvent.eof]) ∧
      (b = true →
        w'.tx = readyBus.tx ++
          [TxEvent.byte 0x0B, TxEvent.byte (0x10 % 256), TxEvent.byte (0x3D % 256),
           TxEvent.byte (7 % 256), TxEvent.byte (33 % 256),
           TxEvent.byte (crcSpec [0x0B, 0x10 % 256, 0x3D % 256, 7 % 256, 33 % 256] 7),
           TxEvent.eof] ++
          [TxEvent.byte 0x0B, TxEvent.byte ((0x10 ||| 0x80) % 256), TxEvent.byte (0x3D % 256),
           TxEvent.byte (7 % 256), TxEvent.byte 1,
           TxEvent.byte (crcSpec [0x0B, (0x10 ||| 0x80) % 256, 0x3D % 256, 7 % 256, 1] 7),
           TxEvent.eof]) := by
  have hsome : (setEMSCommand simPlatform 64 0x10 0x3D 7 33 readyBus).isSome = true := by
    decide
  obtain ⟨⟨b, w'⟩, h⟩ := Option.isSome_iff_exists.mp hsome
  exact ⟨b, w', h, setEMSCommand_request_frames simPlatform 64 0x10 0x3D 7 33 readyBus b w' h⟩

set_option maxRecDepth 1000000 in
/-- C15: a run in which `setEMSCommand` returns `true` although no
acknowledgement byte has been read. The device answers the write request
with a break only, so `readBytes(inEMSBuffer, 1, timeout)` returns 0 and
leaves the buffer as it was; the cell `inEMSBuffer[0]`, never initialised,
holds `0x01`, the test `inEMSBuffer[0] != 0x01` passes, and the read-back
that follows returns the value written. With `0x00` in that cell the same
run returns `false`. -/
theorem setEMSCommand_true_without_ack :
    ((sendRequest simPlatform 64 [0x0B, 0x10, 0x3D, 7, 33, 1, 1] breakOnlyAckBus).bind
      (fun s => (awaitResponse simPlatform 64
        (fun _ => freshArray simPlatform breakOnlyAckBus.st OUT_EMS_BUFFER_SIZE
          OUT_EMS_BUFFER_SIZE) 1 s.2).map (fun a => (s.1.1, a.1)))) =
      some (true, some ([1, 1, 1, 1, 1, 1, 1], 0)) ∧
    (setEMSCommand simPlatform 64 0x10 0x3D 7 33 breakOnlyAckBus).map (fun r => r.1) =
      some true ∧
    (setEMSCommand simPlatform 64 0x10 0x3D 7 33 breakOnlyAckBusZero).map (fun r => r.1) =
      some false := by
  decide

set_option maxRecDepth 1000000 in
/-- C18: a run in which `sendRequest` transmits although no poll has been
seen and the deadline has passed. The two bytes `0x0B 0x55` arrive, neither
with a frame error, and then nothing; `readBytes` waits for more until the
deadline (clock reading 0 plus 4000 ms) and returns 2, the polling loop is
left at time 4500 with nothing written, and the request frame is then sent;
`sendRequest` returns `true` at time 4522. -/
theorem sendRequest_sends_after_deadline :
    strayBytesBus.st.poll = [(0x0B, false), (0x55, false)] ∧
    (World.millis simPlatform (World.flush simPlatform strayBytesBus)).1 = 0 ∧
    (pollLoop simPlatform 64 4000 64 0 (List.replicate 32 0)
      (World.millis simPlatform (World.flush simPlatform strayBytesBus)).2).map
      (fun r => (r.1, r.2.tx, r.2.st.now)) = some (true, [], 4500) ∧
    (sendRequest simPlatform 64 [0x0B, 0x88, 0x18, 0, 1, 0, 0] strayBytesBus).map
      (fun r => (r.1.1, r.2.tx, r.2.st.now)) =
      some (true,
        [TxEvent.byte 0x0B, TxEvent.byte 0x88, TxEvent.byte 0x18, TxEvent.byte 0,
         TxEvent.byte 1, TxEvent.byte 245, TxEvent.eof], 4522) := by
  decide

set_option maxRecDepth 1000000 in
/-- C19: on a target whose transport never has a byte available
(`available()` is 0 in every state), started at time 0,
`setOneTimeDHW(true)` and `setOneTimeDHW(false)` return `true`, `begin`
returns `true` and `getCalduinoBitValue(oneTimeDHW_t)` returns `true`. Each
call writes nothing to the transport and returns after more than 4000 ms
(the triples give the result, the clock at the return and the bytes
written). `getCalduinoByteValue(second_b)` returns `0xFF` and
`setWorkModeHC(1, 0)` returns `false` on the same target. -/
theorem silent_transport_success_reported :
    (∀ t, (slowSilentPlatform.available t).1 = 0) ∧
    (setOneTimeDHW slowSilentPlatform 256 true { st := 0, tx := [] }).map
      (fun r => (r.1, r.2.st, r.2.tx)) = some (true, 12550, []) ∧
    (setOneTimeDHW slowSilentPlatform 256 false { st := 0, tx := [] }).map
      (fun r => (r.1, r.2.st, r.2.tx)) = some (true, 12550, []) ∧
    (begin slowSilentPlatform 256 { st := 0, tx := [] }).map
      (fun r => (r.1, r.2.st, r.2.tx)) = some (true, 8350, []) ∧
    (getCalduinoBitValue slowSilentPlatform 256 BitRequest.oneTimeDHW_t
      { st := 0, tx := [] }).map (fun r => (r.1, r.2.st, r.2.tx)) = some (true, 8350, []) ∧
    (getCalduinoByteValue slowSilentPlatform 256 ByteRequest.second_b
      { st := 0, tx := [] }).map (fun r => (r.1, r.2.st, r.2.tx)) = some (0xFF, 8350, []) ∧
    (setWorkModeHC slowSilentPlatform 256 1 0 { st := 0, tx := [] }).map
      (fun r => (r.1, r.2.st, r.2.tx)) = some (false, 4200, []) := by
  refine ⟨fun _ => rfl, ?_, ?_, ?_, ?_, ?_, ?_⟩ <;> decide

set_option maxRecDepth 1000000 in
/-- C20, counterexample: on a bus that stays silent for the first 4200 ms
the first attempt of `getEMSBuffer` fails at time 4150, more than 4000 ms
after the start, and the call goes on to a second attempt and returns `true`
at time 5022, while `updateEMSDatagram` gives up at time 4200. -/
theorem getEMSBuffer_retries_after_4000 :
    (getEMSCommand simPlatform 128 (List.replicate 48 0) workingModeHC1.destinationID
      workingModeHC1.messageID 1 7 (World.millis simPlatform lateBus).2).map
      (fun r => (r.1.1, r.2.st.now)) = some (false, 4150) ∧
    (getEMSBuffer simPlatform 128 (List.replicate 48 0) workingModeHC1 1 11 lateBus).map
      (fun r => (r.1.1, r.2.st.now)) = some (true, 5022) ∧
    (updateEMSDatagram simPlatform 128 EMSDatagramID.Working_Mode_HC_1.toCtorIdx 5 1 0
      lateBus).map (fun r => (r.1, r.2.st.now)) = some (false, 4200) := by
  decide

/-! ## Facade: argument checks -/

section Validation

variable {σ : Type}

set_option maxRecDepth 1000000 in
/-- C21: for a circuit in `1 .. 2` and a mode of at most 2, `setTemperatureHC`
is the write of `selTmp` to field `selMode` of `Working_Mode_HC_selHC` when
`12 <= selTmp <= 58` (`MIN_TEMPERATURE * 2` and `MAX_TEMPERATURE * 2`), and
returns `false` with the target untouched otherwise, whatever the target is;
so for `selTmp = 11` and `selTmp = 59`, while `selTmp = 12` is written. On
the simulated bus the value 12 reaches the device and the call returns
`true`. -/
theorem setTemperatureHC_validation (P : Platform σ) (fuel selHC selMode selTmp : Nat)
    (w : World σ) (hHC : 0 < selHC ∧ selHC ≤ 2) (hMode : selMode ≤ 2) :
    MIN_TEMPERATURE * 2 = 12 ∧ MAX_TEMPERATURE * 2 = 58 ∧
    (12 ≤ selTmp ∧ selTmp ≤ 58 →
      setTemperatureHC P fuel selHC selMode selTmp w =
        updateEMSDatagram P fuel (EMSDatagramID.Working_Mode_HC_1.toCtorIdx + (selHC - 1) * 4)
          selMode selTmp 0 w) ∧
    (¬ (12 ≤ selTmp ∧ selTmp ≤ 58) →
      setTemperatureHC P fuel selHC selMode selTmp w = some (false, w)) ∧
    setTemperatureHC P fuel selHC selMode 12 w =
      updateEMSDatagram P fuel (EMSDatagramID.Working_Mode_HC_1.toCtorIdx + (selHC - 1) * 4)
        selMode 12 0 w ∧
    setTemperatureHC P fuel selHC selMode 11 w = some (false, w) ∧
    setTemperatureHC P fuel selHC selMode 59 w = some (false, w) ∧
    (setTemperatureHC simPlatform 64 1 0 12 readyBus).map
      (fun r => (r.1, r.2.tx.length, r.2.st.message.getD 1 0)) = some (true, 14, 12) := by
  have key : ∀ t, (12 ≤ t ∧ t ≤ 58 →
      setTemperatureHC P fuel selHC selMode t w =
        updateEMSDatagram P fuel (EMSDatagramID.Working_Mode_HC_1.toCtorIdx + (selHC - 1) * 4)
          selMode t 0 w) ∧
      (¬ (12 ≤ t ∧ t ≤ 58) → setTemperatureHC P fuel selHC selMode t w = some (false, w)) := by
    intro t
    unfold setTemperatureHC MAX_HC_CIRCUIT MAX_WORKING_MODE MAX_TEMPERATURE MIN_TEMPERATURE
    constructor
    · intro h
      rw [if_pos (by omega)]
    · intro h
      rw [if_neg (by omega)]
  exact ⟨rfl, rfl, (key selTmp).1, (key selTmp).2, (key 12).1 (by omega),
    (key 11).2 (by omega), (key 59).2 (by omega), by decide⟩

/-- C21, instance: circuit 1, the day temperature, on the simulated bus. -/
theorem setTemperatureHC_validation_witness :
    (0 < 1 ∧ 1 ≤ 2) ∧ 1 ≤ 2 ∧
    (12 ≤ 11 ∧ 11 ≤ 58 →
      setTemperatureHC simPlatform 64 1 1 11 readyBus =
        updateEMSDatagram simPlatform 64 (EMSDatagramID.Working_Mode_HC_1.toCtorIdx + (1 - 1) * 4)
          1 11 0 readyBus) ∧
    (¬ (12 ≤ 11 ∧ 11 ≤ 58) →
      setTemperatureHC simPlatform 64 1 1 11 readyBus = some (false, readyBus)) :=
  ⟨by decide, by decide,
    (setTemperatureHC_validation simPlatform 64 1 1 11 readyBus (by decide) (by decide)).2.2.1,
    (setTemperatureHC_validation simPlatform 64 1 1 11 readyBus (by decide) (by decide)).2.2.2.1⟩

/-- C22: every setter with an argument check returns `false` and leaves the
target as it is, whatever the operations of the target are, when the check
fails: no operation of the transport has been called. The checks are spelled
out with the values of the constants. -/
theorem setters_reject_without_bus (P : Platform σ) (fuel : Nat) (w : World σ) :
    (∀ selHC selMode : Nat, ¬ (0 < selHC ∧ selHC ≤ 2 ∧ selMode ≤ 2) →
      setWorkModeHC P fuel selHC selMode w = some (false, w)) ∧
    (∀ selHC selMode selTmp : Nat,
      ¬ (0 < selHC ∧ selHC ≤ 2 ∧ selMode ≤ 2 ∧ selTmp ≤ 58 ∧ 12 ≤ selTmp) →
      setTemperatureHC P fuel selHC selMode selTmp w = some (false, w)) ∧
    (∀ selHC selProgram : Nat, ¬ (0 < selHC ∧ selHC ≤ 2 ∧ selProgram ≤ 10) →
      setProgramHC P fuel selHC selProgram w = some (false, w)) ∧
    (∀ selHC selTmp : Nat, ¬ (0 < selHC ∧ selHC ≤ 2 ∧ selTmp ≤ 30 ∧ 10 ≤ selTmp) →
      setSWThresholdTempHC P fuel selHC selTmp w = some (false, w)) ∧
    (∀ selHC selMode : Nat, ¬ (0 < selHC ∧ selHC ≤ 2 ∧ selMode ≤ 3) →
      setNightSetbackModeHC P fuel selHC selMode w = some (false, w)) ∧
    (∀ (selHC : Nat) (selTmp : Int), ¬ (0 < selHC ∧ selHC ≤ 2 ∧ selTmp ≤ 10 ∧ -20 ≤ selTmp) →
      setNightThresholdOutTempHC P fuel selHC selTmp w = some (false, w)) ∧
    (∀ (selHC : Nat) (selTmp : Int), ¬ (0 < selHC ∧ selHC ≤ 2 ∧ selTmp ≤ 10 ∧ -10 ≤ selTmp) →
      setRoomTempOffsetHC P fuel selHC selTmp w = some (false, w)) ∧
    (∀ selHC duration : Nat, ¬ (0 < selHC ∧ selHC ≤ 2) →
      setPauseModeHC P fuel selHC duration w = some (false, w)) ∧
    (∀ selHC duration : Nat, ¬ (0 < selHC ∧ selHC ≤ 2) →
      setPartyModeHC P fuel selHC duration w = some (false, w)) ∧
    (∀ selHC d1 m1 y1 d2 m2 y2 : Nat,
      ¬ (0 < selHC ∧ selHC ≤ 2 ∧ d1 ≤ 31 ∧ d2 ≤ 31 ∧ m1 ≤ 12 ∧ m2 ≤ 12) →
      setHolidayModeHC P fuel selHC d1 m1 y1 d2 m2 y2 w = some (false, w)) ∧
    (∀ selHC d1 m1 y1 d2 m2 y2 : Nat,
      ¬ (0 < selHC ∧ selHC ≤ 2 ∧ d1 ≤ 31 ∧ d2 ≤ 31 ∧ m1 ≤ 12 ∧ m2 ≤ 12) →
      setHomeHolidayModeHC P fuel selHC d1 m1 y1 d2 m2 y2 w = some (false, w)) ∧
    (∀ selMode : Nat, ¬ selMode ≤ 2 → setWorkModeDHW P fuel selMode w = some (false, w)) ∧
    (∀ selMode : Nat, ¬ selMode ≤ 2 → setWorkModePumpDHW P fuel selMode w = some (false, w)) ∧
    (∀ selTmp : Nat, ¬ (selTmp ≤ 80 ∧ 40 ≤ selTmp) →
      setTemperatureDHW P fuel selTmp w = some (false, w)) ∧
    (∀ selTmp : Nat, ¬ (selTmp ≤ 80 ∧ 40 ≤ selTmp) →
      setTemperatureTDDHW P fuel selTmp w = some (false, w)) ∧
    (∀ selProgram : Nat, ¬ (selProgram = 0 ∨ selProgram = 255) →
      setProgramDHW P fuel selProgram w = some (false, w)) ∧
    (∀ selProgram : Nat, ¬ (selProgram = 0 ∨ selProgram = 255) →
      setProgramPumpDHW P fuel selProgram w = some (false, w)) ∧
    (∀ selMode : Nat, ¬ (selMode = 0 ∨ selMode = 255) →
      setWorkModeTDDHW P fuel selMode w = some (false, w)) ∧
    (∀ dayTDDHW : Nat, ¬ dayTDDHW ≤ 7 → setDayTDDHW P fuel dayTDDHW w = some (false, w)) ∧
    (∀ hourTDDHW : Nat, ¬ hourTDDHW < 24 → setHourTDDHW P fuel hourTDDHW w = some (false, w)) ∧
    (∀ (selProgram : EMSDatagramID) (switchPointID op day hour minute : Nat),
      ¬ (isSwitchProgram selProgram = true ∧ switchPointID < 42 ∧ (op = 0 ∨ op = 1 ∨ op = 7) ∧
        day < 7 ∧ hour < 24 ∧ minute < 60 ∧ minute % 10 = 0) →
      setProgramSwitchPoint P fuel selProgram switchPointID op day hour minute w =
        some (false, w)) := by
  refine ⟨?_, ?_, ?_, ?_, ?_, ?_, ?_, ?_, ?_, ?_, ?_, ?_, ?_, ?_, ?_, ?_, ?_, ?_, ?_, ?_, ?_⟩
  · intro selHC selMode h
    unfold setWorkModeHC MAX_HC_CIRCUIT MAX_WORKING_MODE
    rw [if_neg h]
  · intro selHC selMode selTmp h
    unfold setTemperatureHC MAX_HC_CIRCUIT MAX_WORKING_MODE MAX_TEMPERATURE MIN_TEMPERATURE
    rw [if_neg (by omega)]
  · intro selHC selProgram h
    unfold setProgramHC MAX_HC_CIRCUIT MAX_PROGRAM
    rw [if_neg h]
  · intro selHC selTmp h
    unfold setSWThresholdTempHC MAX_HC_CIRCUIT MAX_SUMMER_WINTER_THRESHOLD
      MIN_SUMMER_WINTER_THRESHOLD
    rw [if_neg (by omega)]
  · intro selHC selMode h
    unfold setNightSetbackModeHC MAX_HC_CIRCUIT MAX_SETBACK_MODE
    rw [if_neg h]
  · intro selHC selTmp h
    unfold setNightThresholdOutTempHC MAX_HC_CIRCUIT MAX_OUT_NIGHT_THRESHOLD
      MIN_OUT_NIGHT_THRESHOLD
    rw [if_neg (by omega)]
  · intro selHC selTmp h
    unfold setRoomTempOffsetHC MAX_HC_CIRCUIT MAX_ROOM_TEMPERATURE_OFFSET
      MIN_ROOM_TEMPERATURE_OFFSET
    rw [if_neg (by omega)]
  · intro selHC duration h
    unfold setPauseModeHC MAX_HC_CIRCUIT
    rw [if_neg h]
  · intro selHC duration h
    unfold setPartyModeHC MAX_HC_CIRCUIT
    rw [if_neg h]
  · intro selHC d1 m1 y1 d2 m2 y2 h
    unfold setHolidayModeHC MAX_HC_CIRCUIT MAX_DAY MAX_MONTH
    rw [if_neg h]
  · intro selHC d1 m1 y1 d2 m2 y2 h
    unfold setHomeHolidayModeHC MAX_HC_CIRCUIT MAX_DAY MAX_MONTH
    rw [if_neg h]
  · intro selMode h
    unfold setWorkModeDHW MAX_WORKING_MODE
    rw [if_neg h]
  · intro selMode h
    unfold setWorkModePumpDHW MAX_WORKING_MODE
    rw [if_neg h]
  · intro selTmp h
    unfold setTemperatureDHW MAX_DHW_TEMPERATURE MIN_DHW_TEMPERATURE
    rw [if_neg (by omega)]
  · intro selTmp h
    unfold setTemperatureTDDHW MAX_DHW_TEMPERATURE MIN_DHW_TEMPERATURE
    rw [if_neg (by omega)]
  · intro selProgram h
    unfold setProgramDHW ERROR_VALUE
    rw [if_neg h]
  · intro selProgram h
    unfold setProgramPumpDHW ERROR_VALUE
    rw [if_neg h]
  · intro selMode h
    unfold setWorkModeTDDHW ERROR_VALUE
    rw [if_neg h]
  · intro dayTDDHW h
    unfold setDayTDDHW MAX_DAY_WEEK
    rw [if_neg h]
  · intro hourTDDHW h
    unfold setHourTDDHW MAX_HOUR_DAY
    rw [if_neg h]
  · intro selProgram switchPointID op day hour minute h
    have hb : switchPointArgsOK selProgram switchPointID op day hour minute = false := by
      rw [Bool.eq_false_iff]
      intro hok
      apply h
      simpa [switchPointArgsOK, SWITCHING_POINTS, MAX_DAY_WEEK, MAX_HOUR_DAY, MAX_MINUTE_HOUR,
        and_assoc, or_assoc] using hok
    unfold setProgramSwitchPoint setProgramSwitchPointBytes
    simp [hb]

end Validation

/-! ## Facade: what the setters write -/

section SetterWrites

variable {σ : Type}

/-- C30, counterexample: `setWorkModeHC` rejects the circuits 3 and 4 and
leaves the simulated bus untouched. -/
theorem setWorkModeHC_rejects_circuit_3 :
    setWorkModeHC simPlatform 64 3 1 readyBus = some (false, readyBus) ∧
    setWorkModeHC simPlatform 64 4 1 readyBus = some (false, readyBus) :=
  ⟨rfl, rfl⟩

/-- C30: the heating-circuit setters accept the circuits `1 .. MAX_HC_CIRCUIT`,
which is `1 .. 2`: for `selHC` in `1 .. 2` and `selMode <= 2`, `setWorkModeHC`
is the repeated write of `selMode` to data offset 7 of the message
`Working_Mode_HC_selHC` (`0x3D` for circuit 1, `0x47` for circuit 2) of the
device `RC_35` (`0x10`), with the deadline of `updateEMSDatagram`; `selHC = 0`
and every `selHC > 2` are rejected with the target untouched. -/
theorem setWorkModeHC_circuits (P : Platform σ) (fuel selHC selMode : Nat) (w : World σ)
    (hHC : 0 < selHC ∧ selHC ≤ 2) (hMode : selMode ≤ 2) :
    MAX_HC_CIRCUIT = 2 ∧
    eMSDatagramIDs.getD (EMSDatagramID.Working_Mode_HC_1.toCtorIdx + (selHC - 1) * 4) default =
      (if selHC = 1 then workingModeHC1 else workingModeHC2) ∧
    MessageID.Working_Mode_HC_1_ID = 0x3D ∧ MessageID.Working_Mode_HC_2_ID = 0x47 ∧
    setWorkModeHC P fuel selHC selMode w =
      updateEMSDatagramLoop P fuel 0x10 (if selHC = 1 then 0x3D else 0x47) 7 selMode
        (((World.millis P w).1 + 4000) % 2 ^ 32) fuel (World.millis P w).2 ∧
    (∀ s m : Nat, s = 0 ∨ 2 < s → setWorkModeHC P fuel s m w = some (false, w)) := by
  have hrej : ∀ s m : Nat, s = 0 ∨ 2 < s → setWorkModeHC P fuel s m w = some (false, w) := by
    intro s m hs
    unfold setWorkModeHC MAX_HC_CIRCUIT
    rw [if_neg (by omega)]
  have h12 : selHC = 1 ∨ selHC = 2 := by omega
  have hm : selMode ≤ MAX_WORKING_MODE := hMode
  rcases h12 with rfl | rfl
  · refine ⟨rfl, rfl, rfl, rfl, ?_, hrej⟩
    unfold setWorkModeHC
    rw [if_pos ⟨by decide, by decide, hm⟩]
    rfl
  · refine ⟨rfl, rfl, rfl, rfl, ?_, hrej⟩
    unfold setWorkModeHC
    rw [if_pos ⟨by decide, by decide, hm⟩]
    rfl

/-- C30, instance: circuit 2, mode 1 on the simulated bus. -/
theorem setWorkModeHC_circuits_witness :
    (0 < 2 ∧ 2 ≤ 2) ∧ 1 ≤ 2 ∧
    setWorkModeHC simPlatform 64 2 1 readyBus =
      updateEMSDatagramLoop simPlatform 64 0x10 (if 2 = 1 then 0x3D else 0x47) 7 1
        (((World.millis simPlatform readyBus).1 + 4000) % 2 ^ 32) 64
        (World.millis simPlatform readyBus).2 :=
  ⟨by decide, by decide,
    (setWorkModeHC_circuits simPlatform 64 2 1 readyBus (by decide) (by decide)).2.2.2.2.1⟩

/-- The six writes of `setHolidayModeHC` as a sequence of writes. -/
theorem writeSequence_six (P : Platform σ) (fuel id : Nat) (c1 c2 c3 c4 c5 c6 : Nat × Nat)
    (w : World σ) :
    writeSequence P fuel id [c1, c2, c3, c4, c5, c6] w =
      match updateEMSDatagram P fuel id c1.1 c1.2 0 w with
      | none => none
      | some (s1, w1) =>
      match updateEMSDatagram P fuel id c2.1 c2.2 0 w1 with
      | none => none
      | some (s2, w2) =>
      match updateEMSDatagram P fuel id c3.1 c3.2 0 w2 with
      | none => none
      | some (s3, w3) =>
      match updateEMSDatagram P fuel id c4.1 c4.2 0 w3 with
      | none => none
      | some (s4, w4) =>
      match updateEMSDatagram P fuel id c5.1 c5.2 0 w4 with
      | none => none
      | some (s5, w5) =>
      match updateEMSDatagram P fuel id c6.1 c6.2 0 w5 with
      | none => none
      | some (s6, w6) => some ([s1, s2, s3, s4, s5, s6], w6) := by
  simp only [writeSequence]
  cases updateEMSDatagram P fuel id c1.1 c1.2 0 w with
  | none => rfl
  | some r1 =>
    obtain ⟨s1, w1⟩ := r1
    simp only
    cases updateEMSDatagram P fuel id c2.1 c2.2 0 w1 with
    | none => rfl
    | some r2 =>
      obtain ⟨s2, w2⟩ := r2
      simp only
      cases updateEMSDatagram P fuel id c3.1 c3.2 0 w2 with
      | none => rfl
      | some r3 =>
        obtain ⟨s3, w3⟩ := r3
        simp only
        cases updateEMSDatagram P fuel id c4.1 c4.2 0 w3 with
        | none => rfl
        | some r4 =>
          obtain ⟨s4, w4⟩ := r4
          simp only
          cases updateEMSDatagram P fuel id c5.1 c5.2 0 w4 with
          | none => rfl
          | some r5 =>
            obtain ⟨s5, w5⟩ := r5
            simp only
            cases updateEMSDatagram P fuel id c6.1 c6.2 0 w5 with
            | none => rfl
            | some r6 => rfl

/-- The number of results of a sequence of writes. -/
theorem writeSequence_length (P : Platform σ) (fuel id : Nat) :
    ∀ (cs : List (Nat × Nat)) (w : World σ) (ss : List Bool) (w' : World σ),
      writeSequence P fuel id cs w = some (ss, w') → ss.length = cs.length := by
  intro cs
  induction cs with
  | nil =>
    intro w ss w' h
    simp only [writeSequence, Option.some.injEq, Prod.mk.injEq] at h
    rw [← h.1]
    rfl
  | cons c rest ih =>
    intro w ss w' h
    unfold writeSequence at h
    split at h
    · cases h
    · rename_i s w1 h1
      split at h
      · cases h
      · rename_i ss' w2 h2
        cases h
        simp [ih _ _ _ h2]

/-- C23: for valid arguments `setHolidayModeHC` is the sequence of the six
field writes to `Program_1_HC_selHC` at the table positions 45 .. 50, in the
order start day, start month, start year, end day, end month, end year; every
write is attempted whatever the results of the writes before it, and the
call returns `true` exactly when all six results are `true`. -/
theorem setHolidayModeHC_six_writes (P : Platform σ) (fuel selHC d1 m1 y1 d2 m2 y2 : Nat)
    (w : World σ) (hHC : 0 < selHC ∧ selHC ≤ 2) (hd1 : d1 ≤ 31) (hd2 : d2 ≤ 31)
    (hm1 : m1 ≤ 12) (hm2 : m2 ≤ 12) :
    setHolidayModeHC P fuel selHC d1 m1 y1 d2 m2 y2 w =
      (writeSequence P fuel (EMSDatagramID.Program_1_HC_1.toCtorIdx + (selHC - 1) * 4)
        [(45, d1), (46, m1), (47, y1), (48, d2), (49, m2), (50, y2)] w).map
        (fun r => (r.1.all (fun s => s), r.2)) ∧
    (∀ (ss : List Bool) (w' : World σ),
      writeSequence P fuel (EMSDatagramID.Program_1_HC_1.toCtorIdx + (selHC - 1) * 4)
        [(45, d1), (46, m1), (47, y1), (48, d2), (49, m2), (50, y2)] w = some (ss, w') →
      ss.length = 6 ∧ (ss.all (fun s => s) = true ↔ ∀ s ∈ ss, s = true)) ∧
    eMSDatagramIDs.getD (EMSDatagramID.Program_1_HC_1.toCtorIdx + (selHC - 1) * 4) default =
      (if selHC = 1 then program1HC1 else program1HC2) ∧
    (List.range 6).map (fun i => (switchingProgramValues.getD (45 + i) default).dataName) =
      ["StartHoliDay", "StartHoliMonth", "StartHoliYear", "EndHoliDay", "EndHoliMonth",
        "EndHoliYear"] := by
  refine ⟨?_, ?_, ?_, by decide⟩
  · have hc : selHC > 0 ∧ selHC ≤ MAX_HC_CIRCUIT ∧ d1 ≤ MAX_DAY ∧ d2 ≤ MAX_DAY ∧
        m1 ≤ MAX_MONTH ∧ m2 ≤ MAX_MONTH := ⟨hHC.1, hHC.2, hd1, hd2, hm1, hm2⟩
    rw [writeSequence_six]
    unfold setHolidayModeHC
    rw [if_pos hc]
    simp only [DatagramDataIndex.startHolidayDayIdx, DatagramDataIndex.startHolidayMonthIdx,
      DatagramDataIndex.startHolidayYearIdx, DatagramDataIndex.endHolidayDayIdx,
      DatagramDataIndex.endHolidayMonthIdx, DatagramDataIndex.endHolidayYearIdx]
    cases updateEMSDatagram P fuel (EMSDatagramID.Program_1_HC_1.toCtorIdx + (selHC - 1) * 4)
        45 d1 0 w with
    | none => rfl
    | some r1 =>
      obtain ⟨s1, w1⟩ := r1
      simp only
      cases updateEMSDatagram P fuel
          (EMSDatagramID.Program_1_HC_1.toCtorIdx + (selHC - 1) * 4) 46 m1 0 w1 with
      | none => rfl
      | some r2 =>
        obtain ⟨s2, w2⟩ := r2
        simp only
        cases updateEMSDatagram P fuel
            (EMSDatagramID.Program_1_HC_1.toCtorIdx + (selHC - 1) * 4) 47 y1 0 w2 with
        | none => rfl
        | some r3 =>
          obtain ⟨s3, w3⟩ := r3
          simp only
          cases updateEMSDatagram P fuel
              (EMSDatagramID.Program_1_HC_1.toCtorIdx + (selHC - 1) * 4) 48 d2 0 w3 with
          | none => rfl
          | some r4 =>
            obtain ⟨s4, w4⟩ := r4
            simp only
            cases updateEMSDatagram P fuel
                (EMSDatagramID.Program_1_HC_1.toCtorIdx + (selHC - 1) * 4) 49 m2 0 w4 with
            | none => rfl
            | some r5 =>
              obtain ⟨s5, w5⟩ := r5
              simp only
              cases updateEMSDatagram P fuel
                  (EMSDatagramID.Program_1_HC_1.toCtorIdx + (selHC - 1) * 4) 50 y2 0 w5 with
              | none => rfl
              | some r6 =>
                obtain ⟨s6, w6⟩ := r6
                simp [Bool.and_assoc]
  · intro ss w' h
    exact ⟨writeSequence_length P fuel _ _ _ _ _ h, by simp [List.all_eq_true]⟩
  · have h12 : selHC = 1 ∨ selHC = 2 := by omega
    rcases h12 with rfl | rfl <;> rfl

/-- C23, instance: a holiday from 24.12.23 to 6.1.24 in circuit 1 on the
simulated bus. -/
theorem setHolidayModeHC_six_writes_witness :
    (0 < 1 ∧ 1 ≤ 2) ∧ 24 ≤ 31 ∧ 6 ≤ 31 ∧ 12 ≤ 12 ∧ 1 ≤ 12 ∧
    setHolidayModeHC simPlatform 64 1 24 12 23 6 1 24 readyBus =
      (writeSequence simPlatform 64 (EMSDatagramID.Program_1_HC_1.toCtorIdx + (1 - 1) * 4)
        [(45, 24), (46, 12), (47, 23), (48, 6), (49, 1), (50, 24)] readyBus).map
        (fun r => (r.1.all (fun s => s), r.2)) :=
  ⟨by decide, by decide, by decide, by decide, by decide,
    (setHolidayModeHC_six_writes simPlatform 64 1 24 12 23 6 1 24 readyBus (by decide)
      (by decide) (by decide) (by decide) (by decide)).1⟩

end SetterWrites

section CompositeSetters

variable {σ : Type}

set_option maxRecDepth 1000000 in
/-- C24: a run in which `setProgramSwitchPoint` returns `true` although the
write of the first byte has failed. The arguments are valid and encode to
the bytes 65 and 63. The bus is silent for the first 4200 ms: the write of
the first byte gives up with `false`, nothing having been sent, and the
device keeps its byte 100; the write of the second byte succeeds, and its
result, assigned with `=`, is what the call returns. -/
theorem setProgramSwitchPoint_true_after_failed_write :
    setProgramSwitchPointBytes EMSDatagramID.Program_DHW 0 1 2 10 30 = some (65, 63) ∧
    (updateEMSDatagram simPlatform 128 EMSDatagramID.Program_DHW.toCtorIdx 0 65 0 lateBus).map
      (fun r => (r.1, r.2.tx, r.2.st.message.take 2)) = some (false, [], [100, 101]) ∧
    (setProgramSwitchPoint simPlatform 128 EMSDatagramID.Program_DHW 0 1 2 10 30 lateBus).map
      (fun r => (r.1, r.2.st.message.take 2)) = some (true, [100, 63]) := by
  decide

set_option maxRecDepth 1000000 in
/-- C25: `setOneTimeDHW` is the repeated write of 39 (on) or 7 (off) to data
offset 0 of the message `Flags_DHW` (`0x35`) of the device `UBA` (`0x08`),
followed by `getCalduinoBitValue(oneTimeDHW_t)`, which reads bit 1 of byte 9
of `UBA_Monitor_DHW`; it returns the logical OR of the two results. On a bus
that is silent for the first 4200 ms the write fails, nothing having been
sent, the bit is then read as 1, and the call returns `true` with the device
byte still 2. -/
theorem setOneTimeDHW_or (P : Platform σ) (fuel : Nat) (selMode : Bool) (w : World σ) :
    setOneTimeDHW P fuel selMode w =
      (updateEMSDatagramLoop P fuel 0x08 0x35 0 (if selMode then 39 else 7)
        (((World.millis P w).1 + 4000) % 2 ^ 32) fuel (World.millis P w).2).bind
        (fun r1 => (getCalduinoBitValue P fuel BitRequest.oneTimeDHW_t r1.2).map
          (fun r2 => (r1.1 || r2.1, r2.2))) ∧
    bitRequests.getD BitRequest.oneTimeDHW_t.toCtorIdx default =
      ⟨⟨"OneTimeDHW", .Bit, .YesNo, 9, 1, 0, 0⟩, uBAMonitorDHW⟩ ∧
    DHW_ONETIME_ON = 39 ∧ DHW_ONETIME_OFF = 7 ∧
    (updateEMSDatagram simPlatform 128 EMSDatagramID.Flags_DHW.toCtorIdx
      DatagramDataIndex.oneTimeDHW2Idx 39 0 lateBusTwos).map (fun r => (r.1, r.2.tx)) =
      some (false, []) ∧
    (setOneTimeDHW simPlatform 128 true lateBusTwos).map
      (fun r => (r.1, r.2.tx.length, r.2.st.message.getD 0 0)) = some (true, 7, 2) := by
  refine ⟨?_, rfl, rfl, rfl, by decide, by decide⟩
  unfold setOneTimeDHW
  have hu : updateEMSDatagram P fuel EMSDatagramID.Flags_DHW.toCtorIdx
      DatagramDataIndex.oneTimeDHW2Idx (if selMode then DHW_ONETIME_ON else DHW_ONETIME_OFF)
      0 w =
      updateEMSDatagramLoop P fuel 0x08 0x35 0 (if selMode then 39 else 7)
        (((World.millis P w).1 + 4000) % 2 ^ 32) fuel (World.millis P w).2 := rfl
  rw [hu]
  cases updateEMSDatagramLoop P fuel 0x08 0x35 0 (if selMode then 39 else 7)
      (((World.millis P w).1 + 4000) % 2 ^ 32) fuel (World.millis P w).2 with
  | none => rfl
  | some r1 =>
    obtain ⟨s1, w1⟩ := r1
    simp only [Option.some_bind]
    cases getCalduinoBitValue P fuel BitRequest.oneTimeDHW_t w1 with
    | none => rfl
    | some r2 => rfl

set_option maxRecDepth 1000000 in
/-- C26: `setHourTDDHW` never returns `true`: its result is
`false & updateEMSDatagram(...)`. On the simulated bus the write of hour 3 to
field `HourTDDHW` of `Working_Mode_DHW` succeeds (`updateEMSDatagram` returns
`true` and the device holds 3), and `setHourTDDHW(3)`, after the same two
frames, returns `false`. -/
theorem setHourTDDHW_never_true (P : Platform σ) (fuel hourTDDHW : Nat) (w : World σ) :
    (setHourTDDHW P fuel hourTDDHW w).map (fun r => r.1) ≠ some true ∧
    (updateEMSDatagram simPlatform 64 EMSDatagramID.Working_Mode_DHW.toCtorIdx
      DatagramDataIndex.hourTDDHWIdx 3 0 readyBus).map
      (fun r => (r.1, r.2.tx.length, r.2.st.message.getD 6 0)) = some (true, 14, 3) ∧
    (setHourTDDHW simPlatform 64 3 readyBus).map
      (fun r => (r.1, r.2.tx.length, r.2.st.message.getD 6 0)) = some (false, 14, 3) := by
  refine ⟨?_, by decide, by decide⟩
  unfold setHourTDDHW
  split
  · split <;> simp
  · simp

end CompositeSetters

/-! ## Facade: the byte and bit getters and `begin` -/

section Getters

variable {σ : Type}

/-- A read of one byte by `getEMSCommand` from a data offset below 128: it
fails with the buffer as it was, or its single request has been answered and
the answer accepted, and the payload of the answer has been copied in. -/
theorem getEMSCommand_single (P : Platform σ) (fuel : Nat) (inEMSBuffer : Buffer)
    (dest t o : Nat) (w : World σ) (ok : Bool) (in1 : Buffer) (w1 : World σ) (ho : o < 128)
    (h : getEMSCommand P fuel inEMSBuffer dest t 1 o w = some ((ok, in1), w1)) :
    (ok = false ∧ in1 = inEMSBuffer) ∨
    (ok = true ∧ ∃ (out out2 aux : Buffer),
      readByte out 1 = (dest ||| 0x80) % 256 ∧ readByte out 2 = t % 256 ∧
      readByte out 3 = o ∧ readByte out 4 = 1 ∧
      chunkTransaction P fuel t out w = some ((out2, some aux), w1) ∧
      in1 = copyPayload inEMSBuffer aux 1 ∧
      w1.tx = w.tx ++ requestFrame (dest ||| 0x80) t o 1) := by
  obtain ⟨hh, h3⟩ := getEMSHeader_ok P w.st dest t
  have ho256 : o % 256 = o := Nat.mod_eq_of_lt (by omega)
  unfold getEMSCommand at h
  rw [ho256, show (1 : Nat) % 256 = 1 from rfl] at h
  generalize hg : ({ inEMSBuffer := inEMSBuffer
                     outEMSBuffer := getEMSHeader P w.st dest t
                     length := 1
                     offset := o } : GetState) = g at h
  have hgl : g.length = 1 := by rw [← hg]
  have hgo : g.offset = o := by rw [← hg]
  have hgi : g.inEMSBuffer = inEMSBuffer := by rw [← hg]
  have hgh : HeaderOK g.outEMSBuffer ((dest ||| 0x80) % 256) (t % 256) := by rw [← hg]; exact hh
  have hg3 : readByte g.outEMSBuffer 3 = 255 := by rw [← hg]; exact h3
  cases fuel with
  | zero => simp [getEMSLoop] at h
  | succ n =>
    unfold getEMSLoop at h
    have hcond : g.length > 0 ∧
        (g.offset : Int) > wrapSigned 8 (readByte g.outEMSBuffer 3 : Nat) := by
      rw [hgl, hgo, hg3]
      have : wrapSigned 8 ((255 : Nat) : Int) = -1 := by decide
      rw [this]
      omega
    rw [if_pos hcond] at h
    cases hit : getEMSIteration P (n + 1) t g w with
    | none => rw [hit] at h; cases h
    | some res =>
      obtain ⟨g1, w1'⟩ := res
      rw [hit] at h
      simp only at h
      obtain ⟨out2, r, hct, hh2, hb3, hb4, _, hnone, hsome⟩ :=
        getEMSIteration_cases P (n + 1) t _ _ g g1 w w1' hgh hit
      obtain ⟨hc, c3, c4⟩ := chunkRequest_header g _ _ hgh
      rw [hgo, ho256] at hb3 c3
      rw [hgl] at hb4 c4
      have hcs : chunkSize 1 % 256 = 1 := by decide
      rw [hcs] at hb4 c4
      cases n with
      | zero => simp [getEMSLoop] at h
      | succ m =>
        unfold getEMSLoop at h
        cases r with
        | none =>
          have hg1 := hnone rfl
          have hstop : ¬ (g1.length > 0 ∧
              (g1.offset : Int) > wrapSigned 8 (readByte g1.outEMSBuffer 3 : Nat)) := by
            rw [hg1]
            show ¬ (g.length > 0 ∧ (g.offset : Int) > wrapSigned 8 (readByte out2 3 : Nat))
            rw [hb3, hgo, wrapSigned8_small o ho]
            omega
          rw [if_neg hstop] at h
          simp only [Option.some.injEq, Prod.mk.injEq] at h
          obtain ⟨⟨hok, hin⟩, _⟩ := h
          left
          refine ⟨?_, ?_⟩
          · rw [← hok, hg1]
            show decide (g.length = 0) = false
            rw [hgl]
            rfl
          · rw [← hin, hg1]
            exact hgi
        | some aux =>
          obtain ⟨hg1, htx⟩ := hsome aux rfl
          have hlen0 : g1.length = 0 := by
            rw [hg1]
            show (g.length - chunkSize g.length) % 256 = 0
            rw [hgl]
            rfl
          have hstop : ¬ (g1.length > 0 ∧
              (g1.offset : Int) > wrapSigned 8 (readByte g1.outEMSBuffer 3 : Nat)) := by
            rw [hlen0]
            omega
          rw [if_neg hstop] at h
          simp only [Option.some.injEq, Prod.mk.injEq] at h
          obtain ⟨⟨hok, hin⟩, hw⟩ := h
          right
          refine ⟨?_, chunkRequest g, out2, aux, hc.2.2.1, hc.2.2.2, c3, c4, ?_, ?_, ?_⟩
          · rw [← hok, hlen0]
            rfl
          · rw [← hw]
            exact hct
          · rw [← hin, hg1]
            show copyPayload g.inEMSBuffer aux (readByte out2 4) = _
            rw [hb4, hgi]
          · have hfr := requestFrame_mod (dest ||| 0x80) t o 1
            rw [ho256, show (1 : Nat) % 256 = 1 from rfl] at hfr
            rw [← hw, htx, hgo, hgl, show chunkSize 1 = 1 from rfl, hfr]

/-- The retry loop of `getEMSBuffer` for a read of one byte at a frame offset
in `4 .. 131`: a result `false` leaves the buffer as it was, a result `true`
comes from an attempt whose single request has been answered and the answer
accepted. -/
theorem getEMSBufferLoop_single (P : Platform σ) (fuel : Nat) (dg : EMSDatagram)
    (off timeout : Nat) (h4 : 4 ≤ off) (h132 : off < 132) :
    ∀ (n : Nat) (inEMSBuffer : Buffer) (w : World σ) (ok : Bool) (in1 : Buffer) (w' : World σ),
      getEMSBufferLoop P fuel dg 1 off timeout n inEMSBuffer w = some ((ok, in1), w') →
      (ok = false ∧ in1 = inEMSBuffer) ∨
      (ok = true ∧ ∃ (v v1 : World σ) (out out2 aux : Buffer),
        readByte out 1 = (dg.destinationID ||| 0x80) % 256 ∧
        readByte out 2 = dg.messageID % 256 ∧
        readByte out 3 = off - 4 ∧ readByte out 4 = 1 ∧
        chunkTransaction P fuel dg.messageID out v = some ((out2, some aux), v1) ∧
        in1 = copyPayload inEMSBuffer aux 1 ∧
        v1.tx = v.tx ++ requestFrame (dg.destinationID ||| 0x80) dg.messageID (off - 4) 1 ∧
        w' = (World.millis P v1).2) := by
  have hlen : (if (1 : Nat) = 0 then dg.messageLength else 1) = 1 := by simp
  have hoff : (if off = 0 then off else (((off : Int) - INITIAL_OFFSET) % 256).toNat) =
      off - 4 := by
    rw [if_neg (by omega)]
    simp only [INITIAL_OFFSET]
    omega
  intro n
  induction n with
  | zero => intro inEMSBuffer w ok in1 w' h; simp [getEMSBufferLoop] at h
  | succ n ih =>
    intro inEMSBuffer w ok in1 w' h
    unfold getEMSBufferLoop at h
    rw [hlen, hoff] at h
    cases hc : getEMSCommand P fuel inEMSBuffer dg.destinationID dg.messageID 1 (off - 4) w with
    | none => rw [hc] at h; cases h
    | some res =>
      obtain ⟨⟨ok1, in2⟩, w1⟩ := res
      rw [hc] at h
      simp only at h
      rcases getEMSCommand_single P fuel inEMSBuffer _ _ (off - 4) w ok1 in2 w1 (by omega) hc
        with ⟨hf, hin⟩ | ⟨ht, out, out2, aux, b1, b2, b3, b4, hct, hin, htx⟩
      · subst hf
        subst hin
        by_cases hlt : (World.millis P w1).1 < timeout
        · simp only [hlt, and_self, if_true] at h
          exact ih _ _ _ _ _ h
        · simp only [hlt, false_and, if_false, Option.some.injEq, Prod.mk.injEq] at h
          obtain ⟨⟨hok, hin⟩, _⟩ := h
          exact Or.inl ⟨hok.symm, hin.symm⟩
      · subst ht
        simp only [Bool.true_eq_false, and_false, if_false, Option.some.injEq,
          Prod.mk.injEq] at h
        obtain ⟨⟨hok, hin2⟩, hw⟩ := h
        right
        exact ⟨hok.symm, w, w1, out, out2, aux, b1, b2, b3, b4, hct, by rw [← hin2, hin], htx,
          hw.symm⟩

/-- The frame offset of every byte request of the catalog lies in
`4 .. 131` and inside the buffer of the request. -/
theorem byteRequests_frame_offsets (typeIdx : ByteRequest) :
    4 ≤ (byteRequests.getD typeIdx.toCtorIdx default).dataType.offset ∧
    (byteRequests.getD typeIdx.toCtorIdx default).dataType.offset < 132 ∧
    (byteRequests.getD typeIdx.toCtorIdx default).dataType.offset <
      (byteRequests.getD typeIdx.toCtorIdx default).eMSDatagram.messageLength +
        EMS_DATAGRAM_OVERHEAD := by
  cases typeIdx <;> decide

end Getters

section GetterClaims

variable {σ : Type}

/-- C28: whenever the bus read of `getCalduinoByteValue` returns, the
call returns: `ERROR_VALUE = 0xFF` when the read has failed, and the buffer
byte at the frame offset of the field when it has succeeded. A successful
read comes from one request with data offset `offset - 4` and length 1 whose
answer passed the test of `getEMSCommand`; the buffer is the fresh local
buffer with the payload byte of that answer copied in, and when the answer
carries the data offset of the request the value returned is its payload
byte, the byte at index 4. -/
theorem getCalduinoByteValue_payload_byte (P : Platform σ) (fuel : Nat) (typeIdx : ByteRequest)
    (w : World σ) (ok : Bool) (in1 : Buffer) (w1 : World σ)
    (h : getEMSBuffer P fuel
      (freshArray P w.st 0
        ((byteRequests.getD typeIdx.toCtorIdx default).eMSDatagram.messageLength +
          EMS_DATAGRAM_OVERHEAD))
      (byteRequests.getD typeIdx.toCtorIdx default).eMSDatagram 1
      (byteRequests.getD typeIdx.toCtorIdx default).dataType.offset w = some ((ok, in1), w1)) :
    getCalduinoByteValue P fuel typeIdx w =
      some (if ok then readByte in1 (byteRequests.getD typeIdx.toCtorIdx default).dataType.offset
        else 0xFF, w1) ∧
    ERROR_VALUE = 0xFF ∧
    (ok = true → ∃ (v v1 : World σ) (out out2 aux : Buffer) (ptr : Nat),
      readByte out 1 =
        ((byteRequests.getD typeIdx.toCtorIdx default).eMSDatagram.destinationID ||| 0x80)
          % 256 ∧
      readByte out 2 =
        (byteRequests.getD typeIdx.toCtorIdx default).eMSDatagram.messageID % 256 ∧
      readByte out 3 = (byteRequests.getD typeIdx.toCtorIdx default).dataType.offset - 4 ∧
      readByte out 4 = 1 ∧
      chunkTransaction P fuel (byteRequests.getD typeIdx.toCtorIdx default).eMSDatagram.messageID
        out v = some ((out2, some aux), v1) ∧
      v1.tx = v.tx ++ requestFrame
        ((byteRequests.getD typeIdx.toCtorIdx default).eMSDatagram.destinationID ||| 0x80)
        (byteRequests.getD typeIdx.toCtorIdx default).eMSDatagram.messageID
        ((byteRequests.getD typeIdx.toCtorIdx default).dataType.offset - 4) 1 ∧
      w1 = (World.millis P v1).2 ∧
      responseOK fuel (byteRequests.getD typeIdx.toCtorIdx default).eMSDatagram.messageID aux ptr =
        some true ∧
      in1 = copyPayload
        (freshArray P w.st 0
          ((byteRequests.getD typeIdx.toCtorIdx default).eMSDatagram.messageLength +
            EMS_DATAGRAM_OVERHEAD)) aux 1 ∧
      (readByte aux 3 = (byteRequests.getD typeIdx.toCtorIdx default).dataType.offset - 4 →
        readByte in1 (byteRequests.getD typeIdx.toCtorIdx default).dataType.offset =
          readByte aux 4)) := by
  obtain ⟨h4, h132, hlen⟩ := byteRequests_frame_offsets typeIdx
  refine ⟨?_, rfl, ?_⟩
  · unfold getCalduinoByteValue
    simp only [h]
    cases ok <;> rfl
  · intro hok
    unfold getEMSBuffer at h
    rcases getEMSBufferLoop_single P fuel _ _ _ h4 h132 _ _ _ _ _ _ h with
      ⟨hf, _⟩ | ⟨_, v, v1, out, out2, aux, b1, b2, b3, b4, hct, hin, htx, hw⟩
    · rw [hf] at hok
      cases hok
    · have hresp : ∃ ptr, responseOK fuel
          (byteRequests.getD typeIdx.toCtorIdx default).eMSDatagram.messageID aux ptr =
            some true := by
        rcases chunkTransaction_answer P fuel _ out v out2 (some aux) v1 hct with
          ⟨_, hr⟩ | ⟨_, _, _, hr⟩ | ⟨_, aux2, ptr, ok2, _, _, _, hresp, hr⟩
        · cases hr
        · cases hr
        · cases ok2 with
          | false => simp at hr
          | true =>
            simp only [if_true, Option.some.injEq] at hr
            exact ⟨ptr, by rw [hr]; exact hresp⟩
      obtain ⟨ptr, hresp⟩ := hresp
      refine ⟨v, v1, out, out2, aux, ptr, b1, b2, b3, b4, hct, htx, hw, hresp, hin, ?_⟩
      intro hecho
      have hg := copyPayload_getD
        (freshArray P w.st 0
          ((byteRequests.getD typeIdx.toCtorIdx default).eMSDatagram.messageLength +
            EMS_DATAGRAM_OVERHEAD)) aux 1
        (byteRequests.getD typeIdx.toCtorIdx default).dataType.offset
      have h44 : (byteRequests.getD typeIdx.toCtorIdx default).dataType.offset -
          ((byteRequests.getD typeIdx.toCtorIdx default).dataType.offset - 4) = 4 := by omega
      rw [freshArray_length, hecho, if_pos (by omega), h44] at hg
      rw [hin]
      show (copyPayload _ aux 1).getD _ 0 % 256 = _
      rw [hg, readByte_mod]

set_option maxRecDepth 1000000 in
/-- C28, instance: the seconds field read on the simulated bus. -/
theorem getCalduinoByteValue_payload_byte_witness :
    ∃ (ok : Bool) (in1 : Buffer) (w1 : World SimState),
      getEMSBuffer simPlatform 64
        (freshArray simPlatform readyBus.st 0
          ((byteRequests.getD ByteRequest.second_b.toCtorIdx default).eMSDatagram.messageLength +
            EMS_DATAGRAM_OVERHEAD))
        (byteRequests.getD ByteRequest.second_b.toCtorIdx default).eMSDatagram 1
        (byteRequests.getD ByteRequest.second_b.toCtorIdx default).dataType.offset readyBus =
          some ((ok, in1), w1) ∧
      getCalduinoByteValue simPlatform 64 ByteRequest.second_b readyBus =
        some (if ok then
          readByte in1 (byteRequests.getD ByteRequest.second_b.toCtorIdx default).dataType.offset
          else 0xFF, w1) ∧
      (getCalduinoByteValue simPlatform 64 ByteRequest.second_b readyBus).map (fun r => r.1) =
        some 105 := by
  have hsome : (getEMSBuffer simPlatform 64
      (freshArray simPlatform readyBus.st 0
        ((byteRequests.getD ByteRequest.second_b.toCtorIdx default).eMSDatagram.messageLength +
          EMS_DATAGRAM_OVERHEAD))
      (byteRequests.getD ByteRequest.second_b.toCtorIdx default).eMSDatagram 1
      (byteRequests.getD ByteRequest.second_b.toCtorIdx default).dataType.offset
      readyBus).isSome = true := by decide
  obtain ⟨⟨⟨ok, in1⟩, w1⟩, h⟩ := Option.isSome_iff_exists.mp hsome
  exact ⟨ok, in1, w1, h,
    (getCalduinoByteValue_payload_byte simPlatform 64 ByteRequest.second_b readyBus ok in1 w1 h).1,
    by decide⟩

set_option maxRecDepth 1000000 in
/-- C27: `begin` returns the seconds byte of `getCalduinoByteValue`
converted to `boolean`, so its result tells whether that byte is nonzero.
On the simulated bus that stays silent the read fails without a frame sent,
the byte is `ERROR_VALUE = 0xFF` and `begin` returns `true`; on the bus
whose device answers with a seconds value of `0` the read succeeds and
`begin` returns `false`; with a nonzero seconds value it returns `true`. -/
theorem begin_returns_seconds_nonzero (P : Platform σ) (fuel : Nat) (w : World σ) :
    begin P fuel w =
      (getCalduinoByteValue P fuel ByteRequest.second_b w).map
        (fun r => (decide (r.1 ≠ 0), r.2)) ∧
    ((getEMSBuffer simPlatform 256
        (freshArray simPlatform quietBus.st 0
          ((byteRequests.getD ByteRequest.second_b.toCtorIdx default).eMSDatagram.messageLength +
            EMS_DATAGRAM_OVERHEAD))
        (byteRequests.getD ByteRequest.second_b.toCtorIdx default).eMSDatagram 1
        (byteRequests.getD ByteRequest.second_b.toCtorIdx default).dataType.offset
        quietBus).map (fun r => (r.1.1, r.2.tx)) = some (false, []) ∧
      (getCalduinoByteValue simPlatform 256 ByteRequest.second_b quietBus).map (fun r => r.1) =
        some 0xFF ∧
      (begin simPlatform 256 quietBus).map (fun r => (r.1, r.2.tx)) = some (true, [])) ∧
    ((getEMSBuffer simPlatform 64
        (freshArray simPlatform zeroMessageBus.st 0
          ((byteRequests.getD ByteRequest.second_b.toCtorIdx default).eMSDatagram.messageLength +
            EMS_DATAGRAM_OVERHEAD))
        (byteRequests.getD ByteRequest.second_b.toCtorIdx default).eMSDatagram 1
        (byteRequests.getD ByteRequest.second_b.toCtorIdx default).dataType.offset
        zeroMessageBus).map (fun r => r.1.1) = some true ∧
      (getCalduinoByteValue simPlatform 64 ByteRequest.second_b zeroMessageBus).map
        (fun r => r.1) = some 0 ∧
      (begin simPlatform 64 zeroMessageBus).map (fun r => r.1) = some false) ∧
    ((getCalduinoByteValue simPlatform 64 ByteRequest.second_b readyBus).map (fun r => r.1) =
        some 105 ∧
      (begin simPlatform 64 readyBus).map (fun r => r.1) = some true) := by
  refine ⟨?_, by decide, by decide, by decide⟩
  unfold begin
  cases getCalduinoByteValue P fuel ByteRequest.second_b w with
  | none => rfl
  | some r => rfl

set_option maxRecDepth 1000000 in
/-- C29: `getCalduinoBitValue` returns the selected bit of the buffer
byte when the bus read succeeds and `true`, the value `boolean result = NAN`
starts with, when it fails. On the simulated bus that stays silent the read
of the one-time-DHW bit fails without a frame sent and the call returns
`true`; on the buses that answer it returns the bit 1 of the payload byte. -/
theorem getCalduinoBitValue_true_on_failure (P : Platform σ) (fuel : Nat) (typeIdx : BitRequest)
    (w : World σ) :
    getCalduinoBitValue P fuel typeIdx w =
      (getEMSBuffer P fuel
        (freshArray P w.st 0
          ((bitRequests.getD typeIdx.toCtorIdx default).eMSDatagram.messageLength +
            EMS_DATAGRAM_OVERHEAD))
        (bitRequests.getD typeIdx.toCtorIdx default).eMSDatagram 1
        (bitRequests.getD typeIdx.toCtorIdx default).dataType.offset w).map
        (fun r => (if r.1.1 then
            decide ((readByte r.1.2 (bitRequests.getD typeIdx.toCtorIdx default).dataType.offset
              >>> (bitRequests.getD typeIdx.toCtorIdx default).dataType.bitOffset) &&& 1 ≠ 0)
          else true, r.2)) ∧
    ((getEMSBuffer simPlatform 256
        (freshArray simPlatform quietBus.st 0
          ((bitRequests.getD BitRequest.oneTimeDHW_t.toCtorIdx default).eMSDatagram.messageLength +
            EMS_DATAGRAM_OVERHEAD))
        (bitRequests.getD BitRequest.oneTimeDHW_t.toCtorIdx default).eMSDatagram 1
        (bitRequests.getD BitRequest.oneTimeDHW_t.toCtorIdx default).dataType.offset
        quietBus).map (fun r => (r.1.1, r.2.tx)) = some (false, []) ∧
      (getCalduinoBitValue simPlatform 256 BitRequest.oneTimeDHW_t quietBus).map
        (fun r => (r.1, r.2.tx)) = some (true, [])) ∧
    ((getEMSBuffer simPlatform 64
        (freshArray simPlatform zeroMessageBus.st 0
          ((bitRequests.getD BitRequest.oneTimeDHW_t.toCtorIdx default).eMSDatagram.messageLength +
            EMS_DATAGRAM_OVERHEAD))
        (bitRequests.getD BitRequest.oneTimeDHW_t.toCtorIdx default).eMSDatagram 1
        (bitRequests.getD BitRequest.oneTimeDHW_t.toCtorIdx default).dataType.offset
        zeroMessageBus).map (fun r => r.1.1) = some true ∧
      (getCalduinoBitValue simPlatform 64 BitRequest.oneTimeDHW_t zeroMessageBus).map
        (fun r => r.1) = some false ∧
      (getCalduinoBitValue simPlatform 64 BitRequest.oneTimeDHW_t
        (simStart (List.replicate 40 2))).map (fun r => r.1) = some true) := by
  refine ⟨?_, by decide, by decide⟩
  cases h : getEMSBuffer P fuel
      (freshArray P w.st 0
        ((bitRequests.getD typeIdx.toCtorIdx default).eMSDatagram.messageLength +
          EMS_DATAGRAM_OVERHEAD))
      (bitRequests.getD typeIdx.toCtorIdx default).eMSDatagram 1
      (bitRequests.getD typeIdx.toCtorIdx default).dataType.offset w with
  | none => simp only [getCalduinoBitValue, h, Option.map_none']
  | some r =>
    obtain ⟨⟨ok, in1⟩, w1⟩ := r
    simp only [getCalduinoBitValue, decodeBitValue, h, Option.map_some']

end GetterClaims

/-! ## The catalog -/

section Catalog

/-- Each decoder reads the buffer at the indices of `decodeReads` only: two
buffers that agree there decode to the same value. -/
theorem decode_reads_only (d : CalduinoData) (b b' : Buffer)
    (h : ∀ i ∈ decodeReads d, readByte b i = readByte b' i) :
    (d.encodeType = CalduinoEncodeType.Byte → decodeByteValue d b = decodeByteValue d b') ∧
    (d.encodeType = CalduinoEncodeType.Bit → decodeBitValue d b = decodeBitValue d b') ∧
    (d.encodeType = CalduinoEncodeType.Float → decodeFloatValue d b = decodeFloatValue d b') ∧
    (d.encodeType = CalduinoEncodeType.ULong → decodeULongValue d b = decodeULongValue d b') ∧
    (d.encodeType = CalduinoEncodeType.SwithPoint →
      decodeSwitchPoint d b = decodeSwitchPoint d b') := by
  refine ⟨?_, ?_, ?_, ?_, ?_⟩ <;> intro ht
  · simp only [decodeReads, ht, List.mem_singleton, forall_eq] at h
    simp only [decodeByteValue, h]
  · simp only [decodeReads, ht, List.mem_singleton, forall_eq] at h
    simp only [decodeBitValue, h]
  · simp only [decodeReads, ht] at h
    unfold decodeFloatValue
    by_cases h2 : d.floatBytes = 2
    · simp only [h2, if_true, List.mem_cons, List.mem_singleton, forall_eq_or_imp, forall_eq,
        List.not_mem_nil, false_imp_iff, implies_true, and_true] at h
      simp only [h2, if_true, h.1, h.2]
    · simp only [h2, if_false, List.mem_singleton, forall_eq] at h
      simp only [h2, if_false, h]
  · simp only [decodeReads, ht, List.mem_cons, List.mem_singleton, forall_eq_or_imp, forall_eq,
      List.not_mem_nil, false_imp_iff, implies_true, and_true] at h
    simp only [decodeULongValue, h.1, h.2.1, h.2.2]
  · simp only [decodeReads, ht, List.mem_cons, List.mem_singleton, forall_eq_or_imp, forall_eq,
      List.not_mem_nil, false_imp_iff, implies_true, and_true] at h
    simp only [decodeSwitchPoint, h.1, h.2]

set_option maxRecDepth 1000000 in
/-- The bounds of the fields of every message of the catalog. -/
theorem catalog_bounds_table :
    ∀ dg ∈ eMSDatagramIDs, ∀ d ∈ dg.fields,
      4 ≤ d.offset ∧ d.offset + fieldWidth d ≤ 4 + dg.messageLength ∧
      decodeReads d = (List.range (fieldWidth d)).map (fun i => d.offset + i) ∧
      ∀ i ∈ decodeReads d, i < dg.messageLength + EMS_DATAGRAM_OVERHEAD := by
  decide

set_option maxRecDepth 1000000 in
/-- C31: the catalog has 27 messages, each with at least `dataSize` field
descriptors, and every one of the first `dataSize` descriptors of a message
stays within its wire length: `4 <= offset` and
`offset + width <= 4 + messageLength`, with width 1 for `Byte` and `Bit`,
`floatBytes` for `Float`, 3 for `ULong` and 2 for a switch point. The decoder
of the field reads the `width` cells from `offset` on, all of them inside a
buffer of `messageLength + 6` bytes, and its result is determined by the
cells of that buffer. -/
theorem catalog_fields_within_message :
    eMSDatagramIDs.length = 27 ∧
    (∀ dg ∈ eMSDatagramIDs, dg.dataSize ≤ dg.data.length ∧ dg.fields.length = dg.dataSize) ∧
    (∀ dg ∈ eMSDatagramIDs, ∀ d ∈ dg.fields,
      4 ≤ d.offset ∧ d.offset + fieldWidth d ≤ 4 + dg.messageLength ∧
      decodeReads d = (List.range (fieldWidth d)).map (fun i => d.offset + i) ∧
      ∀ i ∈ decodeReads d, i < dg.messageLength + EMS_DATAGRAM_OVERHEAD) ∧
    (∀ dg ∈ eMSDatagramIDs, ∀ d ∈ dg.fields, ∀ b b' : Buffer,
      (∀ i, i < dg.messageLength + EMS_DATAGRAM_OVERHEAD → readByte b i = readByte b' i) →
      (d.encodeType = CalduinoEncodeType.Byte → decodeByteValue d b = decodeByteValue d b') ∧
      (d.encodeType = CalduinoEncodeType.Bit → decodeBitValue d b = decodeBitValue d b') ∧
      (d.encodeType = CalduinoEncodeType.Float →
        decodeFloatValue d b = decodeFloatValue d b') ∧
      (d.encodeType = CalduinoEncodeType.ULong →
        decodeULongValue d b = decodeULongValue d b') ∧
      (d.encodeType = CalduinoEncodeType.SwithPoint →
        decodeSwitchPoint d b = decodeSwitchPoint d b')) := by
  refine ⟨rfl, by decide, catalog_bounds_table, ?_⟩
  intro dg hdg d hd b b' hagree
  exact decode_reads_only d b b'
    (fun i hi => hagree i ((catalog_bounds_table dg hdg d hd).2.2.2 i hi))

set_option maxRecDepth 1000000 in
/-- C32: in every message of the catalog the `(offset, bitOffset)` pairs of
the `Bit` fields are pairwise different and every `bitOffset` is at most 7;
the messages with `Bit` fields are `UBAMonitorFast`, `UBAMonitorDHW` and the
four `MonitorHC`. -/
theorem catalog_bits_disjoint :
    (∀ dg ∈ eMSDatagramIDs, dg.bitPositions.Nodup ∧ ∀ p ∈ dg.bitPositions, p.2 ≤ 7) ∧
    (∀ dg ∈ eMSDatagramIDs, ∀ d ∈ dg.fields,
      d.encodeType = CalduinoEncodeType.Bit → (d.offset, d.bitOffset) ∈ dg.bitPositions) ∧
    uBAMonitorFast.bitPositions = [(11, 0), (11, 2), (11, 3), (11, 5), (11, 6), (11, 7)] ∧
    uBAMonitorDHW.bitPositions = [(9, 0), (9, 1), (9, 2), (9, 3)] ∧
    monitorHC1.bitPositions = [(4, 5), (5, 0), (5, 1), (5, 7)] ∧
    (∀ dg ∈ eMSDatagramIDs, dg.bitPositions ≠ [] →
      dg = uBAMonitorFast ∨ dg = uBAMonitorDHW ∨ dg = monitorHC1 ∨ dg = monitorHC2 ∨
        dg = monitorHC3 ∨ dg = monitorHC4) := by
  decide

set_option maxRecDepth 1000000 in
/-- C33: every entry of `byteRequests`, `floatRequests` and `uLongRequests`
pairs a message with one of its own fields, of the encode type of the table,
and so do the first ten entries of `bitRequests`. The sixteen entries of
`bitRequests` for the heating circuits (`holiModHC1_t` ... `pauseModHC4_t`)
do not: each pairs a `MonitorHC` message with an entry of
`uBAMonitorDHWValues`, which is not a field of that message, and the entry
of `holiModHCn_t` is the `Float` field `CurTempDHW`. The bit such a request
decodes is not the one of the like-named field of `monitorHCValues`. -/
theorem bitRequests_heating_circuit_entries :
    (∀ r ∈ byteRequests, requestWellFormed CalduinoEncodeType.Byte r) ∧
    (∀ r ∈ floatRequests, requestWellFormed CalduinoEncodeType.Float r) ∧
    (∀ r ∈ uLongRequests, requestWellFormed CalduinoEncodeType.ULong r) ∧
    (∀ r ∈ bitRequests.take 10, requestWellFormed CalduinoEncodeType.Bit r) ∧
    bitRequests.length = 26 ∧
    BitRequest.holiModHC1_t.toCtorIdx = 10 ∧
    (∀ r ∈ bitRequests.drop 10,
      r.dataType ∉ r.eMSDatagram.fields ∧ r.dataType ∈ uBAMonitorDHW.fields ∧
      ¬ requestWellFormed CalduinoEncodeType.Bit r) ∧
    (∀ t ∈ [BitRequest.holiModHC1_t, BitRequest.holiModHC2_t, BitRequest.holiModHC3_t,
        BitRequest.holiModHC4_t],
      (bitRequests.getD t.toCtorIdx default).dataType.encodeType = CalduinoEncodeType.Float ∧
      (bitRequests.getD t.toCtorIdx default).dataType.dataName = "CurTempDHW") ∧
    bitRequests.getD BitRequest.holiModHC1_t.toCtorIdx default =
      ⟨uBAMonitorDHWValues.getD 0 default, monitorHC1⟩ ∧
    ((bitRequests.drop 10).take 4).map
        (fun r => (r.dataType.dataName, r.dataType.offset, r.dataType.bitOffset)) =
      [("CurTempDHW", 5, 0), ("DayModeDHW", 9, 0), ("OneTimeDHW", 9, 1), ("DesDHW", 9, 2)] ∧
    (monitorHCValues.take 4).map (fun d => (d.dataName, d.offset, d.bitOffset)) =
      [("HoliModHC", 4, 5), ("SummerModHC", 5, 0), ("DayModHC", 5, 1), ("PauseModHC", 5, 7)] := by
  decide

set_option maxRecDepth 1000000 in
/-- C35: the enumerators `burnStartsDHWIdx` and `burnWorkMinDHWIdx` are the
positions 5 and 6 of `uBAMonitorDHWValues`, where the fields named
`BurnWorkMinDHW` and `BurnStartsDHW` stand, in this order: each indexes the
field of the other name, and so do the requests `burnStartsDHW_ul`
(minutes, frame offset 14) and `burnWorkMinDHW_ul` (times, frame offset 17).
The request `selRoomTempHC1_f` resolves to position `selRoomTempHCIdx = 4` of
`workingModeHCValues` in `WorkingModeHC1`, the field named `RoomTempOffHC`;
the field named `SelRoomTempHC` is position 4 of `monitorHCValues`, a field
of `MonitorHC1`. The like-named enumerators of `UBAMonitorSlow` do index
their fields. -/
theorem index_enumerators_misnamed :
    DatagramDataIndex.burnStartsDHWIdx = 5 ∧ DatagramDataIndex.burnWorkMinDHWIdx = 6 ∧
    (uBAMonitorDHWValues.getD DatagramDataIndex.burnStartsDHWIdx default).dataName =
      "BurnWorkMinDHW" ∧
    (uBAMonitorDHWValues.getD DatagramDataIndex.burnWorkMinDHWIdx default).dataName =
      "BurnStartsDHW" ∧
    uLongRequests.getD ULongRequest.burnStartsDHW_ul.toCtorIdx default =
      ⟨⟨"BurnWorkMinDHW", .ULong, .Minute, 14, 0, 0, 0⟩, uBAMonitorDHW⟩ ∧
    uLongRequests.getD ULongRequest.burnWorkMinDHW_ul.toCtorIdx default =
      ⟨⟨"BurnStartsDHW", .ULong, .Times, 17, 0, 0, 0⟩, uBAMonitorDHW⟩ ∧
    (∀ t ∈ [(FloatRequest.selRoomTempHC1_f, workingModeHC1),
        (FloatRequest.selRoomTempHC2_f, workingModeHC2),
        (FloatRequest.selRoomTempHC3_f, workingModeHC3),
        (FloatRequest.selRoomTempHC4_f, workingModeHC4)],
      floatRequests.getD t.1.toCtorIdx default =
        ⟨⟨"RoomTempOffHC", .Float, .Celsius, 10, 0, 1, 2⟩, t.2⟩) ∧
    DatagramDataIndex.selRoomTempHCIdx = 4 ∧
    monitorHCValues.getD DatagramDataIndex.selRoomTempHCIdx default =
      ⟨"SelRoomTempHC", .Float, .Celsius, 6, 0, 1, 2⟩ ∧
    (∀ r ∈ floatRequests, r.dataType.dataName ≠ "SelRoomTempHC") ∧
    (uBAMonitorSlowValues.getD DatagramDataIndex.burnStartsIdx default).dataName =
      "BurnStarts" ∧
    (uBAMonitorSlowValues.getD DatagramDataIndex.burnWorkMinIdx default).dataName =
      "BurnWorkMin" := by
  decide

end Catalog

/-! ## Facade: where the setters write -/

section WriteRouting

variable {σ : Type}

/-- One attempt of `setEMSCommand`: what it hands to the transport is a
write attempt, and the write request followed by the verification request
when it returns `true`. -/
theorem setEMSCommand_attempt (P : Platform σ) (fuel dest t off data : Nat)
    (w : World σ) (b : Bool) (w' : World σ)
    (h : setEMSCommand P fuel dest t off data w = some (b, w')) :
    ∃ f : List TxEvent, writeAttempt dest t off data f ∧ w'.tx = w.tx ++ f ∧
      (b = true →
        f = requestFrame dest t off data ++ requestFrame (dest ||| 0x80) t off 1) := by
  obtain ⟨hcases, htrue⟩ := setEMSCommand_frames P fuel dest t off data w b w' h
  cases b with
  | true =>
    refine ⟨_, Or.inr (Or.inr rfl), ?_, fun _ => rfl⟩
    rw [htrue rfl, List.append_assoc]
  | false =>
    rcases hcases with h0 | h1 | h2
    · exact ⟨[], Or.inl rfl, by rw [h0, List.append_nil], fun hb => by cases hb⟩
    · exact ⟨_, Or.inr (Or.inl rfl), h1, fun hb => by cases hb⟩
    · exact ⟨_, Or.inr (Or.inr rfl), by rw [h2, List.append_assoc], fun hb => by cases hb⟩

/-- The retry loop of `updateEMSDatagram`: what a returning run hands to the
transport is a sequence of write attempts on the same field with the same
value, the last of them complete when the result is `true`. -/
theorem updateEMSDatagramLoop_frames (P : Platform σ) (fuel dest t off data timeout : Nat) :
    ∀ (n : Nat) (w : World σ) (b : Bool) (w' : World σ),
      updateEMSDatagramLoop P fuel dest t off data timeout n w = some (b, w') →
      ∃ frames : List (List TxEvent),
        (∀ f ∈ frames, writeAttempt dest t off data f) ∧
        w'.tx = w.tx ++ frames.flatten ∧
        (b = true → frames.getLast? =
          some (requestFrame dest t off data ++ requestFrame (dest ||| 0x80) t off 1)) := by
  intro n
  induction n with
  | zero => intro w b w' h; simp [updateEMSDatagramLoop] at h
  | succ n ih =>
    intro w b w' h
    unfold updateEMSDatagramLoop at h
    cases hc : setEMSCommand P fuel dest t off data w with
    | none => rw [hc] at h; cases h
    | some res =>
      obtain ⟨ok, w1⟩ := res
      rw [hc] at h
      simp only at h
      obtain ⟨f, hf, htx, hlast⟩ := setEMSCommand_attempt P fuel dest t off data w ok w1 hc
      by_cases hcond : (World.millis P w1).1 < timeout ∧ ok = false
      · rw [if_pos hcond] at h
        obtain ⟨frames, hall, htx2, hl2⟩ := ih _ _ _ h
        refine ⟨f :: frames, ?_, ?_, ?_⟩
        · intro g hg
          rcases List.mem_cons.mp hg with rfl | hg
          · exact hf
          · exact hall g hg
        · rw [htx2, World.millis_tx, htx, List.flatten_cons, List.append_assoc]
        · intro hb
          have hl := hl2 hb
          cases frames with
          | nil => simp at hl
          | cons g rest => rw [List.getLast?_cons_cons]; exact hl
      · rw [if_neg hcond] at h
        simp only [Option.some.injEq, Prod.mk.injEq] at h
        obtain ⟨hb, hw⟩ := h
        refine ⟨[f], ?_, ?_, ?_⟩
        · intro g hg
          rw [List.mem_singleton.mp hg]
          exact hf
        · rw [← hw, World.millis_tx, htx]
          simp
        · intro hbt
          rw [← hb] at hbt
          rw [hlast hbt]
          rfl

/-- What a returning `updateEMSDatagram` hands to the transport: write
attempts on the data offset `offset - 4 + extraOffset` of the field, in the
message and to the device of the catalog entry. -/
theorem updateEMSDatagram_frames (P : Platform σ) (fuel eMSDatagramID datagramDataIndex : Nat)
    (data extraOffset : Nat) (w : World σ) (b : Bool) (w' : World σ)
    (h : updateEMSDatagram P fuel eMSDatagramID datagramDataIndex data extraOffset w =
      some (b, w')) :
    ∃ frames : List (List TxEvent),
      (∀ f ∈ frames, writeAttempt (eMSDatagramIDs.getD eMSDatagramID default).destinationID
        (eMSDatagramIDs.getD eMSDatagramID default).messageID
        ((((((eMSDatagramIDs.getD eMSDatagramID default).data.getD datagramDataIndex
          default).offset : Int) - INITIAL_OFFSET + extraOffset) % 256).toNat) data f) ∧
      w'.tx = w.tx ++ frames.flatten ∧
      (b = true → frames.getLast? =
        some (requestFrame (eMSDatagramIDs.getD eMSDatagramID default).destinationID
            (eMSDatagramIDs.getD eMSDatagramID default).messageID
            ((((((eMSDatagramIDs.getD eMSDatagramID default).data.getD datagramDataIndex
              default).offset : Int) - INITIAL_OFFSET + extraOffset) % 256).toNat) data ++
          requestFrame ((eMSDatagramIDs.getD eMSDatagramID default).destinationID ||| 0x80)
            (eMSDatagramIDs.getD eMSDatagramID default).messageID
            ((((((eMSDatagramIDs.getD eMSDatagramID default).data.getD datagramDataIndex
              default).offset : Int) - INITIAL_OFFSET + extraOffset) % 256).toNat) 1)) := by
  unfold updateEMSDatagram at h
  obtain ⟨frames, hall, htx, hlast⟩ := updateEMSDatagramLoop_frames P fuel _ _ _ _ _ _ _ _ _ h
  exact ⟨frames, hall, by rw [htx, World.millis_tx], hlast⟩

/-- The switching-program table: position `i < 42` holds a switch point at
frame offset `4 + 2 i`. -/
theorem switchingProgramValues_points :
    ∀ i, i < 42 →
      (switchingProgramValues.getD i default).encodeType = CalduinoEncodeType.SwithPoint ∧
      (switchingProgramValues.getD i default).offset = 4 + 2 * i := by
  decide

/-- The catalog entry of each program that has switch points: a message of
the RC35 with the switching-program table. -/
theorem switchProgram_entry (p : EMSDatagramID) (h : isSwitchProgram p = true) :
    (eMSDatagramIDs.getD p.toCtorIdx default).data = switchingProgramValues ∧
    (eMSDatagramIDs.getD p.toCtorIdx default).destinationID = 0x10 ∧
    SWITCHING_POINTS ≤ (eMSDatagramIDs.getD p.toCtorIdx default).dataSize := by
  cases p <;> first | exact absurd h (by decide) | exact ⟨rfl, rfl, by decide⟩

end WriteRouting

section RoutingClaims

variable {σ : Type}

/-- C36: for every circuit `k` in `1 .. 4` the catalog entry at index
`Working_Mode_HC_1 + (k - 1) * 4` is the working-mode message of circuit `k`
(message types `0x3D`, `0x47`, `0x51`, `0x5B`) and the entry at
`Program_1_HC_1 + (k - 1) * 4` is program 1 of circuit `k` (`0x3F`, `0x49`,
`0x53`, `0x5D`), all of device `0x10`; the working mode is field position 5,
frame offset 11. A returning `setWorkModeHC(k, mode)` whose arguments pass
the check has handed to the transport a sequence of write attempts, each
being nothing, the write request of `mode` to data offset 7 of the
working-mode message of circuit `k`, or that request followed by the
verification request; the last attempt is complete when the call returns
`true`. -/
theorem heating_circuit_routing (P : Platform σ) (fuel k mode : Nat) (w : World σ) (b : Bool)
    (w' : World σ) (hk : 1 ≤ k ∧ k ≤ 4) :
    eMSDatagramIDs.getD (EMSDatagramID.Working_Mode_HC_1.toCtorIdx + (k - 1) * 4) default =
      [workingModeHC1, workingModeHC2, workingModeHC3, workingModeHC4].getD (k - 1) default ∧
    (eMSDatagramIDs.getD (EMSDatagramID.Working_Mode_HC_1.toCtorIdx + (k - 1) * 4)
      default).messageID = [0x3D, 0x47, 0x51, 0x5B].getD (k - 1) 0 ∧
    (eMSDatagramIDs.getD (EMSDatagramID.Working_Mode_HC_1.toCtorIdx + (k - 1) * 4)
      default).destinationID = 0x10 ∧
    eMSDatagramIDs.getD (EMSDatagramID.Program_1_HC_1.toCtorIdx + (k - 1) * 4) default =
      [program1HC1, program1HC2, program1HC3, program1HC4].getD (k - 1) default ∧
    (eMSDatagramIDs.getD (EMSDatagramID.Program_1_HC_1.toCtorIdx + (k - 1) * 4)
      default).messageID = [0x3F, 0x49, 0x53, 0x5D].getD (k - 1) 0 ∧
    (eMSDatagramIDs.getD (EMSDatagramID.Program_1_HC_1.toCtorIdx + (k - 1) * 4)
      default).destinationID = 0x10 ∧
    DatagramDataIndex.workModeHCIdx = 5 ∧
    (workingModeHCValues.getD DatagramDataIndex.workModeHCIdx default).offset = 11 ∧
    (k ≤ MAX_HC_CIRCUIT → mode ≤ MAX_WORKING_MODE →
      setWorkModeHC P fuel k mode w = some (b, w') →
      ∃ frames : List (List TxEvent),
        (∀ f ∈ frames, writeAttempt 0x10 ([0x3D, 0x47, 0x51, 0x5B].getD (k - 1) 0) 7 mode f) ∧
        w'.tx = w.tx ++ frames.flatten ∧
        (b = true → frames.getLast? =
          some (requestFrame 0x10 ([0x3D, 0x47, 0x51, 0x5B].getD (k - 1) 0) 7 mode ++
            requestFrame (0x10 ||| 0x80) ([0x3D, 0x47, 0x51, 0x5B].getD (k - 1) 0) 7 1))) := by
  have h1234 : k = 1 ∨ k = 2 ∨ k = 3 ∨ k = 4 := by omega
  rcases h1234 with rfl | rfl | rfl | rfl
  · refine ⟨rfl, rfl, rfl, rfl, rfl, rfl, rfl, rfl, ?_⟩
    intro _ hm h
    unfold setWorkModeHC at h
    rw [if_pos ⟨by decide, by decide, hm⟩] at h
    exact updateEMSDatagram_frames P fuel _ _ _ _ w b w' h
  · refine ⟨rfl, rfl, rfl, rfl, rfl, rfl, rfl, rfl, ?_⟩
    intro _ hm h
    unfold setWorkModeHC at h
    rw [if_pos ⟨by decide, by decide, hm⟩] at h
    exact updateEMSDatagram_frames P fuel _ _ _ _ w b w' h
  · exact ⟨rfl, rfl, rfl, rfl, rfl, rfl, rfl, rfl, fun h3 => absurd h3 (by decide)⟩
  · exact ⟨rfl, rfl, rfl, rfl, rfl, rfl, rfl, rfl, fun h4 => absurd h4 (by decide)⟩

set_option maxRecDepth 1000000 in
/-- C36, instance: circuit 2 and the mode 1 on the simulated bus; the call
returns `true` after one complete attempt. -/
theorem heating_circuit_routing_witness :
    (1 ≤ 2 ∧ 2 ≤ 4) ∧
    (eMSDatagramIDs.getD (EMSDatagramID.Working_Mode_HC_1.toCtorIdx + (2 - 1) * 4)
      default).messageID = [0x3D, 0x47, 0x51, 0x5B].getD (2 - 1) 0 ∧
    (setWorkModeHC simPlatform 64 2 1 readyBus).map (fun r => (r.1, r.2.tx)) =
      some (true, requestFrame 0x10 0x47 7 1 ++ requestFrame 0x90 0x47 7 1) ∧
    ∃ (b : Bool) (w' : World SimState) (frames : List (List TxEvent)),
      setWorkModeHC simPlatform 64 2 1 readyBus = some (b, w') ∧
      (∀ f ∈ frames, writeAttempt 0x10 ([0x3D, 0x47, 0x51, 0x5B].getD (2 - 1) 0) 7 1 f) ∧
      w'.tx = readyBus.tx ++ frames.flatten := by
  have hsome : (setWorkModeHC simPlatform 64 2 1 readyBus).isSome = true := by decide
  obtain ⟨⟨b, w'⟩, h⟩ := Option.isSome_iff_exists.mp hsome
  have hthm := heating_circuit_routing simPlatform 64 2 1 readyBus b w' (by decide)
  obtain ⟨frames, hall, htx, _⟩ := hthm.2.2.2.2.2.2.2.2 (by decide) (by decide) h
  exact ⟨by decide, hthm.2.1, by decide, b, w', frames, h, hall, htx⟩

/-- C37: for arguments that pass the check, the field of switch point `id`
has frame offset `4 + 2 id` in the selected program, a message of device
`0x10`, and a returning `setProgramSwitchPoint` is the write of the first
encoded byte followed by the write of the second, started whatever the
result of the first. The first hands to the transport write attempts to data
offset `2 id` carrying the first byte, the second write attempts to data
offset `2 id + 1` carrying the second byte; the last attempt of a write that
returns `true` is complete. -/
theorem setProgramSwitchPoint_write_offsets (P : Platform σ) (fuel : Nat)
    (selProgram : EMSDatagramID) (id op day hour minute : Nat) (w : World σ) (b : Bool)
    (w' : World σ)
    (hargs : switchPointArgsOK selProgram id op day hour minute = true)
    (h : setProgramSwitchPoint P fuel selProgram id op day hour minute w = some (b, w')) :
    ((eMSDatagramIDs.getD selProgram.toCtorIdx default).data.getD id default).offset =
      4 + 2 * id ∧
    (eMSDatagramIDs.getD selProgram.toCtorIdx default).destinationID = 0x10 ∧
    ∃ (b1 : Bool) (w1 : World σ) (frames1 frames2 : List (List TxEvent)),
      updateEMSDatagram P fuel selProgram.toCtorIdx id (switchPointByte1 op day) 0 w =
        some (b1, w1) ∧
      updateEMSDatagram P fuel selProgram.toCtorIdx id (switchPointByte2 op hour minute) 1 w1 =
        some (b, w') ∧
      (∀ f ∈ frames1, writeAttempt 0x10
        (eMSDatagramIDs.getD selProgram.toCtorIdx default).messageID (2 * id)
        (switchPointByte1 op day) f) ∧
      w1.tx = w.tx ++ frames1.flatten ∧
      (∀ f ∈ frames2, writeAttempt 0x10
        (eMSDatagramIDs.getD selProgram.toCtorIdx default).messageID (2 * id + 1)
        (switchPointByte2 op hour minute) f) ∧
      w'.tx = w1.tx ++ frames2.flatten ∧
      (b1 = true → frames1.getLast? =
        some (requestFrame 0x10 (eMSDatagramIDs.getD selProgram.toCtorIdx default).messageID
            (2 * id) (switchPointByte1 op day) ++
          requestFrame (0x10 ||| 0x80)
            (eMSDatagramIDs.getD selProgram.toCtorIdx default).messageID (2 * id) 1)) ∧
      (b = true → frames2.getLast? =
        some (requestFrame 0x10 (eMSDatagramIDs.getD selProgram.toCtorIdx default).messageID
            (2 * id + 1) (switchPointByte2 op hour minute) ++
          requestFrame (0x10 ||| 0x80)
            (eMSDatagramIDs.getD selProgram.toCtorIdx default).messageID (2 * id + 1) 1)) := by
  have hparts : isSwitchProgram selProgram = true ∧ id < 42 := by
    simp only [switchPointArgsOK, Bool.and_eq_true, decide_eq_true_eq, SWITCHING_POINTS]
      at hargs
    exact ⟨hargs.1.1.1.1.1, hargs.1.1.1.1.2⟩
  obtain ⟨hprog, hid⟩ := hparts
  obtain ⟨hdata, hdest, _⟩ := switchProgram_entry selProgram hprog
  have hoff := (switchingProgramValues_points id hid).2
  have hfield : ((eMSDatagramIDs.getD selProgram.toCtorIdx default).data.getD id
      default).offset = 4 + 2 * id := by rw [hdata, hoff]
  have hoff0 : (((((4 + 2 * id : Nat) : Int) - INITIAL_OFFSET + ((0 : Nat) : Int)) % 256).toNat)
      = 2 * id := by
    simp only [INITIAL_OFFSET]
    omega
  have hoff1 : (((((4 + 2 * id : Nat) : Int) - INITIAL_OFFSET + ((1 : Nat) : Int)) % 256).toNat)
      = 2 * id + 1 := by
    simp only [INITIAL_OFFSET]
    omega
  refine ⟨hfield, hdest, ?_⟩
  unfold setProgramSwitchPoint setProgramSwitchPointBytes at h
  rw [if_pos hargs] at h
  simp only at h
  cases h1 : updateEMSDatagram P fuel selProgram.toCtorIdx id (switchPointByte1 op day) 0 w with
  | none => rw [h1] at h; cases h
  | some r =>
    obtain ⟨b1, w1⟩ := r
    rw [h1] at h
    simp only at h
    obtain ⟨frames1, hall1, htx1, hl1⟩ := updateEMSDatagram_frames P fuel _ _ _ _ w b1 w1 h1
    obtain ⟨frames2, hall2, htx2, hl2⟩ := updateEMSDatagram_frames P fuel _ _ _ _ w1 b w' h
    rw [hfield, hdest, hoff0] at hall1 hl1
    rw [hfield, hdest, hoff1] at hall2 hl2
    exact ⟨b1, w1, frames1, frames2, rfl, h, hall1, htx1, hall2, htx2, hl1, hl2⟩

set_option maxRecDepth 1000000 in
/-- C37, instance: switch point 3 of the DHW program set to "on" on
Wednesday at 10:30 on the simulated bus: the bytes `65` and `63` go to the
data offsets 6 and 7 of message `0x38`. -/
theorem setProgramSwitchPoint_write_offsets_witness :
    switchPointArgsOK EMSDatagramID.Program_DHW 3 1 2 10 30 = true ∧
    (setProgramSwitchPoint simPlatform 64 EMSDatagramID.Program_DHW 3 1 2 10 30 readyBus).map
        (fun r => (r.1, r.2.tx)) =
      some (true, requestFrame 0x10 0x38 6 65 ++ requestFrame 0x90 0x38 6 1 ++
        requestFrame 0x10 0x38 7 63 ++ requestFrame 0x90 0x38 7 1) ∧
    ∃ (b : Bool) (w' : World SimState),
      setProgramSwitchPoint simPlatform 64 EMSDatagramID.Program_DHW 3 1 2 10 30 readyBus =
        some (b, w') ∧
      ∃ (b1 : Bool) (w1 : World SimState) (frames1 frames2 : List (List TxEvent)),
        updateEMSDatagram simPlatform 64 EMSDatagramID.Program_DHW.toCtorIdx 3
          (switchPointByte1 1 2) 0 readyBus = some (b1, w1) ∧
        (∀ f ∈ frames1, writeAttempt 0x10
          (eMSDatagramIDs.getD EMSDatagramID.Program_DHW.toCtorIdx default).messageID (2 * 3)
          (switchPointByte1 1 2) f) ∧
        w1.tx = readyBus.tx ++ frames1.flatten ∧
        (∀ f ∈ frames2, writeAttempt 0x10
          (eMSDatagramIDs.getD EMSDatagramID.Program_DHW.toCtorIdx default).messageID (2 * 3 + 1)
          (switchPointByte2 1 10 30) f) ∧
        w'.tx = w1.tx ++ frames2.flatten := by
  have hsome : (setProgramSwitchPoint simPlatform 64 EMSDatagramID.Program_DHW 3 1 2 10 30
      readyBus).isSome = true := by decide
  obtain ⟨⟨b, w'⟩, h⟩ := Option.isSome_iff_exists.mp hsome
  obtain ⟨_, _, b1, w1, frames1, frames2, h1, _, hall1, htx1, hall2, htx2, _, _⟩ :=
    setProgramSwitchPoint_write_offsets simPlatform 64 EMSDatagramID.Program_DHW 3 1 2 10 30
      readyBus b w' (by decide) h
  exact ⟨by decide, by decide, b, w', h, b1, w1, frames1, frames2, h1, hall1, htx1, hall2, htx2⟩

/-- C38: for a program with switch points and `i < 42`, the `i`-th field
descriptor of the program is a switch point at frame offset `4 + 2 i`, one of
the fields of the message, and `decodeSwitchPoint` on it returns `id = i`
whatever the buffer. Whenever the bus read of `getCalduinoSwitchPoint`
succeeds, the call returns the switch point decoded from the buffer read,
whose `id` is `i`. -/
theorem getCalduinoSwitchPoint_id (P : Platform σ) (fuel : Nat) (selProgram : EMSDatagramID)
    (i : Nat) (w : World σ) (hprog : isSwitchProgram selProgram = true)
    (hi : i < SWITCHING_POINTS) :
    (switchingProgramValues.getD i default).encodeType = CalduinoEncodeType.SwithPoint ∧
    (switchingProgramValues.getD i default).offset = 4 + 2 * i ∧
    (eMSDatagramIDs.getD selProgram.toCtorIdx default).data.getD i default =
      switchingProgramValues.getD i default ∧
    i < (eMSDatagramIDs.getD selProgram.toCtorIdx default).dataSize ∧
    (∀ buf : Buffer, (decodeSwitchPoint (switchingProgramValues.getD i default) buf).id = i) ∧
    (∀ (in1 : Buffer) (w1 : World σ),
      getEMSBuffer P fuel
        (freshArray P w.st 5
          ((eMSDatagramIDs.getD selProgram.toCtorIdx default).messageLength +
            EMS_DATAGRAM_OVERHEAD))
        (eMSDatagramIDs.getD selProgram.toCtorIdx default) 2 (4 + 2 * i) w =
          some ((true, in1), w1) →
      getCalduinoSwitchPoint P fuel selProgram i w =
        some (decodeSwitchPoint (switchingProgramValues.getD i default) in1, w1) ∧
      ∀ sp w2, getCalduinoSwitchPoint P fuel selProgram i w = some (sp, w2) → sp.id = i) := by
  have hi42 : i < 42 := hi
  obtain ⟨htype, hoff⟩ := switchingProgramValues_points i hi42
  obtain ⟨hdata, _, hsize⟩ := switchProgram_entry selProgram hprog
  have hid : ∀ buf : Buffer,
      (decodeSwitchPoint (switchingProgramValues.getD i default) buf).id = i := by
    intro buf
    simp only [decodeSwitchPoint, hoff]
    omega
  refine ⟨htype, hoff, by rw [hdata], by omega, hid, ?_⟩
  intro in1 w1 hread
  have hcall : getCalduinoSwitchPoint P fuel selProgram i w =
      some (decodeSwitchPoint (switchingProgramValues.getD i default) in1, w1) := by
    unfold getCalduinoSwitchPoint
    simp only [hprog, hi, and_self, if_true, hdata, hoff, hread]
  refine ⟨hcall, ?_⟩
  intro sp w2 h2
  rw [hcall] at h2
  simp only [Option.some.injEq, Prod.mk.injEq] at h2
  rw [← h2.1]
  exact hid in1

set_option maxRecDepth 1000000 in
/-- C38, instance: switch point 3 of the DHW program read on the simulated
bus. -/
theorem getCalduinoSwitchPoint_id_witness :
    isSwitchProgram EMSDatagramID.Program_DHW = true ∧ 3 < SWITCHING_POINTS ∧
    (switchingProgramValues.getD 3 default).offset = 4 + 2 * 3 ∧
    (∀ buf : Buffer, (decodeSwitchPoint (switchingProgramValues.getD 3 default) buf).id = 3) ∧
    (getEMSBuffer simPlatform 64
      (freshArray simPlatform readyBus.st 5
        ((eMSDatagramIDs.getD EMSDatagramID.Program_DHW.toCtorIdx default).messageLength +
          EMS_DATAGRAM_OVERHEAD))
      (eMSDatagramIDs.getD EMSDatagramID.Program_DHW.toCtorIdx default) 2 (4 + 2 * 3)
      readyBus).map (fun r => r.1.1) = some true ∧
    (getCalduinoSwitchPoint simPlatform 64 EMSDatagramID.Program_DHW 3 readyBus).map
      (fun r => r.1) = some ⟨3, 2, 3, 17, 50⟩ :=
  ⟨by decide, by decide,
    (getCalduinoSwitchPoint_id simPlatform 64 EMSDatagramID.Program_DHW 3 readyBus
      (by decide) (by decide)).2.1,
    (getCalduinoSwitchPoint_id simPlatform 64 EMSDatagramID.Program_DHW 3 readyBus
      (by decide) (by decide)).2.2.2.2.1,
    by decide, by decide⟩

end RoutingClaims

/-! ## Acceptance of an answer and the place of its payload -/

section AcceptanceInputs

/-- The test of an answer depends on the answer through the result of the
CRC check and the byte at index 2 only. -/
theorem responseOK_congr (fuel t : Nat) (aux aux' : Buffer) (ptr : Nat)
    (hcrc : crcCheckOK fuel aux ptr = crcCheckOK fuel aux' ptr)
    (h2 : readByte aux 2 = readByte aux' 2) :
    responseOK fuel t aux ptr = responseOK fuel t aux' ptr := by
  unfold responseOK
  rw [hcrc, h2]

/-- C39: two answers of the same number of bytes that differ at most in the
bytes 0 (source), 1 (destination) and 3 (data offset) and both pass the CRC
check get the same verdict from the test of `getEMSCommand`: accepted exactly
when more than 4 bytes were read and byte 2 is the message type asked for.
The payload of an accepted answer is stored from buffer index
`4 + auxBuffer[3]` on, the offset the answer announces, whatever offset the
request buffer holds, and the other cells of the buffer stay as they were. -/
theorem getEMSCommand_acceptance_inputs (fuel t : Nat) (aux aux' : Buffer) (ptr : Nat)
    (hdiff : ∀ i, i ≠ 0 → i ≠ 1 → i ≠ 3 → readByte aux i = readByte aux' i)
    (hcrc : crcCheckOK fuel aux ptr = some true)
    (hcrc' : crcCheckOK fuel aux' ptr = some true) :
    responseOK fuel t aux ptr = responseOK fuel t aux' ptr ∧
    responseOK fuel t aux ptr = some (decide (4 < ptr ∧ readByte aux 2 = t % 256)) ∧
    (∀ (g : GetState) (out2 : Buffer) (i : Nat),
      i < readByte out2 4 → 4 + readByte aux 3 + i < g.inEMSBuffer.length →
      readByte (acceptChunk g out2 aux).inEMSBuffer (4 + readByte aux 3 + i) =
        readByte aux (4 + i)) ∧
    (∀ (g : GetState) (out2 : Buffer) (j : Nat),
      j < 4 + readByte aux 3 ∨ 4 + readByte aux 3 + readByte out2 4 ≤ j →
      readByte (acceptChunk g out2 aux).inEMSBuffer j = readByte g.inEMSBuffer j) := by
  refine ⟨?_, ?_, ?_, ?_⟩
  · exact responseOK_congr fuel t aux aux' ptr (by rw [hcrc, hcrc'])
      (hdiff 2 (by decide) (by decide) (by decide))
  · unfold responseOK
    by_cases h4 : ptr > 4
    · rw [if_pos h4, hcrc]
      by_cases h2 : readByte aux 2 = t % 256
      · simp [h2, h4]
      · simp [h2]
    · rw [if_neg h4]
      have : ¬ (4 < ptr ∧ readByte aux 2 = t % 256) := fun h => h4 h.1
      simp [this]
  · intro g out2 i hi hlen
    have hg := copyPayload_getD g.inEMSBuffer aux (readByte out2 4) (4 + readByte aux 3 + i)
    have hsub : 4 + readByte aux 3 + i - readByte aux 3 = 4 + i := by omega
    rw [if_pos ⟨by omega, by omega, hlen⟩, hsub] at hg
    show (copyPayload g.inEMSBuffer aux (readByte out2 4)).getD _ 0 % 256 = _
    rw [hg, readByte_mod]
  · intro g out2 j hj
    have hg := copyPayload_getD g.inEMSBuffer aux (readByte out2 4) j
    rw [if_neg (by omega)] at hg
    show (copyPayload g.inEMSBuffer aux (readByte out2 4)).getD _ 0 % 256 = _
    rw [hg]
    rfl

set_option maxRecDepth 1000000 in
/-- C39, instance: two answers of message type `0x06` with the payload byte
33 and the CRC byte 114, one from device `0x10` announcing data offset 5, one
from device `0x08` announcing data offset 197; both pass the CRC check and
both are accepted. Copied into a buffer of 12 cells for a request of one
byte at data offset 5, the payload of the first lands in cell 9, that of
the second in no cell of the buffer (index 201 lies behind it), and that of
an answer announcing data offset 2 in cell 6. -/
theorem getEMSCommand_acceptance_inputs_witness :
    crcCheckOK 256 [0x10, 0x0B, 0x06, 5, 33, 114, 0] 7 = some true ∧
    crcCheckOK 256 [0x08, 0x0B, 0x06, 197, 33, 114, 0] 7 = some true ∧
    responseOK 256 0x06 [0x10, 0x0B, 0x06, 5, 33, 114, 0] 7 =
      responseOK 256 0x06 [0x08, 0x0B, 0x06, 197, 33, 114, 0] 7 ∧
    responseOK 256 0x06 [0x10, 0x0B, 0x06, 5, 33, 114, 0] 7 = some true ∧
    (acceptChunk ⟨List.replicate 12 0, [0x0B, 0x90, 0x06, 5, 1, 0, 0], 1, 5⟩
      [0x0B, 0x90, 0x06, 5, 1, 0, 0] [0x10, 0x0B, 0x06, 5, 33, 114, 0]).inEMSBuffer =
        [0, 0, 0, 0, 0, 0, 0, 0, 0, 33, 0, 0] ∧
    (acceptChunk ⟨List.replicate 12 0, [0x0B, 0x90, 0x06, 5, 1, 0, 0], 1, 5⟩
      [0x0B, 0x90, 0x06, 5, 1, 0, 0] [0x08, 0x0B, 0x06, 197, 33, 114, 0]).inEMSBuffer =
        List.replicate 12 0 ∧
    (acceptChunk ⟨List.replicate 12 0, [0x0B, 0x90, 0x06, 5, 1, 0, 0], 1, 5⟩
      [0x0B, 0x90, 0x06, 5, 1, 0, 0] [0x10, 0x0B, 0x06, 2, 33, 114, 0]).inEMSBuffer =
        [0, 0, 0, 0, 0, 0, 33, 0, 0, 0, 0, 0] :=
  have hdiff : ∀ i, i ≠ 0 → i ≠ 1 → i ≠ 3 →
      readByte [0x10, 0x0B, 0x06, 5, 33, 114, 0] i =
        readByte [0x08, 0x0B, 0x06, 197, 33, 114, 0] i := by
    intro i h0 h1 h3
    match i, h0, h1, h3 with
    | 0, h0, _, _ => exact absurd rfl h0
    | 1, _, h1, _ => exact absurd rfl h1
    | 2, _, _, _ => rfl
    | 3, _, _, h3 => exact absurd rfl h3
    | 4, _, _, _ => rfl
    | 5, _, _, _ => rfl
    | 6, _, _, _ => rfl
    | n + 7, _, _, _ => rfl
  have hthm := getEMSCommand_acceptance_inputs 256 0x06 [0x10, 0x0B, 0x06, 5, 33, 114, 0]
    [0x08, 0x0B, 0x06, 197, 33, 114, 0] 7 hdiff (by decide) (by decide)
  ⟨by decide, by decide, hthm.1, by decide, by decide, by decide, by decide⟩

end AcceptanceInputs

/-! ## The receive buffer of the serial port -/

section ReceiveBuffer

/-- A cell of a list after `set`. -/
theorem getD_set_eq {α : Type} (l : List α) (i j : Nat) (v d : α) :
    (l.set i v).getD j d = if i = j ∧ i < l.length then v else l.getD j d := by
  simp only [List.getD_eq_getElem?_getD, List.getElem?_set]
  by_cases hij : i = j
  · subst hij
    by_cases hl : i < l.length
    · simp [hl]
    · simp [hl, List.getElem?_eq_none (Nat.le_of_not_lt hl)]
  · simp [hij]

/-- The number of bytes stored, for a well-formed state. -/
theorem EMSSerial.available_eq (s : EMSSerial) (hwf : s.WellFormed) :
    s.available = (((48 + s._rx_buffer_head - s._rx_buffer_tail) % 48 : Nat) : Int) := by
  obtain ⟨hh, ht, _, _⟩ := hwf
  simp only [SERIAL_BUFFER_SIZE] at hh ht
  simp only [EMSSerial.available, SERIAL_BUFFER_SIZE, intBits]
  norm_num
  omega

theorem EMSSerial.available_toNat (s : EMSSerial) (hwf : s.WellFormed) :
    s.available.toNat = (48 + s._rx_buffer_head - s._rx_buffer_tail) % 48 := by
  rw [EMSSerial.available_eq s hwf]
  exact Int.toNat_ofNat _

theorem EMSSerial.contents_length (s : EMSSerial) :
    s.contents.length = s.available.toNat := by
  simp [EMSSerial.contents]

/-- The state after `store_char` when there is room. -/
theorem store_char_room (c : Nat) (fe : Bool) (s : EMSSerial) (hwf : s.WellFormed)
    (hroom : s.available.toNat < 47) :
    store_char c fe s =
      { s with
        _rx_buffer := s._rx_buffer.set s._rx_buffer_head (c % 256)
        _error_flag := s._error_flag.set s._rx_buffer_head fe
        _rx_buffer_head := (s._rx_buffer_head + 1) % 48 } := by
  have hav := EMSSerial.available_toNat s hwf
  obtain ⟨hh, ht, _, _⟩ := hwf
  simp only [SERIAL_BUFFER_SIZE] at hh ht
  have hi : (s._rx_buffer_head + 1) % 2 ^ intBits % SERIAL_BUFFER_SIZE =
      (s._rx_buffer_head + 1) % 48 := by
    simp only [intBits, SERIAL_BUFFER_SIZE]
    omega
  have hne : (s._rx_buffer_head + 1) % 48 ≠ s._rx_buffer_tail := by omega
  unfold store_char
  simp only [hi]
  rw [if_pos hne]

/-- A `store_char` on a buffer that holds 47 bytes changes nothing. -/
theorem store_char_full (c : Nat) (fe : Bool) (s : EMSSerial) (hwf : s.WellFormed)
    (hfull : s.available.toNat = 47) : store_char c fe s = s := by
  have hav := EMSSerial.available_toNat s hwf
  obtain ⟨hh, ht, _, _⟩ := hwf
  simp only [SERIAL_BUFFER_SIZE] at hh ht
  have hi : (s._rx_buffer_head + 1) % 2 ^ intBits % SERIAL_BUFFER_SIZE =
      (s._rx_buffer_head + 1) % 48 := by
    simp only [intBits, SERIAL_BUFFER_SIZE]
    omega
  have heq : (s._rx_buffer_head + 1) % 48 = s._rx_buffer_tail := by omega
  unfold store_char
  simp only [hi]
  rw [if_neg (fun h => h heq)]

/-- A `store_char` with room appends the byte and its flag to the bytes
stored, and moves neither the tail nor `_error`. -/
theorem store_char_contents (c : Nat) (fe : Bool) (s : EMSSerial) (hwf : s.WellFormed)
    (hroom : s.available.toNat < 47) (hc : c < 256) :
    (store_char c fe s).WellFormed ∧
    (store_char c fe s)._rx_buffer_tail = s._rx_buffer_tail ∧
    (store_char c fe s)._error = s._error ∧
    (store_char c fe s).contents = s.contents ++ [(c, fe)] := by
  have hav := EMSSerial.available_toNat s hwf
  have hwf0 := hwf
  obtain ⟨hh, ht, hb, hf⟩ := hwf
  simp only [SERIAL_BUFFER_SIZE] at hh ht hb hf
  rw [store_char_room c fe s hwf0 hroom]
  have hwf1 : EMSSerial.WellFormed
      { s with
        _rx_buffer := s._rx_buffer.set s._rx_buffer_head (c % 256)
        _error_flag := s._error_flag.set s._rx_buffer_head fe
        _rx_buffer_head := (s._rx_buffer_head + 1) % 48 } := by
    refine ⟨?_, ?_, ?_, ?_⟩
    · show (s._rx_buffer_head + 1) % 48 < 48
      omega
    · exact ht
    · show (s._rx_buffer.set s._rx_buffer_head (c % 256)).length = 48
      rw [List.length_set, hb]
    · show (s._error_flag.set s._rx_buffer_head fe).length = 48
      rw [List.length_set, hf]
  refine ⟨hwf1, rfl, rfl, ?_⟩
  have hav1 := EMSSerial.available_toNat _ hwf1
  simp only at hav1
  have hk : (48 + (s._rx_buffer_head + 1) % 48 - s._rx_buffer_tail) % 48 =
      s.available.toNat + 1 := by omega
  unfold EMSSerial.contents
  rw [hav1, hk, List.range_succ, List.map_append]
  congr 1
  · apply List.map_congr_left
    intro i hi
    have hik : i < s.available.toNat := List.mem_range.mp hi
    have hne : ¬ (s._rx_buffer_head = (s._rx_buffer_tail + i) % 48 ∧
        s._rx_buffer_head < s._rx_buffer.length) := by omega
    have hne2 : ¬ (s._rx_buffer_head = (s._rx_buffer_tail + i) % 48 ∧
        s._rx_buffer_head < s._error_flag.length) := by omega
    simp only [SERIAL_BUFFER_SIZE, getD_set_eq, if_neg hne, if_neg hne2]
  · have hpos : s._rx_buffer_head = (s._rx_buffer_tail + s.available.toNat) % 48 ∧
        s._rx_buffer_head < s._rx_buffer.length := by omega
    have hpos2 : s._rx_buffer_head = (s._rx_buffer_tail + s.available.toNat) % 48 ∧
        s._rx_buffer_head < s._error_flag.length := by omega
    simp only [SERIAL_BUFFER_SIZE, List.map_cons, List.map_nil, getD_set_eq, if_pos hpos,
      if_pos hpos2, Nat.mod_eq_of_lt hc]

/-- An empty buffer: `read` and `peek` return `-1` and change nothing. -/
theorem EMSSerial.read_empty (s : EMSSerial) (hwf : s.WellFormed) (hc : s.contents = []) :
    s._rx_buffer_head = s._rx_buffer_tail ∧ s.read = (-1, s) ∧ s.peek = -1 := by
  have hlen := EMSSerial.contents_length s
  rw [hc, EMSSerial.available_toNat s hwf] at hlen
  obtain ⟨hh, ht, _, _⟩ := hwf
  simp only [SERIAL_BUFFER_SIZE] at hh ht
  have heq : s._rx_buffer_head = s._rx_buffer_tail := by
    simp only [List.length_nil] at hlen
    omega
  refine ⟨heq, ?_, ?_⟩
  · unfold EMSSerial.read
    rw [if_pos heq]
  · unfold EMSSerial.peek
    rw [if_pos heq]

/-- A buffer that holds `x` in front: `peek` and `read` return its byte,
`read` takes it out and sets `_error` to its flag. -/
theorem EMSSerial.read_contents (s : EMSSerial) (hwf : s.WellFormed) (x : Nat × Bool)
    (rest : List (Nat × Bool)) (hc : s.contents = x :: rest) :
    s.peek = (x.1 : Int) ∧ s.read.1 = (x.1 : Int) ∧ s.read.2.WellFormed ∧
    s.read.2._error = x.2 ∧ s.read.2.contents = rest := by
  have hlen := EMSSerial.contents_length s
  rw [hc] at hlen
  simp only [List.length_cons] at hlen
  have hav := EMSSerial.available_toNat s hwf
  obtain ⟨hh, ht, hb, hf⟩ := hwf
  simp only [SERIAL_BUFFER_SIZE] at hh ht hb hf
  have hne : s._rx_buffer_head ≠ s._rx_buffer_tail := by
    intro heq
    rw [heq] at hav
    omega
  unfold EMSSerial.contents at hc
  rw [← hlen, List.range_succ_eq_map, List.map_cons, List.map_map] at hc
  injection hc with hx hrest
  have ht0 : (s._rx_buffer_tail + 0) % SERIAL_BUFFER_SIZE = s._rx_buffer_tail := by
    simp only [SERIAL_BUFFER_SIZE]
    omega
  rw [ht0] at hx
  have hi : (s._rx_buffer_tail + 1) % 2 ^ intBits % SERIAL_BUFFER_SIZE =
      (s._rx_buffer_tail + 1) % 48 := by
    simp only [intBits, SERIAL_BUFFER_SIZE]
    omega
  have hread : s.read = (((s._rx_buffer.getD s._rx_buffer_tail 0 : Nat) : Int),
      { s with
        _error := s._error_flag.getD s._rx_buffer_tail false
        _rx_buffer_tail := (s._rx_buffer_tail + 1) % 48 }) := by
    unfold EMSSerial.read
    rw [if_neg hne, hi]
  have hwf1 : EMSSerial.WellFormed
      { s with
        _error := s._error_flag.getD s._rx_buffer_tail false
        _rx_buffer_tail := (s._rx_buffer_tail + 1) % 48 } := by
    refine ⟨hh, ?_, hb, hf⟩
    show (s._rx_buffer_tail + 1) % 48 < 48
    omega
  have hav1 := EMSSerial.available_toNat _ hwf1
  simp only at hav1
  have hk : (48 + s._rx_buffer_head - (s._rx_buffer_tail + 1) % 48) % 48 = rest.length := by
    omega
  have hc1 : EMSSerial.contents
      { s with
        _error := s._error_flag.getD s._rx_buffer_tail false
        _rx_buffer_tail := (s._rx_buffer_tail + 1) % 48 } = rest := by
    unfold EMSSerial.contents
    rw [hav1, hk]
    refine Eq.trans ?_ hrest
    apply List.map_congr_left
    intro i _
    have hidx : ((s._rx_buffer_tail + 1) % 48 + i) % 48 = (s._rx_buffer_tail + (i + 1)) % 48 := by
      omega
    simp only [SERIAL_BUFFER_SIZE, Function.comp, hidx, Nat.succ_eq_add_one]
  refine ⟨?_, ?_, ?_, ?_, ?_⟩
  · unfold EMSSerial.peek
    rw [if_neg hne, ← hx]
  · rw [hread, ← hx]
  · rw [hread]
    exact hwf1
  · rw [hread, ← hx]
  · rw [hread]
    exact hc1

/-- The bytes stored after the receive interrupt has stored `bs`, when
there is room for all of them. -/
theorem storeAll_contents :
    ∀ (bs : List (Nat × Bool)) (s : EMSSerial), s.WellFormed →
      s.contents.length + bs.length ≤ 47 → (∀ b ∈ bs, b.1 < 256) →
      (storeAll bs s).WellFormed ∧ (storeAll bs s).contents = s.contents ++ bs ∧
      (storeAll bs s)._error = s._error := by
  intro bs
  induction bs with
  | nil =>
    intro s hwf _ _
    exact ⟨hwf, by simp [storeAll], rfl⟩
  | cons b rest ih =>
    intro s hwf hroom hbytes
    simp only [List.length_cons] at hroom
    have hlen := EMSSerial.contents_length s
    obtain ⟨hwf1, _, herr1, hc1⟩ := store_char_contents b.1 b.2 s hwf (by omega)
      (hbytes b (List.mem_cons_self _ _))
    have hroom1 : (store_char b.1 b.2 s).contents.length + rest.length ≤ 47 := by
      rw [hc1, List.length_append, List.length_singleton]
      omega
    obtain ⟨hwf2, hc2, herr2⟩ := ih (store_char b.1 b.2 s) hwf1 hroom1
      (fun x hx => hbytes x (List.mem_cons_of_mem _ hx))
    have hstep : storeAll (b :: rest) s = storeAll rest (store_char b.1 b.2 s) := rfl
    rw [hstep]
    refine ⟨hwf2, ?_, by rw [herr2, herr1]⟩
    rw [hc2, hc1, List.append_assoc]
    rfl

/-- Reading all the bytes stored: the values and the flags in the order of
storing, and an empty buffer at the end. -/
theorem readAll_contents :
    ∀ (xs : List (Nat × Bool)) (s : EMSSerial), s.WellFormed → s.contents = xs →
      (readAll xs.length s).1 = xs.map (fun x => ((x.1 : Int), x.2)) ∧
      (readAll xs.length s).2.WellFormed ∧ (readAll xs.length s).2.contents = [] := by
  intro xs
  induction xs with
  | nil =>
    intro s hwf hc
    exact ⟨rfl, hwf, hc⟩
  | cons x rest ih =>
    intro s hwf hc
    obtain ⟨_, hval, hwf1, herr, hc1⟩ := EMSSerial.read_contents s hwf x rest hc
    have hwf2 : (s.read.2.frameError.2).WellFormed := hwf1
    have hc2 : (s.read.2.frameError.2).contents = rest := hc1
    obtain ⟨h1, h2, h3⟩ := ih _ hwf2 hc2
    have hstep : readAll (x :: rest).length s =
        ((s.read.1, s.read.2.frameError.1) :: (readAll rest.length s.read.2.frameError.2).1,
          (readAll rest.length s.read.2.frameError.2).2) := rfl
    rw [hstep]
    refine ⟨?_, h2, h3⟩
    simp only [List.map_cons, h1, hval]
    congr 1
    show ((x.1 : Int), s.read.2._error) = _
    rw [herr]

/-- The constructor's state is well formed and every operation of the
receive path keeps a state well formed. -/
theorem EMSSerial.wellFormed_kept (s : EMSSerial) (hwf : s.WellFormed) (c : Nat) (fe : Bool) :
    (emptySerial 0).WellFormed ∧ (store_char c fe s).WellFormed ∧ s.read.2.WellFormed ∧
    s.flush.WellFormed ∧ s.frameError.2.WellFormed := by
  have hwf0 := hwf
  obtain ⟨hh, ht, hb, hf⟩ := hwf
  refine ⟨⟨by decide, by decide, rfl, rfl⟩, ?_, ?_, ⟨ht, ht, hb, hf⟩, ⟨hh, ht, hb, hf⟩⟩
  · unfold store_char
    simp only
    split
    · refine ⟨?_, ht, ?_, ?_⟩
      · exact Nat.mod_lt _ (by decide)
      · show (s._rx_buffer.set s._rx_buffer_head (c % 256)).length = SERIAL_BUFFER_SIZE
        rw [List.length_set, hb]
      · show (s._error_flag.set s._rx_buffer_head fe).length = SERIAL_BUFFER_SIZE
        rw [List.length_set, hf]
    · exact hwf0
  · unfold EMSSerial.read
    split
    · exact hwf0
    · exact ⟨hh, Nat.mod_lt _ (by decide), hb, hf⟩

/-- C34: `frameError()` returns `_error` and clears it, changing nothing
else, so a second call with no `read()` in between returns `false`, also when
the receive interrupt has stored a byte in between. After a `read()` that
returns a byte, `frameError()` returns the flag stored with that byte, and a
second call `false`; a `read()` on an empty buffer leaves the flag as it was.
After `flush()` it returns `false`. -/
theorem frameError_read_once_reset (s : EMSSerial) :
    s.frameError.1 = s._error ∧
    s.frameError.2 = { s with _error := false } ∧
    s.frameError.2.frameError.1 = false ∧
    (∀ (c : Nat) (fe : Bool), (store_char c fe s.frameError.2).frameError.1 = false) ∧
    (s._rx_buffer_head ≠ s._rx_buffer_tail →
      s.read.1 = (s._rx_buffer.getD s._rx_buffer_tail 0 : Nat) ∧
      s.read.2.frameError.1 = s._error_flag.getD s._rx_buffer_tail false ∧
      s.read.2.frameError.2.frameError.1 = false) ∧
    (s._rx_buffer_head = s._rx_buffer_tail →
      s.read = (-1, s) ∧ s.read.2.frameError.1 = s._error) ∧
    s.flush.frameError.1 = false ∧
    s.flush._rx_buffer_head = s.flush._rx_buffer_tail := by
  refine ⟨rfl, rfl, rfl, ?_, ?_, ?_, rfl, rfl⟩
  · intro c fe
    unfold store_char
    simp only
    split <;> rfl
  · intro hne
    unfold EMSSerial.read
    rw [if_neg hne]
    exact ⟨rfl, rfl, rfl⟩
  · intro heq
    unfold EMSSerial.read
    rw [if_pos heq]
    exact ⟨rfl, rfl⟩

/-- C40: from an empty receive buffer, the receive interrupt stores the
bytes `b1 .. bk` with their flags, `k <= 47`. Then `available()` returns `k`,
`peek()` returns `b1` (`-1` when `k = 0`), `k` calls of `read()`, each
followed by `frameError()`, return `b1 .. bk` in order, each with the flag
stored with it, and after them `read()` and `peek()` return `-1`. When
`k = 47` a further `store_char` leaves the state as it is. -/
theorem ring_buffer_fifo (s : EMSSerial) (bs : List (Nat × Bool)) (hwf : s.WellFormed)
    (hempty : s._rx_buffer_head = s._rx_buffer_tail) (hk : bs.length ≤ 47)
    (hbytes : ∀ b ∈ bs, b.1 < 256) :
    (storeAll bs s).available = bs.length ∧
    (storeAll bs s).peek = (match bs.head? with
      | some b => (b.1 : Int)
      | none => -1) ∧
    (readAll bs.length (storeAll bs s)).1 = bs.map (fun b => ((b.1 : Int), b.2)) ∧
    (readAll bs.length (storeAll bs s)).2.read.1 = -1 ∧
    (readAll bs.length (storeAll bs s)).2.peek = -1 ∧
    (bs.length = 47 → ∀ (c : Nat) (fe : Bool),
      store_char c fe (storeAll bs s) = storeAll bs s) := by
  have hc0 : s.contents = [] := by
    unfold EMSSerial.contents
    rw [EMSSerial.available_toNat s hwf, hempty]
    have : (48 + s._rx_buffer_tail - s._rx_buffer_tail) % 48 = 0 := by omega
    rw [this]
    rfl
  obtain ⟨hwf1, hc1, _⟩ := storeAll_contents bs s hwf
    (by rw [hc0]; simpa using hk) hbytes
  rw [hc0, List.nil_append] at hc1
  have hlen := EMSSerial.contents_length (storeAll bs s)
  rw [hc1] at hlen
  obtain ⟨hr1, hr2, hr3⟩ := readAll_contents bs (storeAll bs s) hwf1 hc1
  obtain ⟨_, hre, hpe⟩ := EMSSerial.read_empty _ hr2 hr3
  refine ⟨?_, ?_, hr1, by rw [hre], hpe, ?_⟩
  · rw [EMSSerial.available_eq _ hwf1, ← EMSSerial.available_toNat _ hwf1, ← hlen]
  · cases bs with
    | nil => exact (EMSSerial.read_empty _ hwf1 hc1).2.2
    | cons b rest => exact (EMSSerial.read_contents _ hwf1 b rest hc1).1
  · intro h47 c fe
    exact store_char_full c fe _ hwf1 (by rw [← hlen, h47])

/-- C40, instance: three bytes, the second with the frame-error flag,
stored from the position 46, so that the head wraps around. -/
theorem ring_buffer_fifo_witness :
    (emptySerial 46).WellFormed ∧
    (storeAll [(0x8B, false), (0, true), (0x10, false)] (emptySerial 46)).available = 3 ∧
    (storeAll [(0x8B, false), (0, true), (0x10, false)] (emptySerial 46)).peek = 0x8B ∧
    (readAll 3 (storeAll [(0x8B, false), (0, true), (0x10, false)] (emptySerial 46))).1 =
      [(0x8B, false), (0, true), (0x10, false)] ∧
    (storeAll [(0x8B, false), (0, true), (0x10, false)] (emptySerial 46))._rx_buffer_head = 1 :=
  have hwf : (emptySerial 46).WellFormed := ⟨by decide, by decide, rfl, rfl⟩
  have hthm := ring_buffer_fifo (emptySerial 46) [(0x8B, false), (0, true), (0x10, false)]
    hwf rfl (by decide) (by decide)
  ⟨hwf, hthm.1, hthm.2.1, hthm.2.2.1, by decide⟩

end ReceiveBuffer

end Calduino
